import Mathlib

/-!
# purehtml: a verification development

Shallow embedding of the collaborators of the purehtml streaming parser
(open-elements stack, attribute lists, tag and attribute hash tables, token
records) and of its tokenizer, followed by theorems about them.

Conventions of the embedding:

* a C pointer to a record is an `Option`; `none` is `NULL`;
* a C string (`char *` to a NUL-terminated byte run) is the list of its bytes
  before the terminator, each byte a natural number (`CStr`);
* `size_t` counters are natural numbers; where wrap-around can matter the
  reduction `% 2 ^ 64` is written out;
* an `assert` that fails, and a loop that does not end, are explicit results.
-/

namespace PureHtml

/-! ## ostack.c : the open-elements stack -/

/-- A `struct elem *`: the address of an element record, `none` for `NULL`. -/
abbrev ElemPtr := Option Nat

/-- The three file-level variables of `ostack.c`: the array `_ostack` (the empty
list when it is `NULL`), `_ostack_alloc` and `_ostack_depth`. -/
structure OStack where
  _ostack : List ElemPtr
  _ostack_alloc : Nat
  _ostack_depth : Nat
  deriving DecidableEq, Repr

/-- The state at program start: all three statics are zero. -/
def ostack_init : OStack :=
  { _ostack := [], _ostack_alloc := 0, _ostack_depth := 0 }

/-- Reading slot `i` of the array; a slot that does not exist reads as `NULL`. -/
def OStack.slot (s : OStack) (i : Nat) : ElemPtr :=
  s._ostack.getD i none

/-- The `realloc` of `ostack_push`: the array grows to `n` slots, the old slots
keep their value (fresh slots are filled with `NULL` here; nothing reads them
before they are written). -/
def ostack_realloc (a : List ElemPtr) (n : Nat) : List ElemPtr :=
  a.take n ++ List.replicate (n - a.length) none

/-- Embedding of `ostack_push`: grow by four slots when full, then
`_ostack[_ostack_depth++] = node`. -/
def ostack_push (s : OStack) (node : ElemPtr) : OStack :=
  let s1 : OStack :=
    if s._ostack_depth = s._ostack_alloc then
      { s with _ostack_alloc := s._ostack_alloc + 4,
               _ostack := ostack_realloc s._ostack (s._ostack_alloc + 4) }
    else s
  { s1 with _ostack := s1._ostack.set s1._ostack_depth node,
            _ostack_depth := s1._ostack_depth + 1 }

/-- Embedding of `ostack_depth`. -/
def ostack_depth (s : OStack) : Nat := s._ostack_depth

/-- Embedding of `ostack_prev`. Both branches of the loop body leave the loop
(`return` or `break`), so only the first iteration, `i = sz`, ever runs and the
decrement `i--` is dead code. -/
def ostack_prev (s : OStack) (elem : ElemPtr) : ElemPtr :=
  let sz := ostack_depth s
  if sz ≥ 1 then
    if s.slot (sz - 1) = elem ∧ sz ≥ 2 then s.slot (sz - 2)
    else none
  else none

/-- Embedding of `ostack_pop`: the returned pointer and the new state. The
decrement is only executed when the depth is positive; on an empty stack the
backing storage is released when there is one. -/
def ostack_pop (s : OStack) : ElemPtr × OStack :=
  if s._ostack_depth > 0 then
    (s.slot (s._ostack_depth - 1), { s with _ostack_depth := s._ostack_depth - 1 })
  else if s._ostack_depth = 0 ∧ s._ostack_alloc > 0 then
    (none, { s with _ostack := [], _ostack_alloc := 0 })
  else
    (none, s)

/-- Embedding of `ostack_peek_at`. -/
def ostack_peek_at (s : OStack) (depth : Nat) : ElemPtr :=
  if s._ostack_depth = 0 ∨ depth > s._ostack_depth ∨ depth < 1 then none
  else s.slot (depth - 1)

/-- Embedding of `ostack_peek`. -/
def ostack_peek (s : OStack) : ElemPtr :=
  ostack_peek_at s s._ostack_depth

/-- The elements that are on the stack, bottom first: the first
`_ostack_depth` slots of the array. -/
def OStack.contents (s : OStack) : List ElemPtr :=
  s._ostack.take s._ostack_depth

/-- The states the program can be in: the initial state and whatever
`ostack_push` and `ostack_pop` make of a reachable state. -/
inductive OStack.Reachable : OStack → Prop
  | init : OStack.Reachable ostack_init
  | push (s : OStack) (e : ElemPtr) : OStack.Reachable s → OStack.Reachable (ostack_push s e)
  | pop (s : OStack) : OStack.Reachable s → OStack.Reachable (ostack_pop s).2

/-- The representation invariant of the array: it has `_ostack_alloc` slots and
the depth does not exceed them. -/
def OStack.WF (s : OStack) : Prop :=
  s._ostack.length = s._ostack_alloc ∧ s._ostack_depth ≤ s._ostack_alloc

/-- The state after `n` further calls of `ostack_pop`. -/
def ostack_pop_n : Nat → OStack → OStack
  | 0, s => s
  | n + 1, s => ostack_pop_n n (ostack_pop s).2

/-- The state after pushing the elements of a list, first element first. -/
def ostack_push_all (s : OStack) (es : List ElemPtr) : OStack :=
  es.foldl ostack_push s


/-! ## C strings and the C library calls the program makes -/

/-- A C string: the bytes before the terminating NUL. -/
abbrev CStr := List Nat

/-- The byte string of a Lean string literal, for writing concrete inputs. -/
def cstr (s : String) : CStr := s.toList.map Char.toNat

/-- The C library call `tolower` in the C locale: only `A`..`Z` are folded. -/
def tolower (c : Nat) : Nat := if 65 ≤ c ∧ c ≤ 90 then c + 32 else c

/-- The test `strcmp(a, b) == 0`: the two strings are the same bytes. -/
def strcmp_eq (a b : CStr) : Bool := decide (a = b)

/-- The test `strcasecmp(a, b) == 0`: the strings have the same length and
agree byte by byte after `tolower`. -/
def strcasecmp_eq : CStr → CStr → Bool
  | [], [] => true
  | a :: as, b :: bs => (tolower a == tolower b) && strcasecmp_eq as bs
  | _, _ => false

/-! ## attr.c : attribute lists -/

/-- The record `struct attr` without its `next` link: a list of these records
is the linked list, the head first. A `NULL` string is `none`. -/
structure attr where
  name : Option CStr
  value : Option CStr
  deriving DecidableEq, Repr

/-- The test `attr_get` makes at a node: the name is not `NULL` and equals `name`
ignoring case. -/
def attr_matches (a : attr) (name : CStr) : Bool :=
  match a.name with
  | some n => strcasecmp_eq n name
  | none => false

/-- Embedding of `attr_get`: walk the list from the head and stop at the first
node whose name is not `NULL` and equals `name` ignoring case. The result is the
node found, as its position in the list (the pointer) and its fields; `none` is
`NULL`. -/
def attr_get : List attr → CStr → Option (Nat × attr)
  | [], _ => none
  | a :: rest, name =>
    match a.name with
    | some n =>
      if strcasecmp_eq n name then some (0, a)
      else (attr_get rest name).map (fun r => (r.1 + 1, r.2))
    | none => (attr_get rest name).map (fun r => (r.1 + 1, r.2))

/-- Embedding of `attr_set`. The result is `none` when the assertion
`name != NULL && *name != 0` fails; otherwise the new list. A name that is
not found gets a fresh zeroed node linked in front of the head; the node found
or made then receives copies of `name` and `value` (a `NULL` value leaves the
value `NULL`). -/
def attr_set (head : List attr) (name : Option CStr) (value : Option CStr) :
    Option (List attr) :=
  match name with
  | none => none
  | some [] => none
  | some (c :: cs) =>
    let found := attr_get head (c :: cs)
    let head1 : List attr :=
      match found with
      | none => { name := none, value := none } :: head
      | some _ => head
    let pos : Nat :=
      match found with
      | none => 0
      | some r => r.1
    some (head1.set pos { name := some (c :: cs), value := value })

/-- Embedding of `attr_has`. -/
def attr_has (head : List attr) (name : CStr) : Nat :=
  if (attr_get head name).isNone then 0 else 1

/-- The lists that come from the empty list (a `NULL` head) by calls of
`attr_set` that pass its assertion. -/
inductive AttrBuilt : List attr → Prop
  | nil : AttrBuilt []
  | set (head head1 : List attr) (name value : Option CStr) :
      AttrBuilt head → attr_set head name value = some head1 → AttrBuilt head1

/-- Two nodes whose names are both set and equal ignoring case. -/
def attr_same_name (a b : attr) : Prop :=
  ∃ x y : CStr, a.name = some x ∧ b.name = some y ∧ strcasecmp_eq x y = true

/-! ## tagmap.c and the lookup half of attr.c : the hash tables -/

/-- The record `struct tag`. -/
structure tag where
  name : Option CStr
  flags : Nat
  deriving DecidableEq, Repr

/-- The record `struct attr_map`. -/
structure attr_map_entry where
  name : Option CStr
  flags : Nat
  deriving DecidableEq, Repr

/-- The constant `TAGMAP_SZ`. -/
def TAGMAP_SZ : Nat := 1024

/-- The constant `ATTRMAP_SZ`. -/
def ATTRMAP_SZ : Nat := 1024

/-- The table `tags` of the generated file `tags.c`, which is not part of the
sources at hand: it is a parameter of the embedding. Only the slots
`0 .. TAGMAP_SZ - 1` are ever read. -/
abbrev TagTable := Nat → tag

/-- The table `attr_map` of the generated file `attrs.c`, a parameter like
`TagTable`. -/
abbrev AttrMapTable := Nat → attr_map_entry

/-- Modelled from the spec: the sentinel id `TAG_CUSTOM_TAG` of unknown tags is
declared in the generated header `tags.h`, which is not part of the sources at
hand. Its value is taken to be 0, the value `token_set_tag_name` compares the
tag id with to choose the owned-copy path. -/
def TAG_CUSTOM_TAG : Nat := 0

/-- The value a `char` contributes when it is added to a `size_t`: bytes below
128 count as themselves, the others are negative as `char` (signed, as on
x86-64) and wrap around modulo `2 ^ 64`. -/
def char_to_size (c : Nat) : Nat :=
  if c < 128 then c else 2 ^ 64 - 256 + c

/-- One round of the hash loop shared by `tagmap_id` and `attr_map_id`:
`addr += c; addr *= prime; addr %= modulo` in `size_t` arithmetic. -/
def hash_step (addr c : Nat) : Nat :=
  ((((addr + char_to_size c) % 2 ^ 64) * 104729) % 2 ^ 64) % 1048576

/-- The value of `addr` after the hash loop over the bytes of the name. -/
def hash_addr (name : CStr) : Nat :=
  name.foldl hash_step 0

/-- Embedding of `tagmap`: `none` when the assertion on the index fails. -/
def tagmap (tags : TagTable) (i : Nat) : Option tag :=
  if i < TAGMAP_SZ then some (tags i) else none

/-- The probing loop of `tagmap_id`, started with the variable `addr`; the
result is the final value of `i`, or `none` when the loop is still running
after `fuel` tests of its condition. -/
def tagmap_id_loop (tags : TagTable) (name : CStr) : Nat → Nat → Option Nat
  | 0, _ => none
  | fuel + 1, addr =>
    let i := addr % TAGMAP_SZ
    match (tags i).name with
    | none => some i
    | some n =>
      if strcmp_eq n name then some i
      else tagmap_id_loop tags name fuel ((addr + 1) % 2 ^ 64)

/-- A slot at which the probing loop of `tagmap_id` goes on: it holds a name
other than the one looked up. -/
def tagmap_busy (tags : TagTable) (name : CStr) (j : Nat) : Prop :=
  ∃ m : CStr, (tags j).name = some m ∧ strcmp_eq m name = false

/-- Embedding of `tagmap_id`, the loop bounded by `fuel`: `none` when the loop
does not end within the bound. -/
def tagmap_id_fuel (fuel : Nat) (tags : TagTable) (name : CStr) : Option Nat :=
  let addr := hash_addr name
  if (tags (addr % TAGMAP_SZ)).name = none then some TAG_CUSTOM_TAG
  else
    match tagmap_id_loop tags name fuel addr with
    | none => none
    | some i => if (tags i).name = none then some TAG_CUSTOM_TAG else some i

/-- Embedding of `tagmap_id` with one test of the loop condition per slot of
the table: the probe sequence is periodic, so a loop that has not ended by
then never ends (`none`; see `tagmap_id_fuel_stable`). -/
def tagmap_id (tags : TagTable) (name : CStr) : Option Nat :=
  tagmap_id_fuel TAGMAP_SZ tags name

/-- The probing loop of `attr_map_id`, started with the variable `addr`; `none`
when the loop is still running after `fuel` tests of its condition. -/
def attr_map_id_loop (attr_map : AttrMapTable) (s : CStr) : Nat → Nat → Option Nat
  | 0, _ => none
  | fuel + 1, addr =>
    match (attr_map addr).name with
    | none => some addr
    | some n =>
      if strcmp_eq n s then some addr
      else attr_map_id_loop attr_map s fuel (((addr + 1) % 2 ^ 64) % ATTRMAP_SZ)

/-- A slot at which the probing loop of `attr_map_id` goes on. -/
def attr_map_busy (attr_map : AttrMapTable) (s : CStr) (j : Nat) : Prop :=
  ∃ m : CStr, (attr_map j).name = some m ∧ strcmp_eq m s = false

/-- Embedding of `attr_map_id`, the loop bounded by `fuel`. -/
def attr_map_id_fuel (fuel : Nat) (attr_map : AttrMapTable) (s : CStr) : Option Nat :=
  attr_map_id_loop attr_map s fuel (hash_addr s % ATTRMAP_SZ)

/-- Embedding of `attr_map_id` with one test of the loop condition per slot
(see `attr_map_id_fuel_stable`). -/
def attr_map_id (attr_map : AttrMapTable) (s : CStr) : Option Nat :=
  attr_map_id_fuel ATTRMAP_SZ attr_map s

/-! ## token.h, token.c : token records -/

/-- The ways a run of the embedded code can stop without a result: an `assert`
fails (the process aborts), a loop does not end, or a `NULL` string is read. -/
inductive Fault where
  | assert_failed
  | no_return
  | null_deref
  deriving DecidableEq, Repr

/-- The enumeration `TOKEN_TYPE`. -/
inductive TOKEN_TYPE where
  | TOKEN_EMPTY
  | TOKEN_CHAR
  | TOKEN_DOCTYPE
  | TOKEN_START_TAG
  | TOKEN_END_TAG
  | TOKEN_COMMENT
  deriving DecidableEq, Repr

/-- What the pointer `name` of a `struct tagtoken` refers to: nothing, a copy
the token owns (made by `strdup`), or the name string of slot `i` of the tag
table. -/
inductive NamePtr where
  | null
  | owned (s : CStr)
  | table (i : Nat)
  deriving DecidableEq, Repr

/-- The record `struct tagtoken`. -/
structure tagtoken where
  tagid : Nat
  name : NamePtr
  attr : List attr
  is_self_closing : Nat
  deriving DecidableEq, Repr

/-- Modelled from the spec: the growing string buffer `struct str` of `util.h`,
which is not part of the sources at hand. Only the field `s` that the program
reads as a C string is kept: `none` while nothing was ever added. -/
structure str where
  s : Option CStr
  deriving DecidableEq, Repr

/-- Modelled from the spec: `str_add` of `util.h`, not part of the sources at
hand. Adding a byte appends it and keeps the buffer terminated; adding the NUL
byte, which the callers do on state entry and in `token_clear`, terminates the
buffer at its start, that is, leaves the empty string. -/
def str_add (b : str) (c : Nat) : str :=
  if c = 0 then { s := some [] }
  else { s := some (b.s.getD [] ++ [c]) }

/-- The record `struct token`; the field `tag` is the member `u.tag`. -/
structure token where
  type : TOKEN_TYPE
  tag : tagtoken
  used : Nat
  s : str
  end_line : Nat
  deriving DecidableEq, Repr

/-- A `struct tagtoken` of zero bytes. -/
def tagtoken_zero : tagtoken :=
  { tagid := 0, name := NamePtr.null, attr := [], is_self_closing := 0 }

/-- The compound literal `(struct token) { .type = t }`: every other member is
zero. -/
def token_of_type (t : TOKEN_TYPE) : token :=
  { type := t, tag := tagtoken_zero, used := 0, s := { s := none }, end_line := 0 }

/-- The macro `TOKEN_IS_START_END`. -/
def TOKEN_IS_START_END (t : token) : Bool :=
  t.type = TOKEN_TYPE.TOKEN_START_TAG || t.type = TOKEN_TYPE.TOKEN_END_TAG

/-- Embedding of `token_set_tag_attr` with the static `tagtoken_set_attr` it
calls: the token must be a start or end tag, and `attr_set` must pass its own
assertion on the name. -/
def token_set_tag_attr (t : token) (name value : Option CStr) : Except Fault token :=
  if TOKEN_IS_START_END t then
    match attr_set t.tag.attr name value with
    | none => Except.error Fault.assert_failed
    | some l => Except.ok { t with tag := { t.tag with attr := l } }
  else Except.error Fault.assert_failed

/-- Embedding of `token_add_char`. -/
def token_add_char (t : token) (c : Nat) : token :=
  { t with s := str_add t.s c }

/-- Embedding of `token_set_tag_name`: the tag id is the result of `tagmap_id`
stored in an `unsigned short`; for id 0 the name is an owned copy of `name`,
otherwise it is the table string of that slot. -/
def token_set_tag_name (tags : TagTable) (t : token) (name : Option CStr) :
    Except Fault token :=
  match name with
  | none => Except.error Fault.assert_failed
  | some n =>
    match tagmap_id tags n with
    | none => Except.error Fault.no_return
    | some id =>
      let tagid := id % 65536
      if tagid = 0 then
        Except.ok { t with tag := { t.tag with tagid := tagid, name := NamePtr.owned n } }
      else
        match tagmap tags tagid with
        | none => Except.error Fault.assert_failed
        | some _ =>
          Except.ok { t with tag := { t.tag with tagid := tagid, name := NamePtr.table tagid } }

/-- Embedding of `token_clear`, which the callers of `tokenize` run on every
token they were handed. Freed memory is not modelled; what remains is the reset
of the string of a character token, of the tag member, of the type and of the
flag `used`. -/
def token_clear (t : token) : token :=
  let t1 : token :=
    if t.used = 0 ∧ TOKEN_IS_START_END t = true then t
    else if t.type = TOKEN_TYPE.TOKEN_CHAR then { t with s := str_add t.s 0 }
    else t
  let t2 : token :=
    if TOKEN_IS_START_END t1 = true then { t1 with tag := tagtoken_zero } else t1
  { t2 with type := TOKEN_TYPE.TOKEN_EMPTY, used := 0 }

/-! ## tokenize.h, tokenize.c : the tokenizer -/

/-- Modelled from the spec: the enumeration `enum states` of the generated
header `states.h`, which is not part of the sources at hand. It lists every
state name that occurs in the sources; `STATE_DATA` is the state of a zeroed
tokenizer. -/
inductive STATE where
  | STATE_DATA
  | STATE_NONE
  | STATE_PLAINTEXT
  | STATE_RCDATA
  | STATE_RCDATA_LT
  | STATE_RCDATA_END_TAG_OPEN
  | STATE_RCDATA_END_TAG_NAME
  | STATE_RAWTEXT
  | STATE_RAWTEXT_LT
  | STATE_RAWTEXT_END_TAG_OPEN
  | STATE_RAWTEXT_END_TAG_NAME
  | STATE_SCRIPT_DATA
  | STATE_SCRIPT_DATA_LT
  | STATE_SCRIPT_DATA_END_TAG_OPEN
  | STATE_SCRIPT_DATA_END_TAG_NAME
  | STATE_SCRIPT_DATA_ESC_START
  | STATE_SCRIPT_DATA_ESC_START_DASH
  | STATE_SCRIPT_DATA_ESC
  | STATE_SCRIPT_DATA_ESC_DASH
  | STATE_SCRIPT_DATA_ESC_DASH2
  | STATE_SCRIPT_DATA_ESC_LT
  | STATE_SCRIPT_DATA_ESC_END_TAG_OPEN
  | STATE_SCRIPT_DATA_ESC_END_TAG_NAME
  | STATE_SCRIPT_DATA_DBL_ESC_START
  | STATE_TAG_OPEN
  | STATE_END_TAG_OPEN
  | STATE_TAG_NAME
  | STATE_MARKUP_DECLARATION_OPEN
  | STATE_DOCTYPE
  | STATE_BEFORE_DOCTYPE_NAME
  | STATE_DOCTYPE_NAME
  | STATE_AFTER_DOCTYPE_NAME
  | STATE_BOGUS_DOCTYPE
  | STATE_BEFORE_ATTRIB_NAME
  | STATE_ATTRIB_NAME
  | STATE_AFTER_ATTRIB_NAME
  | STATE_BEFORE_ATTRIB_VAL
  | STATE_ATTRIB_VAL_QUOTED
  | STATE_ATTRIB_VAL_SQUOTED
  | STATE_ATTRIB_VAL
  | STATE_AFTER_ATTRIB_VAL_QUOTED
  | STATE_SELF_CLOSING_START_TAG
  | STATE_COMMENT_START
  | STATE_COMMENT_START_DASH
  | STATE_COMMENT
  | STATE_COMMENT_LT
  | STATE_COMMENT_LT_BANG
  | STATE_COMMENT_LT_BANG_DASH
  | STATE_COMMENT_LT_BANG_DASH2
  | STATE_COMMENT_END_DASH
  | STATE_COMMENT_END
  | STATE_COMMENT_END_BANG
  | STATE_BOGUS_COMMENT
  | STATE_CHARACTER_REFERENCE
  | STATE_NAMED_CHAR_REF
  | STATE_NUM_CHAR_REF
  deriving DecidableEq, Repr

/-- Modelled from the spec: the macro `HTML_ISSPACE` of `util.h`, not part of
the sources at hand: space, tab, line feed, form feed, carriage return. Of
these only space, tab and line feed pass the control-byte filter of
`tokenize`. -/
def HTML_ISSPACE (c : Nat) : Bool :=
  c = 32 || c = 9 || c = 10 || c = 12 || c = 13

/-- The C library call `iscntrl` in the C locale. -/
def iscntrl (c : Nat) : Bool := c < 32 || c = 127

/-- The C library call `isupper` in the C locale. -/
def isupper (c : Nat) : Bool := 65 ≤ c && c ≤ 90

/-- The C library call `isalpha` in the C locale. -/
def isalpha (c : Nat) : Bool := (65 ≤ c && c ≤ 90) || (97 ≤ c && c ≤ 122)

/-- The C library call `isalnum` in the C locale. -/
def isalnum (c : Nat) : Bool := isalpha c || (48 ≤ c && c ≤ 57)

/-- The record `struct tokenizer`. The member `match` is `match_` here, the
16-byte array `buf` is a list, and the stream `fp` is the list of the bytes
still to be read, a byte put back by `ungetc` in front. -/
structure tokenizer where
  name : str
  attrib_name : str
  attrib_value : str
  state : STATE
  return_state : STATE
  line : Nat
  token : token
  buf : List Nat
  buf_len : Nat
  match_ : Option CStr
  fp : List Nat
  deriving DecidableEq, Repr

/-- A zeroed `struct tokenizer` (the `static` variable of the callers) reading
the given bytes. -/
def tokenizer_init (input : List Nat) : tokenizer :=
  { name := { s := none }, attrib_name := { s := none }, attrib_value := { s := none },
    state := STATE.STATE_DATA, return_state := STATE.STATE_DATA, line := 0,
    token := token_of_type TOKEN_TYPE.TOKEN_EMPTY,
    buf := List.replicate 16 0, buf_len := 0, match_ := none, fp := input }

/-- What one call of `tokenize` gives: the token returned (`none` for `NULL`;
the pointer returned is always `&ctx->token`, so the token is the one in the
new tokenizer record) and the new tokenizer record, or the fault that stopped
the call. -/
abbrev TokResult := Except Fault (Option token × tokenizer)

/-- Leave `tokenize` with `return NULL`. -/
def ret_null (r : Except Fault tokenizer) : TokResult :=
  r.map (fun ctx => (none, ctx))

/-- Leave `tokenize` with `return &ctx->token`. -/
def ret_token (r : Except Fault tokenizer) : TokResult :=
  r.map (fun ctx => (some ctx.token, ctx))

/-- Embedding of `enter_state`: the entry action of the state, then the
assignment of the state. -/
def enter_state (ctx : tokenizer) (state : STATE) : Except Fault tokenizer :=
  match state with
  | STATE.STATE_SCRIPT_DATA_END_TAG_NAME | STATE.STATE_RCDATA_END_TAG_NAME
  | STATE.STATE_TAG_NAME =>
    Except.ok { ctx with name := str_add ctx.name 0, state := state }
  | STATE.STATE_BEFORE_ATTRIB_VAL =>
    Except.ok { ctx with attrib_value := str_add ctx.attrib_value 0, state := state }
  | STATE.STATE_BEFORE_ATTRIB_NAME =>
    match ctx.attrib_name.s with
    | some (_ :: _) =>
      (token_set_tag_attr ctx.token ctx.attrib_name.s ctx.attrib_value.s).map
        (fun t => { ctx with token := t, state := state })
    | _ => Except.ok { ctx with state := state }
  | STATE.STATE_ATTRIB_NAME =>
    Except.ok { ctx with attrib_name := str_add ctx.attrib_name 0, state := state }
  | STATE.STATE_MARKUP_DECLARATION_OPEN =>
    Except.ok { ctx with match_ := none, buf_len := 0, state := state }
  | STATE.STATE_COMMENT_START | STATE.STATE_BOGUS_COMMENT | STATE.STATE_COMMENT =>
    Except.ok { ctx with token := token_of_type TOKEN_TYPE.TOKEN_COMMENT, state := state }
  | _ => Except.ok { ctx with state := state }

/-- Embedding of `enter_state_return`. -/
def enter_state_return (ctx : tokenizer) (state ret : STATE) : Except Fault tokenizer :=
  (enter_state ctx state).map (fun c => { c with return_state := ret })

/-- Embedding of `enter_state_emit`; the token it returns is the member `token`
of the result. -/
def enter_state_emit (ctx : tokenizer) (state : STATE) : Except Fault tokenizer :=
  (enter_state ctx state).map (fun c => { c with token := { c.token with end_line := c.line } })

/-- Embedding of `push_char`. -/
def push_char (ctx : tokenizer) (c : Nat) : tokenizer :=
  { ctx with token := { ctx.token with type := TOKEN_TYPE.TOKEN_CHAR, end_line := ctx.line,
                                       s := str_add ctx.token.s c } }

/-- Embedding of `enter_state_emit_char`. -/
def enter_state_emit_char (ctx : tokenizer) (state : STATE) (c : Nat) :
    Except Fault tokenizer :=
  enter_state (push_char ctx c) state

/-- Embedding of `enter_state_emit_doctype`. -/
def enter_state_emit_doctype (ctx : tokenizer) (state : STATE) : Except Fault tokenizer :=
  enter_state
    { ctx with token := { token_of_type TOKEN_TYPE.TOKEN_DOCTYPE with end_line := ctx.line } }
    state

/-- Embedding of `enter_state_reconsume`: the byte goes back in front of the
input. -/
def enter_state_reconsume (ctx : tokenizer) (state : STATE) (c : Nat) :
    Except Fault tokenizer :=
  (enter_state ctx state).map (fun x => { x with fp := c :: x.fp })

/-- Embedding of `enter_state_err`; the diagnostic goes to the error stream,
which is not modelled. -/
def enter_state_err (ctx : tokenizer) (state : STATE) : Except Fault tokenizer :=
  enter_state ctx state

/-- The call `token_set_tag_attr(&ctx->token, ctx->attrib_name.s,
ctx->attrib_value.s)` that several states make. -/
def set_pending_attr (ctx : tokenizer) : Except Fault tokenizer :=
  (token_set_tag_attr ctx.token ctx.attrib_name.s ctx.attrib_value.s).map
    (fun t => { ctx with token := t })

/-- The call `token_set_tag_name(&ctx->token, ctx->name.s)`. -/
def set_tag_name (tags : TagTable) (ctx : tokenizer) : Except Fault tokenizer :=
  (token_set_tag_name tags ctx.token ctx.name.s).map (fun t => { ctx with token := t })

/-- The loop `while (*p != 0) push_char(ctx, *p++)` over a string. -/
def push_chars (ctx : tokenizer) (p : CStr) : tokenizer :=
  p.foldl push_char ctx

/-- The second `switch` of `tokenize`, on the state, for the byte `c` that
passed the filters. Bytes are written as numbers: 60 is `<`, 62 is `>`, 47 is
`/`, 33 is `!`, 45 is `-`, 38 is `&`, 61 is `=`, 34 and 39 are the double and
the single quote, 35 is `#`, 96 is the backquote, 68 is `D` and 91 is `[`. A
case that ends in `break` leaves through the final `return NULL`. -/
def tokenize_switch (tags : TagTable) (ctx : tokenizer) (c : Nat) : TokResult :=
  match ctx.state with
  | STATE.STATE_SCRIPT_DATA =>
    if c = 60 then ret_null (enter_state ctx STATE.STATE_SCRIPT_DATA_LT)
    else ret_token (enter_state_emit_char ctx STATE.STATE_SCRIPT_DATA c)
  | STATE.STATE_SCRIPT_DATA_LT =>
    if c = 47 then ret_null (enter_state ctx STATE.STATE_SCRIPT_DATA_END_TAG_OPEN)
    else if c = 33 then ret_null (enter_state ctx STATE.STATE_SCRIPT_DATA_ESC_START)
    else ret_null (enter_state_reconsume ctx STATE.STATE_SCRIPT_DATA c)
  | STATE.STATE_SCRIPT_DATA_ESC_START =>
    if c = 45 then ret_null (enter_state ctx STATE.STATE_SCRIPT_DATA_ESC_START_DASH)
    else ret_null (enter_state_reconsume ctx STATE.STATE_SCRIPT_DATA c)
  | STATE.STATE_SCRIPT_DATA_ESC_START_DASH =>
    if c = 45 then ret_null (enter_state ctx STATE.STATE_SCRIPT_DATA_ESC_DASH2)
    else ret_null (enter_state_reconsume ctx STATE.STATE_SCRIPT_DATA c)
  | STATE.STATE_SCRIPT_DATA_ESC_DASH =>
    if c = 45 then ret_token (enter_state_emit_char ctx STATE.STATE_SCRIPT_DATA_ESC_DASH2 c)
    else if c = 60 then ret_null (enter_state ctx STATE.STATE_SCRIPT_DATA_ESC_LT)
    else if c = 62 then ret_null (enter_state_emit_char ctx STATE.STATE_SCRIPT_DATA c)
    else ret_null (enter_state_emit_char ctx STATE.STATE_SCRIPT_DATA_ESC c)
  | STATE.STATE_SCRIPT_DATA_ESC_DASH2 =>
    if c = 45 then ret_token (enter_state_emit_char ctx STATE.STATE_SCRIPT_DATA_ESC_DASH2 c)
    else if c = 60 then ret_null (enter_state ctx STATE.STATE_SCRIPT_DATA_ESC_LT)
    else if c = 62 then ret_null (enter_state_emit_char ctx STATE.STATE_SCRIPT_DATA c)
    else ret_null (enter_state_emit_char ctx STATE.STATE_SCRIPT_DATA_ESC c)
  | STATE.STATE_SCRIPT_DATA_ESC_LT =>
    if c = 47 then ret_null (enter_state ctx STATE.STATE_SCRIPT_DATA_ESC_END_TAG_OPEN)
    else if isalpha c then ret_null (enter_state ctx STATE.STATE_SCRIPT_DATA_DBL_ESC_START)
    else ret_null (enter_state_reconsume ctx STATE.STATE_SCRIPT_DATA_ESC c)
  | STATE.STATE_SCRIPT_DATA_ESC_END_TAG_OPEN =>
    if isalpha c then
      ret_null (enter_state_reconsume ctx STATE.STATE_SCRIPT_DATA_ESC_END_TAG_NAME c)
    else ret_null (enter_state_reconsume ctx STATE.STATE_SCRIPT_DATA_ESC c)
  | STATE.STATE_SCRIPT_DATA_ESC_END_TAG_NAME =>
    if HTML_ISSPACE c then ret_null (enter_state ctx STATE.STATE_BEFORE_ATTRIB_NAME)
    else ret_null (enter_state_reconsume ctx STATE.STATE_SCRIPT_DATA_ESC c)
  | STATE.STATE_SCRIPT_DATA_DBL_ESC_START =>
    if HTML_ISSPACE c || c = 47 || c = 62 then
      ret_null (enter_state ctx STATE.STATE_SCRIPT_DATA_ESC)
    else if isalpha c then
      ret_token (enter_state_emit ctx STATE.STATE_SCRIPT_DATA_DBL_ESC_START)
    else ret_null (enter_state_reconsume ctx STATE.STATE_SCRIPT_DATA_ESC c)
  | STATE.STATE_SCRIPT_DATA_ESC =>
    if c = 45 then ret_null (enter_state ctx STATE.STATE_SCRIPT_DATA_ESC_DASH)
    else if c = 60 then ret_null (enter_state ctx STATE.STATE_SCRIPT_DATA_ESC_LT)
    else ret_token (enter_state_emit_char ctx STATE.STATE_SCRIPT_DATA_ESC c)
  | STATE.STATE_SCRIPT_DATA_END_TAG_OPEN =>
    if isalpha c then
      ret_null (enter_state_reconsume
        { ctx with token := token_of_type TOKEN_TYPE.TOKEN_END_TAG }
        STATE.STATE_SCRIPT_DATA_END_TAG_NAME c)
    else ret_null (enter_state_reconsume ctx STATE.STATE_SCRIPT_DATA c)
  | STATE.STATE_SCRIPT_DATA_END_TAG_NAME =>
    if HTML_ISSPACE c then ret_null (enter_state ctx STATE.STATE_BEFORE_ATTRIB_NAME)
    else if c = 62 then
      match ctx.name.s with
      | none => Except.error Fault.null_deref
      | some n =>
        if strcmp_eq n [115, 99, 114, 105, 112, 116] = false then
          ret_token (enter_state_emit_char ctx STATE.STATE_SCRIPT_DATA 60)
        else
          ret_token ((set_tag_name tags ctx).bind (fun x => enter_state_emit x STATE.STATE_DATA))
    else if isalpha c then
      ret_null (Except.ok { ctx with name := str_add ctx.name (tolower c) })
    else ret_token (enter_state_emit_char ctx STATE.STATE_SCRIPT_DATA 60)
  | STATE.STATE_RAWTEXT =>
    if c = 60 then ret_null (enter_state ctx STATE.STATE_RAWTEXT_LT)
    else ret_token (enter_state_emit_char ctx STATE.STATE_RAWTEXT c)
  | STATE.STATE_RAWTEXT_LT =>
    if c = 47 then ret_null (enter_state ctx STATE.STATE_RAWTEXT_END_TAG_OPEN)
    else
      ret_null ((enter_state_emit_char ctx STATE.STATE_RAWTEXT 60).bind
        (fun x => enter_state_reconsume x STATE.STATE_RAWTEXT c))
  | STATE.STATE_RAWTEXT_END_TAG_OPEN =>
    if isalpha c then
      ret_null (enter_state_reconsume
        { ctx with token := token_of_type TOKEN_TYPE.TOKEN_END_TAG }
        STATE.STATE_RAWTEXT_END_TAG_NAME c)
    else
      ret_null (((enter_state_emit_char ctx STATE.STATE_RAWTEXT 60).bind
        (fun x => enter_state_emit_char x STATE.STATE_RAWTEXT 47)).bind
        (fun x => enter_state_reconsume x STATE.STATE_RAWTEXT c))
  | STATE.STATE_RAWTEXT_END_TAG_NAME =>
    if HTML_ISSPACE c then ret_null (enter_state ctx STATE.STATE_BEFORE_ATTRIB_NAME)
    else if c = 47 then ret_null (Except.ok ctx)
    else if c = 62 then
      ret_token ((set_tag_name tags ctx).bind (fun x => enter_state_emit x STATE.STATE_DATA))
    else if isalpha c then
      ret_null (Except.ok { ctx with name := str_add ctx.name (tolower (tolower c)) })
    else ret_null (enter_state_reconsume ctx STATE.STATE_RAWTEXT c)
  | STATE.STATE_RCDATA =>
    if c = 38 then
      ret_null (enter_state_return ctx STATE.STATE_CHARACTER_REFERENCE STATE.STATE_RCDATA)
    else if c = 60 then ret_null (enter_state ctx STATE.STATE_RCDATA_LT)
    else ret_token (enter_state_emit_char ctx STATE.STATE_RCDATA c)
  | STATE.STATE_RCDATA_LT =>
    if c = 47 then ret_null (enter_state ctx STATE.STATE_RCDATA_END_TAG_OPEN)
    else
      ret_token ((enter_state_reconsume ctx STATE.STATE_RCDATA c).bind
        (fun x => enter_state_emit_char x STATE.STATE_RCDATA 60))
  | STATE.STATE_RCDATA_END_TAG_OPEN =>
    if isalpha c then
      ret_null (enter_state_reconsume
        { ctx with token := token_of_type TOKEN_TYPE.TOKEN_END_TAG }
        STATE.STATE_RCDATA_END_TAG_NAME c)
    else
      ret_token (enter_state_reconsume (push_char (push_char ctx 60) 47) STATE.STATE_RCDATA c)
  | STATE.STATE_RCDATA_END_TAG_NAME =>
    if HTML_ISSPACE c then ret_null (enter_state ctx STATE.STATE_BEFORE_ATTRIB_NAME)
    else if c = 47 then
      ret_null (Except.ok
        { ctx with token := { ctx.token with tag := { ctx.token.tag with is_self_closing := 1 } } })
    else if c = 62 then
      ret_token ((set_tag_name tags ctx).bind (fun x => enter_state_emit x STATE.STATE_DATA))
    else if isalpha c then
      ret_null (Except.ok { ctx with name := str_add ctx.name (tolower c) })
    else
      match ctx.name.s with
      | none => Except.error Fault.null_deref
      | some n =>
        ret_token (enter_state_reconsume (push_chars (push_char (push_char ctx 60) 47) n)
          STATE.STATE_RCDATA c)
  | STATE.STATE_DATA =>
    if c = 60 then ret_null (enter_state ctx STATE.STATE_TAG_OPEN)
    else if c = 38 then
      ret_null (enter_state_return ctx STATE.STATE_CHARACTER_REFERENCE STATE.STATE_DATA)
    else ret_token (enter_state_emit_char ctx STATE.STATE_DATA c)
  | STATE.STATE_TAG_OPEN =>
    if c = 47 then ret_null (enter_state ctx STATE.STATE_END_TAG_OPEN)
    else if c = 33 then ret_null (enter_state ctx STATE.STATE_MARKUP_DECLARATION_OPEN)
    else if isalpha c then
      ret_null (enter_state_reconsume
        { ctx with token := token_of_type TOKEN_TYPE.TOKEN_START_TAG } STATE.STATE_TAG_NAME c)
    else ret_null (Except.ok ctx)
  | STATE.STATE_MARKUP_DECLARATION_OPEN =>
    let ctx1 : tokenizer :=
      { ctx with buf := (ctx.buf.set ctx.buf_len c).set (ctx.buf_len + 1) 0,
                 buf_len := ctx.buf_len + 1 }
    match ctx1.match_ with
    | none =>
      if c = 45 then ret_null (Except.ok { ctx1 with match_ := some [45, 45] })
      else if c = 68 then
        ret_null (Except.ok { ctx1 with match_ := some [68, 79, 67, 84, 89, 80, 69] })
      else if c = 91 then
        ret_null (Except.ok { ctx1 with match_ := some [91, 67, 68, 65, 84, 65, 91] })
      else ret_null (enter_state ctx1 STATE.STATE_BOGUS_COMMENT)
    | some m =>
      if ctx1.buf.getD (ctx1.buf_len - 1) 0 ≠ m.getD (ctx1.buf_len - 1) 0 then
        ret_null (enter_state ctx1 STATE.STATE_BOGUS_COMMENT)
      else if m.getD ctx1.buf_len 0 = 0 then
        if m.getD 0 0 = 45 then ret_null (enter_state ctx1 STATE.STATE_COMMENT_START)
        else if m.getD 0 0 = 68 then ret_null (enter_state ctx1 STATE.STATE_DOCTYPE)
        else if m.getD 0 0 = 91 then ret_null (enter_state_err ctx1 STATE.STATE_BOGUS_COMMENT)
        else Except.error Fault.assert_failed
      else ret_null (Except.ok ctx1)
  | STATE.STATE_DOCTYPE =>
    if HTML_ISSPACE c then ret_null (enter_state ctx STATE.STATE_BEFORE_DOCTYPE_NAME)
    else if c = 62 then
      ret_null (enter_state_reconsume ctx STATE.STATE_BEFORE_DOCTYPE_NAME c)
    else ret_null (enter_state_reconsume ctx STATE.STATE_BEFORE_DOCTYPE_NAME c)
  | STATE.STATE_BEFORE_DOCTYPE_NAME =>
    if HTML_ISSPACE c then ret_null (Except.ok ctx)
    else if c = 62 then ret_null (enter_state_err ctx STATE.STATE_DATA)
    else
      ret_null ((enter_state ctx STATE.STATE_DOCTYPE_NAME).map
        (fun x => { x with name := str_add (str_add x.name 0) c }))
  | STATE.STATE_DOCTYPE_NAME =>
    if HTML_ISSPACE c then ret_null (enter_state ctx STATE.STATE_AFTER_DOCTYPE_NAME)
    else if c = 62 then ret_null (enter_state_emit_doctype ctx STATE.STATE_DATA)
    else if isupper c then
      ret_null (Except.ok { ctx with name := str_add ctx.name (tolower c) })
    else ret_null (Except.ok { ctx with name := str_add ctx.name c })
  | STATE.STATE_AFTER_DOCTYPE_NAME =>
    if HTML_ISSPACE c then ret_null (Except.ok ctx)
    else if c = 62 then ret_null (enter_state_emit_doctype ctx STATE.STATE_DATA)
    else ret_null (enter_state ctx STATE.STATE_BOGUS_DOCTYPE)
  | STATE.STATE_BOGUS_DOCTYPE =>
    if c = 62 then ret_null (enter_state_emit_doctype ctx STATE.STATE_DATA)
    else ret_null (Except.ok ctx)
  | STATE.STATE_END_TAG_OPEN =>
    if c = 62 then ret_null (enter_state ctx STATE.STATE_DATA)
    else if isalpha c then
      ret_null (enter_state_reconsume
        { ctx with token := token_of_type TOKEN_TYPE.TOKEN_END_TAG } STATE.STATE_TAG_NAME c)
    else ret_null (enter_state_reconsume ctx STATE.STATE_BOGUS_COMMENT c)
  | STATE.STATE_TAG_NAME =>
    if HTML_ISSPACE c then
      ret_null ((set_tag_name tags ctx).bind
        (fun x => enter_state x STATE.STATE_BEFORE_ATTRIB_NAME))
    else
      let c1 : Nat := if isupper c then tolower c else c
      if c1 = 62 then
        ret_token ((set_tag_name tags ctx).bind (fun x => enter_state_emit x STATE.STATE_DATA))
      else ret_null (Except.ok { ctx with name := str_add ctx.name c1 })
  | STATE.STATE_BEFORE_ATTRIB_NAME =>
    if c = 47 || c = 62 then
      ret_null (enter_state_reconsume ctx STATE.STATE_AFTER_ATTRIB_NAME c)
    else if c = 61 then ret_null (enter_state_err ctx STATE.STATE_ATTRIB_NAME)
    else ret_null (enter_state_reconsume ctx STATE.STATE_ATTRIB_NAME c)
  | STATE.STATE_ATTRIB_NAME =>
    if HTML_ISSPACE c || c = 47 || c = 62 then
      ret_null (enter_state_reconsume ctx STATE.STATE_AFTER_ATTRIB_NAME c)
    else if c = 61 then ret_null (enter_state ctx STATE.STATE_BEFORE_ATTRIB_VAL)
    else ret_null (Except.ok { ctx with attrib_name := str_add ctx.attrib_name (tolower c) })
  | STATE.STATE_AFTER_ATTRIB_NAME =>
    match set_pending_attr ctx with
    | Except.error e => Except.error e
    | Except.ok x =>
      if c = 47 then ret_null (enter_state x STATE.STATE_SELF_CLOSING_START_TAG)
      else if c = 61 then ret_null (enter_state x STATE.STATE_BEFORE_ATTRIB_VAL)
      else if c = 62 then ret_token (enter_state_emit x STATE.STATE_DATA)
      else ret_null (enter_state_reconsume x STATE.STATE_ATTRIB_NAME c)
  | STATE.STATE_BEFORE_ATTRIB_VAL =>
    if c = 34 then ret_null (enter_state ctx STATE.STATE_ATTRIB_VAL_QUOTED)
    else if c = 39 then ret_null (enter_state ctx STATE.STATE_ATTRIB_VAL_SQUOTED)
    else if c = 62 then ret_token (enter_state_emit ctx STATE.STATE_DATA)
    else ret_null (enter_state ctx STATE.STATE_ATTRIB_VAL)
  | STATE.STATE_ATTRIB_VAL_QUOTED =>
    if c = 34 then ret_null (enter_state ctx STATE.STATE_AFTER_ATTRIB_VAL_QUOTED)
    else ret_null (Except.ok { ctx with attrib_value := str_add ctx.attrib_value c })
  | STATE.STATE_ATTRIB_VAL_SQUOTED =>
    if c = 39 then ret_null (enter_state ctx STATE.STATE_AFTER_ATTRIB_VAL_QUOTED)
    else ret_null (Except.ok { ctx with attrib_value := str_add ctx.attrib_value c })
  | STATE.STATE_ATTRIB_VAL =>
    if HTML_ISSPACE c then ret_null (enter_state ctx STATE.STATE_BEFORE_ATTRIB_NAME)
    else if c = 38 then
      ret_null (enter_state_return ctx STATE.STATE_CHARACTER_REFERENCE STATE.STATE_ATTRIB_VAL)
    else if c = 62 then
      ret_token ((set_pending_attr ctx).bind (fun x => enter_state_emit x STATE.STATE_DATA))
    else if c = 34 || c = 39 || c = 60 || c = 61 || c = 96 then ret_null (Except.ok ctx)
    else ret_null (Except.ok { ctx with attrib_value := str_add ctx.attrib_value c })
  | STATE.STATE_AFTER_ATTRIB_VAL_QUOTED =>
    if HTML_ISSPACE c then ret_null (enter_state ctx STATE.STATE_BEFORE_ATTRIB_NAME)
    else if c = 47 then ret_null (enter_state ctx STATE.STATE_SELF_CLOSING_START_TAG)
    else if c = 62 then
      ret_token ((set_pending_attr ctx).bind (fun x => enter_state_emit x STATE.STATE_DATA))
    else ret_null (enter_state_reconsume ctx STATE.STATE_BEFORE_ATTRIB_NAME c)
  | STATE.STATE_SELF_CLOSING_START_TAG =>
    if c = 62 then
      ret_token ((set_pending_attr ctx).bind (fun x => enter_state_emit x STATE.STATE_DATA))
    else ret_null (enter_state ctx STATE.STATE_BEFORE_ATTRIB_NAME)
  | STATE.STATE_COMMENT_START =>
    if c = 45 then ret_null (enter_state ctx STATE.STATE_COMMENT_START_DASH)
    else if c = 62 then ret_token (enter_state_emit ctx STATE.STATE_DATA)
    else ret_null (enter_state_reconsume ctx STATE.STATE_COMMENT c)
  | STATE.STATE_COMMENT_START_DASH =>
    if c = 45 then ret_null (enter_state ctx STATE.STATE_COMMENT_END)
    else if c = 62 then ret_null (enter_state ctx STATE.STATE_DATA)
    else ret_null (enter_state_reconsume ctx STATE.STATE_COMMENT c)
  | STATE.STATE_COMMENT =>
    if c = 60 then ret_null (enter_state ctx STATE.STATE_COMMENT_LT)
    else if c = 45 then ret_null (enter_state ctx STATE.STATE_COMMENT_END_DASH)
    else ret_null (Except.ok ctx)
  | STATE.STATE_COMMENT_LT =>
    if c = 33 then ret_null (enter_state ctx STATE.STATE_COMMENT_LT_BANG)
    else if c = 60 then ret_null (Except.ok ctx)
    else ret_null (enter_state_reconsume ctx STATE.STATE_COMMENT c)
  | STATE.STATE_COMMENT_LT_BANG =>
    if c = 45 then ret_null (enter_state ctx STATE.STATE_COMMENT_LT_BANG_DASH)
    else ret_null (enter_state_reconsume ctx STATE.STATE_COMMENT c)
  | STATE.STATE_COMMENT_LT_BANG_DASH =>
    if c = 45 then ret_null (enter_state ctx STATE.STATE_COMMENT_LT_BANG_DASH2)
    else ret_null (enter_state_reconsume ctx STATE.STATE_COMMENT_END_DASH c)
  | STATE.STATE_COMMENT_LT_BANG_DASH2 =>
    if c = 62 then ret_null (enter_state_reconsume ctx STATE.STATE_COMMENT_END c)
    else ret_null (enter_state_reconsume ctx STATE.STATE_COMMENT_END c)
  | STATE.STATE_COMMENT_END_DASH =>
    if c = 45 then ret_null (enter_state ctx STATE.STATE_COMMENT_END)
    else ret_null (enter_state ctx STATE.STATE_COMMENT)
  | STATE.STATE_COMMENT_END =>
    if c = 62 then ret_null (enter_state ctx STATE.STATE_DATA)
    else if c = 33 then ret_null (enter_state ctx STATE.STATE_COMMENT_END_BANG)
    else if c = 45 then ret_null (Except.ok ctx)
    else ret_null (enter_state_reconsume ctx STATE.STATE_COMMENT c)
  | STATE.STATE_COMMENT_END_BANG =>
    if c = 45 then ret_null (enter_state ctx STATE.STATE_COMMENT_END_DASH)
    else if c = 62 then ret_null (enter_state ctx STATE.STATE_DATA)
    else ret_null (enter_state_reconsume ctx STATE.STATE_COMMENT c)
  | STATE.STATE_BOGUS_COMMENT =>
    if c = 62 then ret_null (enter_state ctx STATE.STATE_DATA)
    else ret_null (Except.ok ctx)
  | STATE.STATE_CHARACTER_REFERENCE =>
    if isalnum c then ret_null (enter_state_reconsume ctx STATE.STATE_NAMED_CHAR_REF c)
    else if c = 35 then ret_null (enter_state ctx STATE.STATE_NUM_CHAR_REF)
    else ret_null (enter_state ctx ctx.return_state)
  | STATE.STATE_NAMED_CHAR_REF => ret_null (enter_state ctx ctx.return_state)
  | STATE.STATE_NUM_CHAR_REF => ret_null (enter_state ctx ctx.return_state)
  | STATE.STATE_NONE => Except.error Fault.assert_failed
  | STATE.STATE_PLAINTEXT => Except.error Fault.assert_failed

/-- Embedding of `tokenize`: read one byte, apply the filters, run the state
switch. At the end of the input nothing changes and `NULL` is returned. The
byte is held in a `char`, signed as on x86-64, so the byte 255 compares equal
to `EOF` and is dropped. -/
def tokenize (tags : TagTable) (ctx0 : tokenizer) : TokResult :=
  match ctx0.fp with
  | [] => Except.ok (none, ctx0)
  | c :: rest =>
    if c = 255 then Except.ok (none, { ctx0 with fp := rest })
    else
      let ctx : tokenizer :=
        if c = 10 then { ctx0 with fp := rest, line := ctx0.line + 1 }
        else { ctx0 with fp := rest }
      if iscntrl c && (c ≠ 10 && c ≠ 9) then Except.ok (none, ctx)
      else if (ctx.state = STATE.STATE_BEFORE_ATTRIB_NAME ∨
          ctx.state = STATE.STATE_AFTER_ATTRIB_NAME ∨
          ctx.state = STATE.STATE_BEFORE_ATTRIB_VAL) ∧ HTML_ISSPACE c = true then
        Except.ok (none, ctx)
      else tokenize_switch tags ctx c

/-- The loop of the callers (`main` of the test in `tokenize.c` and of the
example programs, without a dispatcher that overrides the state): call
`tokenize` until the input is at its end, and run `token_clear` on every token
returned. The result lists the tokens returned, in order, as they were when
returned; `calls` bounds the number of calls of `tokenize`. -/
def tokenize_all (tags : TagTable) : Nat → tokenizer → Except Fault (List token × tokenizer)
  | 0, _ => Except.error Fault.no_return
  | calls + 1, ctx =>
    match ctx.fp with
    | [] => Except.ok ([], ctx)
    | _ :: _ =>
      match tokenize tags ctx with
      | Except.error e => Except.error e
      | Except.ok (none, ctx1) => tokenize_all tags calls ctx1
      | Except.ok (some t, ctx1) =>
        match tokenize_all tags calls { ctx1 with token := token_clear ctx1.token } with
        | Except.error e => Except.error e
        | Except.ok (ts, ctx2) => Except.ok (t :: ts, ctx2)

/-- The effect of `n` calls of `tokenize` in a row: the tokens returned, in
order and as they were when returned (`token_clear` is not run), and the
tokenizer record after the last call. -/
def tokenize_n (tags : TagTable) : Nat → tokenizer → Except Fault (List token × tokenizer)
  | 0, ctx => Except.ok ([], ctx)
  | n + 1, ctx =>
    match tokenize tags ctx with
    | Except.error e => Except.error e
    | Except.ok (r, ctx1) =>
      match tokenize_n tags n ctx1 with
      | Except.error e => Except.error e
      | Except.ok (ts, ctx2) => Except.ok (r.toList ++ ts, ctx2)

/-- The string that the name pointer of a tag token refers to. -/
def name_str (tags : TagTable) : NamePtr → Option CStr
  | NamePtr.null => none
  | NamePtr.owned s => some s
  | NamePtr.table i => (tags i).name

/-- A byte that reaches the state switch of `tokenize` in the states without a
whitespace rule: it is not the byte that compares equal to `EOF`, and not a
control byte other than line feed and tab. -/
def passes_prefilter (c : Nat) : Bool :=
  decide (c ≠ 255) && !(iscntrl c && (decide (c ≠ 10) && decide (c ≠ 9)))

/-- A byte that the state TAG_NAME appends to the name buffer: it reaches the
state switch, is not whitespace and is not `>`. -/
def tag_name_byte (c : Nat) : Bool :=
  passes_prefilter c && !(HTML_ISSPACE c) && decide (c ≠ 62)

/-- The three prefixes that the state MARKUP_DECLARATION_OPEN compares the
input with: `--`, `DOCTYPE` and `[CDATA[`. -/
def markup_matches : List CStr :=
  [[45, 45], [68, 79, 67, 84, 89, 80, 69], [91, 67, 68, 65, 84, 65, 91]]

/-- The state that the state MARKUP_DECLARATION_OPEN enters when the selected
prefix is complete, by the first byte of the prefix. -/
def markup_target (m : CStr) : STATE :=
  if m.getD 0 0 = 45 then STATE.STATE_COMMENT_START
  else if m.getD 0 0 = 68 then STATE.STATE_DOCTYPE
  else STATE.STATE_BOGUS_COMMENT

/-- The tokenizer is in MARKUP_DECLARATION_OPEN, has selected the prefix `m`
and has read `k` bytes of it into the 16-byte peek buffer. -/
def mdo_at (ctx : tokenizer) (m : CStr) (k : Nat) : Prop :=
  ctx.state = STATE.STATE_MARKUP_DECLARATION_OPEN ∧ ctx.match_ = some m ∧
    ctx.buf_len = k ∧ ctx.buf.length = 16

/-! ## elem.h, node.h, cdata.h, tagmap.h : the records the dispatcher handles -/

/-- The flag `TAG_EMPTY` of `tagmap.h`. -/
def TAG_EMPTY : Nat := 1

/-- The flag `TAG_OPTIONAL_CLOSE` of `tagmap.h`. -/
def TAG_OPTIONAL_CLOSE : Nat := 2

/-- The flag `TAG_BLOCK` of `tagmap.h`. -/
def TAG_BLOCK : Nat := 4

/-- The flag `TAG_SPECIAL` of `tagmap.h`. -/
def TAG_SPECIAL : Nat := 8

/-- The flag `TAG_HEADING` of `tagmap.h`. -/
def TAG_HEADING : Nat := 16

/-- The flag `TAG_FORMAT` of `tagmap.h`. -/
def TAG_FORMAT : Nat := 32

/-- Modelled from the spec: the tag id constants `TAG_...` of the generated
header `tags.h`, which is not part of the sources at hand. They are a parameter
of the embedding of the dispatcher: one number for each constant that
`dispatch.c` names. In the program the number is the slot of the name in the
tag table. -/
structure TagIds where
  TAG_A : Nat
  TAG_ADDRESS : Nat
  TAG_APPLET : Nat
  TAG_AREA : Nat
  TAG_ARTICLE : Nat
  TAG_ASIDE : Nat
  TAG_BASE : Nat
  TAG_BASEFONT : Nat
  TAG_BGSOUND : Nat
  TAG_BLOCKQUOTE : Nat
  TAG_BODY : Nat
  TAG_BR : Nat
  TAG_BUTTON : Nat
  TAG_CAPTION : Nat
  TAG_CENTER : Nat
  TAG_COL : Nat
  TAG_COLGROUP : Nat
  TAG_DD : Nat
  TAG_DETAILS : Nat
  TAG_DIALOG : Nat
  TAG_DIR : Nat
  TAG_DIV : Nat
  TAG_DL : Nat
  TAG_DT : Nat
  TAG_EMBED : Nat
  TAG_FIELDSET : Nat
  TAG_FIGCAPTION : Nat
  TAG_FIGURE : Nat
  TAG_FOOTER : Nat
  TAG_FORM : Nat
  TAG_FRAMESET : Nat
  TAG_HEAD : Nat
  TAG_HEADER : Nat
  TAG_HGROUP : Nat
  TAG_HTML : Nat
  TAG_IMG : Nat
  TAG_KEYGEN : Nat
  TAG_LI : Nat
  TAG_LINK : Nat
  TAG_LISTING : Nat
  TAG_MAIN : Nat
  TAG_MARQUEE : Nat
  TAG_MATH : Nat
  TAG_MENU : Nat
  TAG_META : Nat
  TAG_NAV : Nat
  TAG_NOBR : Nat
  TAG_NOFRAMES : Nat
  TAG_NOSCRIPT : Nat
  TAG_OBJECT : Nat
  TAG_OL : Nat
  TAG_OPTGROUP : Nat
  TAG_OPTION : Nat
  TAG_P : Nat
  TAG_PLAINTEXT : Nat
  TAG_PRE : Nat
  TAG_RB : Nat
  TAG_RP : Nat
  TAG_RT : Nat
  TAG_RTC : Nat
  TAG_SCRIPT : Nat
  TAG_SECTION : Nat
  TAG_SELECT : Nat
  TAG_STYLE : Nat
  TAG_SUMMARY : Nat
  TAG_SVG : Nat
  TAG_TABLE : Nat
  TAG_TBODY : Nat
  TAG_TD : Nat
  TAG_TEMPLATE : Nat
  TAG_TFOOT : Nat
  TAG_TH : Nat
  TAG_THEAD : Nat
  TAG_TITLE : Nat
  TAG_TR : Nat
  TAG_UL : Nat
  TAG_WBR : Nat

/-- The enumeration `T_CDATA`. -/
inductive T_CDATA where
  | CDATA_TEXT
  | CDATA_COMMENT
  deriving DecidableEq, Repr

/-- The record `struct cdata` without its back reference to a node. -/
structure cdata where
  type : T_CDATA
  data : str
  deriving DecidableEq, Repr

/-- The record `struct node`, by its type and what it refers to: an element,
by the address of the `struct elem`, or character data, by the value the
`struct cdata` has when the node is made. The tree links, which the parser
leaves zero, are left out, and so is the document node, which it never
makes. -/
inductive node where
  | NODE_ELEM (elem : Nat)
  | NODE_CDATA (cdata : cdata)
  deriving DecidableEq, Repr

/-- The record `struct elem`; `node` is the back reference, `none` for
`NULL`. -/
structure elem where
  tagid : Nat
  name : NamePtr
  attr : List attr
  node : Option node
  ns : Nat
  deriving DecidableEq, Repr

/-- The constant `NS_HTML` of `enum elem_ns`. -/
def NS_HTML : Nat := 0

/-- The constant `NS_MATHML` of `enum elem_ns`. -/
def NS_MATHML : Nat := 1

/-- The constant `NS_SVG` of `enum elem_ns`. -/
def NS_SVG : Nat := 2

/-- A call of one of the two consumer callbacks with a node. -/
inductive event where
  | begin (n : node)
  | end_ (n : node)
  deriving DecidableEq, Repr

/-- Embedding of `cdata_create`. -/
def cdata_create (type : T_CDATA) : cdata :=
  { type := type, data := { s := none } }

/-- Embedding of `cdata_add`: every byte of the string is added to the data;
reading a `NULL` string is a fault. -/
def cdata_add (c : cdata) (s : Option CStr) : Except Fault cdata :=
  match s with
  | none => Except.error Fault.null_deref
  | some l => Except.ok { c with data := l.foldl str_add c.data }

/-! ## dispatch.c : the tree constructor -/

/-- Modelled from the spec: the enumeration `IMODE` of the generated file
`imodes.c`, which is not part of the sources at hand: the insertion modes the
spec lists; `IMODE_INITIAL` is the mode of a zeroed dispatcher. -/
inductive IMODE where
  | IMODE_INITIAL
  | IMODE_BEFORE_HTML
  | IMODE_BEFORE_HEAD
  | IMODE_IN_HEAD
  | IMODE_IN_HEAD_NOSCRIPT
  | IMODE_AFTER_HEAD
  | IMODE_IN_BODY
  | IMODE_TEXT
  | IMODE_IN_TABLE
  | IMODE_IN_TABLE_TEXT
  | IMODE_IN_CAPTION
  | IMODE_IN_COLUMN_GROUP
  | IMODE_IN_TABLE_BODY
  | IMODE_IN_ROW
  | IMODE_IN_CELL
  | IMODE_IN_SELECT
  | IMODE_IN_SELECT_IN_TABLE
  | IMODE_IN_TEMPLATE
  | IMODE_AFTER_BODY
  | IMODE_IN_FRAMESET
  | IMODE_AFTER_FRAMESET
  | IMODE_AFTER_AFTER_BODY
  | IMODE_AFTER_AFTER_FRAMESET
  deriving DecidableEq, Repr

/-- Modelled from the spec: the record `struct dispatcher` of `dispatch.h`,
which is not part of the sources at hand: the current insertion mode, the saved
original mode, the pending character data and the head element pointer. The
two callbacks are represented by the list of their calls (see `World`), the
document reference is not used by the code. -/
structure dispatcher where
  mode : IMODE
  orig_mode : IMODE
  cdata : Option cdata
  head_elem : ElemPtr
  deriving DecidableEq, Repr

/-- Everything a call of `dispatch` reads and writes: the dispatcher record,
the open-elements stack of `ostack.c`, the `struct elem` records allocated so
far (the address of a record is its position in the list) and the calls of the
callbacks `begin` and `end` made so far, in order. -/
structure World where
  ctx : dispatcher
  ostack : OStack
  elems : List elem
  events : List event
  deriving DecidableEq, Repr

/-- A zeroed dispatcher, the empty stack, no element and no event. -/
def world_init : World :=
  { ctx := { mode := IMODE.IMODE_INITIAL, orig_mode := IMODE.IMODE_INITIAL, cdata := none,
             head_elem := none },
    ostack := ostack_init, elems := [], events := [] }

/-- Reading the record behind an element pointer; a `NULL` pointer is a
fault. -/
def elem_at (w : World) (p : ElemPtr) : Except Fault elem :=
  match p with
  | none => Except.error Fault.null_deref
  | some a =>
    match w.elems[a]? with
    | none => Except.error Fault.null_deref
    | some e => Except.ok e

/-- The expression `ostack_peek()->tagid`. -/
def peek_tagid (w : World) : Except Fault Nat :=
  (elem_at w (ostack_peek w.ostack)).map (fun e => e.tagid)

/-- The expression `ostack_peek_at(i)->tagid`. -/
def peek_at_tagid (w : World) (i : Nat) : Except Fault Nat :=
  (elem_at w (ostack_peek_at w.ostack i)).map (fun e => e.tagid)

/-- The expression `tagmap(id)->flags`, with the assertion of `tagmap`. -/
def tag_flags (tags : TagTable) (id : Nat) : Except Fault Nat :=
  match tagmap tags id with
  | none => Except.error Fault.assert_failed
  | some t => Except.ok t.flags

/-- A call of the callback `begin` or `end`. -/
def emit (w : World) (e : event) : World :=
  { w with events := w.events ++ [e] }

/-- Embedding of `insert_char`. -/
def insert_char (w : World) (t : token) : Except Fault (World × token) :=
  if t.type = TOKEN_TYPE.TOKEN_CHAR then
    match cdata_add (w.ctx.cdata.getD (cdata_create T_CDATA.CDATA_TEXT)) t.s.s with
    | Except.error e => Except.error e
    | Except.ok c => Except.ok ({ w with ctx := { w.ctx with cdata := some c } }, { t with used := 1 })
  else Except.error Fault.assert_failed

/-- The first step of `insert_element_ns`: pending character data goes to the
callback `begin` as a new node and is pending no more. -/
def flush_cdata_begin (w : World) : World :=
  match w.ctx.cdata with
  | some c =>
    { emit w (event.begin (node.NODE_CDATA c)) with ctx := { w.ctx with cdata := none } }
  | none => w

/-- The first step of `close_tag`: pending character data goes to the callback
`end` as a new node and is pending no more. -/
def flush_cdata_end (w : World) : World :=
  match w.ctx.cdata with
  | some c =>
    { emit w (event.end_ (node.NODE_CDATA c)) with ctx := { w.ctx with cdata := none } }
  | none => w

/-- Embedding of `insert_element_ns` with the calls of `elem_create_from_token`
and `node_create_from_elem` it makes. The parameter `ns` is not used by the
code: the namespace of the new element stays zero. The result is the pointer to
the new element, the new world and the token, marked used. -/
def insert_element_ns (tags : TagTable) (w : World) (t : token) (ns : Nat) :
    Except Fault (ElemPtr × World × token) :=
  if t.type = TOKEN_TYPE.TOKEN_START_TAG then
    let w1 := flush_cdata_begin w
    if t.tag.name = NamePtr.null then Except.error Fault.assert_failed
    else
      let addr := w1.elems.length
      let e : elem :=
        { tagid := t.tag.tagid, name := t.tag.name, attr := t.tag.attr,
          node := some (node.NODE_ELEM addr), ns := 0 }
      let w2 : World :=
        { w1 with elems := w1.elems ++ [e],
                  ctx := if e.tagid ≠ 0 then { w1.ctx with head_elem := some addr } else w1.ctx }
      let w3 := emit w2 (event.begin (node.NODE_ELEM addr))
      match tag_flags tags e.tagid with
      | Except.error err => Except.error err
      | Except.ok flags =>
        if flags &&& TAG_EMPTY = 0 then
          Except.ok (some addr, { w3 with ostack := ostack_push w3.ostack (some addr) },
            { t with used := 1 })
        else
          Except.ok (some addr, emit w3 (event.end_ (node.NODE_ELEM addr)), { t with used := 1 })
  else Except.error Fault.assert_failed

/-- Embedding of `insert_tag`. -/
def insert_tag (tags : TagTable) (w : World) (t : token) : Except Fault (World × token) :=
  (insert_element_ns tags w t NS_HTML).map (fun r => r.2)

/-- Embedding of `insert_foreign_element`. -/
def insert_foreign_element (tags : TagTable) (w : World) (t : token) (ns : Nat) :
    Except Fault (World × token) :=
  (insert_element_ns tags w t ns).map (fun r => r.2)

/-- Embedding of `close_tag`: flush pending character data, pop the stack, then
pass the node of `elem` to the callback `end`. -/
def close_tag (w : World) (p : ElemPtr) : Except Fault World :=
  let w1 := flush_cdata_end w
  let w2 : World := { w1 with ostack := (ostack_pop w1.ostack).2 }
  match elem_at w2 p with
  | Except.error err => Except.error err
  | Except.ok e =>
    match e.node with
    | none => Except.error Fault.assert_failed
    | some n => Except.ok (emit w2 (event.end_ n))

/-- Embedding of `insert_close_tag`. -/
def insert_close_tag (w : World) (t : token) : Except Fault (World × token) :=
  if t.type = TOKEN_TYPE.TOKEN_END_TAG then
    (close_tag w (ostack_peek w.ostack)).map (fun w1 => (w1, { t with used := 0 }))
  else Except.error Fault.assert_failed

/-- Embedding of `pop`: the element that was on top, and the new world. -/
def pop (w : World) : Except Fault (ElemPtr × World) :=
  (close_tag w (ostack_peek w.ostack)).map (fun w1 => (ostack_peek w.ostack, w1))

/-- Embedding of `insert_tag_name`: a token made for the name is inserted (or
closes the current element) and is then cleared and dropped. -/
def insert_tag_name (tags : TagTable) (w : World) (name : CStr) (close : Bool) :
    Except Fault World :=
  let t0 : token :=
    if close then token_of_type TOKEN_TYPE.TOKEN_END_TAG
    else token_of_type TOKEN_TYPE.TOKEN_START_TAG
  match token_set_tag_name tags t0 (some name) with
  | Except.error err => Except.error err
  | Except.ok t =>
    if close then (insert_close_tag w t).map (fun r => r.1)
    else (insert_tag tags w t).map (fun r => r.1)

/-- Embedding of `insert_tag_set_mode`. -/
def insert_tag_set_mode (tags : TagTable) (w : World) (t : token) (mode : IMODE) :
    Except Fault (World × token) :=
  (insert_tag tags w t).map (fun r => ({ r.1 with ctx := { r.1.ctx with mode := mode } }, r.2))

/-- Embedding of `insert_tag_name_set_mode`. -/
def insert_tag_name_set_mode (tags : TagTable) (w : World) (name : CStr) (close : Bool)
    (mode : IMODE) : Except Fault World :=
  (insert_tag_name tags w name close).map (fun w1 => { w1 with ctx := { w1.ctx with mode := mode } })

/-- Embedding of `insert_close_tag_set_mode`. -/
def insert_close_tag_set_mode (w : World) (t : token) (mode : IMODE) :
    Except Fault (World × token) :=
  (insert_close_tag w t).map (fun r => ({ r.1 with ctx := { r.1.ctx with mode := mode } }, r.2))

/-- The macro `TOKEN_IS_START_TAG`. -/
def TOKEN_IS_START_TAG (t : token) (tagid : Nat) : Bool :=
  t.type = TOKEN_TYPE.TOKEN_START_TAG && t.tag.tagid = tagid

/-- The macro `TOKEN_IS_END_TAG`. -/
def TOKEN_IS_END_TAG (t : token) (tagid : Nat) : Bool :=
  t.type = TOKEN_TYPE.TOKEN_END_TAG && t.tag.tagid = tagid

/-- The macro `TOKEN_IS_START`. -/
def TOKEN_IS_START (t : token) : Bool := t.type = TOKEN_TYPE.TOKEN_START_TAG

/-- The macro `TOKEN_IS_END`. -/
def TOKEN_IS_END (t : token) : Bool := t.type = TOKEN_TYPE.TOKEN_END_TAG

/-- The macro `TOKEN_IS_SPACE`: a character token whose string starts with a
whitespace byte. The first byte of the empty string is its terminator; reading
a `NULL` string is a fault. -/
def TOKEN_IS_SPACE (t : token) : Except Fault Bool :=
  if t.type = TOKEN_TYPE.TOKEN_CHAR then
    match t.s.s with
    | none => Except.error Fault.null_deref
    | some [] => Except.ok false
    | some (c :: _) => Except.ok (HTML_ISSPACE c)
  else Except.ok false

/-- Embedding of `is_start_tag`; the list holds the variable arguments. -/
def is_start_tag (t : token) (l : List Nat) : Bool :=
  TOKEN_IS_START t && l.any (fun id => TOKEN_IS_START_TAG t id)

/-- Embedding of `is_end_tag`; the list holds the variable arguments. -/
def is_end_tag (t : token) (l : List Nat) : Bool :=
  TOKEN_IS_END t && l.any (fun id => TOKEN_IS_END_TAG t id)

/-- The loop of `is_open` from position `i` down to the bottom. -/
def is_open_loop (w : World) (l : List Nat) : Nat → Except Fault Bool
  | 0 => Except.ok false
  | i + 1 =>
    match peek_at_tagid w (i + 1) with
    | Except.error err => Except.error err
    | Except.ok tagid => if l.contains tagid then Except.ok true else is_open_loop w l i

/-- Embedding of `is_open`; the list holds the variable arguments. -/
def is_open (w : World) (l : List Nat) : Except Fault Bool :=
  is_open_loop w l (ostack_depth w.ostack)

/-- The loop of `is_open_other_than` from position `i` down to the bottom. -/
def is_open_other_than_loop (w : World) (l : List Nat) : Nat → Except Fault Int
  | 0 => Except.ok (-1)
  | i + 1 =>
    match peek_at_tagid w (i + 1) with
    | Except.error err => Except.error err
    | Except.ok tagid =>
      if (l.filter (fun id => tagid = id)).length = 0 then Except.ok (tagid : Int)
      else is_open_other_than_loop w l i

/-- Embedding of `is_open_other_than`: the tag id of the topmost element whose
tag is not in the list, or -1. -/
def is_open_other_than (w : World) (l : List Nat) : Except Fault Int :=
  is_open_other_than_loop w l (ostack_depth w.ostack)

/-- The enumeration `enum scope`. -/
inductive scope where
  | SCOPE_ANY
  | SCOPE_LIST_ITEM
  | SCOPE_BUTTON
  | SCOPE_TABLE
  | SCOPE_SELECT
  deriving DecidableEq, Repr

/-- The tags whose element `generate_implied_end_tags` pops. -/
def implied_end_tags (ids : TagIds) : List Nat :=
  [ids.TAG_DD, ids.TAG_DT, ids.TAG_LI, ids.TAG_OPTGROUP, ids.TAG_OPTION, ids.TAG_P,
   ids.TAG_RB, ids.TAG_RP, ids.TAG_RT, ids.TAG_RTC]

/-- The loop of `generate_implied_end_tags` from position `i` down: every
round pops one element, so position `i` is the top of the stack. -/
def generate_implied_end_tags_loop (ids : TagIds) (except : Int) :
    Nat → World → Except Fault World
  | 0, w => Except.ok w
  | i + 1, w =>
    match peek_at_tagid w (i + 1) with
    | Except.error err => Except.error err
    | Except.ok tagid =>
      if (tagid : Int) = except then Except.ok w
      else if (implied_end_tags ids).contains tagid then
        match pop w with
        | Except.error err => Except.error err
        | Except.ok r => generate_implied_end_tags_loop ids except i r.2
      else Except.ok w

/-- Embedding of `generate_implied_end_tags`. -/
def generate_implied_end_tags (ids : TagIds) (w : World) (except : Int) : Except Fault World :=
  generate_implied_end_tags_loop ids except (ostack_depth w.ostack) w

/-- Embedding of `close_p_element`: the value returned (1 as `true`) and the
new world. -/
def close_p_element (ids : TagIds) (w : World) : Except Fault (Bool × World) :=
  match generate_implied_end_tags ids w (ids.TAG_P : Int) with
  | Except.error err => Except.error err
  | Except.ok w1 =>
    match peek_tagid w1 with
    | Except.error err => Except.error err
    | Except.ok tagid =>
      if tagid ≠ ids.TAG_P then Except.ok (false, w1)
      else (pop w1).map (fun r => (true, r.2))

/-- The tags at which `has_element_in_scope` stops for the scopes ANY,
LIST_ITEM and BUTTON. -/
def scope_any_stop (ids : TagIds) : List Nat :=
  [ids.TAG_APPLET, ids.TAG_CAPTION, ids.TAG_HTML, ids.TAG_TABLE, ids.TAG_TD, ids.TAG_TH,
   ids.TAG_MARQUEE, ids.TAG_OBJECT, ids.TAG_TEMPLATE]

/-- The loop of `has_element_in_scope` from position `i` down to the bottom. -/
def has_element_in_scope_loop (ids : TagIds) (w : World) (target : Nat) (sc : scope) :
    Nat → Except Fault Bool
  | 0 => Except.ok false
  | i + 1 =>
    match peek_at_tagid w (i + 1) with
    | Except.error err => Except.error err
    | Except.ok tagid =>
      if tagid = target then Except.ok true
      else if sc = scope.SCOPE_LIST_ITEM ∧ (tagid = ids.TAG_OL ∨ tagid = ids.TAG_UL) then
        Except.ok false
      else if sc = scope.SCOPE_BUTTON ∧ tagid = ids.TAG_BUTTON then Except.ok false
      else if sc = scope.SCOPE_TABLE ∧
          (tagid = ids.TAG_HTML ∨ tagid = ids.TAG_TABLE ∨ tagid = ids.TAG_TEMPLATE) then
        Except.ok false
      else if sc = scope.SCOPE_SELECT then
        if tagid = ids.TAG_OPTGROUP then has_element_in_scope_loop ids w target sc i
        else if tagid = ids.TAG_OPTION then has_element_in_scope_loop ids w target sc i
        else Except.ok false
      else if (sc = scope.SCOPE_LIST_ITEM ∨ sc = scope.SCOPE_BUTTON ∨ sc = scope.SCOPE_ANY) ∧
          (scope_any_stop ids).contains tagid = true then
        Except.ok false
      else has_element_in_scope_loop ids w target sc i

/-- Embedding of `has_element_in_scope`. -/
def has_element_in_scope (ids : TagIds) (w : World) (target : Nat) (sc : scope) :
    Except Fault Bool :=
  has_element_in_scope_loop ids w target sc (ostack_depth w.ostack)

/-- The loop of `pop_elem`, at most `n` rounds; after the loop comes
`assert(0)`. -/
def pop_elem_loop (tagid : Nat) : Nat → World → Except Fault (ElemPtr × World)
  | 0, _ => Except.error Fault.no_return
  | n + 1, w =>
    match ostack_peek w.ostack with
    | none => Except.error Fault.assert_failed
    | some a =>
      match peek_tagid w with
      | Except.error err => Except.error err
      | Except.ok top =>
        if top = tagid then pop w
        else
          match pop w with
          | Except.error err => Except.error err
          | Except.ok r => pop_elem_loop tagid n r.2

/-- Embedding of `pop_elem`: every round pops one element, so the depth and one
more bound the rounds. -/
def pop_elem (w : World) (tagid : Nat) : Except Fault (ElemPtr × World) :=
  pop_elem_loop tagid (ostack_depth w.ostack + 1) w

/-- Embedding of `check_p`: `true` stands for the result -1. -/
def check_p (ids : TagIds) (w : World) : Except Fault (Bool × World) :=
  match has_element_in_scope ids w ids.TAG_P scope.SCOPE_BUTTON with
  | Except.error err => Except.error err
  | Except.ok false => Except.ok (false, w)
  | Except.ok true =>
    match close_p_element ids w with
    | Except.error err => Except.error err
    | Except.ok (closed, w1) => Except.ok (!closed, w1)

/-- The loop of `reset_imode` with `depth` at `d` and `node` the element at
that position. -/
def reset_imode_loop (ids : TagIds) (w : World) (head_elem_ptr : ElemPtr) :
    Nat → Except Fault IMODE
  | 0 => Except.error Fault.assert_failed
  | d + 1 =>
    match ostack_peek_at w.ostack (d + 1) with
    | none => Except.error Fault.assert_failed
    | some a =>
      match elem_at w (some a) with
      | Except.error err => Except.error err
      | Except.ok nd =>
        let last : Bool := d + 1 = 1
        if (nd.tagid = ids.TAG_TD ∨ nd.tagid = ids.TAG_TH) ∧ last = false then
          Except.ok IMODE.IMODE_IN_CELL
        else if nd.tagid = ids.TAG_TD ∨ nd.tagid = ids.TAG_TH then
          (if last then Except.ok IMODE.IMODE_IN_BODY
           else reset_imode_loop ids w head_elem_ptr d)
        else if nd.tagid = ids.TAG_TR then Except.ok IMODE.IMODE_IN_ROW
        else if nd.tagid = ids.TAG_TBODY ∨ nd.tagid = ids.TAG_THEAD ∨ nd.tagid = ids.TAG_TFOOT then
          Except.ok IMODE.IMODE_IN_TABLE_BODY
        else if nd.tagid = ids.TAG_CAPTION then Except.ok IMODE.IMODE_IN_CAPTION
        else if nd.tagid = ids.TAG_TABLE then Except.ok IMODE.IMODE_IN_TABLE
        else if nd.tagid = ids.TAG_TEMPLATE then Except.ok IMODE.IMODE_IN_TEMPLATE
        else if nd.tagid = ids.TAG_HEAD then Except.ok IMODE.IMODE_IN_HEAD
        else if nd.tagid = ids.TAG_BODY then Except.ok IMODE.IMODE_IN_BODY
        else if nd.tagid = ids.TAG_FRAMESET then Except.ok IMODE.IMODE_IN_FRAMESET
        else if nd.tagid = ids.TAG_HTML then
          (if head_elem_ptr = none then Except.ok IMODE.IMODE_BEFORE_HEAD
           else Except.ok IMODE.IMODE_AFTER_HEAD)
        else if last then Except.ok IMODE.IMODE_IN_BODY
        else reset_imode_loop ids w head_elem_ptr d

/-- Embedding of `reset_imode`. -/
def reset_imode (ids : TagIds) (w : World) (head_elem_ptr : ElemPtr) : Except Fault IMODE :=
  match ostack_peek_at w.ostack (ostack_depth w.ostack) with
  | none => Except.ok IMODE.IMODE_INITIAL
  | some _ => reset_imode_loop ids w head_elem_ptr (ostack_depth w.ostack)

/-- The enumeration `enum context`. -/
inductive context where
  | CONTEXT_TABLE
  | CONTEXT_TABLE_BODY
  | CONTEXT_TABLE_ROW
  deriving DecidableEq, Repr

/-- The tests of `clear_to_context` on the tag of the top element. -/
def context_allows (ids : TagIds) (c : context) (tagid : Nat) : Bool :=
  (c = context.CONTEXT_TABLE &&
    (tagid = ids.TAG_TABLE || tagid = ids.TAG_TEMPLATE || tagid = ids.TAG_HTML)) ||
  (c = context.CONTEXT_TABLE_BODY &&
    (tagid = ids.TAG_TBODY || tagid = ids.TAG_TFOOT || tagid = ids.TAG_THEAD ||
     tagid = ids.TAG_TEMPLATE || tagid = ids.TAG_HTML)) ||
  (c = context.CONTEXT_TABLE_ROW &&
    (tagid = ids.TAG_TR || tagid = ids.TAG_TEMPLATE || tagid = ids.TAG_HTML))

/-- The loop of `clear_to_context`, at most `n` rounds; after the loop comes
`assert(0)`. -/
def clear_to_context_loop (ids : TagIds) (c : context) : Nat → World → Except Fault World
  | 0, _ => Except.error Fault.no_return
  | n + 1, w =>
    if ostack_depth w.ostack ≥ 1 then
      match peek_tagid w with
      | Except.error err => Except.error err
      | Except.ok tagid =>
        if context_allows ids c tagid then Except.ok w
        else
          match pop w with
          | Except.error err => Except.error err
          | Except.ok r => clear_to_context_loop ids c n r.2
    else Except.error Fault.assert_failed

/-- Embedding of `clear_to_context`: every round pops one element, so the depth
and one more bound the rounds. -/
def clear_to_context (ids : TagIds) (w : World) (c : context) : Except Fault World :=
  clear_to_context_loop ids c (ostack_depth w.ostack + 1) w

/-- Embedding of `close_cell`. -/
def close_cell (ids : TagIds) (w : World) : Except Fault World :=
  match generate_implied_end_tags ids w (-1) with
  | Except.error err => Except.error err
  | Except.ok w1 =>
    match peek_tagid w1 with
    | Except.error err => Except.error err
    | Except.ok tagid =>
      if tagid = ids.TAG_TD then
        (pop_elem w1 ids.TAG_TD).map
          (fun r => { r.2 with ctx := { r.2.ctx with mode := IMODE.IMODE_IN_ROW } })
      else if tagid = ids.TAG_TH then
        (pop_elem w1 ids.TAG_TH).map
          (fun r => { r.2 with ctx := { r.2.ctx with mode := IMODE.IMODE_IN_ROW } })
      else Except.ok w1

/-- What a call of `insert_token_with_mode` or `dispatch` gives: the tokenizer
state returned, the new world and the token (whose flag `used` the call may
set), or the fault that stopped the call. -/
abbrev DRes := Except Fault (STATE × World × token)

/-- The type of `insert_token_with_mode` as the rules of a mode call it to
dispatch the token again. -/
abbrev DSelf := World → token → IMODE → DRes

/-- Embedding of `insert_token_set_mode`: set the mode and dispatch the token
in it; the state that call returns is dropped. -/
def insert_token_set_mode (self : DSelf) (w : World) (t : token) (mode : IMODE) :
    Except Fault (World × token) :=
  (self { w with ctx := { w.ctx with mode := mode } } t mode).map (fun r => r.2)

/-- The call `dispatch(ctx, token, ctx->begin, ctx->end)` made inside
`insert_token_with_mode`: dispatch the token in the current mode. -/
def redispatch (self : DSelf) (w : World) (t : token) : DRes :=
  self w t w.ctx.mode

/-- The loop at the label `li_loop` of the rules for a start tag `li` in
IN_BODY, at most `n` rounds. The flag tells whether the label `li_done` is
reached (`true`) or the function returns at once. -/
def li_loop (ids : TagIds) (tags : TagTable) : Nat → World → Except Fault (Bool × World)
  | 0, _ => Except.error Fault.no_return
  | n + 1, w => do
    let top ← peek_tagid w
    if top = ids.TAG_LI then
      let w1 ← generate_implied_end_tags ids w (ids.TAG_LI : Int)
      let top1 ← peek_tagid w1
      if top1 ≠ ids.TAG_LI then return (false, w1)
      let r ← pop w1
      return (true, r.2)
    let flags ← tag_flags tags top
    if flags &&& TAG_SPECIAL ≠ 0 ∧
        (top ≠ ids.TAG_ADDRESS ∧ top ≠ ids.TAG_DIV ∧ top ≠ ids.TAG_P) then
      return (true, w)
    let r ← pop w
    li_loop ids tags n r.2

/-- The loop at the label `dd_dt_loop` of the rules for a start tag `dd` or
`dt` in IN_BODY, with the variable `sz`, at most `n` rounds. The flag tells
whether the label `dd_dt_done` is reached (`true`) or the function returns at
once. -/
def dd_dt_loop (ids : TagIds) (tags : TagTable) (w : World) :
    Nat → Nat → Except Fault (Bool × World)
  | 0, _ => Except.error Fault.no_return
  | n + 1, sz => do
    let tagid ← peek_at_tagid w sz
    if tagid = ids.TAG_DD ∨ tagid = ids.TAG_DT then
      let w1 ← generate_implied_end_tags ids w (tagid : Int)
      let top ← peek_tagid w1
      if top ≠ tagid then return (false, w1)
      let r ← pop w1
      return (true, r.2)
    let flags ← tag_flags tags tagid
    if flags &&& TAG_SPECIAL ≠ 0 ∧
        (tagid ≠ ids.TAG_ADDRESS ∧ tagid ≠ ids.TAG_DIV ∧ tagid ≠ ids.TAG_P) then
      return (true, w)
    if sz > 1 then dd_dt_loop ids tags w n (sz - 1)
    else return (false, w)

/-- The loop `while (ostack_depth() >= 1)` of the rules for any other end tag
in IN_BODY: pop until `node` has been popped, at most `n` rounds. -/
def pop_through (nd : ElemPtr) : Nat → World → Except Fault World
  | 0, w => if ostack_depth w.ostack ≥ 1 then Except.error Fault.no_return else Except.ok w
  | n + 1, w =>
    if ostack_depth w.ostack ≥ 1 then
      if nd = ostack_peek w.ostack then (pop w).map (fun r => r.2)
      else
        match pop w with
        | Except.error err => Except.error err
        | Except.ok r => pop_through nd n r.2
    else Except.ok w

/-- The loop at the label `loop` of the rules for any other end tag in
IN_BODY, with the variable `node`, at most `n` rounds. -/
def any_other_end_tag_loop (ids : TagIds) (tags : TagTable) (t : token) :
    Nat → World → ElemPtr → Except Fault World
  | 0, _, _ => Except.error Fault.no_return
  | n + 1, w, nd => do
    let e ← elem_at w nd
    if e.ns = NS_HTML ∧ e.tagid = t.tag.tagid then
      let w1 ← generate_implied_end_tags ids w (t.tag.tagid : Int)
      let top ← peek_tagid w1
      if e.tagid ≠ top then return w1
      pop_through nd (ostack_depth w1.ostack) w1
    else
      let flags ← tag_flags tags e.tagid
      if flags &&& TAG_SPECIAL ≠ 0 then return w
      match ostack_prev w.ostack nd with
      | none => return w
      | some a => any_other_end_tag_loop ids tags t n w (some a)

/-- The tag ids of the start tags that close an open `p` and are inserted
(address, article, ..., ul). -/
def in_body_block_start (ids : TagIds) : List Nat :=
  [ids.TAG_ADDRESS, ids.TAG_ARTICLE, ids.TAG_ASIDE, ids.TAG_BLOCKQUOTE, ids.TAG_CENTER,
   ids.TAG_DETAILS, ids.TAG_DIALOG, ids.TAG_DIR, ids.TAG_DIV, ids.TAG_DL, ids.TAG_FIELDSET,
   ids.TAG_FIGCAPTION, ids.TAG_FIGURE, ids.TAG_FOOTER, ids.TAG_HEADER, ids.TAG_HGROUP,
   ids.TAG_MAIN, ids.TAG_MENU, ids.TAG_NAV, ids.TAG_OL, ids.TAG_P, ids.TAG_SECTION,
   ids.TAG_SUMMARY, ids.TAG_UL]

/-- The tag ids of the end tags that the rule with 26 arguments handles
(address, article, ..., ul). -/
def in_body_block_end (ids : TagIds) : List Nat :=
  [ids.TAG_ADDRESS, ids.TAG_ARTICLE, ids.TAG_ASIDE, ids.TAG_BLOCKQUOTE, ids.TAG_BUTTON,
   ids.TAG_CENTER, ids.TAG_DETAILS, ids.TAG_DIALOG, ids.TAG_DIR, ids.TAG_DIV, ids.TAG_DL,
   ids.TAG_FIELDSET, ids.TAG_FIGCAPTION, ids.TAG_FIGURE, ids.TAG_FOOTER, ids.TAG_HEADER,
   ids.TAG_HGROUP, ids.TAG_LISTING, ids.TAG_MAIN, ids.TAG_MENU, ids.TAG_NAV, ids.TAG_OL,
   ids.TAG_PRE, ids.TAG_SECTION, ids.TAG_SUMMARY, ids.TAG_UL]

/-- The tag ids that may stay open when the body is closed (the 18 arguments of
`is_open_other_than`). -/
def in_body_may_stay_open (ids : TagIds) : List Nat :=
  [ids.TAG_DD, ids.TAG_DT, ids.TAG_LI, ids.TAG_OPTGROUP, ids.TAG_OPTION, ids.TAG_P,
   ids.TAG_RB, ids.TAG_RP, ids.TAG_RT, ids.TAG_RTC, ids.TAG_TBODY, ids.TAG_TD, ids.TAG_TFOOT,
   ids.TAG_TH, ids.TAG_THEAD, ids.TAG_TR, ids.TAG_BODY, ids.TAG_HTML]

/-- The tag ids of the start tags that IN_BODY hands to the rules of IN_HEAD
(base, basefont, ..., title). -/
def in_body_head_start (ids : TagIds) : List Nat :=
  [ids.TAG_BASE, ids.TAG_BASEFONT, ids.TAG_BGSOUND, ids.TAG_LINK, ids.TAG_META,
   ids.TAG_NOFRAMES, ids.TAG_SCRIPT, ids.TAG_STYLE, ids.TAG_TEMPLATE, ids.TAG_TITLE]

/-- The case `IMODE_IN_BODY` of the mode switch of `insert_token_with_mode`,
followed by the part of the final switch for the same mode, which the case
reaches through its `break`. The rules are tried in the order of the source. -/
def imode_in_body (ids : TagIds) (tags : TagTable) (self : DSelf) (w : World) (t : token) :
    DRes := do
  if t.type = TOKEN_TYPE.TOKEN_COMMENT ∨ t.type = TOKEN_TYPE.TOKEN_DOCTYPE then
    return (STATE.STATE_NONE, w, t)
  if TOKEN_IS_START_TAG t ids.TAG_HTML ∨ TOKEN_IS_START_TAG t ids.TAG_BODY then
    return (STATE.STATE_NONE, w, t)
  if TOKEN_IS_START_TAG t ids.TAG_FRAMESET then
    return (STATE.STATE_NONE, w, t)
  if TOKEN_IS_START_TAG t ids.TAG_SELECT then
    if w.ctx.mode = IMODE.IMODE_IN_TABLE ∨ w.ctx.mode = IMODE.IMODE_IN_CAPTION ∨
        w.ctx.mode = IMODE.IMODE_IN_TABLE_BODY ∨ w.ctx.mode = IMODE.IMODE_IN_ROW ∨
        w.ctx.mode = IMODE.IMODE_IN_CELL then
      let r ← insert_tag_set_mode tags w t IMODE.IMODE_IN_SELECT_IN_TABLE
      return (STATE.STATE_NONE, r.1, r.2)
    else
      let r ← insert_tag_set_mode tags w t IMODE.IMODE_IN_SELECT
      return (STATE.STATE_NONE, r.1, r.2)
  if is_start_tag t (in_body_head_start ids) ∨ TOKEN_IS_END_TAG t ids.TAG_TEMPLATE then
    self w t IMODE.IMODE_IN_HEAD
  else
  if TOKEN_IS_END_TAG t ids.TAG_BODY ∨ TOKEN_IS_END_TAG t ids.TAG_HTML then
    let open_body ← is_open w [ids.TAG_BODY]
    if open_body = false then return (STATE.STATE_NONE, w, t)
    let tagid ← is_open_other_than w (in_body_may_stay_open ids)
    if tagid ≠ -1 then
      let _ ← tag_flags tags tagid.toNat
      return (STATE.STATE_NONE, w, t)
    if TOKEN_IS_END_TAG t ids.TAG_BODY then
      let r ← insert_close_tag w t
      return (STATE.STATE_NONE, r.1, r.2)
    self w t IMODE.IMODE_AFTER_BODY
  else
  if is_start_tag t (in_body_block_start ids) then
    let c ← check_p ids w
    if c.1 then return (STATE.STATE_NONE, c.2, t)
    let r ← insert_tag tags c.2 t
    return (STATE.STATE_NONE, r.1, r.2)
  let end_heading ←
    if TOKEN_IS_END t then (tag_flags tags t.tag.tagid).map (fun f => decide (f &&& TAG_HEADING ≠ 0))
    else pure false
  if end_heading then
    let in_scope ← has_element_in_scope ids w t.tag.tagid scope.SCOPE_ANY
    if in_scope = false then return (STATE.STATE_NONE, w, t)
    let w1 ← generate_implied_end_tags ids w (t.tag.tagid : Int)
    let top ← peek_tagid w1
    if top ≠ t.tag.tagid then return (STATE.STATE_NONE, w1, t)
    let r ← pop_elem w1 t.tag.tagid
    return (STATE.STATE_NONE, r.2, t)
  if TOKEN_IS_START_TAG t ids.TAG_MATH then
    let r ← insert_foreign_element tags w t NS_MATHML
    return (STATE.STATE_NONE, r.1, r.2)
  if TOKEN_IS_START_TAG t ids.TAG_SVG then
    let r ← insert_foreign_element tags w t NS_SVG
    return (STATE.STATE_NONE, r.1, r.2)
  if TOKEN_IS_START_TAG t ids.TAG_A then
    let r ← insert_tag tags w t
    return (STATE.STATE_NONE, r.1, r.2)
  let start_format ←
    if TOKEN_IS_START t then (tag_flags tags t.tag.tagid).map (fun f => decide (f &&& TAG_FORMAT ≠ 0))
    else pure false
  if start_format then
    let r ← insert_tag tags w t
    return (STATE.STATE_NONE, r.1, r.2)
  if TOKEN_IS_START_TAG t ids.TAG_TABLE then
    let c ← check_p ids w
    if c.1 then return (STATE.STATE_NONE, c.2, t)
    let r ← insert_tag_set_mode tags c.2 t IMODE.IMODE_IN_TABLE
    return (STATE.STATE_NONE, r.1, r.2)
  if TOKEN_IS_START_TAG t ids.TAG_NOBR then
    return (STATE.STATE_NONE, w, t)
  let end_format ←
    if TOKEN_IS_END t then
      (tag_flags tags t.tag.tagid).map (fun f =>
        decide (f &&& TAG_FORMAT ≠ 0) || decide (t.tag.tagid = ids.TAG_A) ||
          decide (t.tag.tagid = ids.TAG_NOBR))
    else pure false
  if end_format then
    let r ← insert_close_tag w t
    return (STATE.STATE_NONE, r.1, r.2)
  if is_start_tag t [ids.TAG_APPLET, ids.TAG_MARQUEE, ids.TAG_OBJECT] then
    return (STATE.STATE_NONE, w, t)
  if TOKEN_IS_END_TAG t ids.TAG_BR then
    return (STATE.STATE_NONE, w, t)
  if is_start_tag t [ids.TAG_AREA, ids.TAG_BR, ids.TAG_EMBED, ids.TAG_IMG, ids.TAG_KEYGEN,
      ids.TAG_WBR] then
    let r ← insert_tag tags w t
    return (STATE.STATE_NONE, r.1, r.2)
  let start_heading ←
    if TOKEN_IS_START t then (tag_flags tags t.tag.tagid).map (fun f => decide (f &&& TAG_HEADING ≠ 0))
    else pure false
  if start_heading then
    let c ← check_p ids w
    if c.1 then return (STATE.STATE_NONE, c.2, t)
    let top ← peek_tagid c.2
    let flags ← tag_flags tags top
    let w1 ← if flags &&& TAG_HEADING ≠ 0 then (pop c.2).map (fun r => r.2) else pure c.2
    let r ← insert_tag tags w1 t
    return (STATE.STATE_NONE, r.1, r.2)
  if is_start_tag t [ids.TAG_PRE, ids.TAG_LISTING] then
    let c ← check_p ids w
    if c.1 then return (STATE.STATE_NONE, c.2, t)
    let r ← insert_tag tags c.2 t
    return (STATE.STATE_NONE, r.1, r.2)
  if TOKEN_IS_START_TAG t ids.TAG_FORM then
    let c ← check_p ids w
    if c.1 then return (STATE.STATE_NONE, c.2, t)
    let r ← insert_tag tags c.2 t
    return (STATE.STATE_NONE, r.1, r.2)
  if TOKEN_IS_START_TAG t ids.TAG_BUTTON then
    let in_scope ← has_element_in_scope ids w ids.TAG_BUTTON scope.SCOPE_ANY
    let w1 ←
      if in_scope then do
        let w0 ← generate_implied_end_tags ids w (-1)
        let r ← pop_elem w0 ids.TAG_BUTTON
        pure r.2
      else pure w
    let r ← insert_tag tags w1 t
    return (STATE.STATE_NONE, r.1, r.2)
  if is_end_tag t (in_body_block_end ids) then
    let in_scope ← has_element_in_scope ids w t.tag.tagid scope.SCOPE_ANY
    if in_scope = false then return (STATE.STATE_NONE, w, t)
    let w1 ← generate_implied_end_tags ids w 0
    let top ← elem_at w1 (ostack_peek w1.ostack)
    if top.ns ≠ NS_HTML ∨ top.tagid ≠ t.tag.tagid then return (STATE.STATE_NONE, w1, t)
    let r ← pop_elem w1 t.tag.tagid
    return (STATE.STATE_NONE, r.2, t)
  if is_end_tag t [ids.TAG_DD, ids.TAG_DT] then
    let in_scope ← has_element_in_scope ids w t.tag.tagid scope.SCOPE_ANY
    if in_scope = false then return (STATE.STATE_NONE, w, t)
    let w1 ← generate_implied_end_tags ids w (t.tag.tagid : Int)
    let top ← peek_tagid w1
    if top ≠ t.tag.tagid then return (STATE.STATE_NONE, w1, t)
    let r ← pop_elem w1 t.tag.tagid
    return (STATE.STATE_NONE, r.2, t)
  if is_start_tag t [ids.TAG_DD, ids.TAG_DT] then
    let l ← dd_dt_loop ids tags w (ostack_depth w.ostack + 1) (ostack_depth w.ostack)
    if l.1 = false then return (STATE.STATE_NONE, l.2, t)
    let c ← check_p ids l.2
    if c.1 then return (STATE.STATE_NONE, c.2, t)
    let r ← insert_tag tags c.2 t
    return (STATE.STATE_NONE, r.1, r.2)
  if TOKEN_IS_START_TAG t ids.TAG_PLAINTEXT then
    let c ← check_p ids w
    if c.1 then return (STATE.STATE_NONE, c.2, t)
    let r ← insert_tag tags c.2 t
    return (STATE.STATE_PLAINTEXT, r.1, r.2)
  if TOKEN_IS_END_TAG t ids.TAG_P then
    let in_scope ← has_element_in_scope ids w ids.TAG_P scope.SCOPE_BUTTON
    let w1 ← if in_scope = false then insert_tag_name tags w [112] false else pure w
    let c ← close_p_element ids w1
    return (STATE.STATE_NONE, c.2, t)
  if TOKEN_IS_END_TAG t ids.TAG_LI then
    let in_scope ← has_element_in_scope ids w ids.TAG_LI scope.SCOPE_LIST_ITEM
    if in_scope = false then return (STATE.STATE_NONE, w, t)
    let w1 ← generate_implied_end_tags ids w (ids.TAG_LI : Int)
    let top ← peek_tagid w1
    if top ≠ ids.TAG_LI then return (STATE.STATE_NONE, w1, t)
    let r ← pop_elem w1 ids.TAG_LI
    return (STATE.STATE_NONE, r.2, t)
  if TOKEN_IS_START_TAG t ids.TAG_LI then
    let l ← li_loop ids tags (ostack_depth w.ostack + 1) w
    if l.1 = false then return (STATE.STATE_NONE, l.2, t)
    let c ← check_p ids l.2
    if c.1 then return (STATE.STATE_NONE, c.2, t)
    let r ← insert_tag tags c.2 t
    return (STATE.STATE_NONE, r.1, r.2)
  if TOKEN_IS_START t then
    let r ← insert_tag tags w t
    return (STATE.STATE_NONE, r.1, r.2)
  if TOKEN_IS_END t then
    let w1 ← any_other_end_tag_loop ids tags t (ostack_depth w.ostack + 2) w (ostack_peek w.ostack)
    return (STATE.STATE_NONE, w1, t)
  return (STATE.STATE_NONE, w, t)

/-- The case `IMODE_IN_HEAD` of the mode switch of `insert_token_with_mode`. -/
def imode_in_head (ids : TagIds) (tags : TagTable) (self : DSelf) (w : World) (t : token) :
    DRes := do
  if TOKEN_IS_START_TAG t ids.TAG_TITLE then
    let r ← insert_tag tags w t
    return (STATE.STATE_RCDATA, r.1, r.2)
  if TOKEN_IS_END_TAG t ids.TAG_HEAD then
    let r ← insert_close_tag_set_mode w t IMODE.IMODE_AFTER_HEAD
    return (STATE.STATE_NONE, r.1, r.2)
  if is_start_tag t [ids.TAG_META, ids.TAG_BASE, ids.TAG_BASEFONT, ids.TAG_BGSOUND,
      ids.TAG_LINK] then
    let r ← insert_tag tags w t
    return (STATE.STATE_NONE, r.1, r.2)
  if TOKEN_IS_END_TAG t ids.TAG_TITLE then
    let r ← insert_close_tag w t
    return (STATE.STATE_NONE, r.1, r.2)
  if is_start_tag t [ids.TAG_NOFRAMES, ids.TAG_STYLE] then
    let r ← insert_tag tags w t
    let w1 : World :=
      { r.1 with ctx := { r.1.ctx with orig_mode := r.1.ctx.mode, mode := IMODE.IMODE_TEXT } }
    return (STATE.STATE_RAWTEXT, w1, r.2)
  if TOKEN_IS_START_TAG t ids.TAG_NOSCRIPT then
    let r ← insert_tag_set_mode tags w t IMODE.IMODE_IN_HEAD_NOSCRIPT
    return (STATE.STATE_NONE, r.1, r.2)
  if TOKEN_IS_START_TAG t ids.TAG_SCRIPT then
    let w1 : World :=
      { w with ctx := { w.ctx with orig_mode := w.ctx.mode, mode := IMODE.IMODE_TEXT } }
    let r ← insert_tag tags w1 t
    return (STATE.STATE_SCRIPT_DATA, r.1, r.2)
  let r ← pop_elem w ids.TAG_HEAD
  let q ← insert_token_set_mode self r.2 t IMODE.IMODE_AFTER_HEAD
  return (STATE.STATE_NONE, q.1, q.2)

/-- The case `IMODE_IN_SELECT` of the mode switch of `insert_token_with_mode`. -/
def imode_in_select (ids : TagIds) (tags : TagTable) (w : World) (t : token) : DRes := do
  if TOKEN_IS_END_TAG t ids.TAG_SELECT then
    let in_scope ← has_element_in_scope ids w ids.TAG_SELECT scope.SCOPE_SELECT
    if in_scope = false then return (STATE.STATE_NONE, w, t)
    let r ← pop_elem w ids.TAG_SELECT
    let m ← reset_imode ids r.2 r.2.ctx.head_elem
    return (STATE.STATE_NONE, { r.2 with ctx := { r.2.ctx with mode := m } }, t)
  if TOKEN_IS_START_TAG t ids.TAG_OPTION then
    let top ← peek_tagid w
    let w1 ← if top = ids.TAG_OPTION then (pop w).map (fun r => r.2) else pure w
    let r ← insert_tag tags w1 t
    return (STATE.STATE_NONE, r.1, r.2)
  if TOKEN_IS_START_TAG t ids.TAG_OPTGROUP then
    let top ← peek_tagid w
    let w1 ← if top = ids.TAG_OPTION then (pop w).map (fun r => r.2) else pure w
    let top1 ← peek_tagid w1
    let w2 ← if top1 = ids.TAG_OPTGROUP then (pop w1).map (fun r => r.2) else pure w1
    let r ← insert_tag tags w2 t
    return (STATE.STATE_NONE, r.1, r.2)
  return (STATE.STATE_NONE, w, t)

/-- The case `IMODE_IN_TABLE` of the mode switch of `insert_token_with_mode`. -/
def imode_in_table (ids : TagIds) (tags : TagTable) (self : DSelf) (w : World) (t : token) :
    DRes := do
  if t.type = TOKEN_TYPE.TOKEN_CHAR then
    let w1 : World :=
      { w with ctx := { w.ctx with orig_mode := w.ctx.mode, mode := IMODE.IMODE_IN_TABLE_TEXT } }
    return (STATE.STATE_NONE, w1, t)
  if TOKEN_IS_END_TAG t ids.TAG_TABLE then
    let in_scope ← has_element_in_scope ids w ids.TAG_TABLE scope.SCOPE_TABLE
    if in_scope = false then return (STATE.STATE_NONE, w, t)
    let r ← pop_elem w ids.TAG_TABLE
    if r.1 = none then return (STATE.STATE_NONE, r.2, t)
    if r.2.ctx.head_elem = none then throw Fault.assert_failed
    let m ← reset_imode ids r.2 r.2.ctx.head_elem
    return (STATE.STATE_NONE, { r.2 with ctx := { r.2.ctx with mode := m } }, t)
  if is_start_tag t [ids.TAG_TBODY, ids.TAG_TFOOT, ids.TAG_THEAD] then
    let w1 ← clear_to_context ids w context.CONTEXT_TABLE
    let r ← insert_tag_set_mode tags w1 t IMODE.IMODE_IN_TABLE_BODY
    return (STATE.STATE_NONE, r.1, r.2)
  if is_start_tag t [ids.TAG_TD, ids.TAG_TH, ids.TAG_TR] then
    let w1 ← clear_to_context ids w context.CONTEXT_TABLE
    let w2 ← insert_tag_name_set_mode tags w1 [116, 98, 111, 100, 121] false
      IMODE.IMODE_IN_TABLE_BODY
    redispatch self w2 t
  else
    return (STATE.STATE_NONE, w, t)

/-- The case `IMODE_IN_TABLE_BODY` of the mode switch of `insert_token_with_mode`. -/
def imode_in_table_body (ids : TagIds) (tags : TagTable) (self : DSelf) (w : World)
    (t : token) : DRes := do
  if TOKEN_IS_START_TAG t ids.TAG_TR then
    let w1 ← clear_to_context ids w context.CONTEXT_TABLE_BODY
    let r ← insert_tag_set_mode tags w1 t IMODE.IMODE_IN_ROW
    return (STATE.STATE_NONE, r.1, r.2)
  if is_start_tag t [ids.TAG_TH, ids.TAG_TD] then
    let w1 ← clear_to_context ids w context.CONTEXT_TABLE_BODY
    let w2 ← insert_tag_name_set_mode tags w1 [116, 114] false IMODE.IMODE_IN_ROW
    return (STATE.STATE_NONE, w2, t)
  self w t IMODE.IMODE_IN_TABLE

/-- The case `IMODE_IN_ROW` of the mode switch of `insert_token_with_mode`. -/
def imode_in_row (ids : TagIds) (tags : TagTable) (self : DSelf) (w : World) (t : token) :
    DRes := do
  if is_start_tag t [ids.TAG_TH, ids.TAG_TD] then
    let w1 ← clear_to_context ids w context.CONTEXT_TABLE_ROW
    let r ← insert_tag_set_mode tags w1 t IMODE.IMODE_IN_CELL
    return (STATE.STATE_NONE, r.1, r.2)
  if is_end_tag t [ids.TAG_TR] then
    let in_scope ← has_element_in_scope ids w ids.TAG_TR scope.SCOPE_TABLE
    if in_scope = false then return (STATE.STATE_NONE, w, t)
    let w1 ← clear_to_context ids w context.CONTEXT_TABLE_ROW
    let r ← pop w1
    return (STATE.STATE_NONE,
      { r.2 with ctx := { r.2.ctx with mode := IMODE.IMODE_IN_TABLE_BODY } }, t)
  if is_start_tag t [ids.TAG_CAPTION, ids.TAG_COL, ids.TAG_COLGROUP, ids.TAG_TBODY,
      ids.TAG_TFOOT, ids.TAG_THEAD, ids.TAG_TR] ∨ is_end_tag t [ids.TAG_TABLE] then
    let in_scope ← has_element_in_scope ids w ids.TAG_TR scope.SCOPE_TABLE
    if in_scope = false then return (STATE.STATE_NONE, w, t)
    let w1 ← clear_to_context ids w context.CONTEXT_TABLE_ROW
    let top ← peek_tagid w1
    if top ≠ ids.TAG_TR then return (STATE.STATE_NONE, w1, t)
    let r ← pop w1
    redispatch self { r.2 with ctx := { r.2.ctx with mode := IMODE.IMODE_IN_TABLE_BODY } } t
  else
    return (STATE.STATE_NONE, w, t)

/-- The case `IMODE_IN_CELL` of the mode switch of `insert_token_with_mode`. -/
def imode_in_cell (ids : TagIds) (self : DSelf) (w : World) (t : token) : DRes := do
  if is_end_tag t [ids.TAG_TH, ids.TAG_TD] then
    let in_scope ← has_element_in_scope ids w t.tag.tagid scope.SCOPE_TABLE
    if in_scope = false then return (STATE.STATE_NONE, w, t)
    let w1 ← generate_implied_end_tags ids w (-1)
    let top ← peek_tagid w1
    if top ≠ t.tag.tagid then return (STATE.STATE_NONE, w1, t)
    let r ← pop_elem w1 t.tag.tagid
    return (STATE.STATE_NONE, { r.2 with ctx := { r.2.ctx with mode := IMODE.IMODE_IN_ROW } }, t)
  if is_start_tag t [ids.TAG_CAPTION, ids.TAG_COL, ids.TAG_COLGROUP, ids.TAG_TBODY,
      ids.TAG_TD, ids.TAG_TFOOT, ids.TAG_TH, ids.TAG_THEAD, ids.TAG_TR] then
    let in_td ← has_element_in_scope ids w ids.TAG_TD scope.SCOPE_TABLE
    let in_cell ←
      if in_td then pure true else has_element_in_scope ids w ids.TAG_TH scope.SCOPE_TABLE
    if in_cell = false then return (STATE.STATE_NONE, w, t)
    let w1 ← close_cell ids w
    redispatch self w1 t
  else
  if is_end_tag t [ids.TAG_BODY, ids.TAG_CAPTION, ids.TAG_COL, ids.TAG_COLGROUP,
      ids.TAG_HTML] then
    return (STATE.STATE_NONE, w, t)
  if is_end_tag t [ids.TAG_TABLE, ids.TAG_TBODY, ids.TAG_TFOOT, ids.TAG_THEAD,
      ids.TAG_TR] then
    let in_scope ← has_element_in_scope ids w t.tag.tagid scope.SCOPE_TABLE
    if in_scope = false then return (STATE.STATE_NONE, w, t)
    let w1 ← close_cell ids w
    redispatch self w1 t
  else
    self w t IMODE.IMODE_IN_BODY

/-- The body of `insert_token_with_mode`; `self` stands for the function itself
in its recursive calls (direct ones, and those through `dispatch` and
`insert_token_set_mode`). -/
def insert_token_with_mode_body (ids : TagIds) (tags : TagTable) (self : DSelf) (w : World)
    (t : token) (mode : IMODE) : DRes := do
  if t.type = TOKEN_TYPE.TOKEN_EMPTY ∨ t.type = TOKEN_TYPE.TOKEN_COMMENT then
    return (STATE.STATE_NONE, w, t)
  -- catch-all character insert
  if t.type = TOKEN_TYPE.TOKEN_CHAR ∧ mode = IMODE.IMODE_IN_HEAD ∧
      ostack_peek w.ostack ≠ none then
    let top ← peek_tagid w
    if top = ids.TAG_TITLE then
      let r ← insert_char w t
      return (STATE.STATE_NONE, r.1, r.2)
  if t.type = TOKEN_TYPE.TOKEN_CHAR ∧ mode = IMODE.IMODE_TEXT then
    return (STATE.STATE_NONE, w, t)
  if t.type = TOKEN_TYPE.TOKEN_CHAR ∧ mode = IMODE.IMODE_IN_BODY then
    let r ← insert_char w t
    return (STATE.STATE_NONE, r.1, r.2)
  if mode ≠ IMODE.IMODE_INITIAL ∧ t.type = TOKEN_TYPE.TOKEN_DOCTYPE then
    return (STATE.STATE_NONE, w, t)
  -- whitespace rules
  if mode = IMODE.IMODE_INITIAL ∨ mode = IMODE.IMODE_BEFORE_HTML ∨
      mode = IMODE.IMODE_BEFORE_HEAD then
    let sp ← TOKEN_IS_SPACE t
    if sp then return (STATE.STATE_NONE, w, t)
  if mode = IMODE.IMODE_IN_HEAD ∨ mode = IMODE.IMODE_IN_BODY ∨
      mode = IMODE.IMODE_AFTER_HEAD then
    let sp ← TOKEN_IS_SPACE t
    if sp then
      let r ← insert_char w t
      return (STATE.STATE_NONE, r.1, r.2)
  match mode with
  | IMODE.IMODE_INITIAL =>
    if t.type = TOKEN_TYPE.TOKEN_DOCTYPE then
      return (STATE.STATE_NONE, { w with ctx := { w.ctx with mode := IMODE.IMODE_BEFORE_HTML } }, t)
    let r ← insert_token_set_mode self w t IMODE.IMODE_BEFORE_HTML
    return (STATE.STATE_NONE, r.1, r.2)
  | IMODE.IMODE_BEFORE_HTML =>
    if TOKEN_IS_START_TAG t ids.TAG_HTML then
      let r ← insert_tag_set_mode tags w t IMODE.IMODE_BEFORE_HEAD
      return (STATE.STATE_NONE, r.1, r.2)
    let w1 ← insert_tag_name_set_mode tags w [104, 116, 109, 108] false IMODE.IMODE_BEFORE_HEAD
    redispatch self w1 t
  | IMODE.IMODE_BEFORE_HEAD =>
    if TOKEN_IS_START_TAG t ids.TAG_HEAD then
      let r ← insert_tag_set_mode tags w t IMODE.IMODE_IN_HEAD
      return (STATE.STATE_NONE, r.1, r.2)
    let w1 ← insert_tag_name_set_mode tags w [104, 101, 97, 100] false IMODE.IMODE_IN_HEAD
    let r ← insert_token_set_mode self w1 t IMODE.IMODE_IN_HEAD
    return (STATE.STATE_NONE, r.1, r.2)
  | IMODE.IMODE_IN_HEAD => imode_in_head ids tags self w t
  | IMODE.IMODE_TEXT =>
    if TOKEN_IS_END_TAG t ids.TAG_SCRIPT then
      let r ← insert_close_tag_set_mode w t w.ctx.orig_mode
      return (STATE.STATE_NONE, r.1, r.2)
    let r ← pop w
    return (STATE.STATE_NONE, { r.2 with ctx := { r.2.ctx with mode := r.2.ctx.orig_mode } }, t)
  | IMODE.IMODE_AFTER_HEAD =>
    if TOKEN_IS_START_TAG t ids.TAG_HTML then
      let r ← self w t IMODE.IMODE_IN_BODY
      return (STATE.STATE_NONE, r.2.1, r.2.2)
    if TOKEN_IS_START_TAG t ids.TAG_BODY then
      let r ← insert_tag_set_mode tags w t IMODE.IMODE_IN_BODY
      return (STATE.STATE_NONE, r.1, r.2)
    let w1 ← insert_tag_name_set_mode tags w [98, 111, 100, 121] false IMODE.IMODE_IN_BODY
    redispatch self w1 t
  | IMODE.IMODE_IN_SELECT => imode_in_select ids tags w t
  | IMODE.IMODE_IN_BODY => imode_in_body ids tags self w t
  | IMODE.IMODE_AFTER_BODY =>
    if TOKEN_IS_END_TAG t ids.TAG_HTML then
      let r ← insert_close_tag w t
      return (STATE.STATE_NONE,
        { r.1 with ctx := { r.1.ctx with mode := IMODE.IMODE_AFTER_AFTER_BODY } }, r.2)
    return (STATE.STATE_NONE, w, t)
  | IMODE.IMODE_IN_TABLE => imode_in_table ids tags self w t
  | IMODE.IMODE_IN_TABLE_BODY => imode_in_table_body ids tags self w t
  | IMODE.IMODE_IN_ROW => imode_in_row ids tags self w t
  | IMODE.IMODE_IN_CELL => imode_in_cell ids self w t
  | IMODE.IMODE_IN_TABLE_TEXT =>
    let sp ← TOKEN_IS_SPACE t
    if sp then
      let r ← insert_char w t
      return (STATE.STATE_NONE, r.1, r.2)
    redispatch self { w with ctx := { w.ctx with mode := w.ctx.orig_mode } } t
  | IMODE.IMODE_AFTER_AFTER_BODY => return (STATE.STATE_NONE, w, t)
  | IMODE.IMODE_IN_HEAD_NOSCRIPT =>
    let r ← pop w
    return (STATE.STATE_NONE, { r.2 with ctx := { r.2.ctx with mode := IMODE.IMODE_IN_HEAD } }, t)
  | _ => return (STATE.STATE_NONE, w, t)

/-- Embedding of `insert_token_with_mode`. The function calls itself; the first
argument bounds the depth of these calls, and `Fault.no_return` reports that the
bound was reached. -/
def insert_token_with_mode (ids : TagIds) (tags : TagTable) :
    Nat → World → token → IMODE → DRes
  | 0 => fun _ _ _ => Except.error Fault.no_return
  | n + 1 => insert_token_with_mode_body ids tags (insert_token_with_mode ids tags n)

/-- Embedding of `dispatch`: the token is inserted in the current mode. The two
callbacks are the event log of the world. -/
def dispatch (ids : TagIds) (tags : TagTable) (fuel : Nat) (w : World) (t : token) : DRes :=
  insert_token_with_mode ids tags fuel w t w.ctx.mode

/-- Modelled from the spec: the rows of the generated table of `tags.c`, which
is not part of the sources at hand, as far as the dispatcher names them: for
every constant `TAG_...` used in `dispatch.c` the lowercase name, and with them
`b`, `i`, `em`, `strong` and `h1` to `h6`. A row gives the slot, the name and
the flags. The slot is the one the probing of `tagmap_id` reaches for the name
(see `tags_html_lookup`). Of the flags only `TAG_EMPTY` (the void elements),
`TAG_SPECIAL`, `TAG_HEADING` (`h1` to `h6`) and `TAG_FORMAT` (`a`, `b`, `i`,
`em`, `strong`) are set, the ones the dispatcher reads. -/
def tags_html_rows : List (Nat × String × Nat) :=
  [(633, "a", 32), (1006, "address", 8), (454, "applet", 8), (337, "area", 9),
   (124, "article", 8), (30, "aside", 8), (299, "base", 9), (314, "basefont", 9),
   (418, "bgsound", 9), (425, "blockquote", 8), (254, "body", 8), (100, "br", 9),
   (916, "button", 8), (286, "caption", 8), (265, "center", 8), (774, "col", 9),
   (179, "colgroup", 8), (488, "dd", 8), (934, "details", 8), (224, "dialog", 0),
   (767, "dir", 8), (867, "div", 8), (688, "dl", 8), (888, "dt", 8), (981, "embed", 9),
   (848, "fieldset", 8), (588, "figcaption", 8), (58, "figure", 8), (919, "footer", 8),
   (388, "form", 8), (23, "frameset", 8), (906, "head", 8), (417, "header", 8),
   (709, "hgroup", 8), (549, "html", 8), (221, "img", 9), (868, "keygen", 9), (749, "li", 8),
   (158, "link", 9), (930, "listing", 8), (845, "main", 8), (680, "marquee", 8),
   (402, "math", 0), (341, "menu", 8), (519, "meta", 9), (53, "nav", 8), (761, "nobr", 0),
   (3, "noframes", 8), (586, "noscript", 8), (559, "object", 8), (907, "ol", 8),
   (304, "optgroup", 0), (881, "option", 0), (752, "p", 8), (169, "plaintext", 8),
   (287, "pre", 8), (484, "rb", 0), (322, "rp", 0), (422, "rt", 0), (993, "rtc", 0),
   (85, "script", 8), (333, "section", 8), (800, "select", 8), (409, "style", 8),
   (526, "summary", 8), (305, "svg", 0), (272, "table", 8), (466, "tbody", 8), (248, "td", 8),
   (820, "template", 8), (180, "tfoot", 8), (348, "th", 8), (94, "thead", 8),
   (186, "title", 8), (86, "tr", 8), (561, "ul", 8), (147, "wbr", 9), (914, "b", 32),
   (833, "i", 32), (59, "em", 32), (237, "strong", 32), (945, "h1", 24), (202, "h2", 24),
   (483, "h3", 24), (764, "h4", 24), (21, "h5", 24), (302, "h6", 24)]

/-- Modelled from the spec: the table of `tags.c` with the rows of
`tags_html_rows`; every other slot is empty. -/
def tags_html : TagTable := fun i =>
  match tags_html_rows.find? (fun r => r.1 = i) with
  | some r => { name := some (cstr r.2.1), flags := r.2.2 }
  | none => { name := none, flags := 0 }

/-- Modelled from the spec: the constants `TAG_...` of the generated header
`tags.h`, which is not part of the sources at hand: each is the slot of the
name in `tags_html`, the value `tagmap_id` returns for the name. -/
def ids_html : TagIds :=
  { TAG_A := 633, TAG_ADDRESS := 1006, TAG_APPLET := 454, TAG_AREA := 337, TAG_ARTICLE := 124,
    TAG_ASIDE := 30, TAG_BASE := 299, TAG_BASEFONT := 314, TAG_BGSOUND := 418,
    TAG_BLOCKQUOTE := 425, TAG_BODY := 254, TAG_BR := 100, TAG_BUTTON := 916,
    TAG_CAPTION := 286, TAG_CENTER := 265, TAG_COL := 774, TAG_COLGROUP := 179, TAG_DD := 488,
    TAG_DETAILS := 934, TAG_DIALOG := 224, TAG_DIR := 767, TAG_DIV := 867, TAG_DL := 688,
    TAG_DT := 888, TAG_EMBED := 981, TAG_FIELDSET := 848, TAG_FIGCAPTION := 588,
    TAG_FIGURE := 58, TAG_FOOTER := 919, TAG_FORM := 388, TAG_FRAMESET := 23, TAG_HEAD := 906,
    TAG_HEADER := 417, TAG_HGROUP := 709, TAG_HTML := 549, TAG_IMG := 221, TAG_KEYGEN := 868,
    TAG_LI := 749, TAG_LINK := 158, TAG_LISTING := 930, TAG_MAIN := 845, TAG_MARQUEE := 680,
    TAG_MATH := 402, TAG_MENU := 341, TAG_META := 519, TAG_NAV := 53, TAG_NOBR := 761,
    TAG_NOFRAMES := 3, TAG_NOSCRIPT := 586, TAG_OBJECT := 559, TAG_OL := 907,
    TAG_OPTGROUP := 304, TAG_OPTION := 881, TAG_P := 752, TAG_PLAINTEXT := 169, TAG_PRE := 287,
    TAG_RB := 484, TAG_RP := 322, TAG_RT := 422, TAG_RTC := 993, TAG_SCRIPT := 85,
    TAG_SECTION := 333, TAG_SELECT := 800, TAG_STYLE := 409, TAG_SUMMARY := 526,
    TAG_SVG := 305, TAG_TABLE := 272, TAG_TBODY := 466, TAG_TD := 248, TAG_TEMPLATE := 820,
    TAG_TFOOT := 180, TAG_TH := 348, TAG_THEAD := 94, TAG_TITLE := 186, TAG_TR := 86,
    TAG_UL := 561, TAG_WBR := 147 }

/-- The loop of `main` in `dumptree.c`: while the input is not at its end, call
`tokenize`; a token returned is dispatched, a state other than `STATE_NONE`
returned by `dispatch` is stored in the tokenizer, and `token_clear` is run on
the token. Nothing follows the loop that would touch the dispatcher. The call
of `tokenize` that meets the end of the input changes nothing and is left out.
The list holds the values the variable `state` of `main` was given, the
results of the calls of `dispatch`, in order. `calls` bounds the number of
calls of `tokenize`, `depth` the depth of the calls inside one `dispatch`. -/
def main_loop (ids : TagIds) (tags : TagTable) (depth : Nat) :
    Nat → tokenizer → World → List STATE → Except Fault (tokenizer × World × List STATE)
  | 0, _, _, _ => Except.error Fault.no_return
  | calls + 1, tk, w, states =>
    match tk.fp with
    | [] => Except.ok (tk, w, states)
    | _ :: _ =>
      match tokenize tags tk with
      | Except.error e => Except.error e
      | Except.ok (none, tk1) => main_loop ids tags depth calls tk1 w states
      | Except.ok (some t, tk1) =>
        match dispatch ids tags depth w t with
        | Except.error e => Except.error e
        | Except.ok (state, w1, t1) =>
          let tk2 : tokenizer :=
            if state ≠ STATE.STATE_NONE then { tk1 with state := state } else tk1
          main_loop ids tags depth calls { tk2 with token := token_clear t1 } w1
            (states ++ [state])

/-- The run of `dumptree.c` on an input, from a zeroed tokenizer and a zeroed
dispatcher: the tokenizer and the world when the loop of `main` has ended, and
the results of the calls of `dispatch`. The loop is given two calls of
`tokenize` per byte of the input (a byte that is reconsumed takes two) and
sixteen nested calls inside one `dispatch`; the result `Fault.no_return` tells
that one of the two bounds was reached. -/
def parse (ids : TagIds) (tags : TagTable) (input : List Nat) :
    Except Fault (tokenizer × World × List STATE) :=
  main_loop ids tags 16 (2 * input.length + 2) (tokenizer_init input) world_init []

/-- What the consumer and the caller observe of a run: the events, in order,
the tag ids of the elements made, in order of their addresses, the elements on
the stack, bottom first, the pending character data, and the results of the
calls of `dispatch`. -/
structure Outcome where
  events : List event
  tagids : List Nat
  stack : List ElemPtr
  pending : Option cdata
  states : List STATE
  deriving DecidableEq, Repr

/-- The outcome of a run, `none` when it ends in a fault. -/
def outcome (r : Except Fault (tokenizer × World × List STATE)) : Option Outcome :=
  match r with
  | Except.error _ => none
  | Except.ok (_, w, states) =>
    some { events := w.events, tagids := w.elems.map (fun e => e.tagid),
           stack := w.ostack.contents, pending := w.ctx.cdata, states := states }

/-- The fault that stopped a computation, `none` when it came to its end. -/
def fault_of {α : Type} (r : Except Fault α) : Option Fault :=
  match r with
  | Except.error e => some e
  | Except.ok _ => none

/-- A start tag token for the tag in slot `id` of the table, as
`token_set_tag_name` fills it for a known name. -/
def start_tag_token (id : Nat) : token :=
  { token_of_type TOKEN_TYPE.TOKEN_START_TAG with
    tag := { tagtoken_zero with tagid := id, name := NamePtr.table id } }

/-- A world for concrete evaluation: the element `p` of `tags_example` is open
and the text `a` is pending. -/
def world_example : World :=
  { ctx := { mode := IMODE.IMODE_IN_BODY, orig_mode := IMODE.IMODE_INITIAL,
             cdata := some { type := T_CDATA.CDATA_TEXT, data := { s := some [97] } },
             head_elem := some 0 },
    ostack := ostack_push ostack_init (some 0),
    elems := [{ tagid := 752, name := NamePtr.table 752, attr := [],
                node := some (node.NODE_ELEM 0), ns := 0 }],
    events := [event.begin (node.NODE_ELEM 0)] }

/-! ## Views of the stack and reference definitions for the stack scans -/

/-- The record behind an element pointer, `none` for `NULL` and for an address
that holds no element. -/
def elem_of (w : World) (p : ElemPtr) : Option elem :=
  p.bind (fun a => w.elems[a]?)

/-- The tag id behind an element pointer (0 when there is no record). -/
def tagid_of (w : World) (p : ElemPtr) : Nat :=
  ((elem_of w p).map (fun e => e.tagid)).getD 0

/-- The tag ids of the elements on the stack, top first. -/
def stack_tagids (w : World) : List Nat :=
  (w.ostack.contents.map (tagid_of w)).reverse

/-- The `end` events for the nodes of the elements on the stack, top first. -/
def stack_end_events (w : World) : List event :=
  (w.ostack.contents.filterMap
    (fun p => ((elem_of w p).bind (fun e => e.node)).map event.end_)).reverse

/-- The `end` event for the pending character data, if there is any. -/
def pending_end_event (w : World) : List event :=
  (w.ctx.cdata.map (fun c => event.end_ (node.NODE_CDATA c))).toList

/-- The worlds the stack scans are specified for: the array of the stack is
well formed, and every pointer on the stack refers to an element record that
has a node. -/
def World.StackOk (w : World) : Prop :=
  w.ostack.WF ∧
  ∀ p ∈ w.ostack.contents, ∃ e nd, elem_of w p = some e ∧ e.node = some nd

/-- The terminator sets of the scopes, as the specification lists them: ANY is
applet, caption, html, table, td, th, marquee, object, template; LIST_ITEM adds
ol and ul; BUTTON adds button; TABLE is html, table, template; in SELECT every
tag other than optgroup and option terminates. -/
def scope_terminator (ids : TagIds) (sc : scope) (x : Nat) : Bool :=
  match sc with
  | scope.SCOPE_ANY =>
    [ids.TAG_APPLET, ids.TAG_CAPTION, ids.TAG_HTML, ids.TAG_TABLE, ids.TAG_TD, ids.TAG_TH,
     ids.TAG_MARQUEE, ids.TAG_OBJECT, ids.TAG_TEMPLATE].contains x
  | scope.SCOPE_LIST_ITEM =>
    [ids.TAG_APPLET, ids.TAG_CAPTION, ids.TAG_HTML, ids.TAG_TABLE, ids.TAG_TD, ids.TAG_TH,
     ids.TAG_MARQUEE, ids.TAG_OBJECT, ids.TAG_TEMPLATE, ids.TAG_OL, ids.TAG_UL].contains x
  | scope.SCOPE_BUTTON =>
    [ids.TAG_APPLET, ids.TAG_CAPTION, ids.TAG_HTML, ids.TAG_TABLE, ids.TAG_TD, ids.TAG_TH,
     ids.TAG_MARQUEE, ids.TAG_OBJECT, ids.TAG_TEMPLATE, ids.TAG_BUTTON].contains x
  | scope.SCOPE_TABLE => [ids.TAG_HTML, ids.TAG_TABLE, ids.TAG_TEMPLATE].contains x
  | scope.SCOPE_SELECT => !([ids.TAG_OPTGROUP, ids.TAG_OPTION].contains x)

/-- The scope query as the claim words it, on the tag ids of the stack, top
first: an element with the tag `target` occurs, and it lies strictly before
every element of the terminator set, so neither an element above the topmost
`target` nor that element itself is a terminator. -/
def in_scope_claimed (ids : TagIds) (target : Nat) (sc : scope) (tags : List Nat) : Bool :=
  tags.contains target &&
    (tags.takeWhile (fun x => x ≠ target) ++ [target]).all (fun x => !scope_terminator ids sc x)

/-- The scope query, reference definition: an element with the tag `target`
occurs, and no element above the topmost such element is a terminator. An
element with the tag `target` counts as found, also when `target` is in the
terminator set. -/
def in_scope_spec (ids : TagIds) (target : Nat) (sc : scope) (tags : List Nat) : Bool :=
  tags.contains target &&
    (tags.takeWhile (fun x => x ≠ target)).all (fun x => !scope_terminator ids sc x)

/-- The tags of the implied end tags, as the specification lists them, without
the exception `x`. -/
def implied_spec (ids : TagIds) (x : Int) (tagid : Nat) : Bool :=
  [ids.TAG_DD, ids.TAG_DT, ids.TAG_LI, ids.TAG_OPTGROUP, ids.TAG_OPTION, ids.TAG_P,
   ids.TAG_RB, ids.TAG_RP, ids.TAG_RT, ids.TAG_RTC].contains tagid && decide ((tagid : Int) ≠ x)

/-- The allowed sets of the contexts, as the specification lists them: TABLE is
table, template, html; TABLE_BODY is tbody, tfoot, thead, template, html;
TABLE_ROW is tr, template, html. -/
def context_allowed_spec (ids : TagIds) (c : context) (x : Nat) : Bool :=
  match c with
  | context.CONTEXT_TABLE => [ids.TAG_TABLE, ids.TAG_TEMPLATE, ids.TAG_HTML].contains x
  | context.CONTEXT_TABLE_BODY =>
    [ids.TAG_TBODY, ids.TAG_TFOOT, ids.TAG_THEAD, ids.TAG_TEMPLATE, ids.TAG_HTML].contains x
  | context.CONTEXT_TABLE_ROW => [ids.TAG_TR, ids.TAG_TEMPLATE, ids.TAG_HTML].contains x

/-- The table of `reset_imode`, as the specification lists it, for an element
with the tag `x`; `last` tells that it is the bottom element, `head_seen` that
the head element pointer is set. `none` when the element does not match. -/
def reset_imode_table (ids : TagIds) (head_seen : Bool) (x : Nat) (last : Bool) :
    Option IMODE :=
  if x = ids.TAG_TD ∨ x = ids.TAG_TH then (if last then none else some IMODE.IMODE_IN_CELL)
  else if x = ids.TAG_TR then some IMODE.IMODE_IN_ROW
  else if x = ids.TAG_TBODY ∨ x = ids.TAG_THEAD ∨ x = ids.TAG_TFOOT then
    some IMODE.IMODE_IN_TABLE_BODY
  else if x = ids.TAG_CAPTION then some IMODE.IMODE_IN_CAPTION
  else if x = ids.TAG_TABLE then some IMODE.IMODE_IN_TABLE
  else if x = ids.TAG_TEMPLATE then some IMODE.IMODE_IN_TEMPLATE
  else if x = ids.TAG_HEAD then some IMODE.IMODE_IN_HEAD
  else if x = ids.TAG_BODY then some IMODE.IMODE_IN_BODY
  else if x = ids.TAG_FRAMESET then some IMODE.IMODE_IN_FRAMESET
  else if x = ids.TAG_HTML then
    some (if head_seen then IMODE.IMODE_AFTER_HEAD else IMODE.IMODE_BEFORE_HEAD)
  else none

/-- Reset insertion mode as the claim words it, on the tag ids of the stack,
top first: the mode of the first element that matches the table, and the
fallback IN_BODY when none matches, the empty stack included. -/
def reset_imode_spec (ids : TagIds) (head_seen : Bool) : List Nat → IMODE
  | [] => IMODE.IMODE_IN_BODY
  | x :: rest =>
    match reset_imode_table ids head_seen x rest.isEmpty with
    | some m => m
    | none => reset_imode_spec ids head_seen rest

/-- A world for concrete evaluation with the table `tags_html`: the elements
`html`, `table` and `p` are open, bottom first, in the mode IN_TABLE. -/
def world_example_table : World :=
  { ctx := { mode := IMODE.IMODE_IN_TABLE, orig_mode := IMODE.IMODE_INITIAL, cdata := none,
             head_elem := some 2 },
    ostack := ostack_push (ostack_push (ostack_push ostack_init (some 0)) (some 1)) (some 2),
    elems := [{ tagid := ids_html.TAG_HTML, name := NamePtr.table ids_html.TAG_HTML, attr := [],
                node := some (node.NODE_ELEM 0), ns := 0 },
              { tagid := ids_html.TAG_TABLE, name := NamePtr.table ids_html.TAG_TABLE, attr := [],
                node := some (node.NODE_ELEM 1), ns := 0 },
              { tagid := ids_html.TAG_P, name := NamePtr.table ids_html.TAG_P, attr := [],
                node := some (node.NODE_ELEM 2), ns := 0 }],
    events := [event.begin (node.NODE_ELEM 0), event.begin (node.NODE_ELEM 1),
               event.begin (node.NODE_ELEM 2)] }

/-- A table of tags for concrete evaluation: it holds `p` and `br` in the
slots their hash selects and nothing else. -/
def tags_example : TagTable := fun i =>
  if i = hash_addr (cstr "p") % TAGMAP_SZ then { name := some (cstr "p"), flags := 0 }
  else if i = hash_addr (cstr "br") % TAGMAP_SZ then { name := some (cstr "br"), flags := 1 }
  else { name := none, flags := 0 }

/-- A table of attribute names for concrete evaluation: it holds `onclick` in
the slot its hash selects and nothing else. -/
def attr_map_example : AttrMapTable := fun i =>
  if i = hash_addr (cstr "onclick") % ATTRMAP_SZ then
    { name := some (cstr "onclick"), flags := 2 }
  else { name := none, flags := 0 }

/-- A table of tags for concrete evaluation without an empty slot: every slot
holds the name `a`. -/
def tags_full : TagTable := fun _ => { name := some (cstr "a"), flags := 0 }

/-- A table of attribute names for concrete evaluation without an empty slot:
every slot holds the name `a`. -/
def attr_map_full : AttrMapTable := fun _ => { name := some (cstr "a"), flags := 0 }

/-- The hash of a name as the specification words it, in unbounded
arithmetic: from 0, every byte is added, the sum is multiplied by 104729 and
reduced modulo `2 ^ 20`. -/
def hash_spec (name : CStr) : Nat :=
  name.foldl (fun h b => ((h + b) * 104729) % 2 ^ 20) 0

/-- The tokenizer states in which the member `token` may still hold the
DOCTYPE token of a declaration that has ended: the state DATA and those reached
from it before the next token is started, with the character reference states
when they return to DATA. -/
def doctype_safe (ctx : tokenizer) : Prop :=
  ctx.token.type = TOKEN_TYPE.TOKEN_DOCTYPE →
    ctx.state = STATE.STATE_DATA ∨ ctx.state = STATE.STATE_TAG_OPEN ∨
    ctx.state = STATE.STATE_END_TAG_OPEN ∨ ctx.state = STATE.STATE_MARKUP_DECLARATION_OPEN ∨
    ctx.state = STATE.STATE_DOCTYPE ∨ ctx.state = STATE.STATE_BEFORE_DOCTYPE_NAME ∨
    ctx.state = STATE.STATE_DOCTYPE_NAME ∨ ctx.state = STATE.STATE_AFTER_DOCTYPE_NAME ∨
    ctx.state = STATE.STATE_BOGUS_DOCTYPE ∨
    ((ctx.state = STATE.STATE_CHARACTER_REFERENCE ∨ ctx.state = STATE.STATE_NAMED_CHAR_REF ∨
      ctx.state = STATE.STATE_NUM_CHAR_REF) ∧ ctx.return_state = STATE.STATE_DATA)

/-- The tokenizer states that read a DOCTYPE declaration after the keyword. -/
def in_doctype (s : STATE) : Prop :=
  s = STATE.STATE_DOCTYPE ∨ s = STATE.STATE_BEFORE_DOCTYPE_NAME ∨ s = STATE.STATE_DOCTYPE_NAME ∨
  s = STATE.STATE_AFTER_DOCTYPE_NAME ∨ s = STATE.STATE_BOGUS_DOCTYPE

/-- The state of the peek buffer between two calls of `tokenize`: the buffer
has its 16 bytes, and while the state is MARKUP_DECLARATION_OPEN either no
prefix is selected and nothing is in the buffer, or a prefix of
`markup_matches` is selected and at least one and fewer bytes than the prefix
has are in the buffer. -/
def peek_ok (ctx : tokenizer) : Prop :=
  ctx.buf.length = 16 ∧
  (ctx.state = STATE.STATE_MARKUP_DECLARATION_OPEN →
    (ctx.match_ = none ∧ ctx.buf_len = 0) ∨
    ∃ m : CStr, ctx.match_ = some m ∧ m ∈ markup_matches ∧ 1 ≤ ctx.buf_len ∧
      ctx.buf_len < m.length)

/-- A computation satisfies a postcondition: every result it returns has the
property (a computation that stops in a fault returns none). -/
def Sat {α : Type} (m : Except Fault α) (P : α → Prop) : Prop :=
  ∀ a, m = Except.ok a → P a

/-- The elements whose node was passed to the callback `begin`, in the order
of the calls. -/
def begun_elems (evs : List event) : List Nat :=
  evs.filterMap (fun e =>
    match e with
    | event.begin (node.NODE_ELEM a) => some a
    | _ => none)

/-- The elements whose node was passed to the callback `end`, in the order of
the calls. -/
def ended_elems (evs : List event) : List Nat :=
  evs.filterMap (fun e =>
    match e with
    | event.end_ (node.NODE_ELEM a) => some a
    | _ => none)

/-- The elements for which `begin` has been called and `end` has not, in the
order of the calls of `begin`. -/
def open_elems (evs : List event) : List Nat :=
  (begun_elems evs).filter (fun a => !(ended_elems evs).contains a)

/-- One event applied to the list of the elements that are begun and not
ended, the most recent first: `begin` of an element puts it in front, `end` of
an element is only allowed for the element in front and removes it (`none`
tells that the events so far were not properly nested); events of character
data change nothing. -/
def nest_step (st : Option (List Nat)) (e : event) : Option (List Nat) :=
  match st, e with
  | none, _ => none
  | some l, event.begin (node.NODE_ELEM a) => some (a :: l)
  | some (b :: l), event.end_ (node.NODE_ELEM a) => if a = b then some l else none
  | some [], event.end_ (node.NODE_ELEM _) => none
  | some l, _ => some l

/-- The events replayed from the start: the elements begun and not ended, the
most recent first, or `none` when some `end` was not for the most recently
begun element that was still open. -/
def nest_replay (evs : List event) : Option (List Nat) :=
  evs.foldl nest_step (some [])

/-- The begin and end events of elements are properly nested. -/
def properly_nested (evs : List event) : Prop :=
  (nest_replay evs).isSome = true

/-- The invariant that ties the stack to the events: the stack is well formed;
the node of every element record is the element node of that record; the
events replay to the elements on the stack (the top of the stack is the most
recently begun element that is not ended); every element begun has a record,
and none was begun twice. -/
def World.Nested (w : World) : Prop :=
  w.ostack.WF ∧
  (∀ (a : Nat) (e : elem), w.elems[a]? = some e → e.node = some (node.NODE_ELEM a)) ∧
  (∃ st : List Nat, nest_replay w.events = some st ∧
    w.ostack.contents = st.reverse.map some) ∧
  (∀ a ∈ begun_elems w.events, a < w.elems.length) ∧
  (begun_elems w.events).Nodup

/-- A sequence of calls of `dispatch`, one per token of the list, each on the
world the call before it left (the world of the first is given); `depth`
bounds the depth of the calls inside one `dispatch`. The tokenizer states
returned are not kept. -/
def dispatch_seq (ids : TagIds) (tags : TagTable) (depth : Nat) :
    World → List token → Except Fault World
  | w, [] => Except.ok w
  | w, t :: ts =>
    match dispatch ids tags depth w t with
    | Except.error e => Except.error e
    | Except.ok r => dispatch_seq ids tags depth r.2.1 ts

/-! # Theorems -/

/-! ### Lemmas on the stack -/

theorem ostack_realloc_length (a : List ElemPtr) (n : Nat) (h : a.length ≤ n) :
    (ostack_realloc a n).length = n := by
  simp [ostack_realloc]
  omega

theorem ostack_realloc_take (a : List ElemPtr) (n k : Nat) (h : a.length ≤ n)
    (hk : k ≤ a.length) : (ostack_realloc a n).take k = a.take k := by
  simp [ostack_realloc, List.take_append_eq_append_take, List.take_take]
  have h1 : min k n = k := by omega
  have h2 : k - min n a.length = 0 := by omega
  simp [h1, h2]

theorem ostack_take_set_self (l : List ElemPtr) (n : Nat) (a : ElemPtr) :
    (l.set n a).take n = l.take n := by
  apply List.ext_getElem?
  intro i
  rw [List.getElem?_take, List.getElem?_take]
  split
  · rw [List.getElem?_set_ne (by omega)]
  · rfl

theorem ostack_push_wf (s : OStack) (e : ElemPtr) (h : s.WF) : (ostack_push s e).WF := by
  obtain ⟨h1, h2⟩ := h
  unfold ostack_push OStack.WF
  by_cases hd : s._ostack_depth = s._ostack_alloc
  · simp only [hd, if_true, List.length_set]
    refine ⟨?_, by omega⟩
    exact ostack_realloc_length _ _ (by omega)
  · simp only [hd, if_false, List.length_set]
    omega

theorem ostack_pop_wf (s : OStack) (h : s.WF) : (ostack_pop s).2.WF := by
  obtain ⟨h1, h2⟩ := h
  unfold ostack_pop OStack.WF
  by_cases hd : s._ostack_depth > 0
  · simp only [hd, if_true]
    omega
  · have h0 : s._ostack_depth = 0 := by omega
    by_cases ha : s._ostack_alloc > 0
    · simp [h0, ha]
    · simp [h0, ha]
      omega

theorem ostack_reachable_wf (s : OStack) (h : s.Reachable) : s.WF := by
  induction h with
  | init => simp [OStack.WF, ostack_init]
  | push s e _ ih => exact ostack_push_wf s e ih
  | pop s _ ih => exact ostack_pop_wf s ih

theorem ostack_push_depth (s : OStack) (e : ElemPtr) :
    (ostack_push s e)._ostack_depth = s._ostack_depth + 1 := by
  unfold ostack_push
  by_cases hd : s._ostack_depth = s._ostack_alloc <;> simp [hd]

theorem ostack_push_contents (s : OStack) (e : ElemPtr) (h : s.WF) :
    (ostack_push s e).contents = s.contents ++ [e] := by
  obtain ⟨h1, h2⟩ := h
  unfold ostack_push OStack.contents
  by_cases hd : s._ostack_depth = s._ostack_alloc
  · simp only [hd, if_true]
    have hl : (ostack_realloc s._ostack (s._ostack_alloc + 4)).length = s._ostack_alloc + 4 :=
      ostack_realloc_length _ _ (by omega)
    rw [List.take_succ]
    rw [ostack_take_set_self]
    rw [ostack_realloc_take _ _ _ (by omega) (by omega)]
    simp [List.getElem?_set, hl]
  · simp only [hd, if_false]
    rw [List.take_succ]
    rw [ostack_take_set_self]
    have : s._ostack_depth < s._ostack.length := by omega
    simp [List.getElem?_set, this]

theorem ostack_pop_depth (s : OStack) :
    (ostack_pop s).2._ostack_depth = s._ostack_depth - 1 := by
  unfold ostack_pop
  by_cases hd : s._ostack_depth > 0
  · simp [hd]
  · have h0 : s._ostack_depth = 0 := by omega
    by_cases ha : s._ostack_alloc > 0 <;> simp [h0, ha]

theorem ostack_pop_contents (s : OStack) (h : s.WF) :
    (ostack_pop s).2.contents = s.contents.dropLast := by
  obtain ⟨h1, h2⟩ := h
  unfold ostack_pop OStack.contents
  by_cases hd : s._ostack_depth > 0
  · simp only [hd, if_true]
    simp only [List.dropLast_eq_take, List.length_take, List.take_take]
    congr 1
    omega
  · have h0 : s._ostack_depth = 0 := by omega
    by_cases ha : s._ostack_alloc > 0 <;> simp [h0, ha]

theorem ostack_slot_contents (s : OStack) (i : Nat) (h : i < s._ostack_depth) :
    s.slot i = s.contents.getD i none := by
  unfold OStack.slot OStack.contents
  simp [List.getD_eq_getElem?_getD, List.getElem?_take, h]

theorem ostack_contents_length (s : OStack) (h : s.WF) :
    s.contents.length = s._ostack_depth := by
  obtain ⟨h1, h2⟩ := h
  simp [OStack.contents]
  omega

theorem ostack_pop_push (s : OStack) (e : ElemPtr) (h : s.WF) :
    (ostack_pop (ostack_push s e)).1 = e ∧
    (ostack_pop (ostack_push s e)).2.contents = s.contents ∧
    (ostack_pop (ostack_push s e)).2._ostack_depth = s._ostack_depth := by
  have hw := ostack_push_wf s e h
  have hd := ostack_push_depth s e
  have hc := ostack_push_contents s e h
  have hl := ostack_contents_length s h
  refine ⟨?_, ?_, ?_⟩
  · have hpos : (ostack_push s e)._ostack_depth > 0 := by omega
    have : (ostack_pop (ostack_push s e)).1
        = (ostack_push s e).slot ((ostack_push s e)._ostack_depth - 1) := by
      simp [ostack_pop, hpos]
    rw [this, ostack_slot_contents _ _ (by omega), hc, hd]
    simp [List.getD_eq_getElem?_getD, ← hl]
  · rw [ostack_pop_contents _ hw, hc]
    simp
  · rw [ostack_pop_depth, hd]
    simp

theorem ostack_push_all_wf (es : List ElemPtr) (s : OStack) (h : s.WF) :
    (ostack_push_all s es).WF := by
  induction es generalizing s with
  | nil => simpa [ostack_push_all] using h
  | cons e es ih => exact ih (ostack_push s e) (ostack_push_wf s e h)

theorem ostack_push_all_contents (es : List ElemPtr) (s : OStack) (h : s.WF) :
    (ostack_push_all s es).contents = s.contents ++ es := by
  induction es generalizing s with
  | nil => simp [ostack_push_all]
  | cons e es ih =>
    have := ih (ostack_push s e) (ostack_push_wf s e h)
    simp only [ostack_push_all, List.foldl_cons] at this ⊢
    rw [this, ostack_push_contents s e h]
    simp

theorem ostack_peek_contents (s : OStack) (h : s.WF) :
    ostack_peek s = s.contents.getLast?.getD none := by
  have hl := ostack_contents_length s h
  unfold ostack_peek ostack_peek_at
  by_cases h0 : s._ostack_depth = 0
  · have : s.contents = [] := List.eq_nil_of_length_eq_zero (by omega)
    simp [h0, this]
  · have hlt : ¬ s._ostack_depth < 1 := by omega
    simp only [h0, hlt, gt_iff_lt, lt_self_iff_false, or_self, if_false]
    rw [ostack_slot_contents _ _ (by omega), List.getLast?_eq_getElem?, hl]
    simp [List.getD_eq_getElem?_getD]

/-! ### The open-elements stack: claims -/

/-- C1: the open-elements stack is LIFO. In every reachable state,
`ostack_push e` followed by `ostack_pop` returns `e` and leaves the stack
contents and the depth as they were; and pushing `e1` then `e2` on the empty
stack makes the next two pops return `e2` then `e1`. -/
theorem ostack_push_pop_lifo (s : OStack) (e : ElemPtr) (h : s.Reachable) :
    (ostack_pop (ostack_push s e)).1 = e ∧
    (ostack_pop (ostack_push s e)).2.contents = s.contents ∧
    ostack_depth (ostack_pop (ostack_push s e)).2 = ostack_depth s ∧
    (∀ e1 e2 : ElemPtr,
      (ostack_pop (ostack_push (ostack_push ostack_init e1) e2)).1 = e2 ∧
      (ostack_pop (ostack_pop (ostack_push (ostack_push ostack_init e1) e2)).2).1 = e1) := by
  obtain ⟨h1, h2, h3⟩ := ostack_pop_push s e (ostack_reachable_wf s h)
  refine ⟨h1, h2, h3, ?_⟩
  intro e1 e2
  constructor <;> rfl

/-- C1 at a concrete state: on the stack holding element 7, pushing element 9
and popping gives back 9 and the stack holding 7. -/
theorem ostack_push_pop_lifo_witness :
    (ostack_pop (ostack_push (ostack_push ostack_init (some 7)) (some 9))).1 = some 9 ∧
    (ostack_pop (ostack_push (ostack_push ostack_init (some 7)) (some 9))).2.contents
      = [some 7] :=
  ⟨(ostack_push_pop_lifo (ostack_push ostack_init (some 7)) (some 9)
      (OStack.Reachable.push _ _ OStack.Reachable.init)).1,
   (ostack_push_pop_lifo (ostack_push ostack_init (some 7)) (some 9)
      (OStack.Reachable.push _ _ OStack.Reachable.init)).2.1⟩

/-- C2: `ostack_pop` on an empty stack returns `NULL` and leaves the depth at 0,
also after any number `n` of earlier pops of the empty stack; the depth counter
is never decremented below zero. -/
theorem ostack_pop_empty (s : OStack) (n : Nat) (h : ostack_depth s = 0) :
    (ostack_pop (ostack_pop_n n s)).1 = none ∧
    ostack_depth (ostack_pop (ostack_pop_n n s)).2 = 0 ∧
    ostack_depth (ostack_pop_n n s) = 0 := by
  induction n generalizing s with
  | zero =>
    have h0 : s._ostack_depth = 0 := h
    refine ⟨?_, ?_, h⟩
    · show (ostack_pop s).1 = none
      unfold ostack_pop
      by_cases ha : s._ostack_alloc > 0 <;> simp [h0, ha]
    · show (ostack_pop s).2._ostack_depth = 0
      rw [ostack_pop_depth, h0]
  | succ n ih =>
    have h0 : s._ostack_depth = 0 := h
    have : ostack_depth (ostack_pop s).2 = 0 := by
      show (ostack_pop s).2._ostack_depth = 0
      rw [ostack_pop_depth, h0]
    exact ih (ostack_pop s).2 this

/-- C2 at a concrete state: after push, pop, and three more pops, the next pop
still returns `NULL` at depth 0. -/
theorem ostack_pop_empty_witness :
    (ostack_pop (ostack_pop_n 3 (ostack_pop (ostack_push ostack_init (some 1))).2)).1 = none ∧
    ostack_depth
      (ostack_pop (ostack_pop_n 3 (ostack_pop (ostack_push ostack_init (some 1))).2)).2 = 0 :=
  ⟨(ostack_pop_empty (ostack_pop (ostack_push ostack_init (some 1))).2 3 (by decide)).1,
   (ostack_pop_empty (ostack_pop (ostack_push ostack_init (some 1))).2 3 (by decide)).2.1⟩

/-- C3 (the code at the failing input): with elements 1, 2, 3 pushed in this
order, element 2 is at position 2 and element 1 is immediately below it, but
`ostack_prev` of element 2 is `NULL`: the search stops at the top slot. For the
top element 3 it does return the element below. -/
theorem ostack_prev_below_top_is_null :
    ostack_peek_at (ostack_push_all ostack_init [some 1, some 2, some 3]) 2 = some 2 ∧
    ostack_peek_at (ostack_push_all ostack_init [some 1, some 2, some 3]) 1 = some 1 ∧
    ostack_prev (ostack_push_all ostack_init [some 1, some 2, some 3]) (some 2) = none ∧
    ostack_prev (ostack_push_all ostack_init [some 1, some 2, some 3]) (some 3) = some 2 := by
  decide

/-- C4: `ostack_peek_at` is 1-based with 1 the bottom. After pushing
`e1 .. en` on the empty stack the depth is `n`, `ostack_peek_at i` is `ei` for
`1 ≤ i ≤ n` and `NULL` for `i = 0` and for `i > n`; `ostack_peek` equals
`ostack_peek_at` at the depth, and in every reachable state it is the last
element of the contents, where a push appends to the contents and a pop removes
their last element. -/
theorem ostack_peek_at_one_based (es : List ElemPtr) :
    ostack_depth (ostack_push_all ostack_init es) = es.length ∧
    (∀ i : Nat, 1 ≤ i → i ≤ es.length →
      ostack_peek_at (ostack_push_all ostack_init es) i = es.getD (i - 1) none) ∧
    ostack_peek_at (ostack_push_all ostack_init es) 0 = none ∧
    (∀ i : Nat, es.length < i → ostack_peek_at (ostack_push_all ostack_init es) i = none) ∧
    (∀ s : OStack, ostack_peek s = ostack_peek_at s (ostack_depth s)) ∧
    (∀ s : OStack, s.Reachable →
      ostack_peek s = s.contents.getLast?.getD none ∧
      (∀ e : ElemPtr, (ostack_push s e).contents = s.contents ++ [e]) ∧
      (ostack_pop s).2.contents = s.contents.dropLast) := by
  have hwf : (ostack_push_all ostack_init es).WF :=
    ostack_push_all_wf es ostack_init (ostack_reachable_wf _ OStack.Reachable.init)
  have hc : (ostack_push_all ostack_init es).contents = es := by
    rw [ostack_push_all_contents es ostack_init (ostack_reachable_wf _ OStack.Reachable.init)]
    simp [OStack.contents, ostack_init]
  have hd : (ostack_push_all ostack_init es)._ostack_depth = es.length := by
    rw [← ostack_contents_length _ hwf, hc]
  refine ⟨hd, ?_, ?_, ?_, fun s => rfl, ?_⟩
  · intro i h1 h2
    unfold ostack_peek_at
    have hn : ¬ ((ostack_push_all ostack_init es)._ostack_depth = 0 ∨
        i > (ostack_push_all ostack_init es)._ostack_depth ∨ i < 1) := by
      rw [hd]; omega
    rw [if_neg hn, ostack_slot_contents _ _ (by rw [hd]; omega), hc]
  · simp [ostack_peek_at]
  · intro i hi
    unfold ostack_peek_at
    rw [hd]
    simp [hi]
  · intro s hs
    have hw := ostack_reachable_wf s hs
    exact ⟨ostack_peek_contents s hw, fun e => ostack_push_contents s e hw,
      ostack_pop_contents s hw⟩

/-- C4 at a concrete stack: after pushing 5, 6, 7 the second slot from the
bottom holds 6. -/
theorem ostack_peek_at_one_based_witness :
    ostack_peek_at (ostack_push_all ostack_init [some 5, some 6, some 7]) 2
      = [some 5, some 6, some 7].getD (2 - 1) none :=
  (ostack_peek_at_one_based [some 5, some 6, some 7]).2.1 2 (by decide) (by decide)

/-! ### Lemmas on attribute lists -/

theorem strcasecmp_eq_iff (a b : CStr) :
    strcasecmp_eq a b = true ↔ a.map tolower = b.map tolower := by
  induction a generalizing b with
  | nil => cases b <;> simp [strcasecmp_eq]
  | cons x xs ih =>
    cases b with
    | nil => simp [strcasecmp_eq]
    | cons y ys => simp [strcasecmp_eq, ih]

theorem strcasecmp_eq_refl (a : CStr) : strcasecmp_eq a a = true :=
  (strcasecmp_eq_iff a a).2 rfl

theorem strcasecmp_eq_symm (a b : CStr) (h : strcasecmp_eq a b = true) :
    strcasecmp_eq b a = true :=
  (strcasecmp_eq_iff b a).2 ((strcasecmp_eq_iff a b).1 h).symm

theorem strcasecmp_eq_trans (a b c : CStr) (h1 : strcasecmp_eq a b = true)
    (h2 : strcasecmp_eq b c = true) : strcasecmp_eq a c = true :=
  (strcasecmp_eq_iff a c).2
    (((strcasecmp_eq_iff a b).1 h1).trans ((strcasecmp_eq_iff b c).1 h2))

theorem attr_get_cons (a : attr) (rest : List attr) (name : CStr) :
    attr_get (a :: rest) name =
      if attr_matches a name then some (0, a)
      else (attr_get rest name).map (fun r => (r.1 + 1, r.2)) := by
  unfold attr_matches
  cases hn : a.name with
  | none => simp [attr_get, hn]
  | some n => simp [attr_get, hn]

theorem attr_get_cons_true (b : attr) (rest : List attr) (n : CStr) (i : Nat) (a : attr)
    (hm : attr_matches b n = true) (h : attr_get (b :: rest) n = some (i, a)) :
    i = 0 ∧ a = b := by
  rw [attr_get_cons, hm] at h
  simp only [if_true, Option.some.injEq, Prod.mk.injEq] at h
  exact ⟨h.1.symm, h.2.symm⟩

theorem attr_get_cons_false (b : attr) (rest : List attr) (n : CStr) (i : Nat) (a : attr)
    (hm : attr_matches b n = false) (h : attr_get (b :: rest) n = some (i, a)) :
    ∃ j : Nat, attr_get rest n = some (j, a) ∧ i = j + 1 := by
  rw [attr_get_cons, hm] at h
  cases hg : attr_get rest n with
  | none => simp [hg] at h
  | some r =>
    obtain ⟨j, c⟩ := r
    simp only [hg, Bool.false_eq_true, if_false, Option.map_some', Option.some.injEq,
      Prod.mk.injEq] at h
    exact ⟨j, by rw [h.2], h.1.symm⟩

theorem attr_matches_congr (a : attr) (n m : CStr) (h : strcasecmp_eq n m = true) :
    attr_matches a n = attr_matches a m := by
  unfold attr_matches
  cases a.name with
  | none => rfl
  | some x =>
    show strcasecmp_eq x n = strcasecmp_eq x m
    cases h1 : strcasecmp_eq x n with
    | true => exact (strcasecmp_eq_trans x n m h1 h).symm
    | false =>
      cases h2 : strcasecmp_eq x m with
      | false => rfl
      | true =>
        have := strcasecmp_eq_trans x m n h2 (strcasecmp_eq_symm n m h)
        rw [h1] at this
        exact this

theorem attr_get_congr (l : List attr) (n m : CStr) (h : strcasecmp_eq n m = true) :
    attr_get l n = attr_get l m := by
  induction l with
  | nil => rfl
  | cons a rest ih => rw [attr_get_cons, attr_get_cons, ih, attr_matches_congr a n m h]

theorem attr_get_none_iff (l : List attr) (n : CStr) :
    attr_get l n = none ↔ ∀ a ∈ l, attr_matches a n = false := by
  induction l with
  | nil => simp [attr_get]
  | cons a rest ih =>
    rw [attr_get_cons]
    cases hm : attr_matches a n with
    | true => simp [hm]
    | false => simp [hm, ih]

theorem attr_get_lt (l : List attr) (n : CStr) (i : Nat) (a : attr)
    (h : attr_get l n = some (i, a)) : i < l.length := by
  induction l generalizing i with
  | nil => simp [attr_get] at h
  | cons b rest ih =>
    cases hm : attr_matches b n with
    | true =>
      rw [(attr_get_cons_true b rest n i a hm h).1]
      simp
    | false =>
      obtain ⟨j, hj, hi⟩ := attr_get_cons_false b rest n i a hm h
      have := ih j hj
      simp
      omega

theorem attr_get_matches (l : List attr) (n : CStr) (i : Nat) (a : attr)
    (h : attr_get l n = some (i, a)) : attr_matches a n = true := by
  induction l generalizing i with
  | nil => simp [attr_get] at h
  | cons b rest ih =>
    cases hm : attr_matches b n with
    | true =>
      rw [(attr_get_cons_true b rest n i a hm h).2]
      exact hm
    | false =>
      obtain ⟨j, hj, _⟩ := attr_get_cons_false b rest n i a hm h
      exact ih j hj

theorem attr_get_set (l : List attr) (n : CStr) (i : Nat) (a new : attr)
    (h : attr_get l n = some (i, a)) (hnew : attr_matches new n = true) :
    attr_get (l.set i new) n = some (i, new) := by
  induction l generalizing i with
  | nil => simp [attr_get] at h
  | cons b rest ih =>
    cases hm : attr_matches b n with
    | true =>
      rw [(attr_get_cons_true b rest n i a hm h).1]
      simp [attr_get_cons, hnew]
    | false =>
      obtain ⟨j, hj, hi⟩ := attr_get_cons_false b rest n i a hm h
      rw [hi]
      simp [attr_get_cons, hm, ih j hj]

theorem attr_set_eq (head : List attr) (c : Nat) (cs : CStr) (value : Option CStr) :
    attr_set head (some (c :: cs)) value =
      match attr_get head (c :: cs) with
      | none => some ({ name := some (c :: cs), value := value } :: head)
      | some r => some (head.set r.1 { name := some (c :: cs), value := value }) := by
  unfold attr_set
  cases hg : attr_get head (c :: cs) <;> simp [hg]

theorem attr_set_get (head : List attr) (n : CStr) (v : Option CStr) (hn : n ≠ []) :
    ∃ head1 : List attr, attr_set head (some n) v = some head1 ∧
      ∃ i : Nat, attr_get head1 n = some (i, { name := some n, value := v }) ∧
        (∀ j a, attr_get head n = some (j, a) → i = j ∧ head1.length = head.length) ∧
        (attr_get head n = none → head1.length = head.length + 1) := by
  cases n with
  | nil => exact absurd rfl hn
  | cons c cs =>
    have hnew : attr_matches { name := some (c :: cs), value := v } (c :: cs) = true := by
      simp [attr_matches, strcasecmp_eq_refl]
    rw [attr_set_eq]
    cases hg : attr_get head (c :: cs) with
    | none =>
      refine ⟨_, rfl, 0, ?_, ?_, ?_⟩
      · simp [attr_get_cons, hnew]
      · intro j a h
        simp at h
      · intro _
        simp
    | some r =>
      obtain ⟨i, a⟩ := r
      refine ⟨_, rfl, i, attr_get_set head (c :: cs) i a _ hg hnew, ?_, ?_⟩
      · intro j b h
        simp at h
        simp [h.1]
      · intro h
        simp at h

theorem attr_set_names (head head1 : List attr) (name value : Option CStr)
    (h : attr_set head name value = some head1)
    (hall : ∀ a ∈ head, ∃ x : CStr, a.name = some x ∧ x ≠ []) :
    ∀ a ∈ head1, ∃ x : CStr, a.name = some x ∧ x ≠ [] := by
  cases name with
  | none => simp [attr_set] at h
  | some n =>
    cases n with
    | nil => simp [attr_set] at h
    | cons c cs =>
      rw [attr_set_eq] at h
      cases hg : attr_get head (c :: cs) with
      | none =>
        simp [hg] at h
        intro a ha
        rw [← h] at ha
        rcases List.mem_cons.1 ha with rfl | ha
        · exact ⟨c :: cs, rfl, by simp⟩
        · exact hall a ha
      | some r =>
        simp [hg] at h
        intro a ha
        rw [← h] at ha
        rcases List.mem_or_eq_of_mem_set ha with ha | rfl
        · exact hall a ha
        · exact ⟨c :: cs, rfl, by simp⟩

theorem attr_same_name_of_matches (a b : attr) (n : CStr) (ha : attr_matches a n = true)
    (hb : attr_matches b n = true) : attr_same_name a b := by
  unfold attr_matches at ha hb
  cases hx : a.name with
  | none => simp [hx] at ha
  | some x =>
    cases hy : b.name with
    | none => simp [hy] at hb
    | some y =>
      simp [hx] at ha
      simp [hy] at hb
      exact ⟨x, y, hx, hy, strcasecmp_eq_trans x n y ha (strcasecmp_eq_symm y n hb)⟩

theorem attr_matches_of_same_name (a b : attr) (n : CStr) (h : attr_same_name a b)
    (hb : attr_matches b n = true) : attr_matches a n = true := by
  obtain ⟨x, y, hx, hy, hxy⟩ := h
  unfold attr_matches at hb ⊢
  simp [hy] at hb
  simp [hx]
  exact strcasecmp_eq_trans x y n hxy hb

theorem attr_same_name_symm (a b : attr) (h : attr_same_name a b) : attr_same_name b a := by
  obtain ⟨x, y, hx, hy, hxy⟩ := h
  exact ⟨y, x, hy, hx, strcasecmp_eq_symm x y hxy⟩

theorem attr_set_pairwise_found (l : List attr) (n : CStr) (i : Nat) (a new : attr)
    (h : attr_get l n = some (i, a)) (hnew : attr_matches new n = true)
    (hp : l.Pairwise (fun x y => ¬ attr_same_name x y)) :
    (l.set i new).Pairwise (fun x y => ¬ attr_same_name x y) := by
  induction l generalizing i with
  | nil => simp [attr_get] at h
  | cons b rest ih =>
    rw [List.pairwise_cons] at hp
    obtain ⟨hb, hrest⟩ := hp
    cases hm : attr_matches b n with
    | true =>
      rw [(attr_get_cons_true b rest n i a hm h).1]
      simp only [List.set_cons_zero, List.pairwise_cons]
      refine ⟨?_, hrest⟩
      intro c hc hs
      have hcn : attr_matches c n = true :=
        attr_matches_of_same_name c new n (attr_same_name_symm new c hs) hnew
      exact hb c hc (attr_same_name_of_matches b c n hm hcn)
    | false =>
      obtain ⟨j, hj, hi⟩ := attr_get_cons_false b rest n i a hm h
      rw [hi]
      simp only [List.set_cons_succ, List.pairwise_cons]
      refine ⟨?_, ih j hj hrest⟩
      intro d hd hs
      rcases List.mem_or_eq_of_mem_set hd with hd | rfl
      · exact hb d hd hs
      · have := attr_matches_of_same_name b d n hs hnew
        rw [hm] at this
        exact absurd this (by simp)

theorem attr_set_pairwise (head head1 : List attr) (name value : Option CStr)
    (h : attr_set head name value = some head1)
    (hp : head.Pairwise (fun x y => ¬ attr_same_name x y)) :
    head1.Pairwise (fun x y => ¬ attr_same_name x y) := by
  cases name with
  | none => simp [attr_set] at h
  | some n =>
    cases n with
    | nil => simp [attr_set] at h
    | cons c cs =>
      have hnew : attr_matches { name := some (c :: cs), value := value } (c :: cs) = true := by
        simp [attr_matches, strcasecmp_eq_refl]
      rw [attr_set_eq] at h
      cases hg : attr_get head (c :: cs) with
      | none =>
        simp [hg] at h
        rw [← h, List.pairwise_cons]
        refine ⟨?_, hp⟩
        intro b hb hs
        have hbn := attr_matches_of_same_name b _ (c :: cs) (attr_same_name_symm _ b hs) hnew
        rw [(attr_get_none_iff head (c :: cs)).1 hg b hb] at hbn
        exact absurd hbn (by simp)
      | some r =>
        simp [hg] at h
        rw [← h]
        exact attr_set_pairwise_found head (c :: cs) r.1 r.2 _ hg hnew hp

theorem attr_built_inv (l : List attr) (h : AttrBuilt l) :
    (∀ a ∈ l, ∃ x : CStr, a.name = some x ∧ x ≠ []) ∧
    l.Pairwise (fun x y => ¬ attr_same_name x y) := by
  induction h with
  | nil => simp
  | set head head1 name value _ hs ih =>
    exact ⟨attr_set_names head head1 name value hs ih.1,
      attr_set_pairwise head head1 name value hs ih.2⟩

/-! ### Attribute lists: claims -/

/-- C5: attribute set/get round trip. For every list, every non-empty name `n`
and every value `v`, `attr_set` succeeds and afterwards `attr_get` with any
name `n1` equal to `n` ignoring ASCII case returns an entry whose value is `v`
byte for byte, and `attr_has` is 1. -/
theorem attr_set_get_roundtrip (head : List attr) (n n1 : CStr) (v : Option CStr)
    (hn : n ≠ []) (hcase : strcasecmp_eq n n1 = true) :
    ∃ head1 : List attr, attr_set head (some n) v = some head1 ∧
      (∃ (i : Nat) (a : attr), attr_get head1 n1 = some (i, a) ∧ a.value = v) ∧
      attr_has head1 n1 = 1 := by
  obtain ⟨head1, hset, i, hget, _, _⟩ := attr_set_get head n v hn
  have hget1 : attr_get head1 n1 = some (i, { name := some n, value := v }) := by
    rw [← attr_get_congr head1 n n1 hcase]
    exact hget
  refine ⟨head1, hset, ⟨i, _, hget1, rfl⟩, ?_⟩
  simp [attr_has, hget1]

/-- C5 at a concrete input: on the list holding `src`, setting `href` to `foo`
and asking for `HREF`. -/
theorem attr_set_get_roundtrip_witness :
    ∃ head1 : List attr,
      attr_set [{ name := some (cstr "src"), value := none }] (some (cstr "href"))
        (some (cstr "foo")) = some head1 ∧
      (∃ (i : Nat) (a : attr), attr_get head1 (cstr "HREF") = some (i, a) ∧
        a.value = some (cstr "foo")) ∧
      attr_has head1 (cstr "HREF") = 1 :=
  attr_set_get_roundtrip [{ name := some (cstr "src"), value := none }] (cstr "href")
    (cstr "HREF") (some (cstr "foo")) (by decide) (by decide)

/-- C6: `attr_set` replaces rather than duplicates. In every list built from
the empty list by `attr_set` calls every entry has a non-empty name and no two
entries have names equal ignoring case; setting a name that is present (in any
letter case) succeeds, keeps the number of entries, and the entry found for the
name, at the position where it was found before, holds the value just
written. -/
theorem attr_set_replaces (l : List attr) (h : AttrBuilt l) :
    l.Pairwise (fun a b => ¬ attr_same_name a b) ∧
    (∀ a ∈ l, ∃ x : CStr, a.name = some x ∧ x ≠ []) ∧
    (∀ (n : CStr) (v : Option CStr), n ≠ [] → attr_has l n = 1 →
      ∃ l1 : List attr, attr_set l (some n) v = some l1 ∧ l1.length = l.length ∧
        ∃ (i : Nat) (a : attr), attr_get l1 n = some (i, a) ∧ a.value = v ∧
          (attr_get l n).map (fun r => r.1) = some i) := by
  obtain ⟨hnames, hpw⟩ := attr_built_inv l h
  refine ⟨hpw, hnames, ?_⟩
  intro n v hn hhas
  obtain ⟨l1, hset, i, hget, hfound, _⟩ := attr_set_get l n v hn
  cases hg : attr_get l n with
  | none => simp [attr_has, hg] at hhas
  | some r =>
    obtain ⟨j, b⟩ := r
    obtain ⟨hij, hlen⟩ := hfound j b hg
    exact ⟨l1, hset, hlen, i, _, hget, rfl, by simp [hij]⟩

/-- C6 at a concrete list: after `href` was set to `foo`, setting `HREF` to
`bar` keeps one entry, which then holds `bar`. -/
theorem attr_set_replaces_witness :
    ∃ l1 : List attr,
      attr_set [{ name := some (cstr "href"), value := some (cstr "foo") }]
        (some (cstr "HREF")) (some (cstr "bar")) = some l1 ∧
      l1.length = [({ name := some (cstr "href"), value := some (cstr "foo") } : attr)].length ∧
      ∃ (i : Nat) (a : attr), attr_get l1 (cstr "HREF") = some (i, a) ∧
        a.value = some (cstr "bar") ∧
        (attr_get [{ name := some (cstr "href"), value := some (cstr "foo") }]
          (cstr "HREF")).map (fun r => r.1) = some i :=
  (attr_set_replaces [{ name := some (cstr "href"), value := some (cstr "foo") }]
    (AttrBuilt.set [] _ (some (cstr "href")) (some (cstr "foo")) AttrBuilt.nil (by decide))).2.2
    (cstr "HREF") (some (cstr "bar")) (by decide) (by decide)

/-! ### Lemmas on the hash tables -/

theorem tagmap_id_loop_spec (tags : TagTable) (name : CStr) (fuel addr i : Nat)
    (h : tagmap_id_loop tags name fuel addr = some i) :
    i < TAGMAP_SZ ∧ ((tags i).name = none ∨ (tags i).name = some name) := by
  induction fuel generalizing addr with
  | zero => simp [tagmap_id_loop] at h
  | succ f ih =>
    unfold tagmap_id_loop at h
    simp only at h
    cases hn : (tags (addr % TAGMAP_SZ)).name with
    | none =>
      simp only [hn, Option.some.injEq] at h
      subst h
      exact ⟨Nat.mod_lt _ (by decide), Or.inl hn⟩
    | some n =>
      simp only [hn] at h
      by_cases hc : strcmp_eq n name = true
      · simp only [hc, if_true, Option.some.injEq] at h
        subst h
        refine ⟨Nat.mod_lt _ (by decide), Or.inr ?_⟩
        rw [hn]
        simpa [strcmp_eq] using hc
      · simp only [hc, Bool.false_eq_true, if_false] at h
        exact ih _ h

theorem tagmap_id_loop_unknown (tags : TagTable) (name : CStr)
    (hnot : ∀ j : Nat, j < TAGMAP_SZ → (tags j).name ≠ some name)
    (fuel addr k : Nat) (hk : k < fuel) (hempty : (tags ((addr + k) % TAGMAP_SZ)).name = none) :
    ∃ i : Nat, tagmap_id_loop tags name fuel addr = some i ∧ (tags i).name = none := by
  induction fuel generalizing addr k with
  | zero => omega
  | succ f ih =>
    unfold tagmap_id_loop
    simp only
    cases hn : (tags (addr % TAGMAP_SZ)).name with
    | none => exact ⟨_, rfl, hn⟩
    | some n =>
      have hne : strcmp_eq n name = false := by
        have := hnot (addr % TAGMAP_SZ) (Nat.mod_lt _ (by decide))
        rw [hn] at this
        simpa [strcmp_eq] using this
      simp only [hne, Bool.false_eq_true, if_false]
      have hk0 : k ≠ 0 := by
        intro h0
        rw [h0, Nat.add_zero, hn] at hempty
        exact absurd hempty (by simp)
      apply ih ((addr + 1) % 2 ^ 64) (k - 1) (by omega)
      have : ((addr + 1) % 2 ^ 64 + (k - 1)) % TAGMAP_SZ = (addr + k) % TAGMAP_SZ := by
        unfold TAGMAP_SZ
        omega
      rw [this]
      exact hempty

theorem probe_offset (addr j : Nat) (hj : j < 1024) :
    ∃ k : Nat, k < 1024 ∧ (addr + k) % 1024 = j :=
  ⟨(j + 1024 - addr % 1024) % 1024, Nat.mod_lt _ (by decide), by omega⟩

theorem tagmap_id_loop_succ (tags : TagTable) (name : CStr) (fuel addr i : Nat)
    (h : tagmap_id_loop tags name fuel addr = some i) :
    tagmap_id_loop tags name (fuel + 1) addr = some i := by
  induction fuel generalizing addr with
  | zero => simp [tagmap_id_loop] at h
  | succ f ih =>
    unfold tagmap_id_loop at h ⊢
    simp only at h ⊢
    cases hn : (tags (addr % TAGMAP_SZ)).name with
    | none => simpa [hn] using h
    | some n =>
      simp only [hn] at h ⊢
      by_cases hc : strcmp_eq n name = true
      · simpa [hc] using h
      · simp only [hc, Bool.false_eq_true, if_false] at h ⊢
        exact ih _ h

theorem tagmap_id_loop_le (tags : TagTable) (name : CStr) (fuel more addr i : Nat)
    (h : tagmap_id_loop tags name fuel addr = some i) :
    tagmap_id_loop tags name (fuel + more) addr = some i := by
  induction more with
  | zero => exact h
  | succ m ih => exact tagmap_id_loop_succ tags name (fuel + m) addr i ih

theorem tagmap_id_loop_none_iff (tags : TagTable) (name : CStr) (fuel addr : Nat) :
    tagmap_id_loop tags name fuel addr = none ↔
      ∀ k : Nat, k < fuel → tagmap_busy tags name ((addr + k) % TAGMAP_SZ) := by
  induction fuel generalizing addr with
  | zero => simp [tagmap_id_loop]
  | succ f ih =>
    unfold tagmap_id_loop
    simp only
    have hshift : ∀ k : Nat, ((addr + 1) % 2 ^ 64 + k) % TAGMAP_SZ = (addr + (k + 1)) % TAGMAP_SZ := by
      intro k
      unfold TAGMAP_SZ
      omega
    cases hn : (tags (addr % TAGMAP_SZ)).name with
    | none =>
      simp only [false_iff, reduceCtorEq]
      intro hall
      obtain ⟨m, hm, _⟩ := hall 0 (by omega)
      rw [Nat.add_zero, hn] at hm
      exact absurd hm (by simp)
    | some n =>
      by_cases hc : strcmp_eq n name = true
      · simp only [hc, if_true, false_iff, reduceCtorEq]
        intro hall
        obtain ⟨m, hm, hmn⟩ := hall 0 (by omega)
        rw [Nat.add_zero, hn] at hm
        simp only [Option.some.injEq] at hm
        rw [← hm, hc] at hmn
        exact absurd hmn (by simp)
      · simp only [hc, Bool.false_eq_true, if_false]
        rw [ih]
        constructor
        · intro hall k hk
          cases k with
          | zero =>
            rw [Nat.add_zero]
            exact ⟨n, hn, by simpa using hc⟩
          | succ k =>
            rw [← hshift k]
            exact hall k (by omega)
        · intro hall k hk
          rw [hshift k]
          exact hall (k + 1) (by omega)

theorem tagmap_id_loop_stable (tags : TagTable) (name : CStr) (fuel addr : Nat)
    (hf : TAGMAP_SZ ≤ fuel) :
    tagmap_id_loop tags name fuel addr = tagmap_id_loop tags name TAGMAP_SZ addr := by
  cases h : tagmap_id_loop tags name TAGMAP_SZ addr with
  | some i =>
    obtain ⟨more, rfl⟩ := Nat.exists_eq_add_of_le hf
    exact tagmap_id_loop_le tags name TAGMAP_SZ more addr i h
  | none =>
    rw [tagmap_id_loop_none_iff] at h ⊢
    intro k _
    obtain ⟨k1, hk1, hk1e⟩ := probe_offset addr ((addr + k) % 1024) (Nat.mod_lt _ (by decide))
    have := h k1 (by unfold TAGMAP_SZ; omega)
    have he : (addr + k1) % TAGMAP_SZ = (addr + k) % TAGMAP_SZ := hk1e
    rw [he] at this
    exact this

theorem tagmap_id_fuel_stable (tags : TagTable) (name : CStr) (fuel : Nat)
    (hf : TAGMAP_SZ ≤ fuel) :
    tagmap_id_fuel fuel tags name = tagmap_id tags name := by
  unfold tagmap_id tagmap_id_fuel
  simp only
  rw [tagmap_id_loop_stable tags name fuel _ hf]

theorem tagmap_id_fuel_unknown (tags : TagTable) (name : CStr)
    (hempty : ∃ j : Nat, j < TAGMAP_SZ ∧ (tags j).name = none)
    (hnot : ∀ j : Nat, j < TAGMAP_SZ → (tags j).name ≠ some name)
    (fuel : Nat) (hf : TAGMAP_SZ ≤ fuel) :
    tagmap_id_fuel fuel tags name = some TAG_CUSTOM_TAG := by
  obtain ⟨j, hj, hjn⟩ := hempty
  obtain ⟨k, hk, hkj⟩ := probe_offset (hash_addr name) j hj
  have hslot : (tags ((hash_addr name + k) % TAGMAP_SZ)).name = none := by
    show (tags ((hash_addr name + k) % 1024)).name = none
    rw [hkj]
    exact hjn
  obtain ⟨i, hi, hin⟩ := tagmap_id_loop_unknown tags name hnot fuel (hash_addr name) k
    (by unfold TAGMAP_SZ at hf; omega) hslot
  unfold tagmap_id_fuel
  simp only [hi, hin, if_true]
  split <;> rfl

theorem attr_map_id_loop_succ (attr_map : AttrMapTable) (s : CStr) (fuel addr i : Nat)
    (h : attr_map_id_loop attr_map s fuel addr = some i) :
    attr_map_id_loop attr_map s (fuel + 1) addr = some i := by
  induction fuel generalizing addr with
  | zero => simp [attr_map_id_loop] at h
  | succ f ih =>
    unfold attr_map_id_loop at h ⊢
    cases hn : (attr_map addr).name with
    | none => simpa [hn] using h
    | some n =>
      simp only [hn] at h ⊢
      by_cases hc : strcmp_eq n s = true
      · simpa [hc] using h
      · simp only [hc, Bool.false_eq_true, if_false] at h ⊢
        exact ih _ h

theorem attr_map_id_loop_le (attr_map : AttrMapTable) (s : CStr) (fuel more addr i : Nat)
    (h : attr_map_id_loop attr_map s fuel addr = some i) :
    attr_map_id_loop attr_map s (fuel + more) addr = some i := by
  induction more with
  | zero => exact h
  | succ m ih => exact attr_map_id_loop_succ attr_map s (fuel + m) addr i ih

theorem attr_map_id_loop_none_iff (attr_map : AttrMapTable) (s : CStr) (fuel addr : Nat)
    (haddr : addr < ATTRMAP_SZ) :
    attr_map_id_loop attr_map s fuel addr = none ↔
      ∀ k : Nat, k < fuel → attr_map_busy attr_map s ((addr + k) % ATTRMAP_SZ) := by
  induction fuel generalizing addr with
  | zero => simp [attr_map_id_loop]
  | succ f ih =>
    unfold attr_map_id_loop
    have hshift : ∀ k : Nat,
        (((addr + 1) % 2 ^ 64) % ATTRMAP_SZ + k) % ATTRMAP_SZ = (addr + (k + 1)) % ATTRMAP_SZ := by
      intro k
      unfold ATTRMAP_SZ
      omega
    have hzero : (addr + 0) % ATTRMAP_SZ = addr := by
      unfold ATTRMAP_SZ at haddr ⊢
      omega
    cases hn : (attr_map addr).name with
    | none =>
      simp only [false_iff, reduceCtorEq]
      intro hall
      obtain ⟨m, hm, _⟩ := hall 0 (by omega)
      rw [hzero, hn] at hm
      exact absurd hm (by simp)
    | some n =>
      by_cases hc : strcmp_eq n s = true
      · simp only [hc, if_true, false_iff, reduceCtorEq]
        intro hall
        obtain ⟨m, hm, hmn⟩ := hall 0 (by omega)
        rw [hzero, hn] at hm
        simp only [Option.some.injEq] at hm
        rw [← hm, hc] at hmn
        exact absurd hmn (by simp)
      · simp only [hc, Bool.false_eq_true, if_false]
        rw [ih _ (Nat.mod_lt _ (by decide))]
        constructor
        · intro hall k hk
          cases k with
          | zero =>
            rw [hzero]
            exact ⟨n, hn, by simpa using hc⟩
          | succ k =>
            rw [← hshift k]
            exact hall k (by omega)
        · intro hall k hk
          rw [hshift k]
          exact hall (k + 1) (by omega)

theorem attr_map_id_fuel_stable (attr_map : AttrMapTable) (s : CStr) (fuel : Nat)
    (hf : ATTRMAP_SZ ≤ fuel) :
    attr_map_id_fuel fuel attr_map s = attr_map_id attr_map s := by
  unfold attr_map_id attr_map_id_fuel
  have haddr : hash_addr s % ATTRMAP_SZ < ATTRMAP_SZ := Nat.mod_lt _ (by decide)
  cases h : attr_map_id_loop attr_map s ATTRMAP_SZ (hash_addr s % ATTRMAP_SZ) with
  | some i =>
    obtain ⟨more, rfl⟩ := Nat.exists_eq_add_of_le hf
    exact attr_map_id_loop_le attr_map s ATTRMAP_SZ more _ i h
  | none =>
    rw [attr_map_id_loop_none_iff _ _ _ _ haddr] at h ⊢
    intro k _
    obtain ⟨k1, hk1, hk1e⟩ := probe_offset (hash_addr s % ATTRMAP_SZ)
      ((hash_addr s % ATTRMAP_SZ + k) % 1024) (Nat.mod_lt _ (by decide))
    have := h k1 (by unfold ATTRMAP_SZ; omega)
    have he : (hash_addr s % ATTRMAP_SZ + k1) % ATTRMAP_SZ
        = (hash_addr s % ATTRMAP_SZ + k) % ATTRMAP_SZ := hk1e
    rw [he] at this
    exact this

theorem tags_example_unknown (j : Nat) : (tags_example j).name ≠ some (cstr "x") := by
  unfold tags_example
  split
  · decide
  · split <;> decide

/-- C7: tag lookup round trip. For every tag table and name `n`, when
`tagmap_id` (with any bound on its loop) returns a slot `i` other than the
`CUSTOM_TAG` sentinel, `tagmap i` is defined and its name is `n`; hence looking
up the name of that slot returns `i` again. -/
theorem tagmap_id_roundtrip (tags : TagTable) (n : CStr) (fuel i : Nat)
    (h : tagmap_id_fuel fuel tags n = some i) (hi : i ≠ TAG_CUSTOM_TAG) :
    ∃ t : tag, tagmap tags i = some t ∧ t.name = some n ∧
      ∀ m : CStr, t.name = some m → tagmap_id_fuel fuel tags m = some i := by
  unfold tagmap_id_fuel at h
  simp only at h
  split at h
  · simp only [Option.some.injEq] at h
    exact absurd h.symm hi
  · rename_i hfirst
    cases hl : tagmap_id_loop tags n fuel (hash_addr n) with
    | none => simp [hl] at h
    | some i1 =>
      simp only [hl] at h
      split at h
      · simp only [Option.some.injEq] at h
        exact absurd h.symm hi
      · rename_i hne
        simp only [Option.some.injEq] at h
        subst h
        obtain ⟨hlt, hname⟩ := tagmap_id_loop_spec tags n fuel _ i1 hl
        have hn : (tags i1).name = some n := by
          rcases hname with h0 | h1
          · exact absurd h0 hne
          · exact h1
        refine ⟨tags i1, by simp [tagmap, hlt], hn, ?_⟩
        intro m hm
        rw [hn] at hm
        simp only [Option.some.injEq] at hm
        subst hm
        unfold tagmap_id_fuel
        simp only [hl, hne, if_false]
        split
        · rename_i h0
          exact absurd h0 hfirst
        · rfl

/-- C7 at a concrete table: in the example table `p` is found in slot 752 and
the name of slot 752 is `p`. -/
theorem tagmap_id_roundtrip_witness :
    ∃ t : tag, tagmap tags_example 752 = some t ∧ t.name = some (cstr "p") ∧
      ∀ m : CStr, t.name = some m → tagmap_id_fuel 1024 tags_example m = some 752 :=
  tagmap_id_roundtrip tags_example (cstr "p") 1024 752 (by decide) (by decide)

/-- C8: unknown tags resolve to the sentinel. For every table with at least one
empty slot and every name `n` stored in no slot, `tagmap_id` returns (its loop
ends within `TAGMAP_SZ` tests) and the result is `CUSTOM_TAG`; and
`token_set_tag_name` then succeeds and stores that id and an owned copy of `n`
as the token name, not a table string. -/
theorem tagmap_id_unknown_is_custom (tags : TagTable) (n : CStr)
    (hempty : ∃ j : Nat, j < TAGMAP_SZ ∧ (tags j).name = none)
    (hnot : ∀ j : Nat, j < TAGMAP_SZ → (tags j).name ≠ some n) :
    (∀ fuel : Nat, TAGMAP_SZ ≤ fuel → tagmap_id_fuel fuel tags n = some TAG_CUSTOM_TAG) ∧
    tagmap_id tags n = some TAG_CUSTOM_TAG ∧
    ∀ t : token, token_set_tag_name tags t (some n) =
      Except.ok { t with tag := { t.tag with tagid := TAG_CUSTOM_TAG, name := NamePtr.owned n } } := by
  have h1 := tagmap_id_fuel_unknown tags n hempty hnot
  have h2 : tagmap_id tags n = some TAG_CUSTOM_TAG := h1 TAGMAP_SZ (Nat.le_refl _)
  refine ⟨h1, h2, ?_⟩
  intro t
  unfold token_set_tag_name
  simp [h2, TAG_CUSTOM_TAG]

/-- C8 at a concrete table: the name `x` is not in the example table. -/
theorem tagmap_id_unknown_is_custom_witness :
    tagmap_id tags_example (cstr "x") = some TAG_CUSTOM_TAG ∧
    token_set_tag_name tags_example (token_of_type TOKEN_TYPE.TOKEN_START_TAG) (some (cstr "x")) =
      Except.ok { token_of_type TOKEN_TYPE.TOKEN_START_TAG with
        tag := { (token_of_type TOKEN_TYPE.TOKEN_START_TAG).tag with
          tagid := TAG_CUSTOM_TAG, name := NamePtr.owned (cstr "x") } } :=
  ⟨(tagmap_id_unknown_is_custom tags_example (cstr "x") ⟨0, by decide, by decide⟩
      (fun j _ => tags_example_unknown j)).2.1,
   (tagmap_id_unknown_is_custom tags_example (cstr "x") ⟨0, by decide, by decide⟩
      (fun j _ => tags_example_unknown j)).2.2 (token_of_type TOKEN_TYPE.TOKEN_START_TAG)⟩

theorem set_pending_attr_null (ctx : tokenizer) (hn : ctx.attrib_name.s = none) :
    set_pending_attr ctx = Except.error Fault.assert_failed := by
  unfold set_pending_attr token_set_tag_attr
  rw [hn]
  by_cases h : TOKEN_IS_START_END ctx.token = true
  · simp [h, attr_set, Except.map]
  · simp [h, Except.map]

theorem tokenize_after_attrib_name_null (tags : TagTable) (ctx : tokenizer) (c : Nat)
    (rest : List Nat) (hs : ctx.state = STATE.STATE_AFTER_ATTRIB_NAME)
    (hn : ctx.attrib_name.s = none) (hfp : ctx.fp = c :: rest) (hc : c = 62 ∨ c = 47) :
    tokenize tags ctx = Except.error Fault.assert_failed := by
  unfold tokenize
  rw [hfp]
  rcases hc with rfl | rfl
  · simp [iscntrl, HTML_ISSPACE, hs, tokenize_switch, set_pending_attr_null, hn]
  · simp [iscntrl, HTML_ISSPACE, hs, tokenize_switch, set_pending_attr_null, hn]

theorem tokenize_plaintext_unhandled (tags : TagTable) (ctx : tokenizer) (c : Nat)
    (rest : List Nat) (hs : ctx.state = STATE.STATE_PLAINTEXT) (hfp : ctx.fp = c :: rest)
    (hc : 32 ≤ c ∧ c < 127) : tokenize tags ctx = Except.error Fault.assert_failed := by
  unfold tokenize
  rw [hfp]
  have h1 : c ≠ 255 := by omega
  have h2 : c ≠ 10 := by omega
  have h3 : iscntrl c = false := by
    simp [iscntrl]
    omega
  simp [h1, h2, h3, hs, tokenize_switch]

/-! ### The tokenizer: claims -/

/-- C10 (the code at the failing inputs): a zeroed tokenizer that reads `<p >`,
or `<br />`, stops with a failed assertion. The byte after the whitespace (`>`
or `/`) is put back for the state AFTER_ATTRIB_NAME, which passes the attribute
name buffer, still `NULL`, to `token_set_tag_attr` and so to the assertion of
`attr_set`. Up to that byte no call fails and no token is returned. -/
theorem tokenize_empty_attrib_name_asserts :
    tokenize_all tags_example 6 (tokenizer_init (cstr "<p >")) =
      Except.error Fault.assert_failed ∧
    tokenize_all tags_example 8 (tokenizer_init (cstr "<br />")) =
      Except.error Fault.assert_failed ∧
    (tokenize_all tags_example 6 (tokenizer_init (cstr "<p "))).toOption.map
      (fun r => (r.1, r.2.state, r.2.attrib_name.s, r.2.token.type)) =
      some ([], STATE.STATE_BEFORE_ATTRIB_NAME, none, TOKEN_TYPE.TOKEN_START_TAG) ∧
    attr_set [] none none = none := by
  refine ⟨?_, ?_, ?_, ?_⟩
  · rfl
  · rfl
  · decide
  · decide

/-- C17: control-byte pre-filter. In every tokenizer state, a control byte
other than line feed and tab makes `tokenize` return no token and changes
nothing of the tokenizer record but the input position: state, return state,
scratch buffers, current token, peek buffer and line counter stay as they
were. -/
theorem tokenize_control_byte_dropped (tags : TagTable) (ctx : tokenizer) (c : Nat)
    (rest : List Nat) (hfp : ctx.fp = c :: rest) (hc : iscntrl c = true)
    (h10 : c ≠ 10) (h9 : c ≠ 9) :
    tokenize tags ctx = Except.ok (none, { ctx with fp := rest }) := by
  unfold tokenize
  rw [hfp]
  have h255 : c ≠ 255 := by
    intro h
    rw [h] at hc
    simp [iscntrl] at hc
  simp [h255, h10, h9, hc]

/-- C17 at a concrete state: the byte 27 read in the state ATTRIB_NAME. -/
theorem tokenize_control_byte_dropped_witness :
    tokenize tags_example
        { tokenizer_init [27, 97] with state := STATE.STATE_ATTRIB_NAME, line := 3 } =
      Except.ok (none,
        { { tokenizer_init [27, 97] with state := STATE.STATE_ATTRIB_NAME, line := 3 } with
          fp := [97] }) :=
  tokenize_control_byte_dropped tags_example
    { tokenizer_init [27, 97] with state := STATE.STATE_ATTRIB_NAME, line := 3 } 27 [97]
    rfl (by decide) (by decide) (by decide)

/-- C19 (the code at the failing input): for `<img src=foobar rel="zap">`, the
input of the test in `tokenize.c`, the start tag token carries the attribute
`src` with the value `oobar`: the state BEFORE_ATTRIB_VAL enters ATTRIB_VAL
without putting the first byte of the unquoted value back, so that byte is
lost. The quoted value of `rel` is complete. For `<p a=b>` the value is the
empty string. -/
theorem tokenize_unquoted_value_loses_first_byte :
    (tokenize_all tags_example 40 (tokenizer_init (cstr "<img src=foobar rel=\"zap\">"))).toOption.map
      (fun r => r.1.map (fun t => (t.type, t.tag.attr))) =
      some [(TOKEN_TYPE.TOKEN_START_TAG,
        [{ name := some (cstr "rel"), value := some (cstr "zap") },
         { name := some (cstr "src"), value := some (cstr "oobar") }])] ∧
    (tokenize_all tags_example 40 (tokenizer_init (cstr "<p a=b>"))).toOption.map
      (fun r => r.1.map (fun t => (t.type, t.tag.attr))) =
      some [(TOKEN_TYPE.TOKEN_START_TAG, [{ name := some (cstr "a"), value := some [] }])] := by
  constructor <;> decide

/-! ### Lemmas on runs of the tokenizer -/

theorem tokenize_n_step (tags : TagTable) (n : Nat) (ctx ctx1 ctx2 : tokenizer)
    (r : Option token) (ts : List token)
    (h1 : tokenize tags ctx = Except.ok (r, ctx1))
    (h2 : tokenize_n tags n ctx1 = Except.ok (ts, ctx2)) :
    tokenize_n tags (n + 1) ctx = Except.ok (r.toList ++ ts, ctx2) := by
  simp [tokenize_n, h1, h2]

theorem tokenize_n_add (tags : TagTable) (a b : Nat) (ctx ctx1 ctx2 : tokenizer)
    (ts1 ts2 : List token)
    (h1 : tokenize_n tags a ctx = Except.ok (ts1, ctx1))
    (h2 : tokenize_n tags b ctx1 = Except.ok (ts2, ctx2)) :
    tokenize_n tags (a + b) ctx = Except.ok (ts1 ++ ts2, ctx2) := by
  induction a generalizing ctx ts1 with
  | zero =>
    simp only [tokenize_n, Except.ok.injEq, Prod.mk.injEq] at h1
    obtain ⟨rfl, rfl⟩ := h1
    simpa using h2
  | succ a ih =>
    unfold tokenize_n at h1
    cases ht : tokenize tags ctx with
    | error e => simp [ht] at h1
    | ok x =>
      obtain ⟨r, c1⟩ := x
      simp only [ht] at h1
      cases hn : tokenize_n tags a c1 with
      | error e => simp [hn] at h1
      | ok y =>
        obtain ⟨ts, c2⟩ := y
        simp only [hn, Except.ok.injEq, Prod.mk.injEq] at h1
        obtain ⟨rfl, rfl⟩ := h1
        have := ih c1 ts hn
        rw [Nat.add_right_comm]
        rw [tokenize_n_step tags (a + b) ctx c1 ctx2 r (ts ++ ts2) ht this]
        simp

theorem tag_name_byte_facts (c : Nat) (h : tag_name_byte c = true) :
    c ≠ 255 ∧ c ≠ 10 ∧ c ≠ 9 ∧ iscntrl c = false ∧ HTML_ISSPACE c = false ∧ c ≠ 62 ∧
      32 < c := by
  simp only [tag_name_byte, passes_prefilter, HTML_ISSPACE, iscntrl, Bool.and_eq_true,
    Bool.not_eq_true', Bool.or_eq_false_iff, Bool.or_eq_true, decide_eq_true_eq,
    decide_eq_false_iff_not, Bool.and_eq_false_iff] at h
  simp only [HTML_ISSPACE, iscntrl, Bool.or_eq_false_iff, decide_eq_false_iff_not]
  omega

theorem tokenize_data_lt (tags : TagTable) (ctx : tokenizer) (rest : List Nat)
    (hs : ctx.state = STATE.STATE_DATA) (hfp : ctx.fp = 60 :: rest) :
    tokenize tags ctx =
      Except.ok (none, { ctx with fp := rest, state := STATE.STATE_TAG_OPEN }) := by
  unfold tokenize
  rw [hfp]
  simp [iscntrl, hs, tokenize_switch, enter_state, ret_null, Except.map]

theorem tokenize_tag_open_slash (tags : TagTable) (ctx : tokenizer) (rest : List Nat)
    (hs : ctx.state = STATE.STATE_TAG_OPEN) (hfp : ctx.fp = 47 :: rest) :
    tokenize tags ctx =
      Except.ok (none, { ctx with fp := rest, state := STATE.STATE_END_TAG_OPEN }) := by
  unfold tokenize
  rw [hfp]
  simp [iscntrl, hs, tokenize_switch, enter_state, ret_null, Except.map]

theorem isalpha_facts (c : Nat) (h : isalpha c = true) :
    c ≠ 255 ∧ c ≠ 10 ∧ c ≠ 9 ∧ iscntrl c = false ∧ c ≠ 47 ∧ c ≠ 33 ∧ c ≠ 62 := by
  simp only [isalpha, Bool.or_eq_true, Bool.and_eq_true, decide_eq_true_eq] at h
  simp only [iscntrl, Bool.or_eq_false_iff, decide_eq_false_iff_not]
  omega

theorem tokenize_tag_open_alpha (tags : TagTable) (ctx : tokenizer) (c : Nat)
    (rest : List Nat) (hs : ctx.state = STATE.STATE_TAG_OPEN) (hfp : ctx.fp = c :: rest)
    (hc : isalpha c = true) :
    tokenize tags ctx =
      Except.ok (none, { ctx with fp := c :: rest,
                                  token := token_of_type TOKEN_TYPE.TOKEN_START_TAG,
                                  name := str_add ctx.name 0,
                                  state := STATE.STATE_TAG_NAME }) := by
  obtain ⟨h1, h2, h3, h4, h5, h6, _⟩ := isalpha_facts c hc
  unfold tokenize
  rw [hfp]
  simp [h1, h2, h3, h4, h5, h6, hc, hs, tokenize_switch, enter_state, enter_state_reconsume,
    ret_null, Except.map]

theorem tokenize_end_tag_open_alpha (tags : TagTable) (ctx : tokenizer) (c : Nat)
    (rest : List Nat) (hs : ctx.state = STATE.STATE_END_TAG_OPEN) (hfp : ctx.fp = c :: rest)
    (hc : isalpha c = true) :
    tokenize tags ctx =
      Except.ok (none, { ctx with fp := c :: rest,
                                  token := token_of_type TOKEN_TYPE.TOKEN_END_TAG,
                                  name := str_add ctx.name 0,
                                  state := STATE.STATE_TAG_NAME }) := by
  obtain ⟨h1, h2, h3, h4, h5, h6, h7⟩ := isalpha_facts c hc
  unfold tokenize
  rw [hfp]
  simp [h1, h2, h3, h4, h5, h6, h7, hc, hs, tokenize_switch, enter_state,
    enter_state_reconsume, ret_null, Except.map]

theorem tolower_of_not_upper (c : Nat) (h : isupper c = false) : tolower c = c := by
  simp only [isupper, Bool.and_eq_false_iff, decide_eq_false_iff_not] at h
  unfold tolower
  split
  · omega
  · rfl

theorem tokenize_tag_name_byte (tags : TagTable) (ctx : tokenizer) (c : Nat)
    (rest : List Nat) (hs : ctx.state = STATE.STATE_TAG_NAME) (hfp : ctx.fp = c :: rest)
    (hc : tag_name_byte c = true) :
    tokenize tags ctx =
      Except.ok (none, { ctx with fp := rest, name := str_add ctx.name (tolower c) }) := by
  obtain ⟨h1, h2, h3, h4, h5, h6, h7⟩ := tag_name_byte_facts c hc
  unfold tokenize
  rw [hfp]
  by_cases hu : isupper c = true
  · have hl : tolower c ≠ 62 := by
      simp only [isupper, Bool.and_eq_true, decide_eq_true_eq] at hu
      unfold tolower
      split <;> omega
    simp [h1, h2, h3, h4, h5, hs, tokenize_switch, hu, hl, ret_null, Except.map]
  · have hu1 : isupper c = false := by simpa using hu
    simp [h1, h2, h3, h4, h5, h6, hs, tokenize_switch, hu1, tolower_of_not_upper c hu1,
      ret_null, Except.map]

theorem tagmap_id_fuel_spec (tags : TagTable) (n : CStr) (fuel id : Nat)
    (h : tagmap_id_fuel fuel tags n = some id) :
    id = TAG_CUSTOM_TAG ∨ (id < TAGMAP_SZ ∧ (tags id).name = some n) := by
  unfold tagmap_id_fuel at h
  simp only at h
  split at h
  · simp only [Option.some.injEq] at h
    exact Or.inl h.symm
  · cases hl : tagmap_id_loop tags n fuel (hash_addr n) with
    | none => simp [hl] at h
    | some i1 =>
      simp only [hl] at h
      split at h
      · simp only [Option.some.injEq] at h
        exact Or.inl h.symm
      · rename_i hne
        simp only [Option.some.injEq] at h
        subst h
        obtain ⟨hlt, hname⟩ := tagmap_id_loop_spec tags n fuel _ i1 hl
        rcases hname with h0 | h1
        · exact absurd h0 hne
        · exact Or.inr ⟨hlt, h1⟩

theorem token_set_tag_name_ok (tags : TagTable) (t : token) (n : CStr) (id : Nat)
    (hid : tagmap_id tags n = some id) :
    ∃ np : NamePtr,
      token_set_tag_name tags t (some n) =
        Except.ok { t with tag := { t.tag with tagid := id, name := np } } ∧
      name_str tags np = some n := by
  unfold token_set_tag_name
  simp only [hid]
  rcases tagmap_id_fuel_spec tags n TAGMAP_SZ id hid with h0 | ⟨hlt, hname⟩
  · rw [h0]
    exact ⟨NamePtr.owned n, by simp [TAG_CUSTOM_TAG], rfl⟩
  · have hmod : id % 65536 = id := by
      unfold TAGMAP_SZ at hlt
      omega
    rw [hmod]
    by_cases hz : id = 0
    · exact ⟨NamePtr.owned n, by simp [hz], rfl⟩
    · refine ⟨NamePtr.table id, by simp [hz, tagmap, hlt], ?_⟩
      simpa [name_str] using hname

theorem str_fold_tolower (l acc : List Nat) (hall : ∀ c ∈ l, 32 < c) :
    l.foldl (fun b c => str_add b (tolower c)) { s := some acc } =
      { s := some (acc ++ l.map tolower) } := by
  induction l generalizing acc with
  | nil => simp
  | cons c cs ih =>
    have hc : 32 < c := hall c (List.mem_cons_self _ _)
    have hne : tolower c ≠ 0 := by
      unfold tolower
      split <;> omega
    simp only [List.foldl_cons, List.map_cons]
    have : str_add { s := some acc } (tolower c) = { s := some (acc ++ [tolower c]) } := by
      simp [str_add, hne]
    rw [this, ih (acc ++ [tolower c]) (fun x hx => hall x (List.mem_cons_of_mem _ hx))]
    simp

theorem tokenize_tag_name_run (tags : TagTable) (l rest : List Nat) (ctx : tokenizer)
    (hs : ctx.state = STATE.STATE_TAG_NAME) (hfp : ctx.fp = l ++ rest)
    (hall : ∀ c ∈ l, tag_name_byte c = true) :
    tokenize_n tags l.length ctx =
      Except.ok ([], { ctx with fp := rest,
                                name := l.foldl (fun b c => str_add b (tolower c)) ctx.name }) := by
  induction l generalizing ctx with
  | nil =>
    simp only [List.nil_append] at hfp
    simp only [List.length_nil, tokenize_n, List.foldl_nil, ← hfp]
  | cons c cs ih =>
    have hstep := tokenize_tag_name_byte tags ctx c (cs ++ rest) hs (by simpa using hfp)
      (hall c (List.mem_cons_self _ _))
    have hrest := ih { ctx with fp := cs ++ rest, name := str_add ctx.name (tolower c) }
      hs rfl (fun x hx => hall x (List.mem_cons_of_mem _ hx))
    have := tokenize_n_step tags cs.length ctx _ _ none [] hstep hrest
    simpa using this

theorem tokenize_tag_name_gt (tags : TagTable) (ctx : tokenizer) (rest : List Nat)
    (hs : ctx.state = STATE.STATE_TAG_NAME) (hfp : ctx.fp = 62 :: rest) :
    tokenize tags ctx =
      ret_token ((set_tag_name tags { ctx with fp := rest }).bind
        (fun x => enter_state_emit x STATE.STATE_DATA)) := by
  unfold tokenize
  rw [hfp]
  simp [iscntrl, HTML_ISSPACE, isupper, hs, tokenize_switch]

theorem tokenize_tag_name_core (tags : TagTable) (ctx : tokenizer) (name rest : List Nat)
    (ty : TOKEN_TYPE) (id : Nat)
    (hs : ctx.state = STATE.STATE_TAG_NAME) (hfp : ctx.fp = name ++ 62 :: rest)
    (hname : ctx.name = { s := some [] }) (htok : ctx.token = token_of_type ty)
    (hall : ∀ c ∈ name, tag_name_byte c = true)
    (hid : tagmap_id tags (name.map tolower) = some id) :
    ∃ (t : token) (ctx1 : tokenizer),
      tokenize_n tags (name.length + 1) ctx = Except.ok ([t], ctx1) ∧
      t.type = ty ∧ t.tag.tagid = id ∧ name_str tags t.tag.name = some (name.map tolower) ∧
      t.tag.attr = [] ∧ t.end_line = ctx.line ∧
      ctx1.state = STATE.STATE_DATA ∧ ctx1.fp = rest := by
  have hrun := tokenize_tag_name_run tags name (62 :: rest) ctx hs hfp hall
  have hfold : name.foldl (fun b c => str_add b (tolower c)) ctx.name =
      { s := some (name.map tolower) } := by
    rw [hname, str_fold_tolower name [] (fun c hc => (tag_name_byte_facts c (hall c hc)).2.2.2.2.2.2)]
    simp
  rw [hfold] at hrun
  simp only [htok] at hrun
  obtain ⟨np, hset, hnp⟩ := token_set_tag_name_ok tags (token_of_type ty) (name.map tolower) id hid
  have hgt := tokenize_tag_name_gt tags
    { ctx with fp := 62 :: rest, name := { s := some (name.map tolower) } } rest hs rfl
  simp only [set_tag_name, htok, hset, Except.map, Except.bind, enter_state_emit, enter_state,
    ret_token] at hgt
  have hlast := tokenize_n_step tags 0 _ _ _ _ [] hgt rfl
  have hall2 := tokenize_n_add tags name.length 1 ctx _ _ [] _ hrun hlast
  refine ⟨_, _, hall2, ?_, ?_, ?_, ?_, ?_, ?_, ?_⟩
  · simp [token_of_type]
  · simp
  · simpa using hnp
  · simp [token_of_type, tagtoken_zero]
  · simp
  · simp
  · simp

/-! ### Tag names: claims -/

/-- C18 (as stated, refuted): the tag `<a>` written with the control byte 1
after the letter has a name that starts with a letter and contains neither
whitespace nor `>`, but the start tag token is named `a`, not the name with its
upper-case letters folded: the pre-filter drops the control byte before the
state TAG_NAME sees it. -/
theorem tokenize_tag_name_drops_control_byte :
    isalpha 97 = true ∧
    (∀ c ∈ [97, 1], HTML_ISSPACE c = false ∧ c ≠ 62) ∧
    (tokenize_n tags_example 5 (tokenizer_init ([60] ++ [97, 1] ++ [62]))).toOption.map
      (fun r => r.1.map (fun t => (t.type, name_str tags_example t.tag.name))) =
      some [(TOKEN_TYPE.TOKEN_START_TAG, some [97])] ∧
    [97] ≠ [97, 1].map tolower := by
  refine ⟨by decide, by decide, by decide, by decide⟩

/-- C18 (amended): tag-name lowercasing. For every tag table and every tag
written `<` name `>` (or `</` name `>` when `close` is set) in the DATA state,
whose name starts with a letter and consists of bytes that pass the pre-filter
(no control byte, not the byte 255) and are neither whitespace nor `>`, and for
which the lookup of the folded name returns an id: the calls of `tokenize` on
these bytes return exactly one token, a START_TAG (or END_TAG) token whose name
is the name with every ASCII upper-case letter folded to lower case and whose
tag id is the id of that folded name; the tokenizer is then in DATA behind the
`>`. The id depends on the folded name only, so `<DIV>` and `<div>` get the
same id. -/
theorem tokenize_tag_name_lowercased (tags : TagTable) (ctx : tokenizer) (c0 : Nat)
    (cs rest : List Nat) (close : Bool) (id : Nat)
    (hs : ctx.state = STATE.STATE_DATA)
    (hfp : ctx.fp = 60 :: ((if close then [47] else []) ++ (c0 :: cs) ++ 62 :: rest))
    (halpha : isalpha c0 = true)
    (hall : ∀ c ∈ c0 :: cs, tag_name_byte c = true)
    (hid : tagmap_id tags ((c0 :: cs).map tolower) = some id) :
    ∃ (t : token) (ctx1 : tokenizer),
      tokenize_n tags ((if close then 1 else 0) + (2 + ((c0 :: cs).length + 1))) ctx =
        Except.ok ([t], ctx1) ∧
      t.type = (if close then TOKEN_TYPE.TOKEN_END_TAG else TOKEN_TYPE.TOKEN_START_TAG) ∧
      t.tag.tagid = id ∧
      name_str tags t.tag.name = some ((c0 :: cs).map tolower) ∧
      ctx1.state = STATE.STATE_DATA ∧ ctx1.fp = rest := by
  cases close with
  | false =>
    simp only [Bool.false_eq_true, if_false, List.nil_append, Nat.zero_add] at hfp ⊢
    have h1 := tokenize_data_lt tags ctx _ hs hfp
    have h2 := tokenize_tag_open_alpha tags
      { ctx with fp := (c0 :: cs) ++ 62 :: rest, state := STATE.STATE_TAG_OPEN } c0
      (cs ++ 62 :: rest) rfl rfl halpha
    obtain ⟨t, ctx1, hrun, ht1, ht2, ht3, _, _, hc1, hc2⟩ := tokenize_tag_name_core tags
      { ctx with fp := c0 :: (cs ++ 62 :: rest),
                 token := token_of_type TOKEN_TYPE.TOKEN_START_TAG,
                 name := str_add ctx.name 0, state := STATE.STATE_TAG_NAME }
      (c0 :: cs) rest TOKEN_TYPE.TOKEN_START_TAG id rfl rfl (by simp [str_add]) rfl hall hid
    have h12 := tokenize_n_step tags 0 _ _ _ _ [] h2 rfl
    have h012 := tokenize_n_step tags 1 _ _ _ _ _ h1 h12
    have hfin := tokenize_n_add tags 2 ((c0 :: cs).length + 1) ctx _ _ _ _ h012 hrun
    exact ⟨t, ctx1, by simpa using hfin, ht1, ht2, ht3, hc1, hc2⟩
  | true =>
    simp only [if_true, List.singleton_append, List.cons_append] at hfp ⊢
    have h1 := tokenize_data_lt tags ctx _ hs hfp
    have h1b := tokenize_tag_open_slash tags
      { ctx with fp := 47 :: (c0 :: (cs ++ 62 :: rest)), state := STATE.STATE_TAG_OPEN }
      (c0 :: (cs ++ 62 :: rest)) rfl rfl
    have h2 := tokenize_end_tag_open_alpha tags
      { ctx with fp := c0 :: (cs ++ 62 :: rest), state := STATE.STATE_END_TAG_OPEN } c0
      (cs ++ 62 :: rest) rfl rfl halpha
    obtain ⟨t, ctx1, hrun, ht1, ht2, ht3, _, _, hc1, hc2⟩ := tokenize_tag_name_core tags
      { ctx with fp := c0 :: (cs ++ 62 :: rest),
                 token := token_of_type TOKEN_TYPE.TOKEN_END_TAG,
                 name := str_add ctx.name 0, state := STATE.STATE_TAG_NAME }
      (c0 :: cs) rest TOKEN_TYPE.TOKEN_END_TAG id rfl rfl (by simp [str_add]) rfl hall hid
    have h12 := tokenize_n_step tags 0 _ _ _ _ [] h2 rfl
    have h112 := tokenize_n_step tags 1 _ _ _ _ _ h1b h12
    have h0112 := tokenize_n_step tags 2 _ _ _ _ _ h1 h112
    have hfin := tokenize_n_add tags 3 ((c0 :: cs).length + 1) ctx _ _ _ _ h0112 hrun
    exact ⟨t, ctx1, by simpa [Nat.add_comm, Nat.add_left_comm] using hfin, ht1, ht2, ht3, hc1, hc2⟩

/-- C18 (amended) at a concrete input: `<P>x` read by a zeroed tokenizer gives
a start tag token with the name `p` and the id 752 of `p` in the example
table. -/
theorem tokenize_tag_name_lowercased_witness :
    ∃ (t : token) (ctx1 : tokenizer),
      tokenize_n tags_example ((if false then 1 else 0) + (2 + (([80] : List Nat).length + 1)))
        (tokenizer_init [60, 80, 62, 120]) = Except.ok ([t], ctx1) ∧
      t.type = (if false then TOKEN_TYPE.TOKEN_END_TAG else TOKEN_TYPE.TOKEN_START_TAG) ∧
      t.tag.tagid = 752 ∧
      name_str tags_example t.tag.name = some ([80].map tolower) ∧
      ctx1.state = STATE.STATE_DATA ∧ ctx1.fp = [120] :=
  tokenize_tag_name_lowercased tags_example (tokenizer_init [60, 80, 62, 120]) 80 [] [120]
    false 752 rfl rfl (by decide) (by decide) (by decide)

/-! ### Lemmas on the markup declaration state -/

theorem passes_prefilter_facts (c : Nat) (h : passes_prefilter c = true) :
    c ≠ 255 ∧ (iscntrl c && (decide (c ≠ 10) && decide (c ≠ 9))) = false := by
  simp only [passes_prefilter, Bool.and_eq_true, decide_eq_true_eq, Bool.not_eq_true'] at h
  exact ⟨h.1, h.2⟩

theorem peek_buf_read (buf : List Nat) (k c : Nat) (h : k < buf.length) :
    ((buf.set k c).set (k + 1) 0).getD k 0 = c := by
  simp [List.getD_eq_getElem?_getD, List.getElem?_set, h]

theorem tokenize_data_lt_bang (tags : TagTable) (ctx : tokenizer) (rest : List Nat)
    (hs : ctx.state = STATE.STATE_DATA) (hfp : ctx.fp = 60 :: 33 :: rest) :
    tokenize_n tags 2 ctx =
      Except.ok ([], { ctx with fp := rest, match_ := none, buf_len := 0,
                                state := STATE.STATE_MARKUP_DECLARATION_OPEN }) := by
  have h1 := tokenize_data_lt tags ctx _ hs hfp
  have h2 : tokenize tags { ctx with fp := 33 :: rest, state := STATE.STATE_TAG_OPEN } =
      Except.ok (none, { ctx with fp := rest, match_ := none, buf_len := 0,
                                  state := STATE.STATE_MARKUP_DECLARATION_OPEN }) := by
    unfold tokenize
    simp [iscntrl, tokenize_switch, enter_state, ret_null, Except.map]
  have h12 := tokenize_n_step tags 0 _ _ _ _ [] h2 rfl
  have := tokenize_n_step tags 1 _ _ _ _ _ h1 h12
  simpa using this

theorem tokenize_mdo_first (tags : TagTable) (ctx : tokenizer) (m : CStr) (rest : List Nat)
    (hm : m ∈ markup_matches)
    (hs : ctx.state = STATE.STATE_MARKUP_DECLARATION_OPEN) (hnone : ctx.match_ = none)
    (hk : ctx.buf_len = 0) (hlen : ctx.buf.length = 16) (hfp : ctx.fp = m.getD 0 0 :: rest) :
    ∃ ctx1 : tokenizer, tokenize tags ctx = Except.ok (none, ctx1) ∧ mdo_at ctx1 m 1 ∧
      ctx1.fp = rest := by
  unfold tokenize
  rw [hfp]
  simp only [markup_matches, List.mem_cons, List.mem_singleton, List.not_mem_nil, or_false] at hm
  rcases hm with rfl | rfl | rfl <;>
    simp [iscntrl, hs, hnone, hk, hlen, tokenize_switch, ret_null, Except.map, mdo_at]

theorem tokenize_mdo_first_departs (tags : TagTable) (ctx : tokenizer) (c : Nat)
    (rest : List Nat) (hs : ctx.state = STATE.STATE_MARKUP_DECLARATION_OPEN)
    (hnone : ctx.match_ = none) (hfp : ctx.fp = c :: rest)
    (hc : passes_prefilter c = true) (h1 : c ≠ 45) (h2 : c ≠ 68) (h3 : c ≠ 91) :
    ∃ ctx1 : tokenizer, tokenize tags ctx = Except.ok (none, ctx1) ∧
      ctx1.state = STATE.STATE_BOGUS_COMMENT ∧ ctx1.fp = rest := by
  obtain ⟨h255, hf⟩ := passes_prefilter_facts c hc
  unfold tokenize
  rw [hfp]
  simp only [h255, if_false, hf, Bool.false_eq_true]
  by_cases h10 : c = 10 <;>
    simp [h10, hs, hnone, h1, h2, h3, tokenize_switch, enter_state, ret_null, Except.map]

theorem peek_buf_read_opt (buf : List Nat) (k c : Nat) (h : k < buf.length) :
    (buf.set k c)[k]?.getD 0 = c := by
  simp [List.getElem?_set, h]

theorem tokenize_mdo_departs (tags : TagTable) (ctx : tokenizer) (m : CStr) (k c : Nat)
    (rest : List Nat) (hat : mdo_at ctx m k) (hk16 : k < 16) (hfp : ctx.fp = c :: rest)
    (hc : passes_prefilter c = true) (hne : c ≠ m.getD k 0) :
    ∃ ctx1 : tokenizer, tokenize tags ctx = Except.ok (none, ctx1) ∧
      ctx1.state = STATE.STATE_BOGUS_COMMENT ∧ ctx1.fp = rest := by
  obtain ⟨hs, hm, hk, hlen⟩ := hat
  obtain ⟨h255, hf⟩ := passes_prefilter_facts c hc
  have hread := peek_buf_read_opt ctx.buf k c (by omega)
  have hne1 : ¬ (c = m[k]?.getD 0) := by
    simpa [List.getD_eq_getElem?_getD] using hne
  unfold tokenize
  rw [hfp]
  simp only [h255, if_false, hf, Bool.false_eq_true]
  by_cases h10 : c = 10
  · subst h10
    simp [hs, hm, hk, tokenize_switch, enter_state, ret_null, Except.map, hread, hne1]
  · simp [h10, hs, hm, hk, tokenize_switch, enter_state, ret_null, Except.map, hread, hne1]

theorem markup_matches_facts (m : CStr) (k : Nat) (hm : m ∈ markup_matches)
    (hk : k < m.length) :
    passes_prefilter (m.getD k 0) = true ∧ m.getD k 0 ≠ 10 ∧ m.getD k 0 ≠ 0 ∧ k < 7 ∧
      (k + 1 = m.length → m.getD (k + 1) 0 = 0) ∧
      (k + 1 < m.length → m.getD (k + 1) 0 ≠ 0) := by
  simp only [markup_matches, List.mem_cons, List.mem_singleton, List.not_mem_nil, or_false] at hm
  rcases hm with rfl | rfl | rfl
  · have : k < 2 := hk
    interval_cases k <;> decide
  · have : k < 7 := hk
    interval_cases k <;> decide
  · have : k < 7 := hk
    interval_cases k <;> decide

theorem tokenize_mdo_match (tags : TagTable) (ctx : tokenizer) (m : CStr) (k : Nat)
    (rest : List Nat) (hm : m ∈ markup_matches) (hat : mdo_at ctx m k)
    (hk : k + 1 < m.length) (hfp : ctx.fp = m.getD k 0 :: rest) :
    ∃ ctx1 : tokenizer, tokenize tags ctx = Except.ok (none, ctx1) ∧ mdo_at ctx1 m (k + 1) ∧
      ctx1.fp = rest := by
  obtain ⟨hs, hmm, hkk, hlen⟩ := hat
  obtain ⟨hp, h10, _, hk7, _, hnz⟩ := markup_matches_facts m k hm (by omega)
  obtain ⟨h255, hf⟩ := passes_prefilter_facts _ hp
  have hread := peek_buf_read_opt ctx.buf k (m.getD k 0) (by omega)
  have hnz1 : ¬ (m[k + 1]?.getD 0 = 0) := by
    simpa [List.getD_eq_getElem?_getD] using hnz hk
  simp only [List.getD_eq_getElem?_getD] at hread h10 h255 hf hfp
  unfold tokenize
  rw [hfp]
  simp only [h255, if_false, hf, Bool.false_eq_true]
  simp [h10, hs, hmm, hkk, hlen, tokenize_switch, ret_null, Except.map, hread, hnz1, mdo_at]

theorem tokenize_mdo_complete (tags : TagTable) (ctx : tokenizer) (m : CStr) (k : Nat)
    (rest : List Nat) (hm : m ∈ markup_matches) (hat : mdo_at ctx m k)
    (hk : k + 1 = m.length) (hfp : ctx.fp = m.getD k 0 :: rest) :
    ∃ ctx1 : tokenizer, tokenize tags ctx = Except.ok (none, ctx1) ∧
      ctx1.state = markup_target m ∧ ctx1.fp = rest := by
  obtain ⟨hs, hmm, hkk, hlen⟩ := hat
  simp only [markup_matches, List.mem_cons, List.mem_singleton, List.not_mem_nil, or_false] at hm
  rcases hm with rfl | rfl | rfl
  · have hk1 : k = 1 := by simpa using hk
    subst hk1
    have hread := peek_buf_read_opt ctx.buf 1 45 (by omega)
    unfold tokenize
    rw [hfp]
    simp [iscntrl, hs, hmm, hkk, tokenize_switch, ret_null, Except.map, hread, enter_state,
      markup_target]
  · have hk1 : k = 6 := by simpa using hk
    subst hk1
    have hread := peek_buf_read_opt ctx.buf 6 69 (by omega)
    unfold tokenize
    rw [hfp]
    simp [iscntrl, hs, hmm, hkk, tokenize_switch, ret_null, Except.map, hread, enter_state,
      markup_target]
  · have hk1 : k = 6 := by simpa using hk
    subst hk1
    have hread := peek_buf_read_opt ctx.buf 6 91 (by omega)
    unfold tokenize
    rw [hfp]
    simp [iscntrl, hs, hmm, hkk, tokenize_switch, ret_null, Except.map, hread, enter_state,
      enter_state_err, markup_target]

theorem take_succ_getD (m : CStr) (k : Nat) (hk : k < m.length) :
    m.take (k + 1) = m.take k ++ [m.getD k 0] := by
  rw [List.take_succ]
  simp [List.getD_eq_getElem?_getD, List.getElem?_eq_getElem hk]

theorem tokenize_mdo_prefix_run (tags : TagTable) (m : CStr) (hm : m ∈ markup_matches)
    (k : Nat) (ctx : tokenizer) (rest : List Nat) (hk0 : 0 < k) (hk : k < m.length)
    (hs : ctx.state = STATE.STATE_MARKUP_DECLARATION_OPEN) (hnone : ctx.match_ = none)
    (hlen0 : ctx.buf_len = 0) (hlen : ctx.buf.length = 16)
    (hfp : ctx.fp = m.take k ++ rest) :
    ∃ ctx1 : tokenizer, tokenize_n tags k ctx = Except.ok ([], ctx1) ∧ mdo_at ctx1 m k ∧
      ctx1.fp = rest := by
  induction k generalizing rest with
  | zero => omega
  | succ j ih =>
    by_cases hj : j = 0
    · subst hj
      have hfp1 : ctx.fp = m.getD 0 0 :: rest := by
        rw [hfp, take_succ_getD m 0 (by omega)]
        simp
      obtain ⟨ctx1, h1, hat, hr⟩ := tokenize_mdo_first tags ctx m rest hm hs hnone hlen0 hlen hfp1
      exact ⟨ctx1, by simpa using tokenize_n_step tags 0 _ _ _ _ [] h1 rfl, hat, hr⟩
    · have hfp1 : ctx.fp = m.take j ++ (m.getD j 0 :: rest) := by
        rw [hfp, take_succ_getD m j (by omega)]
        simp
      obtain ⟨ctx1, h1, hat, hr⟩ := ih (m.getD j 0 :: rest) (by omega) (by omega) hfp1
      obtain ⟨ctx2, h2, hat2, hr2⟩ := tokenize_mdo_match tags ctx1 m j rest hm hat hk hr
      have h2n := tokenize_n_step tags 0 _ _ _ _ [] h2 rfl
      exact ⟨ctx2, by simpa using tokenize_n_add tags j 1 _ _ _ _ _ h1 h2n, hat2, hr2⟩

theorem tokenize_mdo_full_run (tags : TagTable) (m : CStr) (hm : m ∈ markup_matches)
    (ctx : tokenizer) (rest : List Nat)
    (hs : ctx.state = STATE.STATE_DATA) (hlen : ctx.buf.length = 16)
    (hfp : ctx.fp = [60, 33] ++ m ++ rest) :
    ∃ ctx1 : tokenizer, tokenize_n tags (2 + m.length) ctx = Except.ok ([], ctx1) ∧
      ctx1.state = markup_target m ∧ ctx1.fp = rest := by
  have hl : 2 ≤ m.length := by
    simp only [markup_matches, List.mem_cons, List.mem_singleton, List.not_mem_nil,
      or_false] at hm
    rcases hm with rfl | rfl | rfl <;> decide
  have h0 := tokenize_data_lt_bang tags ctx (m ++ rest) hs (by simpa using hfp)
  have hsplit : m = m.take (m.length - 1) ++ [m.getD (m.length - 1) 0] := by
    have := take_succ_getD m (m.length - 1) (by omega)
    rw [show m.length - 1 + 1 = m.length by omega, List.take_length] at this
    exact this
  obtain ⟨ctx1, h1, hat, hr⟩ := tokenize_mdo_prefix_run tags m hm (m.length - 1)
    { ctx with fp := m ++ rest, match_ := none, buf_len := 0,
               state := STATE.STATE_MARKUP_DECLARATION_OPEN }
    (m.getD (m.length - 1) 0 :: rest) (by omega) (by omega) rfl rfl rfl hlen
    (by
      show m ++ rest = m.take (m.length - 1) ++ (m.getD (m.length - 1) 0 :: rest)
      conv => lhs; rw [hsplit]
      simp)
  obtain ⟨ctx2, h2, hst, hr2⟩ := tokenize_mdo_complete tags ctx1 m (m.length - 1) rest hm hat
    (by omega) hr
  have h2n := tokenize_n_step tags 0 _ _ _ _ [] h2 rfl
  have h12 := tokenize_n_add tags (m.length - 1) 1 _ _ _ _ _ h1 h2n
  have h012 := tokenize_n_add tags 2 (m.length - 1 + 1) _ _ _ _ _ h0 h12
  rw [show m.length - 1 + 1 = m.length by omega] at h012
  exact ⟨ctx2, by simpa using h012, hst, hr2⟩

/-! ### The markup declaration state: claims -/

/-- C20 (as stated, refuted): after `<!` the control byte 1 departs from all
three prefixes, but the tokenizer does not enter BOGUS_COMMENT: the pre-filter
drops the byte and the state stays MARKUP_DECLARATION_OPEN, so that `--` read
after it still leads to COMMENT_START. -/
theorem markup_declaration_control_byte_stays :
    (1 ≠ 45 ∧ 1 ≠ 68 ∧ 1 ≠ 91) ∧
    (tokenize_n tags_example 3 (tokenizer_init [60, 33, 1])).toOption.map
      (fun r => (r.1, r.2.state)) = some ([], STATE.STATE_MARKUP_DECLARATION_OPEN) ∧
    (tokenize_n tags_example 5 (tokenizer_init [60, 33, 1, 45, 45])).toOption.map
      (fun r => (r.1, r.2.state)) = some ([], STATE.STATE_COMMENT_START) := by
  refine ⟨by decide, by decide, by decide⟩

/-- C20 (amended): markup-declaration dispatch. From the DATA state, for every
tag table: after `<!`, reading exactly `--` (45 45) enters COMMENT_START,
exactly `DOCTYPE` enters DOCTYPE and exactly `[CDATA[` enters BOGUS_COMMENT;
the first byte that passes the pre-filter (no control byte other than line
feed and tab, not the byte 255) and departs from all three prefixes, or from
the prefix selected by the first byte, enters BOGUS_COMMENT; while a proper
prefix has been read the state stays MARKUP_DECLARATION_OPEN; and none of
these calls returns a token. -/
theorem markup_declaration_dispatch (tags : TagTable) (ctx : tokenizer)
    (hs : ctx.state = STATE.STATE_DATA) (hbuf : ctx.buf.length = 16) :
    (∀ rest : List Nat, ctx.fp = [60, 33] ++ [45, 45] ++ rest →
      ∃ ctx1 : tokenizer, tokenize_n tags 4 ctx = Except.ok ([], ctx1) ∧
        ctx1.state = STATE.STATE_COMMENT_START ∧ ctx1.fp = rest) ∧
    (∀ rest : List Nat, ctx.fp = [60, 33] ++ [68, 79, 67, 84, 89, 80, 69] ++ rest →
      ∃ ctx1 : tokenizer, tokenize_n tags 9 ctx = Except.ok ([], ctx1) ∧
        ctx1.state = STATE.STATE_DOCTYPE ∧ ctx1.fp = rest) ∧
    (∀ rest : List Nat, ctx.fp = [60, 33] ++ [91, 67, 68, 65, 84, 65, 91] ++ rest →
      ∃ ctx1 : tokenizer, tokenize_n tags 9 ctx = Except.ok ([], ctx1) ∧
        ctx1.state = STATE.STATE_BOGUS_COMMENT ∧ ctx1.fp = rest) ∧
    (∀ (c : Nat) (rest : List Nat), passes_prefilter c = true →
      c ≠ 45 → c ≠ 68 → c ≠ 91 → ctx.fp = [60, 33] ++ c :: rest →
      ∃ ctx1 : tokenizer, tokenize_n tags 3 ctx = Except.ok ([], ctx1) ∧
        ctx1.state = STATE.STATE_BOGUS_COMMENT ∧ ctx1.fp = rest) ∧
    (∀ m ∈ markup_matches, ∀ (k c : Nat) (rest : List Nat), 0 < k → k < m.length →
      passes_prefilter c = true → c ≠ m.getD k 0 →
      ctx.fp = [60, 33] ++ m.take k ++ c :: rest →
      ∃ ctx1 : tokenizer, tokenize_n tags (2 + (k + 1)) ctx = Except.ok ([], ctx1) ∧
        ctx1.state = STATE.STATE_BOGUS_COMMENT ∧ ctx1.fp = rest) ∧
    (∀ m ∈ markup_matches, ∀ (k : Nat) (rest : List Nat), 0 < k → k < m.length →
      ctx.fp = [60, 33] ++ m.take k ++ rest →
      ∃ ctx1 : tokenizer, tokenize_n tags (2 + k) ctx = Except.ok ([], ctx1) ∧
        ctx1.state = STATE.STATE_MARKUP_DECLARATION_OPEN ∧ ctx1.fp = rest) := by
  refine ⟨?_, ?_, ?_, ?_, ?_, ?_⟩
  · intro rest hfp
    exact tokenize_mdo_full_run tags [45, 45] (by decide) ctx rest hs hbuf hfp
  · intro rest hfp
    exact tokenize_mdo_full_run tags [68, 79, 67, 84, 89, 80, 69] (by decide) ctx rest hs hbuf hfp
  · intro rest hfp
    exact tokenize_mdo_full_run tags [91, 67, 68, 65, 84, 65, 91] (by decide) ctx rest hs hbuf
      hfp
  · intro c rest hc h1 h2 h3 hfp
    have h0 := tokenize_data_lt_bang tags ctx (c :: rest) hs (by simpa using hfp)
    obtain ⟨ctx1, hstep, hst, hr⟩ := tokenize_mdo_first_departs tags
      { ctx with fp := c :: rest, match_ := none, buf_len := 0,
                 state := STATE.STATE_MARKUP_DECLARATION_OPEN } c rest rfl rfl rfl hc h1 h2 h3
    have h1n := tokenize_n_step tags 0 _ _ _ _ [] hstep rfl
    exact ⟨ctx1, by simpa using tokenize_n_add tags 2 1 _ _ _ _ _ h0 h1n, hst, hr⟩
  · intro m hm k c rest hk0 hk hc hne hfp
    have h0 := tokenize_data_lt_bang tags ctx (m.take k ++ c :: rest) hs (by simpa using hfp)
    obtain ⟨ctx1, h1, hat, hr⟩ := tokenize_mdo_prefix_run tags m hm k
      { ctx with fp := m.take k ++ c :: rest, match_ := none, buf_len := 0,
                 state := STATE.STATE_MARKUP_DECLARATION_OPEN }
      (c :: rest) hk0 hk rfl rfl rfl hbuf rfl
    have hk7 := (markup_matches_facts m k hm hk).2.2.2.1
    obtain ⟨ctx2, h2, hst, hr2⟩ := tokenize_mdo_departs tags ctx1 m k c rest hat (by omega) hr
      hc hne
    have h2n := tokenize_n_step tags 0 _ _ _ _ [] h2 rfl
    have h12 := tokenize_n_add tags k 1 _ _ _ _ _ h1 h2n
    exact ⟨ctx2, by simpa using tokenize_n_add tags 2 (k + 1) _ _ _ _ _ h0 h12, hst, hr2⟩
  · intro m hm k rest hk0 hk hfp
    have h0 := tokenize_data_lt_bang tags ctx (m.take k ++ rest) hs (by simpa using hfp)
    obtain ⟨ctx1, h1, hat, hr⟩ := tokenize_mdo_prefix_run tags m hm k
      { ctx with fp := m.take k ++ rest, match_ := none, buf_len := 0,
                 state := STATE.STATE_MARKUP_DECLARATION_OPEN }
      rest hk0 hk rfl rfl rfl hbuf rfl
    exact ⟨ctx1, by simpa using tokenize_n_add tags 2 k _ _ _ _ _ h0 h1, hat.1, hr⟩

/-- C20 (amended) at concrete inputs: a zeroed tokenizer that reads
`<!DOCTYPE x` is in DOCTYPE after the E, and one that reads `<!DOX` is in
BOGUS_COMMENT after the X. -/
theorem markup_declaration_dispatch_witness :
    (∃ ctx1 : tokenizer,
      tokenize_n tags_example 9 (tokenizer_init (cstr "<!DOCTYPE x")) = Except.ok ([], ctx1) ∧
      ctx1.state = STATE.STATE_DOCTYPE ∧ ctx1.fp = [32, 120]) ∧
    (∃ ctx1 : tokenizer,
      tokenize_n tags_example (2 + (2 + 1)) (tokenizer_init (cstr "<!DOX")) =
        Except.ok ([], ctx1) ∧
      ctx1.state = STATE.STATE_BOGUS_COMMENT ∧ ctx1.fp = []) :=
  ⟨(markup_declaration_dispatch tags_example (tokenizer_init (cstr "<!DOCTYPE x")) rfl
      (by decide)).2.1 [32, 120] (by decide),
   (markup_declaration_dispatch tags_example (tokenizer_init (cstr "<!DOX")) rfl
      (by decide)).2.2.2.2.1 [68, 79, 67, 84, 89, 80, 69] (by decide) 2 88 [] (by decide)
      (by decide) (by decide) (by decide) (by decide)⟩


/-! ### The dispatcher: inserting and closing elements -/

theorem insert_element_ns_ok (tags : TagTable) (w : World) (t : token) (ns : Nat)
    (htype : t.type = TOKEN_TYPE.TOKEN_START_TAG) (hname : t.tag.name ≠ NamePtr.null)
    (hid : t.tag.tagid < TAGMAP_SZ) :
    insert_element_ns tags w t ns =
      Except.ok (some w.elems.length,
        (if (tags t.tag.tagid).flags &&& TAG_EMPTY = 0 then
          { (emit
              { flush_cdata_begin w with
                elems := w.elems ++ [{ tagid := t.tag.tagid, name := t.tag.name,
                                       attr := t.tag.attr,
                                       node := some (node.NODE_ELEM w.elems.length), ns := 0 }],
                ctx := if t.tag.tagid ≠ 0 then
                    { (flush_cdata_begin w).ctx with head_elem := some w.elems.length }
                  else (flush_cdata_begin w).ctx }
              (event.begin (node.NODE_ELEM w.elems.length))) with
            ostack := ostack_push w.ostack (some w.elems.length) }
        else
          emit
            (emit
              { flush_cdata_begin w with
                elems := w.elems ++ [{ tagid := t.tag.tagid, name := t.tag.name,
                                       attr := t.tag.attr,
                                       node := some (node.NODE_ELEM w.elems.length), ns := 0 }],
                ctx := if t.tag.tagid ≠ 0 then
                    { (flush_cdata_begin w).ctx with head_elem := some w.elems.length }
                  else (flush_cdata_begin w).ctx }
              (event.begin (node.NODE_ELEM w.elems.length)))
            (event.end_ (node.NODE_ELEM w.elems.length))),
        { t with used := 1 }) := by
  have hel : (flush_cdata_begin w).elems = w.elems := by
    unfold flush_cdata_begin emit
    cases w.ctx.cdata <;> rfl
  have hos : (flush_cdata_begin w).ostack = w.ostack := by
    unfold flush_cdata_begin emit
    cases w.ctx.cdata <;> rfl
  unfold insert_element_ns
  simp only [htype, if_true, hname, if_false, tag_flags, tagmap, hid, hel]
  by_cases hf : (tags t.tag.tagid).flags &&& TAG_EMPTY = 0
  · simp [hf, emit, hos]
  · simp [hf]

theorem flush_cdata_begin_events (w : World) :
    (flush_cdata_begin w).events =
      w.events ++ (w.ctx.cdata.map (fun c => event.begin (node.NODE_CDATA c))).toList := by
  unfold flush_cdata_begin emit
  cases w.ctx.cdata <;> simp

theorem flush_cdata_begin_cdata (w : World) : (flush_cdata_begin w).ctx.cdata = none := by
  unfold flush_cdata_begin emit
  cases h : w.ctx.cdata <;> simp [h]

theorem str_fold_add (l : List Nat) (b : str) (hne : l ≠ []) (hall : ∀ c ∈ l, c ≠ 0) :
    l.foldl str_add b = { s := some (b.s.getD [] ++ l) } := by
  induction l generalizing b with
  | nil => exact absurd rfl hne
  | cons c cs ih =>
    have hc : c ≠ 0 := hall c (List.mem_cons_self _ _)
    have h1 : str_add b c = { s := some (b.s.getD [] ++ [c]) } := by simp [str_add, hc]
    simp only [List.foldl_cons, h1]
    by_cases hcs : cs = []
    · subst hcs
      simp
    · rw [ih _ hcs (fun x hx => hall x (List.mem_cons_of_mem _ hx))]
      simp

/-- C16: inserting a well-formed start tag token (the name is set and the tag
id is a slot of the table) in a world whose stack is well formed makes a new
element at the next address, carrying the tag id, the name and the attribute
list of the token, and marks the token used. After the flush of pending
character data the callback `begin` gets the node of the new element. If the
tag has the flag `TAG_EMPTY`, the callback `end` gets the same node at once and
the stack is unchanged; otherwise no `end` is emitted and the element is the
new top of the stack, one deeper than before. -/
theorem insert_element_ns_inserts (tags : TagTable) (w : World) (t : token) (ns : Nat)
    (htype : t.type = TOKEN_TYPE.TOKEN_START_TAG) (hname : t.tag.name ≠ NamePtr.null)
    (hid : t.tag.tagid < TAGMAP_SZ) (hwf : w.ostack.WF) :
    ∃ w1, insert_element_ns tags w t ns =
        Except.ok (some w.elems.length, w1, { t with used := 1 }) ∧
      elem_at w1 (some w.elems.length) =
        Except.ok { tagid := t.tag.tagid, name := t.tag.name, attr := t.tag.attr,
                    node := some (node.NODE_ELEM w.elems.length), ns := 0 } ∧
      ((tags t.tag.tagid).flags &&& TAG_EMPTY ≠ 0 →
        w1.events = (flush_cdata_begin w).events ++
          [event.begin (node.NODE_ELEM w.elems.length),
           event.end_ (node.NODE_ELEM w.elems.length)] ∧
        w1.ostack = w.ostack) ∧
      ((tags t.tag.tagid).flags &&& TAG_EMPTY = 0 →
        w1.events = (flush_cdata_begin w).events ++
          [event.begin (node.NODE_ELEM w.elems.length)] ∧
        ostack_peek w1.ostack = some w.elems.length ∧
        ostack_depth w1.ostack = ostack_depth w.ostack + 1 ∧
        w1.ostack.contents = w.ostack.contents ++ [some w.elems.length]) := by
  have hos : (flush_cdata_begin w).ostack = w.ostack := by
    unfold flush_cdata_begin emit
    cases w.ctx.cdata <;> rfl
  refine ⟨_, insert_element_ns_ok tags w t ns htype hname hid, ?_, ?_, ?_⟩
  · by_cases hf : (tags t.tag.tagid).flags &&& TAG_EMPTY = 0 <;> simp [hf, elem_at, emit]
  · intro hf
    simp [hf, emit, hos]
  · intro hf
    have hpeek := ostack_peek_contents _ (ostack_push_wf w.ostack (some w.elems.length) hwf)
    rw [ostack_push_contents _ _ hwf] at hpeek
    simp only [hf, if_true, emit]
    refine ⟨by simp, ?_, ?_, ostack_push_contents _ _ hwf⟩
    · simpa using hpeek
    · simp [ostack_depth, ostack_push_depth]

/-- C16 at concrete inputs: in `world_example`, where `p` is open and text is
pending, inserting `br` (flag `TAG_EMPTY`) makes element 1; the world that
results is determined. -/
theorem insert_element_ns_inserts_witness :
    ∃ w1, insert_element_ns tags_example world_example (start_tag_token 100) NS_HTML =
        Except.ok (some 1, w1, { start_tag_token 100 with used := 1 }) ∧
      elem_at w1 (some 1) =
        Except.ok { tagid := 100, name := NamePtr.table 100, attr := [],
                    node := some (node.NODE_ELEM 1), ns := 0 } ∧
      ((tags_example 100).flags &&& TAG_EMPTY ≠ 0 →
        w1.events = (flush_cdata_begin world_example).events ++
          [event.begin (node.NODE_ELEM 1), event.end_ (node.NODE_ELEM 1)] ∧
        w1.ostack = world_example.ostack) ∧
      ((tags_example 100).flags &&& TAG_EMPTY = 0 →
        w1.events = (flush_cdata_begin world_example).events ++
          [event.begin (node.NODE_ELEM 1)] ∧
        ostack_peek w1.ostack = some 1 ∧
        ostack_depth w1.ostack = ostack_depth world_example.ostack + 1 ∧
        w1.ostack.contents = world_example.ostack.contents ++ [some 1]) :=
  insert_element_ns_inserts tags_example world_example (start_tag_token 100) NS_HTML
    (by decide) (by decide) (by decide) (ostack_push_wf _ _ ⟨rfl, by decide⟩)


theorem close_tag_ok (w : World) (a : Nat) (e : elem) (n : node)
    (ha : w.elems[a]? = some e) (hn : e.node = some n) :
    close_tag w (some a) =
      Except.ok (emit { flush_cdata_end w with
                        ostack := (ostack_pop (flush_cdata_end w).ostack).2 } (event.end_ n)) := by
  have hel : (flush_cdata_end w).elems = w.elems := by
    unfold flush_cdata_end emit
    cases w.ctx.cdata <;> rfl
  unfold close_tag
  simp [elem_at, hel, ha, hn]

theorem flush_cdata_end_events (w : World) :
    (flush_cdata_end w).events =
      w.events ++ (w.ctx.cdata.map (fun c => event.end_ (node.NODE_CDATA c))).toList := by
  unfold flush_cdata_end emit
  cases w.ctx.cdata <;> simp

theorem flush_cdata_end_cdata (w : World) : (flush_cdata_end w).ctx.cdata = none := by
  unfold flush_cdata_end emit
  cases h : w.ctx.cdata <;> simp [h]

theorem insert_char_ok (w : World) (tc : token) (bs : CStr)
    (htc : tc.type = TOKEN_TYPE.TOKEN_CHAR) (hbs : tc.s.s = some bs) :
    insert_char w tc =
      Except.ok
        ({ w with
           ctx :=
             { w.ctx with
               cdata :=
                 some { type := (w.ctx.cdata.getD (cdata_create T_CDATA.CDATA_TEXT)).type,
                        data := bs.foldl str_add
                          (w.ctx.cdata.getD (cdata_create T_CDATA.CDATA_TEXT)).data } } },
         { tc with used := 1 }) := by
  unfold insert_char
  simp [htc, cdata_add, hbs]

/-! ### The dispatcher: pending character data -/

/-- C13, the claim as written fails: for the input `<p>a<b>` the text `a` is
pending when `b` is inserted; the consumer gets `begin` for the text node, then
`begin` for `b`, and no `end` for the text node. -/
theorem text_before_start_tag_gets_no_end :
    ∃ o, outcome (parse ids_html tags_html (cstr "<p>a<b>")) = some o ∧
      o.events =
        [event.begin (node.NODE_ELEM 0), event.begin (node.NODE_ELEM 1),
         event.end_ (node.NODE_ELEM 1), event.begin (node.NODE_ELEM 2),
         event.begin (node.NODE_ELEM 3),
         event.begin (node.NODE_CDATA
           { type := T_CDATA.CDATA_TEXT, data := { s := some (cstr "a") } }),
         event.begin (node.NODE_ELEM 4)] ∧
      o.tagids = [ids_html.TAG_HTML, ids_html.TAG_HEAD, ids_html.TAG_BODY, ids_html.TAG_P, 914] ∧
      event.end_ (node.NODE_CDATA
        { type := T_CDATA.CDATA_TEXT, data := { s := some (cstr "a") } }) ∉ o.events :=
  ⟨{ events :=
       [event.begin (node.NODE_ELEM 0), event.begin (node.NODE_ELEM 1),
        event.end_ (node.NODE_ELEM 1), event.begin (node.NODE_ELEM 2),
        event.begin (node.NODE_ELEM 3),
        event.begin (node.NODE_CDATA
          { type := T_CDATA.CDATA_TEXT, data := { s := some (cstr "a") } }),
        event.begin (node.NODE_ELEM 4)],
     tagids := [549, 906, 254, 752, 914],
     stack := [some 0, some 2, some 3, some 4],
     pending := none,
     states := [STATE.STATE_NONE, STATE.STATE_NONE, STATE.STATE_NONE] },
   by decide!, rfl, by decide, by decide⟩

/-- C13, amended: pending character data is flushed by one event, not by a
pair. With character data `c` pending in the world `w`: inserting a well-formed
start tag token passes the node of `c` to `begin`, then the node of the new
element to `begin` (and to `end` when the tag has the flag `TAG_EMPTY`);
closing an element with a node passes the node of `c` to `end`, then the node
of the element to `end`; after either nothing is pending. A character token
with a non-empty string emits nothing and appends its bytes to the pending
data; with nothing pending (world `w0`) it starts text data made of its
bytes. -/
theorem pending_cdata_flushed_by_one_event (tags : TagTable) (w w0 : World) (c : cdata)
    (t tc : token) (ns a : Nat) (e : elem) (n : node) (bs : CStr)
    (hc : w.ctx.cdata = some c) (h0 : w0.ctx.cdata = none)
    (htype : t.type = TOKEN_TYPE.TOKEN_START_TAG) (hname : t.tag.name ≠ NamePtr.null)
    (hid : t.tag.tagid < TAGMAP_SZ)
    (ha : w.elems[a]? = some e) (hn : e.node = some n)
    (htc : tc.type = TOKEN_TYPE.TOKEN_CHAR) (hbs : tc.s.s = some bs) (hne : bs ≠ [])
    (hnz : ∀ b ∈ bs, b ≠ 0) :
    (∃ w1, insert_element_ns tags w t ns =
        Except.ok (some w.elems.length, w1, { t with used := 1 }) ∧
      w1.ctx.cdata = none ∧
      w1.events = w.events ++
        [event.begin (node.NODE_CDATA c), event.begin (node.NODE_ELEM w.elems.length)] ++
        (if (tags t.tag.tagid).flags &&& TAG_EMPTY = 0 then []
         else [event.end_ (node.NODE_ELEM w.elems.length)])) ∧
    (∃ w1, close_tag w (some a) = Except.ok w1 ∧
      w1.ctx.cdata = none ∧
      w1.events = w.events ++ [event.end_ (node.NODE_CDATA c), event.end_ n]) ∧
    (∃ w1, insert_char w tc = Except.ok (w1, { tc with used := 1 }) ∧
      w1.events = w.events ∧
      w1.ctx.cdata = some { c with data := { s := some (c.data.s.getD [] ++ bs) } }) ∧
    (∃ w1, insert_char w0 tc = Except.ok (w1, { tc with used := 1 }) ∧
      w1.events = w0.events ∧
      w1.ctx.cdata = some { type := T_CDATA.CDATA_TEXT, data := { s := some bs } }) := by
  refine ⟨⟨_, insert_element_ns_ok tags w t ns htype hname hid, ?_, ?_⟩,
    ⟨_, close_tag_ok w a e n ha hn, ?_, ?_⟩, ?_, ?_⟩
  · have h := flush_cdata_begin_cdata w
    by_cases hf : (tags t.tag.tagid).flags &&& TAG_EMPTY = 0
    · simp only [hf, if_true, emit]
      by_cases hz : t.tag.tagid = 0 <;> simp [hz, h]
    · simp only [hf, if_false, emit]
      by_cases hz : t.tag.tagid = 0 <;> simp [hz, h]
  · have h := flush_cdata_begin_events w
    by_cases hf : (tags t.tag.tagid).flags &&& TAG_EMPTY = 0 <;> simp [hf, emit, h, hc]
  · simpa [emit] using flush_cdata_end_cdata w
  · simp [emit, flush_cdata_end_events, hc]
  · refine ⟨_, insert_char_ok w tc bs htc hbs, rfl, ?_⟩
    simp [hc, str_fold_add bs c.data hne hnz]
  · refine ⟨_, insert_char_ok w0 tc bs htc hbs, rfl, ?_⟩
    simp [h0, str_fold_add bs _ hne hnz, cdata_create]

/-- C13 at concrete inputs: in `world_example`, where the text `a` is pending,
inserting `br`, closing `p` and adding the character `b`; and adding `b` in the
initial world. -/
theorem pending_cdata_flushed_by_one_event_witness :
    (∃ w1, insert_element_ns tags_example world_example (start_tag_token 100) NS_HTML =
        Except.ok (some 1, w1, { start_tag_token 100 with used := 1 }) ∧
      w1.ctx.cdata = none ∧
      w1.events = [event.begin (node.NODE_ELEM 0)] ++
        [event.begin (node.NODE_CDATA
           { type := T_CDATA.CDATA_TEXT, data := { s := some [97] } }),
         event.begin (node.NODE_ELEM 1)] ++
        (if (tags_example 100).flags &&& TAG_EMPTY = 0 then []
         else [event.end_ (node.NODE_ELEM 1)])) ∧
    (∃ w1, close_tag world_example (some 0) = Except.ok w1 ∧
      w1.ctx.cdata = none ∧
      w1.events = [event.begin (node.NODE_ELEM 0)] ++
        [event.end_ (node.NODE_CDATA
           { type := T_CDATA.CDATA_TEXT, data := { s := some [97] } }),
         event.end_ (node.NODE_ELEM 0)]) ∧
    (∃ w1, insert_char world_example
        { token_of_type TOKEN_TYPE.TOKEN_CHAR with s := { s := some [98] } } =
          Except.ok (w1, { token_of_type TOKEN_TYPE.TOKEN_CHAR with
                           s := { s := some [98] }, used := 1 }) ∧
      w1.events = [event.begin (node.NODE_ELEM 0)] ∧
      w1.ctx.cdata = some { type := T_CDATA.CDATA_TEXT, data := { s := some ([97] ++ [98]) } }) ∧
    (∃ w1, insert_char world_init
        { token_of_type TOKEN_TYPE.TOKEN_CHAR with s := { s := some [98] } } =
          Except.ok (w1, { token_of_type TOKEN_TYPE.TOKEN_CHAR with
                           s := { s := some [98] }, used := 1 }) ∧
      w1.events = [] ∧
      w1.ctx.cdata = some { type := T_CDATA.CDATA_TEXT, data := { s := some [98] } }) :=
  pending_cdata_flushed_by_one_event tags_example world_example world_init
    { type := T_CDATA.CDATA_TEXT, data := { s := some [97] } }
    (start_tag_token 100) { token_of_type TOKEN_TYPE.TOKEN_CHAR with s := { s := some [98] } }
    NS_HTML 0
    { tagid := 752, name := NamePtr.table 752, attr := [], node := some (node.NODE_ELEM 0),
      ns := 0 }
    (node.NODE_ELEM 0) [98]
    rfl rfl (by decide) (by decide) (by decide) rfl rfl rfl rfl (by decide) (by decide)


/-! ### The modelled tag table -/

/-- Every row of `tags_html_rows` sits where `tagmap_id` finds its name, and no
row is in slot 0, the id of custom tags. -/
theorem tags_html_lookup :
    tags_html_rows.all
      (fun r => decide (tagmap_id tags_html (cstr r.2.1) = some r.1) && decide (r.1 ≠ 0)) = true := by
  decide!

/-- Every constant of `ids_html` is the id `tagmap_id` returns for the
lowercase name of the constant. -/
theorem ids_html_lookup :
    List.all
    [("a", ids_html.TAG_A), ("address", ids_html.TAG_ADDRESS), ("applet", ids_html.TAG_APPLET),
     ("area", ids_html.TAG_AREA), ("article", ids_html.TAG_ARTICLE),
     ("aside", ids_html.TAG_ASIDE), ("base", ids_html.TAG_BASE),
     ("basefont", ids_html.TAG_BASEFONT), ("bgsound", ids_html.TAG_BGSOUND),
     ("blockquote", ids_html.TAG_BLOCKQUOTE), ("body", ids_html.TAG_BODY),
     ("br", ids_html.TAG_BR), ("button", ids_html.TAG_BUTTON),
     ("caption", ids_html.TAG_CAPTION), ("center", ids_html.TAG_CENTER),
     ("col", ids_html.TAG_COL), ("colgroup", ids_html.TAG_COLGROUP), ("dd", ids_html.TAG_DD),
     ("details", ids_html.TAG_DETAILS), ("dialog", ids_html.TAG_DIALOG),
     ("dir", ids_html.TAG_DIR), ("div", ids_html.TAG_DIV), ("dl", ids_html.TAG_DL),
     ("dt", ids_html.TAG_DT), ("embed", ids_html.TAG_EMBED),
     ("fieldset", ids_html.TAG_FIELDSET), ("figcaption", ids_html.TAG_FIGCAPTION),
     ("figure", ids_html.TAG_FIGURE), ("footer", ids_html.TAG_FOOTER),
     ("form", ids_html.TAG_FORM), ("frameset", ids_html.TAG_FRAMESET),
     ("head", ids_html.TAG_HEAD), ("header", ids_html.TAG_HEADER),
     ("hgroup", ids_html.TAG_HGROUP), ("html", ids_html.TAG_HTML), ("img", ids_html.TAG_IMG),
     ("keygen", ids_html.TAG_KEYGEN), ("li", ids_html.TAG_LI), ("link", ids_html.TAG_LINK),
     ("listing", ids_html.TAG_LISTING), ("main", ids_html.TAG_MAIN),
     ("marquee", ids_html.TAG_MARQUEE), ("math", ids_html.TAG_MATH),
     ("menu", ids_html.TAG_MENU), ("meta", ids_html.TAG_META), ("nav", ids_html.TAG_NAV),
     ("nobr", ids_html.TAG_NOBR), ("noframes", ids_html.TAG_NOFRAMES),
     ("noscript", ids_html.TAG_NOSCRIPT), ("object", ids_html.TAG_OBJECT),
     ("ol", ids_html.TAG_OL), ("optgroup", ids_html.TAG_OPTGROUP),
     ("option", ids_html.TAG_OPTION), ("p", ids_html.TAG_P),
     ("plaintext", ids_html.TAG_PLAINTEXT), ("pre", ids_html.TAG_PRE), ("rb", ids_html.TAG_RB),
     ("rp", ids_html.TAG_RP), ("rt", ids_html.TAG_RT), ("rtc", ids_html.TAG_RTC),
     ("script", ids_html.TAG_SCRIPT), ("section", ids_html.TAG_SECTION),
     ("select", ids_html.TAG_SELECT), ("style", ids_html.TAG_STYLE),
     ("summary", ids_html.TAG_SUMMARY), ("svg", ids_html.TAG_SVG),
     ("table", ids_html.TAG_TABLE), ("tbody", ids_html.TAG_TBODY), ("td", ids_html.TAG_TD),
     ("template", ids_html.TAG_TEMPLATE), ("tfoot", ids_html.TAG_TFOOT),
     ("th", ids_html.TAG_TH), ("thead", ids_html.TAG_THEAD), ("title", ids_html.TAG_TITLE),
     ("tr", ids_html.TAG_TR), ("ul", ids_html.TAG_UL), ("wbr", ids_html.TAG_WBR)]
      (fun r => decide (tagmap_id tags_html (cstr r.1) = some r.2)) = true := by
  decide!

/-! ### The dispatcher: runs on concrete inputs -/

/-- C11, a failing input: for the input `<p></template>` (the tokens START p,
END template) the run ends in a failed assertion. In IN_BODY the end tag
`template` is handed to the rules of IN_HEAD, whose last branch calls
`pop_elem(ctx, TAG_HEAD)`; the element `head` was popped before `body` was
inserted, so `pop_elem` empties the stack and reaches `assert(0)`: in the world
the run of `<p>` leaves, `pop_elem` for `head` fails. -/
theorem end_template_in_body_asserts :
    fault_of (parse ids_html tags_html (cstr "<p></template>")) = some Fault.assert_failed ∧
    (outcome (parse ids_html tags_html (cstr "<p>"))).map (fun o => (o.tagids, o.stack)) =
      some ([ids_html.TAG_HTML, ids_html.TAG_HEAD, ids_html.TAG_BODY, ids_html.TAG_P],
            [some 0, some 2, some 3]) ∧
    fault_of ((parse ids_html tags_html (cstr "<p>")).bind
      (fun r => pop_elem r.2.1 ids_html.TAG_HEAD)) = some Fault.assert_failed := by
  refine ⟨?_, ?_, ?_⟩ <;> decide!

/-- C12, the claim as written fails: the run of `<p>hi</p>` emits seven events,
not ten. No `begin` is emitted for the text node, and no `end` for `body`
(element 2) or `html` (element 0), which stay on the stack. -/
theorem parse_p_hi_lacks_events :
    ∃ o, outcome (parse ids_html tags_html (cstr "<p>hi</p>")) = some o ∧
      o.tagids = [ids_html.TAG_HTML, ids_html.TAG_HEAD, ids_html.TAG_BODY, ids_html.TAG_P] ∧
      o.events.length = 7 ∧
      event.begin (node.NODE_CDATA
        { type := T_CDATA.CDATA_TEXT, data := { s := some (cstr "hi") } }) ∉ o.events ∧
      event.end_ (node.NODE_ELEM 2) ∉ o.events ∧
      event.end_ (node.NODE_ELEM 0) ∉ o.events ∧
      o.stack = [some 0, some 2] :=
  ⟨{ events :=
       [event.begin (node.NODE_ELEM 0), event.begin (node.NODE_ELEM 1),
        event.end_ (node.NODE_ELEM 1), event.begin (node.NODE_ELEM 2),
        event.begin (node.NODE_ELEM 3),
        event.end_ (node.NODE_CDATA
          { type := T_CDATA.CDATA_TEXT, data := { s := some (cstr "hi") } }),
        event.end_ (node.NODE_ELEM 3)],
     tagids := [549, 906, 254, 752],
     stack := [some 0, some 2],
     pending := none,
     states := [STATE.STATE_NONE, STATE.STATE_NONE, STATE.STATE_NONE, STATE.STATE_NONE] },
   by decide!, by decide, rfl, by decide, by decide, by decide, rfl⟩

/-- C12, amended: the run of `<p>hi</p>` makes the elements `html`, `head`,
`body`, `p` (addresses 0 to 3) and emits exactly begin(html), begin(head),
end(head), begin(body), begin(p), end(text `hi`), end(p). The text node is
passed to `end` only, and nothing is emitted at the end of the input: `html`
and `body` stay on the stack. Every call of `dispatch` returns `STATE_NONE`. -/
theorem parse_p_hi_events :
    outcome (parse ids_html tags_html (cstr "<p>hi</p>")) = some
      { events :=
          [event.begin (node.NODE_ELEM 0), event.begin (node.NODE_ELEM 1),
           event.end_ (node.NODE_ELEM 1), event.begin (node.NODE_ELEM 2),
           event.begin (node.NODE_ELEM 3),
           event.end_ (node.NODE_CDATA
             { type := T_CDATA.CDATA_TEXT, data := { s := some (cstr "hi") } }),
           event.end_ (node.NODE_ELEM 3)],
        tagids := [ids_html.TAG_HTML, ids_html.TAG_HEAD, ids_html.TAG_BODY, ids_html.TAG_P],
        stack := [some 0, some 2],
        pending := none,
        states := [STATE.STATE_NONE, STATE.STATE_NONE, STATE.STATE_NONE, STATE.STATE_NONE] } := by
  decide!

/-- C14, the claim as written fails: after the run of `<p>a<b>bold</p>` the
elements `p` (address 3) and `b` (address 4) are still on the stack and no
`end` was emitted for either. -/
theorem end_p_leaves_b_and_p_open :
    ∃ o, outcome (parse ids_html tags_html (cstr "<p>a<b>bold</p>")) = some o ∧
      o.tagids = [ids_html.TAG_HTML, ids_html.TAG_HEAD, ids_html.TAG_BODY, ids_html.TAG_P, 914] ∧
      o.stack = [some 0, some 2, some 3, some 4] ∧
      event.end_ (node.NODE_ELEM 4) ∉ o.events ∧
      event.end_ (node.NODE_ELEM 3) ∉ o.events :=
  ⟨{ events :=
       [event.begin (node.NODE_ELEM 0), event.begin (node.NODE_ELEM 1),
        event.end_ (node.NODE_ELEM 1), event.begin (node.NODE_ELEM 2),
        event.begin (node.NODE_ELEM 3),
        event.begin (node.NODE_CDATA
          { type := T_CDATA.CDATA_TEXT, data := { s := some (cstr "a") } }),
        event.begin (node.NODE_ELEM 4)],
     tagids := [549, 906, 254, 752, 914],
     stack := [some 0, some 2, some 3, some 4],
     pending := some { type := T_CDATA.CDATA_TEXT, data := { s := some (cstr "bold") } },
     states := [STATE.STATE_NONE, STATE.STATE_NONE, STATE.STATE_NONE, STATE.STATE_NONE,
                STATE.STATE_NONE, STATE.STATE_NONE, STATE.STATE_NONE, STATE.STATE_NONE] },
   by decide!, by decide, rfl, by decide, by decide⟩

/-- C14, amended: for the input `<p>a<b>bold</p>` the token END p closes
nothing. With `b` on top of the stack `close_p_element` returns 0 without a
pop: the events, the elements, the stack and the pending text `bold` are what
the run of `<p>a<b>bold` leaves, and `p` and `b` are both still open. -/
theorem end_p_with_b_open_closes_nothing :
    outcome (parse ids_html tags_html (cstr "<p>a<b>bold</p>")) = some
      { events :=
          [event.begin (node.NODE_ELEM 0), event.begin (node.NODE_ELEM 1),
           event.end_ (node.NODE_ELEM 1), event.begin (node.NODE_ELEM 2),
           event.begin (node.NODE_ELEM 3),
           event.begin (node.NODE_CDATA
             { type := T_CDATA.CDATA_TEXT, data := { s := some (cstr "a") } }),
           event.begin (node.NODE_ELEM 4)],
        tagids := [ids_html.TAG_HTML, ids_html.TAG_HEAD, ids_html.TAG_BODY, ids_html.TAG_P, 914],
        stack := [some 0, some 2, some 3, some 4],
        pending := some { type := T_CDATA.CDATA_TEXT, data := { s := some (cstr "bold") } },
        states := [STATE.STATE_NONE, STATE.STATE_NONE, STATE.STATE_NONE, STATE.STATE_NONE,
                   STATE.STATE_NONE, STATE.STATE_NONE, STATE.STATE_NONE, STATE.STATE_NONE] } ∧
    (outcome (parse ids_html tags_html (cstr "<p>a<b>bold</p>"))).map
        (fun o => (o.events, o.tagids, o.stack, o.pending)) =
      (outcome (parse ids_html tags_html (cstr "<p>a<b>bold"))).map
        (fun o => (o.events, o.tagids, o.stack, o.pending)) ∧
    (parse ids_html tags_html (cstr "<p>a<b>bold")).toOption.map
        (fun r => (close_p_element ids_html r.2.1).toOption.map
          (fun c => (c.1, decide (c.2.events = r.2.1.events), c.2.ostack.contents)))
      = some (some (false, true, [some 0, some 2, some 3, some 4])) := by
  refine ⟨?_, ?_, ?_⟩ <;> decide!

/-- C15, a failing input: in the run of `<!DOCTYPE html><html><title>` the
token START title arrives in BEFORE_HEAD. The call of `dispatch` that consumes
it makes `head` and `title` and returns `STATE_NONE`, not `STATE_RCDATA`: the
value IN_HEAD returns is dropped by `insert_token_set_mode`. The tokenizer
stays in `STATE_DATA`. When the input opens `head` itself, the same token
arrives in IN_HEAD, `dispatch` returns `STATE_RCDATA` and the tokenizer is
switched. -/
theorem title_in_before_head_returns_none :
    outcome (parse ids_html tags_html (cstr "<!DOCTYPE html><html><title>")) = some
      { events := [event.begin (node.NODE_ELEM 0), event.begin (node.NODE_ELEM 1),
                   event.begin (node.NODE_ELEM 2)],
        tagids := [ids_html.TAG_HTML, ids_html.TAG_HEAD, ids_html.TAG_TITLE],
        stack := [some 0, some 1, some 2],
        pending := none,
        states := [STATE.STATE_NONE, STATE.STATE_NONE] } ∧
    (parse ids_html tags_html (cstr "<!DOCTYPE html><html><title>")).toOption.map
        (fun r => (r.1.state, r.2.1.ctx.mode)) =
      some (STATE.STATE_DATA, IMODE.IMODE_IN_HEAD) ∧
    (outcome (parse ids_html tags_html (cstr "<!DOCTYPE html><html>"))).map
        (fun o => o.states) = some [STATE.STATE_NONE] ∧
    (parse ids_html tags_html (cstr "<!DOCTYPE html><html>")).toOption.map
        (fun r => r.2.1.ctx.mode) = some IMODE.IMODE_BEFORE_HEAD ∧
    (outcome (parse ids_html tags_html (cstr "<html><head><title>"))).map
        (fun o => o.states) = some [STATE.STATE_NONE, STATE.STATE_NONE, STATE.STATE_RCDATA] ∧
    (parse ids_html tags_html (cstr "<html><head><title>")).toOption.map
        (fun r => (r.1.state, r.2.1.ctx.mode)) =
      some (STATE.STATE_RCDATA, IMODE.IMODE_IN_HEAD) := by
  refine ⟨?_, ?_, ?_, ?_, ?_, ?_⟩ <;> decide!


/-! ### Character references -/

theorem isalnum_facts (c : Nat) (h : isalnum c = true) :
    c ≠ 255 ∧ c ≠ 10 ∧ c ≠ 9 ∧ iscntrl c = false ∧ c ≠ 60 ∧ c ≠ 38 ∧ c ≠ 35 := by
  simp only [isalnum, isalpha, Bool.or_eq_true, Bool.and_eq_true, decide_eq_true_eq] at h
  simp only [iscntrl, Bool.or_eq_false_iff, decide_eq_false_iff_not]
  omega

theorem tokenize_amp (tags : TagTable) (ctx : tokenizer) (rest : List Nat) (st : STATE)
    (hst : st = STATE.STATE_DATA ∨ st = STATE.STATE_RCDATA)
    (hs : ctx.state = st) (hfp : ctx.fp = 38 :: rest) :
    tokenize tags ctx =
      Except.ok (none, { ctx with fp := rest, state := STATE.STATE_CHARACTER_REFERENCE,
                                  return_state := st }) := by
  unfold tokenize
  rw [hfp]
  rcases hst with h | h <;> subst h <;>
    simp [iscntrl, hs, tokenize_switch, enter_state, enter_state_return, ret_null, Except.map]

theorem tokenize_char_ref_alnum (tags : TagTable) (ctx : tokenizer) (a : Nat)
    (rest : List Nat) (hs : ctx.state = STATE.STATE_CHARACTER_REFERENCE)
    (hfp : ctx.fp = a :: rest) (ha : isalnum a = true) :
    tokenize tags ctx =
      Except.ok (none, { ctx with fp := a :: rest, state := STATE.STATE_NAMED_CHAR_REF }) := by
  obtain ⟨h1, h2, h3, h4, _, _, _⟩ := isalnum_facts a ha
  unfold tokenize
  rw [hfp]
  simp [h1, h2, h3, h4, ha, hs, tokenize_switch, enter_state, enter_state_reconsume, ret_null,
    Except.map]

theorem enter_state_text (ctx : tokenizer) (st : STATE)
    (hst : st = STATE.STATE_DATA ∨ st = STATE.STATE_RCDATA) :
    enter_state ctx st = Except.ok { ctx with state := st } := by
  rcases hst with h | h <;> subst h <;> rfl

theorem tokenize_named_char_ref (tags : TagTable) (ctx : tokenizer) (a : Nat)
    (rest : List Nat) (st : STATE)
    (hst : st = STATE.STATE_DATA ∨ st = STATE.STATE_RCDATA)
    (hs : ctx.state = STATE.STATE_NAMED_CHAR_REF) (hr : ctx.return_state = st)
    (hfp : ctx.fp = a :: rest) (ha : isalnum a = true) :
    tokenize tags ctx = Except.ok (none, { ctx with fp := rest, state := st }) := by
  obtain ⟨h1, h2, h3, h4, _, _, _⟩ := isalnum_facts a ha
  unfold tokenize
  rw [hfp]
  simp [h1, h2, h3, h4, hs, tokenize_switch, hr, enter_state_text _ st hst, ret_null, Except.map]

theorem tokenize_text_char (tags : TagTable) (ctx : tokenizer) (b : Nat)
    (rest : List Nat) (st : STATE)
    (hst : st = STATE.STATE_DATA ∨ st = STATE.STATE_RCDATA)
    (hs : ctx.state = st) (hfp : ctx.fp = b :: rest)
    (hb : isalnum b = true ∨ b = 59) :
    tokenize tags ctx =
      Except.ok (some { ctx.token with type := TOKEN_TYPE.TOKEN_CHAR, end_line := ctx.line,
                                       s := str_add ctx.token.s b },
        { ctx with fp := rest,
                   token := { ctx.token with type := TOKEN_TYPE.TOKEN_CHAR, end_line := ctx.line,
                                             s := str_add ctx.token.s b } }) := by
  have hf : b ≠ 255 ∧ b ≠ 10 ∧ b ≠ 9 ∧ iscntrl b = false ∧ b ≠ 60 ∧ b ≠ 38 := by
    rcases hb with hb | hb
    · obtain ⟨h1, h2, h3, h4, h5, h6, _⟩ := isalnum_facts b hb
      exact ⟨h1, h2, h3, h4, h5, h6⟩
    · subst hb
      simp [iscntrl]
  obtain ⟨h1, h2, h3, h4, h5, h6⟩ := hf
  unfold tokenize
  rw [hfp]
  rcases hst with h | h <;> subst h <;>
    simp [h1, h2, h3, h4, h5, h6, hs, tokenize_switch, enter_state, enter_state_emit_char,
      push_char, ret_token, Except.map]

/-- C21, the claim as written fails: of the reference `&amp;` only `&` and `a`
are discarded. Read in DATA or in RCDATA, the bytes `m`, `p` and `;` of the
reference are each returned in a character token. -/
theorem char_ref_tail_is_emitted :
    (tokenize_all tags_example 20 (tokenizer_init (cstr "&amp;"))).toOption.map
        (fun r => (r.1.map (fun t => (t.type, t.s.s)), r.2.state)) =
      some ([(TOKEN_TYPE.TOKEN_CHAR, some (cstr "m")), (TOKEN_TYPE.TOKEN_CHAR, some (cstr "p")),
             (TOKEN_TYPE.TOKEN_CHAR, some (cstr ";"))], STATE.STATE_DATA) ∧
    (tokenize_all tags_example 20
        { tokenizer_init (cstr "&amp;") with state := STATE.STATE_RCDATA }).toOption.map
        (fun r => (r.1.map (fun t => (t.type, t.s.s)), r.2.state)) =
      some ([(TOKEN_TYPE.TOKEN_CHAR, some (cstr "m")), (TOKEN_TYPE.TOKEN_CHAR, some (cstr "p")),
             (TOKEN_TYPE.TOKEN_CHAR, some (cstr ";"))], STATE.STATE_RCDATA) := by
  constructor <;> decide!

/-- C21, amended: a character reference read in DATA or RCDATA (the state `st`)
loses its first two bytes only. For `&` followed by an alphanumeric `a`, three
calls of `tokenize` (the byte `a` is reconsumed once) return no token and leave
the tokenizer in `st`, which is also the return state, behind `a`. The next byte
`b` of the reference, an alphanumeric or `;`, is then read in `st` like any
text: the fourth call returns a character token to whose string `b` is
added. -/
theorem char_ref_discards_two_bytes (tags : TagTable) (ctx : tokenizer) (a b : Nat)
    (rest : List Nat) (st : STATE)
    (hst : st = STATE.STATE_DATA ∨ st = STATE.STATE_RCDATA)
    (hs : ctx.state = st) (hfp : ctx.fp = 38 :: a :: b :: rest)
    (ha : isalnum a = true) (hb : isalnum b = true ∨ b = 59) :
    tokenize_n tags 3 ctx =
      Except.ok ([], { ctx with fp := b :: rest, state := st, return_state := st }) ∧
    ∃ t, tokenize_n tags 4 ctx =
        Except.ok ([t], { ctx with fp := rest, state := st, return_state := st, token := t }) ∧
      t.type = TOKEN_TYPE.TOKEN_CHAR ∧ t.s = str_add ctx.token.s b ∧
      t.end_line = ctx.line := by
  have h1 := tokenize_amp tags ctx _ st hst hs hfp
  have h2 := tokenize_char_ref_alnum tags
    { ctx with fp := a :: b :: rest, state := STATE.STATE_CHARACTER_REFERENCE,
               return_state := st } a (b :: rest) rfl rfl ha
  have h3 := tokenize_named_char_ref tags
    { ctx with fp := a :: b :: rest, state := STATE.STATE_NAMED_CHAR_REF,
               return_state := st } a (b :: rest) st hst rfl rfl rfl ha
  have h4 := tokenize_text_char tags
    { ctx with fp := b :: rest, state := st, return_state := st } b rest st hst rfl rfl hb
  have s3 := tokenize_n_step tags 0 _ _ _ _ [] h3 rfl
  have s23 := tokenize_n_step tags 1 _ _ _ _ _ h2 s3
  have s123 := tokenize_n_step tags 2 _ _ _ _ _ h1 s23
  have s4 := tokenize_n_step tags 0 _ _ _ _ [] h4 rfl
  have s1234 := tokenize_n_add tags 3 1 ctx _ _ _ _ s123 s4
  refine ⟨by simpa using s123, _, by simpa using s1234, rfl, rfl, rfl⟩

/-- C21 at a concrete input: the reference `&lt;` read in DATA by a fresh
tokenizer. -/
theorem char_ref_discards_two_bytes_witness :
    tokenize_n tags_example 3 (tokenizer_init (cstr "&lt;")) =
      Except.ok ([], { tokenizer_init (cstr "&lt;") with
                       fp := 116 :: [59], state := STATE.STATE_DATA,
                       return_state := STATE.STATE_DATA }) ∧
    ∃ t, tokenize_n tags_example 4 (tokenizer_init (cstr "&lt;")) =
        Except.ok ([t], { tokenizer_init (cstr "&lt;") with
                          fp := [59], state := STATE.STATE_DATA,
                          return_state := STATE.STATE_DATA, token := t }) ∧
      t.type = TOKEN_TYPE.TOKEN_CHAR ∧
      t.s = str_add (tokenizer_init (cstr "&lt;")).token.s 116 ∧
      t.end_line = (tokenizer_init (cstr "&lt;")).line :=
  char_ref_discards_two_bytes tags_example (tokenizer_init (cstr "&lt;")) 108 116 [59]
    STATE.STATE_DATA (Or.inl rfl) rfl (by decide) (by decide) (Or.inl (by decide))


/-! ### The end tag of a script -/

theorem tokenize_script_data_lt (tags : TagTable) (ctx : tokenizer) (rest : List Nat)
    (hs : ctx.state = STATE.STATE_SCRIPT_DATA) (hfp : ctx.fp = 60 :: rest) :
    tokenize tags ctx =
      Except.ok (none, { ctx with fp := rest, state := STATE.STATE_SCRIPT_DATA_LT }) := by
  unfold tokenize
  rw [hfp]
  simp [iscntrl, hs, tokenize_switch, enter_state, ret_null, Except.map]

theorem tokenize_script_data_lt_slash (tags : TagTable) (ctx : tokenizer) (rest : List Nat)
    (hs : ctx.state = STATE.STATE_SCRIPT_DATA_LT) (hfp : ctx.fp = 47 :: rest) :
    tokenize tags ctx =
      Except.ok (none, { ctx with fp := rest,
                                  state := STATE.STATE_SCRIPT_DATA_END_TAG_OPEN }) := by
  unfold tokenize
  rw [hfp]
  simp [iscntrl, hs, tokenize_switch, enter_state, ret_null, Except.map]

theorem tokenize_script_data_lt_other (tags : TagTable) (ctx : tokenizer) (c : Nat)
    (rest : List Nat) (hs : ctx.state = STATE.STATE_SCRIPT_DATA_LT) (hfp : ctx.fp = c :: rest)
    (h1 : c ≠ 255) (h2 : iscntrl c = false) (h47 : c ≠ 47) (h33 : c ≠ 33) :
    tokenize tags ctx =
      Except.ok (none, { ctx with fp := c :: rest, state := STATE.STATE_SCRIPT_DATA }) := by
  have h10 : c ≠ 10 := by
    rintro rfl
    simp [iscntrl] at h2
  unfold tokenize
  rw [hfp]
  simp [h1, h2, h10, h47, h33, hs, tokenize_switch, enter_state, enter_state_reconsume,
    ret_null, Except.map]

theorem tokenize_script_data_char (tags : TagTable) (ctx : tokenizer) (c : Nat)
    (rest : List Nat) (hs : ctx.state = STATE.STATE_SCRIPT_DATA) (hfp : ctx.fp = c :: rest)
    (h1 : c ≠ 255) (h2 : iscntrl c = false) (h60 : c ≠ 60) :
    tokenize tags ctx =
      Except.ok (some { ctx.token with type := TOKEN_TYPE.TOKEN_CHAR, end_line := ctx.line,
                                       s := str_add ctx.token.s c },
        { ctx with fp := rest,
                   token := { ctx.token with type := TOKEN_TYPE.TOKEN_CHAR, end_line := ctx.line,
                                             s := str_add ctx.token.s c } }) := by
  have h10 : c ≠ 10 := by
    rintro rfl
    simp [iscntrl] at h2
  unfold tokenize
  rw [hfp]
  simp [h1, h2, h10, h60, hs, tokenize_switch, enter_state, enter_state_emit_char, push_char,
    ret_token, Except.map]

theorem tokenize_script_end_tag_open_alpha (tags : TagTable) (ctx : tokenizer) (c : Nat)
    (rest : List Nat) (hs : ctx.state = STATE.STATE_SCRIPT_DATA_END_TAG_OPEN)
    (hfp : ctx.fp = c :: rest) (hc : isalpha c = true) :
    tokenize tags ctx =
      Except.ok (none, { ctx with fp := c :: rest,
                                  token := token_of_type TOKEN_TYPE.TOKEN_END_TAG,
                                  name := str_add ctx.name 0,
                                  state := STATE.STATE_SCRIPT_DATA_END_TAG_NAME }) := by
  obtain ⟨h1, h2, h3, h4, _, _, _⟩ := isalpha_facts c hc
  unfold tokenize
  rw [hfp]
  simp [h1, h2, h3, h4, hc, hs, tokenize_switch, enter_state, enter_state_reconsume,
    ret_null, Except.map]

theorem isalpha_not_space (c : Nat) (h : isalpha c = true) : HTML_ISSPACE c = false := by
  simp only [isalpha, Bool.or_eq_true, Bool.and_eq_true, decide_eq_true_eq] at h
  simp only [HTML_ISSPACE, Bool.or_eq_false_iff, decide_eq_false_iff_not]
  omega

theorem tokenize_script_end_tag_name_byte (tags : TagTable) (ctx : tokenizer) (c : Nat)
    (rest : List Nat) (hs : ctx.state = STATE.STATE_SCRIPT_DATA_END_TAG_NAME)
    (hfp : ctx.fp = c :: rest) (hc : isalpha c = true) :
    tokenize tags ctx =
      Except.ok (none, { ctx with fp := rest, name := str_add ctx.name (tolower c) }) := by
  obtain ⟨h1, h2, h3, h4, _, _, h7⟩ := isalpha_facts c hc
  have h5 := isalpha_not_space c hc
  unfold tokenize
  rw [hfp]
  simp [h1, h2, h3, h4, h5, h7, hc, hs, tokenize_switch, ret_null, Except.map]

theorem tokenize_script_end_tag_name_run (tags : TagTable) (l rest : List Nat)
    (ctx : tokenizer) (hs : ctx.state = STATE.STATE_SCRIPT_DATA_END_TAG_NAME)
    (hfp : ctx.fp = l ++ rest) (hall : ∀ c ∈ l, isalpha c = true) :
    tokenize_n tags l.length ctx =
      Except.ok ([], { ctx with fp := rest,
                                name := l.foldl (fun b c => str_add b (tolower c)) ctx.name }) := by
  induction l generalizing ctx with
  | nil =>
    simp only [List.nil_append] at hfp
    simp only [List.length_nil, tokenize_n, List.foldl_nil, ← hfp]
  | cons c cs ih =>
    have hstep := tokenize_script_end_tag_name_byte tags ctx c (cs ++ rest) hs
      (by simpa using hfp) (hall c (List.mem_cons_self _ _))
    have hrest := ih { ctx with fp := cs ++ rest, name := str_add ctx.name (tolower c) }
      hs rfl (fun x hx => hall x (List.mem_cons_of_mem _ hx))
    have := tokenize_n_step tags cs.length _ _ _ _ _ hstep hrest
    simpa using this

theorem tokenize_script_end_tag_name_gt (tags : TagTable) (ctx : tokenizer) (rest : List Nat)
    (n : CStr) (hs : ctx.state = STATE.STATE_SCRIPT_DATA_END_TAG_NAME)
    (hfp : ctx.fp = 62 :: rest) (hn : ctx.name.s = some n) :
    tokenize tags ctx =
      if n = [115, 99, 114, 105, 112, 116] then
        ret_token ((set_tag_name tags { ctx with fp := rest }).bind
          (fun x => enter_state_emit x STATE.STATE_DATA))
      else
        ret_token (enter_state_emit_char { ctx with fp := rest } STATE.STATE_SCRIPT_DATA 60) := by
  unfold tokenize
  rw [hfp]
  by_cases h : n = [115, 99, 114, 105, 112, 116]
  · simp [iscntrl, HTML_ISSPACE, hs, tokenize_switch, hn, strcmp_eq, h]
  · simp [iscntrl, HTML_ISSPACE, hs, tokenize_switch, hn, strcmp_eq, h]

theorem isalpha_gt_32 (c : Nat) (h : isalpha c = true) : 32 < c := by
  simp only [isalpha, Bool.or_eq_true, Bool.and_eq_true, decide_eq_true_eq] at h
  omega


theorem cstr_script : cstr "script" = [115, 99, 114, 105, 112, 116] := by decide

theorem tokenize_script_end_tag_prefix (tags : TagTable) (ctx : tokenizer)
    (l rest : List Nat) (hs : ctx.state = STATE.STATE_SCRIPT_DATA)
    (hfp : ctx.fp = 60 :: 47 :: (l ++ 62 :: rest)) (hne : l ≠ [])
    (hall : ∀ x ∈ l, isalpha x = true) :
    tokenize_n tags (3 + l.length) ctx =
      Except.ok ([], { ctx with fp := 62 :: rest,
                                token := token_of_type TOKEN_TYPE.TOKEN_END_TAG,
                                name := { s := some (l.map tolower) },
                                state := STATE.STATE_SCRIPT_DATA_END_TAG_NAME }) := by
  cases l with
  | nil => exact absurd rfl hne
  | cons c0 cs =>
    have h1 := tokenize_script_data_lt tags ctx _ hs hfp
    have h2 := tokenize_script_data_lt_slash tags
      { ctx with fp := 47 :: ((c0 :: cs) ++ 62 :: rest), state := STATE.STATE_SCRIPT_DATA_LT }
      _ rfl rfl
    have h3 := tokenize_script_end_tag_open_alpha tags
      { ctx with fp := (c0 :: cs) ++ 62 :: rest,
                 state := STATE.STATE_SCRIPT_DATA_END_TAG_OPEN } c0 (cs ++ 62 :: rest) rfl rfl
      (hall c0 (List.mem_cons_self _ _))
    have hrun := tokenize_script_end_tag_name_run tags (c0 :: cs) (62 :: rest)
      { ctx with fp := c0 :: (cs ++ 62 :: rest),
                 token := token_of_type TOKEN_TYPE.TOKEN_END_TAG,
                 name := str_add ctx.name 0,
                 state := STATE.STATE_SCRIPT_DATA_END_TAG_NAME } rfl rfl hall
    have hfold : (c0 :: cs).foldl (fun b c => str_add b (tolower c)) (str_add ctx.name 0) =
        { s := some ((c0 :: cs).map tolower) } := by
      have h0 : str_add ctx.name 0 = { s := some [] } := by simp [str_add]
      rw [h0, str_fold_tolower (c0 :: cs) [] (fun c hc => isalpha_gt_32 c (hall c hc))]
      simp
    rw [hfold] at hrun
    have s3 := tokenize_n_step tags 0 _ _ _ _ [] h3 rfl
    have s23 := tokenize_n_step tags 1 _ _ _ _ _ h2 s3
    have s123 := tokenize_n_step tags 2 _ _ _ _ _ h1 s23
    have hfin := tokenize_n_add tags 3 (c0 :: cs).length ctx _ _ _ _ s123 hrun
    simpa using hfin

/-- C22: the end tag of a script. In SCRIPT_DATA, for `</`, one or more
letters and `>`: when the letters, folded to lower case, spell `script` (and
the lookup of that name returns an id), the calls of `tokenize` on these bytes
return exactly one token, an END_TAG token for `script`, and the tokenizer is
in DATA behind the `>`; for any other letters they return exactly one token, a
character token holding `<`, no tag token, and the tokenizer is in SCRIPT_DATA
behind the `>`. A `<` followed by a byte `c` other than `/`, `!` and `<` (no
control byte, not the byte 255) does not end the script: the `<` is dropped,
`c` is returned in a character token and the tokenizer is in SCRIPT_DATA. -/
theorem script_end_tag_iff_name_is_script (tags : TagTable) (ctx ctx2 : tokenizer)
    (l rest rest2 : List Nat) (c id : Nat)
    (hs : ctx.state = STATE.STATE_SCRIPT_DATA)
    (hfp : ctx.fp = 60 :: 47 :: (l ++ 62 :: rest)) (hne : l ≠ [])
    (hall : ∀ x ∈ l, isalpha x = true)
    (hid : tagmap_id tags (cstr "script") = some id)
    (hs2 : ctx2.state = STATE.STATE_SCRIPT_DATA) (hfp2 : ctx2.fp = 60 :: c :: rest2)
    (h255 : c ≠ 255) (hcn : iscntrl c = false) (h47 : c ≠ 47) (h33 : c ≠ 33) (h60 : c ≠ 60) :
    (l.map tolower = cstr "script" →
      ∃ (t : token) (ctx1 : tokenizer),
        tokenize_n tags (l.length + 4) ctx = Except.ok ([t], ctx1) ∧
        t.type = TOKEN_TYPE.TOKEN_END_TAG ∧ t.tag.tagid = id ∧
        name_str tags t.tag.name = some (cstr "script") ∧
        ctx1.state = STATE.STATE_DATA ∧ ctx1.fp = rest) ∧
    (l.map tolower ≠ cstr "script" →
      ∃ (t : token) (ctx1 : tokenizer),
        tokenize_n tags (l.length + 4) ctx = Except.ok ([t], ctx1) ∧
        t.type = TOKEN_TYPE.TOKEN_CHAR ∧ t.s.s = some [60] ∧
        ctx1.state = STATE.STATE_SCRIPT_DATA ∧ ctx1.fp = rest) ∧
    (∃ (t : token) (ctx1 : tokenizer),
      tokenize_n tags 3 ctx2 = Except.ok ([t], ctx1) ∧
      t.type = TOKEN_TYPE.TOKEN_CHAR ∧ t.s = str_add ctx2.token.s c ∧
      ctx1.state = STATE.STATE_SCRIPT_DATA ∧ ctx1.fp = rest2) := by
  have hpre := tokenize_script_end_tag_prefix tags ctx l rest hs hfp hne hall
  have hgt := tokenize_script_end_tag_name_gt tags
    { ctx with fp := 62 :: rest, token := token_of_type TOKEN_TYPE.TOKEN_END_TAG,
               name := { s := some (l.map tolower) },
               state := STATE.STATE_SCRIPT_DATA_END_TAG_NAME } rest (l.map tolower) rfl rfl rfl
  refine ⟨?_, ?_, ?_⟩
  · intro hname
    rw [cstr_script] at hname
    rw [cstr_script] at hid
    obtain ⟨np, hset, hnp⟩ := token_set_tag_name_ok tags
      (token_of_type TOKEN_TYPE.TOKEN_END_TAG) _ id hid
    rw [hname] at hgt
    simp only [if_true, set_tag_name, hset, Except.map, Except.bind, enter_state_emit,
      enter_state, ret_token] at hgt
    rw [hname] at hpre
    have hlast := tokenize_n_step tags 0 _ _ _ _ [] hgt rfl
    have hfin := tokenize_n_add tags (3 + l.length) 1 ctx _ _ [] _ hpre hlast
    have hlen : l.length + 4 = 3 + l.length + 1 := by omega
    rw [hlen]
    refine ⟨_, _, by simpa using hfin, ?_, ?_, ?_, ?_, ?_⟩
    · simp [token_of_type]
    · simp
    · rw [cstr_script]
      simpa using hnp
    · simp
    · simp
  · intro hname
    rw [cstr_script] at hname
    simp only [hname, if_false, enter_state_emit_char, push_char, enter_state, ret_token,
      Except.map] at hgt
    have hlast := tokenize_n_step tags 0 _ _ _ _ [] hgt rfl
    have hfin := tokenize_n_add tags (3 + l.length) 1 ctx _ _ [] _ hpre hlast
    have hlen : l.length + 4 = 3 + l.length + 1 := by omega
    rw [hlen]
    refine ⟨_, _, by simpa using hfin, ?_, ?_, ?_, ?_⟩
    · simp
    · simp [token_of_type, str_add]
    · simp
    · simp
  · have h1 := tokenize_script_data_lt tags ctx2 _ hs2 hfp2
    have h2 := tokenize_script_data_lt_other tags
      { ctx2 with fp := c :: rest2, state := STATE.STATE_SCRIPT_DATA_LT } c rest2 rfl rfl
      h255 hcn h47 h33
    have h3 := tokenize_script_data_char tags
      { ctx2 with fp := c :: rest2, state := STATE.STATE_SCRIPT_DATA } c rest2 rfl rfl
      h255 hcn h60
    have s3 := tokenize_n_step tags 0 _ _ _ _ [] h3 rfl
    have s23 := tokenize_n_step tags 1 _ _ _ _ _ h2 s3
    have s123 := tokenize_n_step tags 2 _ _ _ _ _ h1 s23
    refine ⟨_, _, by simpa using s123, ?_, ?_, ?_, ?_⟩ <;> simp

/-- C22 at concrete inputs: `</SCRIPT>` read in SCRIPT_DATA with the table
`tags_html`, and the `<` of the two bytes `<` and double quote. -/
theorem script_end_tag_iff_name_is_script_witness :
    (([83, 67, 82, 73, 80, 84] : List Nat).map tolower = cstr "script" →
      ∃ (t : token) (ctx1 : tokenizer),
        tokenize_n tags_html (([83, 67, 82, 73, 80, 84] : List Nat).length + 4)
          { tokenizer_init (cstr "</SCRIPT>") with state := STATE.STATE_SCRIPT_DATA } =
            Except.ok ([t], ctx1) ∧
        t.type = TOKEN_TYPE.TOKEN_END_TAG ∧ t.tag.tagid = ids_html.TAG_SCRIPT ∧
        name_str tags_html t.tag.name = some (cstr "script") ∧
        ctx1.state = STATE.STATE_DATA ∧ ctx1.fp = []) ∧
    (([83, 67, 82, 73, 80, 84] : List Nat).map tolower ≠ cstr "script" →
      ∃ (t : token) (ctx1 : tokenizer),
        tokenize_n tags_html (([83, 67, 82, 73, 80, 84] : List Nat).length + 4)
          { tokenizer_init (cstr "</SCRIPT>") with state := STATE.STATE_SCRIPT_DATA } =
            Except.ok ([t], ctx1) ∧
        t.type = TOKEN_TYPE.TOKEN_CHAR ∧ t.s.s = some [60] ∧
        ctx1.state = STATE.STATE_SCRIPT_DATA ∧ ctx1.fp = []) ∧
    (∃ (t : token) (ctx1 : tokenizer),
      tokenize_n tags_html 3
        { tokenizer_init [60, 34] with state := STATE.STATE_SCRIPT_DATA } =
          Except.ok ([t], ctx1) ∧
      t.type = TOKEN_TYPE.TOKEN_CHAR ∧
      t.s = str_add
        ({ tokenizer_init [60, 34] with state := STATE.STATE_SCRIPT_DATA }).token.s 34 ∧
      ctx1.state = STATE.STATE_SCRIPT_DATA ∧ ctx1.fp = []) :=
  script_end_tag_iff_name_is_script tags_html
    { tokenizer_init (cstr "</SCRIPT>") with state := STATE.STATE_SCRIPT_DATA }
    { tokenizer_init [60, 34] with state := STATE.STATE_SCRIPT_DATA }
    [83, 67, 82, 73, 80, 84] [] [] 34 ids_html.TAG_SCRIPT
    rfl (by decide) (by decide) (by decide) (by decide!) rfl (by decide)
    (by decide) (by decide) (by decide) (by decide) (by decide)


/-! ### The dispatcher: rules of single modes -/

theorem TOKEN_IS_SPACE_of_not_char (t : token) (h : t.type ≠ TOKEN_TYPE.TOKEN_CHAR) :
    TOKEN_IS_SPACE t = Except.ok false := by
  simp [TOKEN_IS_SPACE, h]

theorem insert_tag_mode_comm (tags : TagTable) (w : World) (t : token) (o m : IMODE) :
    insert_tag tags { w with ctx := { w.ctx with orig_mode := o, mode := m } } t =
      (insert_tag tags w t).map
        (fun r => ({ r.1 with ctx := { r.1.ctx with orig_mode := o, mode := m } }, r.2)) := by
  unfold insert_tag insert_element_ns
  by_cases ht : t.type = TOKEN_TYPE.TOKEN_START_TAG
  · by_cases hn : t.tag.name = NamePtr.null
    · simp [ht, hn, Except.map]
    · cases hf : tag_flags tags t.tag.tagid with
      | error e =>
        cases hc : w.ctx.cdata <;> simp [ht, hn, hf, hc, flush_cdata_begin, emit, Except.map]
      | ok f =>
        simp only [ht, if_true, hn, if_false, hf]
        cases hc : w.ctx.cdata <;> by_cases he : f &&& TAG_EMPTY = 0 <;>
          by_cases hz : t.tag.tagid = 0 <;>
          simp [hc, hz, he, flush_cdata_begin, emit, Except.map]
  · simp [ht, Except.map]

theorem insert_tag_ok (tags : TagTable) (w : World) (t : token)
    (htype : t.type = TOKEN_TYPE.TOKEN_START_TAG) (hname : t.tag.name ≠ NamePtr.null)
    (hid : t.tag.tagid < TAGMAP_SZ) :
    ∃ w1, insert_tag tags w t = Except.ok (w1, { t with used := 1 }) ∧
      w1.ctx.mode = w.ctx.mode ∧ w1.ctx.orig_mode = w.ctx.orig_mode := by
  have h := insert_element_ns_ok tags w t NS_HTML htype hname hid
  unfold insert_tag
  rw [h]
  refine ⟨_, rfl, ?_, ?_⟩
  · by_cases he : (tags t.tag.tagid).flags &&& TAG_EMPTY = 0
    · simp only [he, if_true]
      cases hc : w.ctx.cdata <;> by_cases hz : t.tag.tagid = 0 <;>
        simp [hc, hz, flush_cdata_begin, emit]
    · simp only [he, if_false]
      cases hc : w.ctx.cdata <;> by_cases hz : t.tag.tagid = 0 <;>
        simp [hc, hz, flush_cdata_begin, emit]
  · by_cases he : (tags t.tag.tagid).flags &&& TAG_EMPTY = 0
    · simp only [he, if_true]
      cases hc : w.ctx.cdata <;> by_cases hz : t.tag.tagid = 0 <;>
        simp [hc, hz, flush_cdata_begin, emit]
    · simp only [he, if_false]
      cases hc : w.ctx.cdata <;> by_cases hz : t.tag.tagid = 0 <;>
        simp [hc, hz, flush_cdata_begin, emit]


theorem except_bind_ok {α β : Type} (a : α) (f : α → Except Fault β) :
    (Except.ok a >>= f) = f a := rfl

theorem close_tag_spec (w : World) (a : Nat) (e : elem) (nd : node)
    (hwf : w.ostack.WF) (ha : w.elems[a]? = some e) (hn : e.node = some nd) :
    ∃ w1, close_tag w (some a) = Except.ok w1 ∧
      w1.ostack = (ostack_pop w.ostack).2 ∧
      w1.ostack.contents = w.ostack.contents.dropLast ∧
      w1.events = w.events ++
        (w.ctx.cdata.map (fun c => event.end_ (node.NODE_CDATA c))).toList ++ [event.end_ nd] ∧
      w1.elems = w.elems ∧
      w1.ctx = { w.ctx with cdata := none } := by
  have hos : (flush_cdata_end w).ostack = w.ostack := by
    unfold flush_cdata_end emit
    cases w.ctx.cdata <;> rfl
  have hel : (flush_cdata_end w).elems = w.elems := by
    unfold flush_cdata_end emit
    cases w.ctx.cdata <;> rfl
  have hctx : (flush_cdata_end w).ctx = { w.ctx with cdata := none } := by
    unfold flush_cdata_end emit
    cases hc : w.ctx.cdata <;> simp [hc]
    rw [← hc]
  refine ⟨_, close_tag_ok w a e nd ha hn, ?_, ?_, ?_, ?_, ?_⟩
  · simp [emit, hos]
  · simp [emit, hos, ostack_pop_contents _ hwf]
  · simp [emit, flush_cdata_end_events]
  · simp [emit, hel]
  · simp [emit, hctx]

/-- C24, the claim as written fails: a DOCTYPE token is neither a character
token nor EMPTY nor COMMENT, but dispatched in TEXT mode with `p` on the stack
it pops nothing: the stack, the events and the mode are unchanged. -/
theorem doctype_in_text_mode_pops_nothing :
    (dispatch ids_html tags_html 1
        { world_example with ctx := { world_example.ctx with mode := IMODE.IMODE_TEXT } }
        (token_of_type TOKEN_TYPE.TOKEN_DOCTYPE)).toOption.map
        (fun r => (r.1, r.2.1.ostack.contents, r.2.1.events, r.2.1.ctx.mode)) =
      some (STATE.STATE_NONE, [some 0], [event.begin (node.NODE_ELEM 0)], IMODE.IMODE_TEXT) ∧
    world_example.ostack.contents = [some 0] := by
  constructor <;> decide!

/-- C24, amended: TEXT mode. In a world whose mode is TEXT, whose stack is well
formed and whose top element `a` has a node: every END_TAG token (for `script`
or not) and every START_TAG token closes exactly the top element as
`close_tag` does (pending character data goes to `end`, the stack loses its
top, the node of the element goes to `end`; world `w1`) and sets the mode to
`orig_mode`; `dispatch` returns `STATE_NONE`. A character token and a DOCTYPE
token change nothing: `dispatch` returns `STATE_NONE` and the world is as it
was. -/
theorem text_mode_rules (ids : TagIds) (tags : TagTable) (n : Nat) (w : World) (t : token)
    (a : Nat) (e : elem) (nd : node)
    (hmode : w.ctx.mode = IMODE.IMODE_TEXT) (hwf : w.ostack.WF)
    (htop : ostack_peek w.ostack = some a) (ha : w.elems[a]? = some e)
    (hn : e.node = some nd) :
    ∃ w1, close_tag w (some a) = Except.ok w1 ∧
      w1.ostack.contents = w.ostack.contents.dropLast ∧
      w1.events = w.events ++
        (w.ctx.cdata.map (fun c => event.end_ (node.NODE_CDATA c))).toList ++ [event.end_ nd] ∧
      (t.type = TOKEN_TYPE.TOKEN_END_TAG →
        dispatch ids tags (n + 1) w t =
          Except.ok (STATE.STATE_NONE,
            { w1 with ctx := { w1.ctx with mode := w.ctx.orig_mode } },
            if t.tag.tagid = ids.TAG_SCRIPT then { t with used := 0 } else t)) ∧
      (t.type = TOKEN_TYPE.TOKEN_START_TAG →
        dispatch ids tags (n + 1) w t =
          Except.ok (STATE.STATE_NONE,
            { w1 with ctx := { w1.ctx with mode := w.ctx.orig_mode } }, t)) ∧
      (t.type = TOKEN_TYPE.TOKEN_CHAR ∨ t.type = TOKEN_TYPE.TOKEN_DOCTYPE →
        dispatch ids tags (n + 1) w t = Except.ok (STATE.STATE_NONE, w, t)) := by
  obtain ⟨w1, hclose, _, hcont, hev, _, hctx⟩ := close_tag_spec w a e nd hwf ha hn
  refine ⟨w1, hclose, hcont, hev, ?_, ?_, ?_⟩
  · intro htype
    have hsp := TOKEN_IS_SPACE_of_not_char t (by simp [htype])
    unfold dispatch
    rw [hmode]
    simp only [insert_token_with_mode, insert_token_with_mode_body, htype]
    by_cases hx : t.tag.tagid = ids.TAG_SCRIPT
    · simp [hsp, except_bind_ok, TOKEN_IS_END_TAG, htype, hx, insert_close_tag_set_mode,
        insert_close_tag, htop, hclose, Except.map, hctx]
    · simp [hsp, except_bind_ok, TOKEN_IS_END_TAG, htype, hx, pop, htop, hclose, Except.map, hctx]
  · intro htype
    have hsp := TOKEN_IS_SPACE_of_not_char t (by simp [htype])
    unfold dispatch
    rw [hmode]
    simp only [insert_token_with_mode, insert_token_with_mode_body, htype]
    simp [hsp, except_bind_ok, TOKEN_IS_END_TAG, htype, pop, htop, hclose, Except.map, hctx]
  · intro htype
    unfold dispatch
    rw [hmode]
    rcases htype with htype | htype <;>
      (simp [insert_token_with_mode, insert_token_with_mode_body, htype]; rfl)


/-- C24 at concrete inputs: an end tag `script` dispatched in `world_example`
with the mode set to TEXT. -/
theorem text_mode_rules_witness :
    ∃ w1, close_tag
        { world_example with ctx := { world_example.ctx with mode := IMODE.IMODE_TEXT } }
        (some 0) = Except.ok w1 ∧
      w1.ostack.contents = [] ∧
      dispatch ids_html tags_html 1
        { world_example with ctx := { world_example.ctx with mode := IMODE.IMODE_TEXT } }
        { token_of_type TOKEN_TYPE.TOKEN_END_TAG with
          tag := { tagtoken_zero with tagid := ids_html.TAG_SCRIPT } } =
        Except.ok (STATE.STATE_NONE,
          { w1 with ctx := { w1.ctx with mode := IMODE.IMODE_INITIAL } },
          { token_of_type TOKEN_TYPE.TOKEN_END_TAG with
            tag := { tagtoken_zero with tagid := ids_html.TAG_SCRIPT }, used := 0 }) := by
  obtain ⟨w1, h1, h2, _, h4, _, _⟩ := text_mode_rules ids_html tags_html 0
    { world_example with ctx := { world_example.ctx with mode := IMODE.IMODE_TEXT } }
    { token_of_type TOKEN_TYPE.TOKEN_END_TAG with
      tag := { tagtoken_zero with tagid := ids_html.TAG_SCRIPT } }
    0 { tagid := 752, name := NamePtr.table 752, attr := [], node := some (node.NODE_ELEM 0),
        ns := 0 }
    (node.NODE_ELEM 0) rfl (ostack_push_wf _ _ ⟨rfl, by decide⟩) (by decide) rfl rfl
  exact ⟨w1, h1, by rw [h2]; decide, h4 rfl⟩


theorem flush_cdata_begin_ctx (w : World) :
    (flush_cdata_begin w).ctx = { w.ctx with cdata := none } := by
  unfold flush_cdata_begin emit
  cases hc : w.ctx.cdata <;> simp [hc]
  rw [← hc]

theorem insert_tag_spec (tags : TagTable) (w : World) (t : token)
    (htype : t.type = TOKEN_TYPE.TOKEN_START_TAG) (hname : t.tag.name ≠ NamePtr.null)
    (hid : t.tag.tagid < TAGMAP_SZ) :
    ∃ w1, insert_tag tags w t = Except.ok (w1, { t with used := 1 }) ∧
      w1.events = w.events ++
        (w.ctx.cdata.map (fun c => event.begin (node.NODE_CDATA c))).toList ++
        [event.begin (node.NODE_ELEM w.elems.length)] ++
        (if (tags t.tag.tagid).flags &&& TAG_EMPTY = 0 then []
         else [event.end_ (node.NODE_ELEM w.elems.length)]) ∧
      w1.ostack = (if (tags t.tag.tagid).flags &&& TAG_EMPTY = 0 then
          ostack_push w.ostack (some w.elems.length) else w.ostack) ∧
      w1.elems = w.elems ++ [{ tagid := t.tag.tagid, name := t.tag.name, attr := t.tag.attr,
                               node := some (node.NODE_ELEM w.elems.length), ns := 0 }] ∧
      w1.ctx = { w.ctx with cdata := none,
                            head_elem := if t.tag.tagid ≠ 0 then some w.elems.length
                                         else w.ctx.head_elem } := by
  have h := insert_element_ns_ok tags w t NS_HTML htype hname hid
  have hos : (flush_cdata_begin w).ostack = w.ostack := by
    unfold flush_cdata_begin emit
    cases w.ctx.cdata <;> rfl
  have hcx := flush_cdata_begin_ctx w
  have hev := flush_cdata_begin_events w
  unfold insert_tag
  rw [h]
  refine ⟨_, rfl, ?_, ?_, ?_, ?_⟩
  · by_cases he : (tags t.tag.tagid).flags &&& TAG_EMPTY = 0
    · simp only [he, if_true]
      simp [emit, hev]
    · simp only [he, if_false]
      simp [emit, hev]
  · by_cases he : (tags t.tag.tagid).flags &&& TAG_EMPTY = 0
    · simp only [he, if_true]
    · simp only [he, if_false]
      simp [emit, hos]
  · by_cases he : (tags t.tag.tagid).flags &&& TAG_EMPTY = 0
    · simp only [he, if_true]
      simp [emit]
    · simp only [he, if_false]
      simp [emit]
  · by_cases he : (tags t.tag.tagid).flags &&& TAG_EMPTY = 0
    · simp only [he, if_true]
      by_cases hz : t.tag.tagid = 0 <;> simp [emit, hcx, hz]
    · simp only [he, if_false]
      by_cases hz : t.tag.tagid = 0 <;> simp [emit, hcx, hz]

/-- C23: the content-model switches of IN_HEAD. In a world whose mode is
IN_HEAD, for a well-formed start tag token (the name is set, the tag id is a
slot of the table) and tag constants that differ from each other, `dispatch`
inserts the element: in the world `w1` it leaves, pending character data has
been passed to `begin` and is no longer pending, a record with the tag id, the
name and the attributes of the token has been added, its node has been passed
to `begin` (and to `end`, with the stack left as it was, when the tag is
`TAG_EMPTY`; otherwise the record has been pushed), and the token is marked
used. This is what `insert_tag` gives. Then: for `style` and `noframes`
`orig_mode` is set to IN_HEAD and the mode to TEXT and `STATE_RAWTEXT` is
returned; for `script` the same is done and `STATE_SCRIPT_DATA` is returned;
for `title` the mode stays IN_HEAD and `STATE_RCDATA` is returned. -/
theorem in_head_content_model_switches (ids : TagIds) (tags : TagTable) (n : Nat) (w : World)
    (t : token)
    (hmode : w.ctx.mode = IMODE.IMODE_IN_HEAD)
    (htype : t.type = TOKEN_TYPE.TOKEN_START_TAG) (hname : t.tag.name ≠ NamePtr.null)
    (hid : t.tag.tagid < TAGMAP_SZ)
    (hnd : [ids.TAG_SCRIPT, ids.TAG_STYLE, ids.TAG_NOFRAMES, ids.TAG_TITLE, ids.TAG_META,
            ids.TAG_BASE, ids.TAG_BASEFONT, ids.TAG_BGSOUND, ids.TAG_LINK,
            ids.TAG_NOSCRIPT].Nodup) :
    ∃ w1, insert_tag tags w t = Except.ok (w1, { t with used := 1 }) ∧
      w1.ctx.mode = IMODE.IMODE_IN_HEAD ∧
      w1.events = w.events ++
        (w.ctx.cdata.map (fun c => event.begin (node.NODE_CDATA c))).toList ++
        [event.begin (node.NODE_ELEM w.elems.length)] ++
        (if (tags t.tag.tagid).flags &&& TAG_EMPTY = 0 then []
         else [event.end_ (node.NODE_ELEM w.elems.length)]) ∧
      w1.ostack = (if (tags t.tag.tagid).flags &&& TAG_EMPTY = 0 then
          ostack_push w.ostack (some w.elems.length) else w.ostack) ∧
      w1.elems = w.elems ++ [{ tagid := t.tag.tagid, name := t.tag.name, attr := t.tag.attr,
                               node := some (node.NODE_ELEM w.elems.length), ns := 0 }] ∧
      w1.ctx = { w.ctx with cdata := none,
                            head_elem := if t.tag.tagid ≠ 0 then some w.elems.length
                                         else w.ctx.head_elem } ∧
      (t.tag.tagid = ids.TAG_STYLE ∨ t.tag.tagid = ids.TAG_NOFRAMES →
        dispatch ids tags (n + 1) w t =
          Except.ok (STATE.STATE_RAWTEXT,
            { w1 with ctx := { w1.ctx with orig_mode := IMODE.IMODE_IN_HEAD,
                                           mode := IMODE.IMODE_TEXT } },
            { t with used := 1 })) ∧
      (t.tag.tagid = ids.TAG_SCRIPT →
        dispatch ids tags (n + 1) w t =
          Except.ok (STATE.STATE_SCRIPT_DATA,
            { w1 with ctx := { w1.ctx with orig_mode := IMODE.IMODE_IN_HEAD,
                                           mode := IMODE.IMODE_TEXT } },
            { t with used := 1 })) ∧
      (t.tag.tagid = ids.TAG_TITLE →
        dispatch ids tags (n + 1) w t = Except.ok (STATE.STATE_RCDATA, w1, { t with used := 1 })) := by
  obtain ⟨w1, hins, hev, hos, hel, hcx⟩ := insert_tag_spec tags w t htype hname hid
  have hm : w1.ctx.mode = w.ctx.mode := by rw [hcx]
  have hsp := TOKEN_IS_SPACE_of_not_char t (by simp [htype])
  simp only [List.nodup_cons, List.mem_cons, List.mem_singleton, not_or, List.not_mem_nil,
    not_false_eq_true, List.nodup_nil, and_true] at hnd
  have hpre : dispatch ids tags (n + 1) w t = imode_in_head ids tags
      (insert_token_with_mode ids tags n) w t := by
    unfold dispatch
    rw [hmode]
    simp only [insert_token_with_mode, insert_token_with_mode_body, htype]
    simp [hsp, except_bind_ok]
  refine ⟨w1, hins, by rw [hm, hmode], hev, hos, hel, hcx, ?_, ?_, ?_⟩
  · intro hx
    rw [hpre]
    rcases hx with hx | hx <;>
      simp [imode_in_head, TOKEN_IS_START_TAG, TOKEN_IS_END_TAG, is_start_tag, TOKEN_IS_START,
        htype, hx, hnd, hins, hmode, hm, except_bind_ok]
  · intro hx
    rw [hpre]
    simp [imode_in_head, TOKEN_IS_START_TAG, TOKEN_IS_END_TAG, is_start_tag, TOKEN_IS_START,
      htype, hx, hnd, hins, hmode, hm, except_bind_ok, insert_tag_mode_comm, Except.map]
  · intro hx
    rw [hpre]
    simp [imode_in_head, TOKEN_IS_START_TAG, htype, hx, hins, except_bind_ok]

/-- C23 at concrete inputs: with the table `tags_html`, a start tag `style`
dispatched in a fresh world whose mode is IN_HEAD. The world left has the one
event `begin` of element 0, the record of element 0 with the tag id of `style`,
and element 0 on the stack; the result is `STATE_RAWTEXT` with the mode TEXT. -/
theorem in_head_content_model_switches_witness :
    ∃ w1 : World,
      w1.events = [event.begin (node.NODE_ELEM 0)] ∧
      w1.elems = [{ tagid := ids_html.TAG_STYLE, name := NamePtr.table ids_html.TAG_STYLE,
                    attr := [], node := some (node.NODE_ELEM 0), ns := 0 }] ∧
      w1.ostack.contents = [some 0] ∧
      dispatch ids_html tags_html 1
        { world_init with ctx := { world_init.ctx with mode := IMODE.IMODE_IN_HEAD } }
        (start_tag_token ids_html.TAG_STYLE) =
          Except.ok (STATE.STATE_RAWTEXT,
            { w1 with ctx := { w1.ctx with orig_mode := IMODE.IMODE_IN_HEAD,
                                           mode := IMODE.IMODE_TEXT } },
            { start_tag_token ids_html.TAG_STYLE with used := 1 }) := by
  obtain ⟨w1, _, _, hev, hos, hel, _, h3, _, _⟩ :=
    in_head_content_model_switches ids_html tags_html 0
      { world_init with ctx := { world_init.ctx with mode := IMODE.IMODE_IN_HEAD } }
      (start_tag_token ids_html.TAG_STYLE) rfl rfl (by decide) (by decide) (by decide)
  refine ⟨w1, ?_, ?_, ?_, h3 (Or.inl rfl)⟩
  · rw [hev]
    decide
  · rw [hel]
    decide
  · rw [hos]
    decide

theorem name_str_ne_null (tags : TagTable) (np : NamePtr) (n : CStr)
    (h : name_str tags np = some n) : np ≠ NamePtr.null := by
  rintro rfl
  simp [name_str] at h

theorem tagmap_id_lt (tags : TagTable) (n : CStr) (id : Nat)
    (hid : tagmap_id tags n = some id) : id < TAGMAP_SZ := by
  rcases tagmap_id_fuel_spec tags n TAGMAP_SZ id hid with h0 | ⟨hlt, _⟩
  · rw [h0]
    decide
  · exact hlt

theorem insert_tag_name_spec (tags : TagTable) (w : World) (name : CStr) (id : Nat)
    (hid : tagmap_id tags name = some id) :
    ∃ (w1 : World) (np : NamePtr), insert_tag_name tags w name false = Except.ok w1 ∧
      name_str tags np = some name ∧
      w1.events = w.events ++
        (w.ctx.cdata.map (fun c => event.begin (node.NODE_CDATA c))).toList ++
        [event.begin (node.NODE_ELEM w.elems.length)] ++
        (if (tags id).flags &&& TAG_EMPTY = 0 then []
         else [event.end_ (node.NODE_ELEM w.elems.length)]) ∧
      w1.ostack = (if (tags id).flags &&& TAG_EMPTY = 0 then
          ostack_push w.ostack (some w.elems.length) else w.ostack) ∧
      w1.elems = w.elems ++ [{ tagid := id, name := np, attr := [],
                               node := some (node.NODE_ELEM w.elems.length), ns := 0 }] ∧
      w1.ctx = { w.ctx with cdata := none,
                            head_elem := if id ≠ 0 then some w.elems.length
                                         else w.ctx.head_elem } := by
  obtain ⟨np, hset, hnp⟩ := token_set_tag_name_ok tags
    (token_of_type TOKEN_TYPE.TOKEN_START_TAG) name id hid
  obtain ⟨w1, hins, h1, h2, h3, h4⟩ := insert_tag_spec tags w
    { token_of_type TOKEN_TYPE.TOKEN_START_TAG with
      tag := { (token_of_type TOKEN_TYPE.TOKEN_START_TAG).tag with tagid := id, name := np } }
    rfl (name_str_ne_null tags np name hnp) (tagmap_id_lt tags name id hid)
  refine ⟨w1, np, ?_, hnp, h1, h2, ?_, h4⟩
  · simp [insert_tag_name, hset, hins, Except.map]
  · simpa [token_of_type, tagtoken_zero] using h3


/-- C25, the claim as written fails: a COMMENT token is not a DOCTYPE token
and not whitespace, but dispatched in INITIAL it leaves the mode INITIAL, while
dispatched in BEFORE_HTML it leaves the mode BEFORE_HTML: the resulting modes
differ. -/
theorem comment_in_initial_keeps_mode :
    (dispatch ids_html tags_html 2 world_init
        (token_of_type TOKEN_TYPE.TOKEN_COMMENT)).toOption.map (fun r => r.2.1.ctx.mode) =
      some IMODE.IMODE_INITIAL ∧
    (dispatch ids_html tags_html 2
        { world_init with ctx := { world_init.ctx with mode := IMODE.IMODE_BEFORE_HTML } }
        (token_of_type TOKEN_TYPE.TOKEN_COMMENT)).toOption.map (fun r => r.2.1.ctx.mode) =
      some IMODE.IMODE_BEFORE_HTML ∧
    TOKEN_IS_SPACE (token_of_type TOKEN_TYPE.TOKEN_COMMENT) = Except.ok false := by
  refine ⟨by decide!, by decide!, rfl⟩

/-- C25, amended: INITIAL mode. In a world `w` whose mode is INITIAL a DOCTYPE
token sets the mode to BEFORE_HTML and changes nothing else (no event). For
every token `t` that is not DOCTYPE, EMPTY or COMMENT and not whitespace, the
world and the token that `dispatch` leaves are those of dispatching `t` in the
same world with the mode BEFORE_HTML (the state returned is `STATE_NONE`). In
a world `wb` whose mode is BEFORE_HTML such a token, when it is not a start tag
`html`, first inserts an element `html` (world `w1`: `begin` gets its node,
after the flush of pending character data) and is then dispatched again in
the mode BEFORE_HEAD. -/
theorem initial_mode_refines_before_html (ids : TagIds) (tags : TagTable) (n : Nat)
    (w wb : World) (t td : token) (id : Nat)
    (hmode : w.ctx.mode = IMODE.IMODE_INITIAL)
    (hmb : wb.ctx.mode = IMODE.IMODE_BEFORE_HTML)
    (htd : td.type = TOKEN_TYPE.TOKEN_DOCTYPE)
    (h1 : t.type ≠ TOKEN_TYPE.TOKEN_EMPTY) (h2 : t.type ≠ TOKEN_TYPE.TOKEN_COMMENT)
    (h3 : t.type ≠ TOKEN_TYPE.TOKEN_DOCTYPE)
    (hsp : TOKEN_IS_SPACE t = Except.ok false)
    (hid : tagmap_id tags (cstr "html") = some id) :
    dispatch ids tags (n + 1) w td =
      Except.ok (STATE.STATE_NONE,
        { w with ctx := { w.ctx with mode := IMODE.IMODE_BEFORE_HTML } }, td) ∧
    dispatch ids tags (n + 2) w t =
      (dispatch ids tags (n + 1)
        { w with ctx := { w.ctx with mode := IMODE.IMODE_BEFORE_HTML } } t).map
        (fun r => (STATE.STATE_NONE, r.2.1, r.2.2)) ∧
    ∃ w1, insert_tag_name tags wb (cstr "html") false = Except.ok w1 ∧
      w1.events = wb.events ++
        (wb.ctx.cdata.map (fun c => event.begin (node.NODE_CDATA c))).toList ++
        [event.begin (node.NODE_ELEM wb.elems.length)] ++
        (if (tags id).flags &&& TAG_EMPTY = 0 then []
         else [event.end_ (node.NODE_ELEM wb.elems.length)]) ∧
      (TOKEN_IS_START_TAG t ids.TAG_HTML = false →
        dispatch ids tags (n + 2) wb t =
          dispatch ids tags (n + 1)
            { w1 with ctx := { w1.ctx with mode := IMODE.IMODE_BEFORE_HEAD } } t) := by
  refine ⟨?_, ?_, ?_⟩
  · have hsp := TOKEN_IS_SPACE_of_not_char td (by simp [htd])
    unfold dispatch
    rw [hmode]
    simp only [insert_token_with_mode, insert_token_with_mode_body, htd]
    simp [hsp, except_bind_ok]
    rfl
  · unfold dispatch
    rw [hmode]
    conv_lhs => unfold insert_token_with_mode insert_token_with_mode_body
    simp only [h1, h2, h3, hsp, except_bind_ok, insert_token_set_mode]
    simp
    generalize insert_token_with_mode ids tags (n + 1) _ t IMODE.IMODE_BEFORE_HTML = x
    cases x <;> rfl
  · obtain ⟨w1, np, hins, _, hev, _, _, _⟩ := insert_tag_name_spec tags wb (cstr "html") id hid
    refine ⟨w1, hins, hev, ?_⟩
    intro hh
    unfold dispatch
    rw [hmb]
    have hc : cstr "html" = [104, 116, 109, 108] := by decide
    rw [hc] at hins
    conv_lhs => unfold insert_token_with_mode insert_token_with_mode_body
    simp [h1, h2, h3, hsp, hh, except_bind_ok, insert_tag_name_set_mode, hins, redispatch,
      Except.map]


/-- C25 at concrete inputs: the table `tags_html`, the initial world, a start
tag `p` and a DOCTYPE token. -/
theorem initial_mode_refines_before_html_witness :
    dispatch ids_html tags_html 1 world_init (token_of_type TOKEN_TYPE.TOKEN_DOCTYPE) =
      Except.ok (STATE.STATE_NONE,
        { world_init with ctx := { world_init.ctx with mode := IMODE.IMODE_BEFORE_HTML } },
        token_of_type TOKEN_TYPE.TOKEN_DOCTYPE) ∧
    dispatch ids_html tags_html 2 world_init (start_tag_token ids_html.TAG_P) =
      (dispatch ids_html tags_html 1
        { world_init with ctx := { world_init.ctx with mode := IMODE.IMODE_BEFORE_HTML } }
        (start_tag_token ids_html.TAG_P)).map
        (fun r => (STATE.STATE_NONE, r.2.1, r.2.2)) :=
  ⟨(initial_mode_refines_before_html ids_html tags_html 0 world_init
      { world_init with ctx := { world_init.ctx with mode := IMODE.IMODE_BEFORE_HTML } }
      (start_tag_token ids_html.TAG_P) (token_of_type TOKEN_TYPE.TOKEN_DOCTYPE)
      ids_html.TAG_HTML rfl rfl rfl (by decide) (by decide) (by decide) rfl (by decide!)).1,
   (initial_mode_refines_before_html ids_html tags_html 0 world_init
      { world_init with ctx := { world_init.ctx with mode := IMODE.IMODE_BEFORE_HTML } }
      (start_tag_token ids_html.TAG_P) (token_of_type TOKEN_TYPE.TOKEN_DOCTYPE)
      ids_html.TAG_HTML rfl rfl rfl (by decide) (by decide) (by decide) rfl (by decide!)).2.1⟩



/-- C26: a second `li`. The run of `<ul><li>a` ends in IN_BODY with `ul`
(element 3) and `li` (element 4) on the stack and the text `a` pending. The
start tag `li` that follows adds exactly the events end(text `a`), end(first
`li`), begin(second `li`, element 5); the stack has the same depth, with the
second `li` in the place of the first, directly above the same `ul`. In the
run of `<ul><li>a<li>b</ul>` both `li` elements begin and end inside the one
`ul`. -/
theorem second_li_closes_first :
    outcome (parse ids_html tags_html (cstr "<ul><li>a")) = some
      { events :=
          [event.begin (node.NODE_ELEM 0), event.begin (node.NODE_ELEM 1),
           event.end_ (node.NODE_ELEM 1), event.begin (node.NODE_ELEM 2),
           event.begin (node.NODE_ELEM 3), event.begin (node.NODE_ELEM 4)],
        tagids := [ids_html.TAG_HTML, ids_html.TAG_HEAD, ids_html.TAG_BODY, ids_html.TAG_UL,
                   ids_html.TAG_LI],
        stack := [some 0, some 2, some 3, some 4],
        pending := some { type := T_CDATA.CDATA_TEXT, data := { s := some (cstr "a") } },
        states := [STATE.STATE_NONE, STATE.STATE_NONE, STATE.STATE_NONE] } ∧
    (parse ids_html tags_html (cstr "<ul><li>a")).toOption.map (fun r => r.2.1.ctx.mode) =
      some IMODE.IMODE_IN_BODY ∧
    outcome (parse ids_html tags_html (cstr "<ul><li>a<li>")) = some
      { events :=
          [event.begin (node.NODE_ELEM 0), event.begin (node.NODE_ELEM 1),
           event.end_ (node.NODE_ELEM 1), event.begin (node.NODE_ELEM 2),
           event.begin (node.NODE_ELEM 3), event.begin (node.NODE_ELEM 4)] ++
          [event.end_ (node.NODE_CDATA
             { type := T_CDATA.CDATA_TEXT, data := { s := some (cstr "a") } }),
           event.end_ (node.NODE_ELEM 4), event.begin (node.NODE_ELEM 5)],
        tagids := [ids_html.TAG_HTML, ids_html.TAG_HEAD, ids_html.TAG_BODY, ids_html.TAG_UL,
                   ids_html.TAG_LI, ids_html.TAG_LI],
        stack := [some 0, some 2, some 3, some 5],
        pending := none,
        states := [STATE.STATE_NONE, STATE.STATE_NONE, STATE.STATE_NONE, STATE.STATE_NONE] } ∧
    (outcome (parse ids_html tags_html (cstr "<ul><li>a<li>b</ul>"))).map
        (fun o => (o.events, o.stack)) = some
      ([event.begin (node.NODE_ELEM 0), event.begin (node.NODE_ELEM 1),
        event.end_ (node.NODE_ELEM 1), event.begin (node.NODE_ELEM 2),
        event.begin (node.NODE_ELEM 3), event.begin (node.NODE_ELEM 4),
        event.end_ (node.NODE_CDATA
          { type := T_CDATA.CDATA_TEXT, data := { s := some (cstr "a") } }),
        event.end_ (node.NODE_ELEM 4), event.begin (node.NODE_ELEM 5),
        event.end_ (node.NODE_CDATA
          { type := T_CDATA.CDATA_TEXT, data := { s := some (cstr "b") } }),
        event.end_ (node.NODE_ELEM 5), event.end_ (node.NODE_ELEM 3)],
       [some 0, some 2]) := by
  refine ⟨?_, ?_, ?_, ?_⟩ <;> decide!

/-! ### The stack seen as a list -/

theorem peek_at_contents (s : OStack) (i : Nat) (h : i < s._ostack_depth) :
    ostack_peek_at s (i + 1) = s.contents.getD i none := by
  unfold ostack_peek_at
  have h1 : ¬ (s._ostack_depth = 0 ∨ i + 1 > s._ostack_depth ∨ i + 1 < 1) := by omega
  simp only [h1, if_false, Nat.add_sub_cancel]
  exact ostack_slot_contents s i h

theorem stack_ok_getD (w : World) (hok : w.StackOk) (i : Nat) (h : i < w.ostack._ostack_depth) :
    ∃ e nd, elem_of w (w.ostack.contents.getD i none) = some e ∧ e.node = some nd := by
  have hl := ostack_contents_length w.ostack hok.1
  apply hok.2
  rw [List.getD_eq_getElem _ _ (by omega)]
  exact List.getElem_mem _

theorem elem_at_of_elem_of (w : World) (p : ElemPtr) (e : elem) (h : elem_of w p = some e) :
    elem_at w p = Except.ok e := by
  cases p with
  | none => simp [elem_of] at h
  | some a =>
    simp [elem_of] at h
    simp [elem_at, h]

theorem peek_at_tagid_ok (w : World) (hok : w.StackOk) (i : Nat)
    (h : i < w.ostack._ostack_depth) :
    peek_at_tagid w (i + 1) = Except.ok ((w.ostack.contents.map (tagid_of w)).getD i 0) := by
  obtain ⟨e, nd, he, _⟩ := stack_ok_getD w hok i h
  have hl := ostack_contents_length w.ostack hok.1
  unfold peek_at_tagid
  rw [peek_at_contents _ _ h, elem_at_of_elem_of w _ e he]
  have hi : i < w.ostack.contents.length := by omega
  have hi2 : i < (w.ostack.contents.map (tagid_of w)).length := by simpa using hi
  rw [List.getD_eq_getElem _ _ hi2, List.getElem_map]
  rw [List.getD_eq_getElem _ _ hi] at he
  simp [Except.map, tagid_of, he]

theorem take_succ_reverse (l : List Nat) (i : Nat) (h : i < l.length) :
    (l.take (i + 1)).reverse = l.getD i 0 :: (l.take i).reverse := by
  rw [List.take_succ, List.reverse_append]
  simp [List.getD_eq_getElem?_getD, List.getElem?_eq_getElem h]

/-! ### The scope query -/

theorem in_scope_spec_cons (ids : TagIds) (target : Nat) (sc : scope) (x : Nat)
    (rest : List Nat) :
    in_scope_spec ids target sc (x :: rest) =
      if x = target then true
      else if scope_terminator ids sc x then false
      else in_scope_spec ids target sc rest := by
  unfold in_scope_spec
  by_cases h : x = target
  · subst h
    simp
  · have h4 : ¬ target = x := fun e => h e.symm
    by_cases ht : scope_terminator ids sc x = true
    · simp [h, ht, List.takeWhile_cons]
    · simp [h, h4, ht, List.takeWhile_cons, List.contains_cons]

theorem scope_step (ids : TagIds) (target : Nat) (sc : scope) (x : Nat)
    (r : Except Fault Bool) :
    (if x = target then Except.ok true
      else if sc = scope.SCOPE_LIST_ITEM ∧ (x = ids.TAG_OL ∨ x = ids.TAG_UL) then
        Except.ok false
      else if sc = scope.SCOPE_BUTTON ∧ x = ids.TAG_BUTTON then Except.ok false
      else if sc = scope.SCOPE_TABLE ∧
          (x = ids.TAG_HTML ∨ x = ids.TAG_TABLE ∨ x = ids.TAG_TEMPLATE) then
        Except.ok false
      else if sc = scope.SCOPE_SELECT then
        if x = ids.TAG_OPTGROUP then r
        else if x = ids.TAG_OPTION then r
        else Except.ok false
      else if (sc = scope.SCOPE_LIST_ITEM ∨ sc = scope.SCOPE_BUTTON ∨ sc = scope.SCOPE_ANY) ∧
          (scope_any_stop ids).contains x = true then
        Except.ok false
      else r) =
    (if x = target then Except.ok true
      else if scope_terminator ids sc x then Except.ok false
      else r) := by
  by_cases h : x = target
  · simp [h]
  · simp only [h, if_false]
    cases sc <;> simp [scope_terminator, scope_any_stop, List.contains_cons]
    all_goals (split_ifs <;> first | rfl | (exfalso; tauto))

theorem has_element_in_scope_loop_spec (ids : TagIds) (w : World) (hok : w.StackOk)
    (target : Nat) (sc : scope) (i : Nat) (h : i ≤ w.ostack._ostack_depth) :
    has_element_in_scope_loop ids w target sc i =
      Except.ok (in_scope_spec ids target sc
        (((w.ostack.contents.map (tagid_of w)).take i).reverse)) := by
  have hl := ostack_contents_length w.ostack hok.1
  induction i with
  | zero => simp [has_element_in_scope_loop, in_scope_spec]
  | succ i ih =>
    have hi : i < (w.ostack.contents.map (tagid_of w)).length := by
      simp
      omega
    rw [take_succ_reverse _ _ hi, in_scope_spec_cons]
    unfold has_element_in_scope_loop
    rw [peek_at_tagid_ok w hok i (by omega)]
    simp only []
    rw [scope_step, ih (by omega)]
    split_ifs <;> rfl

theorem stack_tagids_take (w : World) (hok : w.StackOk) :
    ((w.ostack.contents.map (tagid_of w)).take w.ostack._ostack_depth).reverse =
      stack_tagids w := by
  have hl := ostack_contents_length w.ostack hok.1
  unfold stack_tagids
  rw [List.take_of_length_le (by simp; omega)]

theorem in_scope_spec_iff (ids : TagIds) (target : Nat) (sc : scope) (tags : List Nat) :
    in_scope_spec ids target sc tags = true ↔
      ∃ i, tags[i]? = some target ∧
        ∀ (j x : Nat), j < i → tags[j]? = some x → scope_terminator ids sc x = false := by
  induction tags with
  | nil => simp [in_scope_spec]
  | cons y rest ih =>
    rw [in_scope_spec_cons]
    by_cases h : y = target
    · simp only [h, if_true, true_iff]
      exact ⟨0, by simp, fun j x hj => absurd hj (Nat.not_lt_zero j)⟩
    · simp only [h, if_false]
      by_cases ht : scope_terminator ids sc y = true
      · simp only [ht, if_true, Bool.false_eq_true, false_iff]
        rintro ⟨i, hi, hall⟩
        cases i with
        | zero =>
          simp at hi
          exact h hi
        | succ i =>
          have := hall 0 y (Nat.succ_pos i) (by simp)
          simp [ht] at this
      · have ht2 : scope_terminator ids sc y = false := by simpa using ht
        simp only [ht2, Bool.false_eq_true, if_false]
        rw [ih]
        constructor
        · rintro ⟨i, hi, hall⟩
          refine ⟨i + 1, by simpa using hi, ?_⟩
          intro j x hj hx
          cases j with
          | zero =>
            simp at hx
            subst hx
            simpa using ht
          | succ j => exact hall j x (by omega) (by simpa using hx)
        · rintro ⟨i, hi, hall⟩
          cases i with
          | zero =>
            simp at hi
            exact absurd hi h
          | succ i =>
            refine ⟨i, by simpa using hi, ?_⟩
            intro j x hj hx
            exact hall (j + 1) x (by omega) (by simpa using hx)

theorem world_example_stack_ok : world_example.StackOk := by
  refine ⟨ostack_push_wf _ _ ⟨rfl, by decide⟩, ?_⟩
  intro p hp
  have hc : world_example.ostack.contents = [some 0] := by decide
  rw [hc] at hp
  simp only [List.mem_singleton] at hp
  subst hp
  exact ⟨_, node.NODE_ELEM 0, rfl, rfl⟩

/-- C27, the claim as written fails: after the run of `<table>` the stack holds
`table`, `body`, `html`, top first. The query for `table` in the scope TABLE
returns true, although `table` is in the terminator set of that scope, so that
no element `table` lies strictly before every terminator element. -/
theorem scope_target_may_be_terminator :
    (parse ids_html tags_html (cstr "<table>")).toOption.map
        (fun r =>
          (stack_tagids r.2.1,
           (has_element_in_scope ids_html r.2.1 ids_html.TAG_TABLE scope.SCOPE_TABLE).toOption,
           in_scope_claimed ids_html ids_html.TAG_TABLE scope.SCOPE_TABLE (stack_tagids r.2.1))) =
      some ([ids_html.TAG_TABLE, ids_html.TAG_BODY, ids_html.TAG_HTML], some true, false) ∧
    scope_terminator ids_html scope.SCOPE_TABLE ids_html.TAG_TABLE = true := by
  constructor <;> decide!

/-- C27, amended: the scope query equals its reference definition. For every
world whose stack is well formed and holds elements, every target and every
scope, `has_element_in_scope` returns `in_scope_spec` of the tag ids on the
stack, top first: true exactly when some element has the tag `target` and no
element above it has a tag of the terminator set of the scope (the element
with the tag `target` itself is not tested against that set). On the empty
stack the result is false. -/
theorem has_element_in_scope_eq_spec (ids : TagIds) (w : World) (target : Nat) (sc : scope)
    (hok : w.StackOk) :
    has_element_in_scope ids w target sc =
      Except.ok (in_scope_spec ids target sc (stack_tagids w)) ∧
    (in_scope_spec ids target sc (stack_tagids w) = true ↔
      ∃ i, (stack_tagids w)[i]? = some target ∧
        ∀ (j x : Nat), j < i → (stack_tagids w)[j]? = some x → scope_terminator ids sc x = false) ∧
    (ostack_depth w.ostack = 0 →
      has_element_in_scope ids w target sc = Except.ok false) := by
  have hmain : has_element_in_scope ids w target sc =
      Except.ok (in_scope_spec ids target sc (stack_tagids w)) := by
    unfold has_element_in_scope ostack_depth
    rw [has_element_in_scope_loop_spec ids w hok target sc _ (Nat.le_refl _),
      stack_tagids_take w hok]
  refine ⟨hmain, in_scope_spec_iff ids target sc _, ?_⟩
  intro h0
  unfold has_element_in_scope
  rw [h0]
  rfl

/-- C27 at a concrete input: `world_example`, whose stack holds `p`; the query
for `p` in the scope BUTTON. -/
theorem has_element_in_scope_eq_spec_witness :
    has_element_in_scope ids_html world_example ids_html.TAG_P scope.SCOPE_BUTTON =
      Except.ok (in_scope_spec ids_html ids_html.TAG_P scope.SCOPE_BUTTON
        (stack_tagids world_example)) :=
  (has_element_in_scope_eq_spec ids_html world_example ids_html.TAG_P scope.SCOPE_BUTTON
    world_example_stack_ok).1

/-! ### Reset insertion mode -/

theorem stack_ok_peek_at (w : World) (hok : w.StackOk) (i : Nat)
    (h : i < w.ostack._ostack_depth) :
    ∃ a e, ostack_peek_at w.ostack (i + 1) = some a ∧ elem_at w (some a) = Except.ok e ∧
      e.tagid = (w.ostack.contents.map (tagid_of w)).getD i 0 := by
  obtain ⟨e, nd, he, _⟩ := stack_ok_getD w hok i h
  have hl := ostack_contents_length w.ostack hok.1
  have hi : i < w.ostack.contents.length := by omega
  have hi2 : i < (w.ostack.contents.map (tagid_of w)).length := by simpa using hi
  rw [peek_at_contents _ _ h]
  cases hp : w.ostack.contents.getD i none with
  | none =>
    rw [hp] at he
    simp [elem_of] at he
  | some a =>
    rw [hp] at he
    refine ⟨a, e, rfl, elem_at_of_elem_of w _ e he, ?_⟩
    rw [List.getD_eq_getElem _ _ hi2, List.getElem_map]
    rw [List.getD_eq_getElem _ _ hi] at hp
    simp [tagid_of, hp, he]

theorem reset_imode_step (ids : TagIds) (hp : ElemPtr) (x : Nat) (last : Bool)
    (r : Except Fault IMODE) :
    (if (x = ids.TAG_TD ∨ x = ids.TAG_TH) ∧ last = false then Except.ok IMODE.IMODE_IN_CELL
      else if x = ids.TAG_TD ∨ x = ids.TAG_TH then
        (if last then Except.ok IMODE.IMODE_IN_BODY else r)
      else if x = ids.TAG_TR then Except.ok IMODE.IMODE_IN_ROW
      else if x = ids.TAG_TBODY ∨ x = ids.TAG_THEAD ∨ x = ids.TAG_TFOOT then
        Except.ok IMODE.IMODE_IN_TABLE_BODY
      else if x = ids.TAG_CAPTION then Except.ok IMODE.IMODE_IN_CAPTION
      else if x = ids.TAG_TABLE then Except.ok IMODE.IMODE_IN_TABLE
      else if x = ids.TAG_TEMPLATE then Except.ok IMODE.IMODE_IN_TEMPLATE
      else if x = ids.TAG_HEAD then Except.ok IMODE.IMODE_IN_HEAD
      else if x = ids.TAG_BODY then Except.ok IMODE.IMODE_IN_BODY
      else if x = ids.TAG_FRAMESET then Except.ok IMODE.IMODE_IN_FRAMESET
      else if x = ids.TAG_HTML then
        (if hp = none then Except.ok IMODE.IMODE_BEFORE_HEAD
         else Except.ok IMODE.IMODE_AFTER_HEAD)
      else if last then Except.ok IMODE.IMODE_IN_BODY
      else r) =
    (match reset_imode_table ids hp.isSome x last with
     | some m => Except.ok m
     | none => if last then Except.ok IMODE.IMODE_IN_BODY else r) := by
  unfold reset_imode_table
  by_cases h1 : x = ids.TAG_TD ∨ x = ids.TAG_TH
  · cases last <;> simp [h1]
  · simp only [h1, false_and, if_false]
    by_cases h2 : x = ids.TAG_TR
    · simp [h2]
    · simp only [h2, if_false]
      by_cases h3 : x = ids.TAG_TBODY ∨ x = ids.TAG_THEAD ∨ x = ids.TAG_TFOOT
      · simp [h3]
      · simp only [h3, if_false]
        by_cases h4 : x = ids.TAG_CAPTION
        · simp [h4]
        · simp only [h4, if_false]
          by_cases h5 : x = ids.TAG_TABLE
          · simp [h5]
          · simp only [h5, if_false]
            by_cases h6 : x = ids.TAG_TEMPLATE
            · simp [h6]
            · simp only [h6, if_false]
              by_cases h7 : x = ids.TAG_HEAD
              · simp [h7]
              · simp only [h7, if_false]
                by_cases h8 : x = ids.TAG_BODY
                · simp [h8]
                · simp only [h8, if_false]
                  by_cases h9 : x = ids.TAG_FRAMESET
                  · simp [h9]
                  · simp only [h9, if_false]
                    by_cases h10 : x = ids.TAG_HTML
                    · cases hp <;> simp [h10]
                    · simp [h10]

theorem reset_imode_loop_unfold (ids : TagIds) (w : World) (hp : ElemPtr) (d a : Nat)
    (e : elem) (h1 : ostack_peek_at w.ostack (d + 1) = some a)
    (h2 : elem_at w (some a) = Except.ok e) :
    reset_imode_loop ids w hp (d + 1) =
      (match reset_imode_table ids hp.isSome e.tagid (decide (d = 0)) with
       | some m => Except.ok m
       | none => if decide (d = 0) then Except.ok IMODE.IMODE_IN_BODY
                 else reset_imode_loop ids w hp d) := by
  rw [← reset_imode_step]
  conv_lhs => unfold reset_imode_loop
  rw [h1]
  dsimp only
  rw [h2]
  dsimp only
  have hd : decide (d + 1 = 1) = decide (d = 0) := by simp
  rw [hd]

theorem reset_imode_loop_spec (ids : TagIds) (w : World) (hok : w.StackOk)
    (hp : ElemPtr) (d : Nat) (h : d + 1 ≤ w.ostack._ostack_depth) :
    reset_imode_loop ids w hp (d + 1) =
      Except.ok (reset_imode_spec ids hp.isSome
        (((w.ostack.contents.map (tagid_of w)).take (d + 1)).reverse)) := by
  have hl := ostack_contents_length w.ostack hok.1
  induction d with
  | zero =>
    obtain ⟨a, e, h1, h2, h3⟩ := stack_ok_peek_at w hok 0 (by omega)
    have hi : 0 < (w.ostack.contents.map (tagid_of w)).length := by
      simp
      omega
    rw [take_succ_reverse _ _ hi, reset_imode_loop_unfold ids w hp 0 a e h1 h2, h3]
    have hd : decide (0 = 0) = true := rfl
    rw [hd]
    simp only [reset_imode_spec, List.take_zero, List.reverse_nil, List.isEmpty_nil]
    generalize reset_imode_table ids hp.isSome _ _ = T
    cases T <;> rfl
  | succ d ih =>
    obtain ⟨a, e, h1, h2, h3⟩ := stack_ok_peek_at w hok (d + 1) (by omega)
    have hi : d + 1 < (w.ostack.contents.map (tagid_of w)).length := by
      simp
      omega
    have hne : ((w.ostack.contents.map (tagid_of w)).take (d + 1)).reverse.isEmpty = false := by
      rw [take_succ_reverse _ _ (by omega)]
      rfl
    rw [take_succ_reverse _ _ hi, reset_imode_loop_unfold ids w hp (d + 1) a e h1 h2, h3,
      ih (by omega)]
    have hd : decide (d + 1 = 0) = false := by simp
    rw [hd]
    simp only [reset_imode_spec, hne]
    generalize reset_imode_table ids hp.isSome _ _ = T
    cases T <;> rfl

/-- C30, the claim as written fails: on the empty stack `reset_imode` returns
IMODE_INITIAL, not the fallback IN_BODY of the table scan. -/
theorem reset_imode_empty_stack_is_initial :
    (reset_imode ids_html world_init none).toOption = some IMODE.IMODE_INITIAL ∧
    stack_tagids world_init = [] ∧
    reset_imode_spec ids_html false (stack_tagids world_init) = IMODE.IMODE_IN_BODY := by
  refine ⟨by decide, by decide, by decide⟩

/-- C30, amended: reset insertion mode. For every world whose stack is well
formed and holds elements: on the empty stack `reset_imode` returns
IMODE_INITIAL; otherwise it returns the mode of the first element, scanning
the stack top-down, that matches the table (`td`/`th` give IN_CELL unless it is
the bottom element, `tr` IN_ROW, `tbody`/`thead`/`tfoot` IN_TABLE_BODY,
`caption` IN_CAPTION, `table` IN_TABLE, `template` IN_TEMPLATE, `head`
IN_HEAD, `body` IN_BODY, `frameset` IN_FRAMESET, `html` BEFORE_HEAD or, when
the head element pointer is set, AFTER_HEAD), and IN_BODY when no element
matches. -/
theorem reset_imode_eq_spec (ids : TagIds) (w : World) (hp : ElemPtr) (hok : w.StackOk) :
    reset_imode ids w hp =
      Except.ok (if ostack_depth w.ostack = 0 then IMODE.IMODE_INITIAL
                 else reset_imode_spec ids hp.isSome (stack_tagids w)) := by
  unfold reset_imode ostack_depth
  by_cases h0 : w.ostack._ostack_depth = 0
  · simp [h0, ostack_peek_at]
  · obtain ⟨d, hd⟩ : ∃ d, w.ostack._ostack_depth = d + 1 := ⟨w.ostack._ostack_depth - 1, by omega⟩
    obtain ⟨a, e, h1, _, _⟩ := stack_ok_peek_at w hok d (by omega)
    have hspec := reset_imode_loop_spec ids w hok hp d (by omega)
    have htake := stack_tagids_take w hok
    rw [hd] at htake ⊢
    rw [h1]
    simp only [hspec, htake, Nat.succ_ne_zero, if_false]

/-- C30 at a concrete input: `world_example`, whose stack holds `p` only, with
the head element pointer set. -/
theorem reset_imode_eq_spec_witness :
    reset_imode ids_html world_example (some 0) =
      Except.ok (if ostack_depth world_example.ostack = 0 then IMODE.IMODE_INITIAL
                 else reset_imode_spec ids_html (some 0 : ElemPtr).isSome
                   (stack_tagids world_example)) :=
  reset_imode_eq_spec ids_html world_example (some 0) world_example_stack_ok

/-! ### Popping the top element -/

theorem elem_of_congr (w w1 : World) (h : w1.elems = w.elems) (p : ElemPtr) :
    elem_of w1 p = elem_of w p := by
  simp [elem_of, h]

theorem tagid_of_congr (w w1 : World) (h : w1.elems = w.elems) :
    tagid_of w1 = tagid_of w := by
  funext p
  simp [tagid_of, elem_of_congr w w1 h]

theorem stack_ok_top (w : World) (hok : w.StackOk) (i : Nat)
    (hd : w.ostack._ostack_depth = i + 1) :
    ∃ a e nd, w.ostack.contents = w.ostack.contents.dropLast ++ [some a] ∧
      ostack_peek w.ostack = some a ∧ w.elems[a]? = some e ∧ e.node = some nd := by
  have hl := ostack_contents_length w.ostack hok.1
  obtain ⟨e, nd, he, hn⟩ := stack_ok_getD w hok i (by omega)
  have hi : i < w.ostack.contents.length := by omega
  have hne : w.ostack.contents ≠ [] := by
    intro h
    rw [h] at hl
    simp at hl
    omega
  have hlast : w.ostack.contents.getLast hne = w.ostack.contents.getD i none := by
    rw [List.getLast_eq_getElem, List.getD_eq_getElem _ _ hi]
    congr 1
    omega
  cases hp : w.ostack.contents.getD i none with
  | none =>
    rw [hp] at he
    simp [elem_of] at he
  | some a =>
    rw [hp] at he
    refine ⟨a, e, nd, ?_, ?_, by simpa [elem_of] using he, hn⟩
    · rw [← hp, ← hlast, List.dropLast_append_getLast]
    · unfold ostack_peek
      rw [hd, peek_at_contents _ _ (by omega), hp]

theorem pop_spec (w : World) (hok : w.StackOk) (i : Nat)
    (hd : w.ostack._ostack_depth = i + 1) :
    ∃ a e nd w1, pop w = Except.ok (some a, w1) ∧
      w.ostack.contents = w.ostack.contents.dropLast ++ [some a] ∧
      w.elems[a]? = some e ∧ e.node = some nd ∧
      w1.ostack.contents = w.ostack.contents.dropLast ∧
      w1.ostack._ostack_depth = i ∧
      w1.events = w.events ++ pending_end_event w ++ [event.end_ nd] ∧
      w1.elems = w.elems ∧
      w1.ctx = { w.ctx with cdata := none } ∧
      w1.StackOk := by
  obtain ⟨a, e, nd, hsnoc, hpeek, ha, hn⟩ := stack_ok_top w hok i hd
  obtain ⟨w1, hclose, hos, hcont, hev, hel, hctx⟩ := close_tag_spec w a e nd hok.1 ha hn
  refine ⟨a, e, nd, w1, ?_, hsnoc, ha, hn, hcont, ?_, hev, hel, hctx, ?_, ?_⟩
  · simp [pop, hpeek, hclose, Except.map]
  · rw [hos, ostack_pop_depth, hd]
    rfl
  · rw [hos]
    exact ostack_pop_wf _ hok.1
  · intro p hp
    rw [hcont] at hp
    rw [elem_of_congr w w1 hel]
    exact hok.2 p (List.mem_of_mem_dropLast hp)

theorem stack_tagids_snoc (w : World) (init : List ElemPtr) (a : Nat) (e : elem)
    (hc : w.ostack.contents = init ++ [some a]) (ha : w.elems[a]? = some e) :
    stack_tagids w = e.tagid :: (init.map (tagid_of w)).reverse := by
  simp [stack_tagids, hc, tagid_of, elem_of, ha]

theorem stack_end_events_snoc (w : World) (init : List ElemPtr) (a : Nat) (e : elem)
    (nd : node) (hc : w.ostack.contents = init ++ [some a]) (ha : w.elems[a]? = some e)
    (hn : e.node = some nd) :
    stack_end_events w = event.end_ nd ::
      (init.filterMap
        (fun p => ((elem_of w p).bind (fun e => e.node)).map event.end_)).reverse := by
  simp [stack_end_events, hc, elem_of, ha, hn, List.filterMap_append]

theorem stack_views_after_pop (w w1 : World) (a : Nat) (e : elem) (nd : node)
    (hsnoc : w.ostack.contents = w.ostack.contents.dropLast ++ [some a])
    (ha : w.elems[a]? = some e) (hn : e.node = some nd)
    (hcont : w1.ostack.contents = w.ostack.contents.dropLast) (hel : w1.elems = w.elems) :
    stack_tagids w = e.tagid :: stack_tagids w1 ∧
    stack_end_events w = event.end_ nd :: stack_end_events w1 := by
  constructor
  · rw [stack_tagids_snoc w _ a e hsnoc ha]
    simp [stack_tagids, hcont, tagid_of_congr w w1 hel]
  · rw [stack_end_events_snoc w _ a e nd hsnoc ha hn]
    simp [stack_end_events, hcont, elem_of_congr w w1 hel]

theorem peek_tagid_top (w : World) (a : Nat) (e : elem)
    (hpeek : ostack_peek w.ostack = some a) (ha : w.elems[a]? = some e) :
    peek_tagid w = Except.ok e.tagid := by
  simp [peek_tagid, hpeek, elem_at, ha, Except.map]

/-! ### Implied end tags -/

theorem implied_loop_spec (ids : TagIds) (x : Int) :
    ∀ (i : Nat) (w : World), w.StackOk → w.ostack._ostack_depth = i →
      ∃ w1, generate_implied_end_tags_loop ids x i w = Except.ok w1 ∧
        w1.StackOk ∧ w1.elems = w.elems ∧
        stack_tagids w1 = (stack_tagids w).dropWhile (implied_spec ids x) ∧
        w1.ostack.contents = w.ostack.contents.take
          (w.ostack.contents.length -
            ((stack_tagids w).takeWhile (implied_spec ids x)).length) ∧
        w1.events = w.events ++
          (if ((stack_tagids w).takeWhile (implied_spec ids x)).length = 0 then []
           else pending_end_event w) ++
          (stack_end_events w).take ((stack_tagids w).takeWhile (implied_spec ids x)).length := by
  intro i
  induction i with
  | zero =>
    intro w hok hd
    have hl := ostack_contents_length w.ostack hok.1
    have hc : w.ostack.contents = [] := List.eq_nil_of_length_eq_zero (by omega)
    refine ⟨w, rfl, hok, rfl, ?_, ?_, ?_⟩ <;> simp [stack_tagids, hc]
  | succ i ih =>
    intro w hok hd
    have hl := ostack_contents_length w.ostack hok.1
    obtain ⟨a, e, nd, w', hpop, hsnoc, ha, hn, hcont, hdep, hev, hel, hctx, hok'⟩ :=
      pop_spec w hok i hd
    obtain ⟨ht, hee⟩ := stack_views_after_pop w w' a e nd hsnoc ha hn hcont hel
    have hpk : peek_at_tagid w (i + 1) = Except.ok e.tagid := by
      obtain ⟨a2, e2, nd2, _, hpeek, ha2, _⟩ := stack_ok_top w hok i hd
      have := peek_tagid_top w a2 e2 hpeek ha2
      have hsame : some a2 = some a := by
        have h1 := hsnoc
        have h2 : w.ostack.contents = w.ostack.contents.dropLast ++ [some a2] := by assumption
        rw [h2] at h1
        simpa using h1
      simp only [Option.some.injEq] at hsame
      subst hsame
      rw [ha] at ha2
      simp only [Option.some.injEq] at ha2
      subst ha2
      simpa [peek_tagid, ostack_peek, hd] using this
    unfold generate_implied_end_tags_loop
    simp only [hpk]
    by_cases hx : (e.tagid : Int) = x
    · have hsp : implied_spec ids x e.tagid = false := by simp [implied_spec, hx]
      simp only [hx, if_true]
      refine ⟨w, rfl, hok, rfl, ?_, ?_, ?_⟩ <;> simp [ht, hsp]
    · by_cases hc : (implied_end_tags ids).contains e.tagid = true
      · have hsp : implied_spec ids x e.tagid = true := by
          simp only [implied_spec, Bool.and_eq_true, decide_eq_true_eq]
          exact ⟨by simpa [implied_end_tags] using hc, hx⟩
        obtain ⟨w1, hloop, hok1, hel1, ht1, hc1, hev1⟩ := ih w' hok' hdep
        simp only [hx, if_false, hc, if_true, hpop, hloop]
        have hpend : pending_end_event w' = [] := by simp [pending_end_event, hctx]
        have hlen' : w.ostack.contents.dropLast.length = i := by
          simp
          omega
        refine ⟨w1, rfl, hok1, hel1.trans hel, ?_, ?_, ?_⟩
        · rw [ht1, ht]
          simp [hsp]
        · rw [hc1, ht, hcont]
          obtain ⟨D, hD⟩ : ∃ D, w.ostack.contents.dropLast = D := ⟨_, rfl⟩
          rw [hD] at hsnoc hlen'
          rw [hD, hsnoc]
          simp only [List.takeWhile_cons, hsp, if_true, List.length_cons, List.length_append,
            List.length_nil, hlen']
          have hk : i + (0 + 1) -
              ((List.takeWhile (implied_spec ids x) (stack_tagids w')).length + 1) =
              i - (List.takeWhile (implied_spec ids x) (stack_tagids w')).length := by omega
          rw [hk, List.take_append_of_le_length (by omega)]
        · rw [hev1, hev, ht, hee, hpend]
          simp [hsp]
      · have hsp : implied_spec ids x e.tagid = false := by
          have : (implied_end_tags ids).contains e.tagid = false := by simpa using hc
          simp only [implied_spec, Bool.and_eq_false_iff]
          left
          simpa [implied_end_tags] using this
        simp only [hx, if_false, hc]
        refine ⟨w, rfl, hok, rfl, ?_, ?_, ?_⟩ <;> simp [ht, hsp]

theorem dropWhile_head_not (p : Nat → Bool) (l : List Nat) :
    l.dropWhile p = [] ∨ ∃ y rest, l.dropWhile p = y :: rest ∧ p y = false := by
  induction l with
  | nil => exact Or.inl rfl
  | cons a l ih =>
    by_cases h : p a = true
    · simpa [List.dropWhile_cons, h] using ih
    · right
      exact ⟨a, l, by simp [List.dropWhile_cons, h], by simpa using h⟩

/-- C28: implied end tags. For every world whose stack is well formed and
holds elements, and every exception `x`, `generate_implied_end_tags` returns,
and with `k` the length of the longest top segment of the stack whose tags are
in the set of implied end tags and differ from `x`: it pops exactly these `k`
elements (the rest of the stack is unchanged); the events added are, when `k`
is not 0, the `end` of the pending character data, which the first pop
flushes, and then one `end` per popped element, top first; afterwards the stack
is empty or the tag of its top is `x` or outside the set. -/
theorem generate_implied_end_tags_pops_segment (ids : TagIds) (w : World) (x : Int)
    (hok : w.StackOk) :
    ∃ w1, generate_implied_end_tags ids w x = Except.ok w1 ∧
      (∀ y ∈ (stack_tagids w).takeWhile (implied_spec ids x), implied_spec ids x y = true) ∧
      w1.ostack.contents = w.ostack.contents.take
        (w.ostack.contents.length -
          ((stack_tagids w).takeWhile (implied_spec ids x)).length) ∧
      stack_tagids w1 = (stack_tagids w).dropWhile (implied_spec ids x) ∧
      w1.events = w.events ++
        (if ((stack_tagids w).takeWhile (implied_spec ids x)).length = 0 then []
         else pending_end_event w) ++
        (stack_end_events w).take ((stack_tagids w).takeWhile (implied_spec ids x)).length ∧
      (stack_tagids w1 = [] ∨
        ∃ y rest, stack_tagids w1 = y :: rest ∧ implied_spec ids x y = false) := by
  obtain ⟨w1, hloop, _, _, ht, hc, hev⟩ :=
    implied_loop_spec ids x w.ostack._ostack_depth w hok rfl
  refine ⟨w1, hloop, ?_, hc, ht, hev, ?_⟩
  · intro y hy
    exact (List.mem_takeWhile_imp hy)
  · rw [ht]
    exact dropWhile_head_not _ _

/-- C28 at a concrete input: `world_example`, whose stack holds `p` and where
the text `a` is pending, without an exception. -/
theorem generate_implied_end_tags_pops_segment_witness :
    ∃ w1, generate_implied_end_tags ids_html world_example (-1) = Except.ok w1 ∧
      w1.ostack.contents = [] ∧
      w1.events = [event.begin (node.NODE_ELEM 0),
        event.end_ (node.NODE_CDATA { type := T_CDATA.CDATA_TEXT, data := { s := some [97] } }),
        event.end_ (node.NODE_ELEM 0)] := by
  obtain ⟨w1, h1, _, h3, _, h5, _⟩ :=
    generate_implied_end_tags_pops_segment ids_html world_example (-1) world_example_stack_ok
  refine ⟨w1, h1, ?_, ?_⟩
  · rw [h3]
    decide
  · rw [h5]
    decide

/-! ### Clearing the stack back to a table context -/

theorem context_allows_eq_spec (ids : TagIds) (c : context) (x : Nat) :
    context_allows ids c x = context_allowed_spec ids c x := by
  cases c <;> simp [context_allows, context_allowed_spec, List.contains_cons, Bool.or_assoc]

theorem clear_to_context_loop_spec (ids : TagIds) (c : context) :
    ∀ (i : Nat) (w : World) (n : Nat), w.StackOk → w.ostack._ostack_depth = i → i < n →
      (stack_tagids w).any (context_allowed_spec ids c) = true →
      ∃ w1, clear_to_context_loop ids c n w = Except.ok w1 ∧
        w1.StackOk ∧ w1.elems = w.elems ∧
        stack_tagids w1 =
          (stack_tagids w).dropWhile (fun y => !context_allowed_spec ids c y) ∧
        w1.ostack.contents = w.ostack.contents.take
          (w.ostack.contents.length -
            ((stack_tagids w).takeWhile (fun y => !context_allowed_spec ids c y)).length) ∧
        w1.events = w.events ++
          (if ((stack_tagids w).takeWhile
                (fun y => !context_allowed_spec ids c y)).length = 0 then []
           else pending_end_event w) ++
          (stack_end_events w).take
            ((stack_tagids w).takeWhile (fun y => !context_allowed_spec ids c y)).length ∧
        (((stack_tagids w).takeWhile (fun y => !context_allowed_spec ids c y)).length = 0 →
          w1 = w) := by
  intro i
  induction i with
  | zero =>
    intro w n hok hd _ hany
    have hl := ostack_contents_length w.ostack hok.1
    have hc : w.ostack.contents = [] := List.eq_nil_of_length_eq_zero (by omega)
    simp [stack_tagids, hc] at hany
  | succ i ih =>
    intro w n hok hd hn hany
    have hl := ostack_contents_length w.ostack hok.1
    obtain ⟨m, rfl⟩ : ∃ m, n = m + 1 := ⟨n - 1, by omega⟩
    obtain ⟨a, e, nd, w', hpop, hsnoc, ha, hnd, hcont, hdep, hev, hel, hctx, hok'⟩ :=
      pop_spec w hok i hd
    obtain ⟨ht, hee⟩ := stack_views_after_pop w w' a e nd hsnoc ha hnd hcont hel
    have hpk : peek_tagid w = Except.ok e.tagid := by
      obtain ⟨a2, e2, nd2, h2, hpeek, ha2, _⟩ := stack_ok_top w hok i hd
      have := peek_tagid_top w a2 e2 hpeek ha2
      have hsame : some a2 = some a := by
        have h1 := hsnoc
        rw [h2] at h1
        simpa using h1
      simp only [Option.some.injEq] at hsame
      subst hsame
      rw [ha] at ha2
      simp only [Option.some.injEq] at ha2
      subst ha2
      exact this
    have hge : ostack_depth w.ostack ≥ 1 := by
      unfold ostack_depth
      omega
    unfold clear_to_context_loop
    simp only [hge, if_true, hpk, context_allows_eq_spec]
    by_cases hal : context_allowed_spec ids c e.tagid = true
    · simp only [hal, if_true]
      refine ⟨w, rfl, hok, rfl, ?_, ?_, ?_, fun _ => rfl⟩ <;> simp [ht, hal]
    · have hal2 : context_allowed_spec ids c e.tagid = false := by simpa using hal
      have hany' : (stack_tagids w').any (context_allowed_spec ids c) = true := by
        rw [ht] at hany
        simpa [hal2] using hany
      obtain ⟨w1, hloop, hok1, hel1, ht1, hc1, hev1, _⟩ := ih w' m hok' hdep (by omega) hany'
      simp only [hal2, Bool.false_eq_true, if_false, hpop, hloop]
      have hpend : pending_end_event w' = [] := by simp [pending_end_event, hctx]
      have hlen' : w.ostack.contents.dropLast.length = i := by
        simp
        omega
      refine ⟨w1, rfl, hok1, hel1.trans hel, ?_, ?_, ?_, ?_⟩
      · rw [ht1, ht]
        simp [hal2]
      · rw [hc1, ht, hcont]
        obtain ⟨D, hD⟩ : ∃ D, w.ostack.contents.dropLast = D := ⟨_, rfl⟩
        rw [hD] at hsnoc hlen'
        rw [hD, hsnoc]
        simp only [List.takeWhile_cons, hal2, Bool.not_false, if_true, List.length_cons,
          List.length_append, List.length_nil, hlen']
        have hk : i + (0 + 1) -
            ((List.takeWhile (fun y => !context_allowed_spec ids c y)
              (stack_tagids w')).length + 1) =
            i - (List.takeWhile (fun y => !context_allowed_spec ids c y)
              (stack_tagids w')).length := by omega
        rw [hk, List.take_append_of_le_length (by omega)]
      · rw [hev1, hev, ht, hee, hpend]
        simp [hal2]
      · intro hk0
        rw [ht] at hk0
        simp [hal2] at hk0

theorem world_example_table_stack_ok : world_example_table.StackOk := by
  refine ⟨ostack_push_wf _ _ (ostack_push_wf _ _ (ostack_push_wf _ _ ⟨rfl, by decide⟩)), ?_⟩
  intro p hp
  have hc : world_example_table.ostack.contents = [some 0, some 1, some 2] := by decide
  rw [hc] at hp
  simp only [List.mem_cons, List.mem_singleton, List.not_mem_nil, or_false] at hp
  rcases hp with rfl | rfl | rfl
  · exact ⟨_, node.NODE_ELEM 0, rfl, rfl⟩
  · exact ⟨_, node.NODE_ELEM 1, rfl, rfl⟩
  · exact ⟨_, node.NODE_ELEM 2, rfl, rfl⟩

theorem dropWhile_head_of_any (p : Nat → Bool) (l : List Nat) (h : l.any p = true) :
    ∃ y rest, l.dropWhile (fun z => !p z) = y :: rest ∧ p y = true := by
  induction l with
  | nil => simp at h
  | cons a l ih =>
    by_cases ha : p a = true
    · exact ⟨a, l, by simp [List.dropWhile_cons, ha], ha⟩
    · have ha2 : p a = false := by simpa using ha
      have h2 : l.any p = true := by simpa [ha2] using h
      obtain ⟨y, rest, h1, h3⟩ := ih h2
      exact ⟨y, rest, by simpa [List.dropWhile_cons, ha2] using h1, h3⟩

/-- C29: `clear_to_context`. For every world whose stack is well formed and
holds elements, among them at least one whose tag is in the allowed set of the
context, the call returns, and with `k` the number of elements above the
topmost allowed element: it pops exactly these `k` elements, none of which is
allowed (everything below is unchanged); the events added are, when `k` is not
0, the `end` of the pending character data, which the first pop flushes, and
then one `end` per popped element, top first; afterwards the top of the stack
is allowed. When the top is allowed already (`k` is 0) the world is
unchanged. -/
theorem clear_to_context_pops_to_allowed (ids : TagIds) (w : World) (c : context)
    (hok : w.StackOk)
    (hany : (stack_tagids w).any (context_allowed_spec ids c) = true) :
    ∃ w1, clear_to_context ids w c = Except.ok w1 ∧
      (∀ y ∈ (stack_tagids w).takeWhile (fun y => !context_allowed_spec ids c y),
        context_allowed_spec ids c y = false) ∧
      w1.ostack.contents = w.ostack.contents.take
        (w.ostack.contents.length -
          ((stack_tagids w).takeWhile (fun y => !context_allowed_spec ids c y)).length) ∧
      stack_tagids w1 = (stack_tagids w).dropWhile (fun y => !context_allowed_spec ids c y) ∧
      w1.events = w.events ++
        (if ((stack_tagids w).takeWhile
              (fun y => !context_allowed_spec ids c y)).length = 0 then []
         else pending_end_event w) ++
        (stack_end_events w).take
          ((stack_tagids w).takeWhile (fun y => !context_allowed_spec ids c y)).length ∧
      (∃ y rest, stack_tagids w1 = y :: rest ∧ context_allowed_spec ids c y = true) ∧
      (((stack_tagids w).takeWhile (fun y => !context_allowed_spec ids c y)).length = 0 →
        w1 = w) := by
  obtain ⟨w1, hloop, _, _, ht, hc, hev, hnoop⟩ :=
    clear_to_context_loop_spec ids c w.ostack._ostack_depth w (w.ostack._ostack_depth + 1)
      hok rfl (Nat.lt_succ_self _) hany
  refine ⟨w1, hloop, ?_, hc, ht, hev, ?_, hnoop⟩
  · intro y hy
    simpa using List.mem_takeWhile_imp hy
  · rw [ht]
    exact dropWhile_head_of_any _ _ hany

/-- C29 at a concrete input: `world_example_table`, whose stack holds `html`,
`table` and `p`, cleared to the context TABLE: `p` is popped and `table` is
the top. -/
theorem clear_to_context_pops_to_allowed_witness :
    ∃ w1, clear_to_context ids_html world_example_table context.CONTEXT_TABLE = Except.ok w1 ∧
      w1.ostack.contents = [some 0, some 1] ∧
      w1.events = [event.begin (node.NODE_ELEM 0), event.begin (node.NODE_ELEM 1),
                   event.begin (node.NODE_ELEM 2), event.end_ (node.NODE_ELEM 2)] := by
  obtain ⟨w1, h1, _, h3, _, h5, _, _⟩ :=
    clear_to_context_pops_to_allowed ids_html world_example_table context.CONTEXT_TABLE
      world_example_table_stack_ok (by decide)
  refine ⟨w1, h1, ?_, ?_⟩
  · rw [h3]
    decide
  · rw [h5]
    decide

/-! ### Popping down to an element -/

theorem pop_elem_loop_spec (t : Nat) :
    ∀ (i : Nat) (w : World) (n : Nat), w.StackOk → w.ostack._ostack_depth = i → i ≤ n →
      t ∈ stack_tagids w →
      ∃ a w1, pop_elem_loop t n w = Except.ok (some a, w1) ∧
        w1.StackOk ∧ w1.elems = w.elems ∧
        w.ostack.contents.reverse[((stack_tagids w).takeWhile (fun y => y != t)).length]? =
          some (some a) ∧
        tagid_of w (some a) = t ∧
        stack_tagids w1 =
          (stack_tagids w).drop (((stack_tagids w).takeWhile (fun y => y != t)).length + 1) ∧
        w1.ostack.contents = w.ostack.contents.take
          (w.ostack.contents.length -
            (((stack_tagids w).takeWhile (fun y => y != t)).length + 1)) ∧
        w1.events = w.events ++ pending_end_event w ++
          (stack_end_events w).take
            (((stack_tagids w).takeWhile (fun y => y != t)).length + 1) := by
  intro i
  induction i with
  | zero =>
    intro w n hok hd _ hmem
    have hl := ostack_contents_length w.ostack hok.1
    have hc : w.ostack.contents = [] := List.eq_nil_of_length_eq_zero (by omega)
    simp [stack_tagids, hc] at hmem
  | succ i ih =>
    intro w n hok hd hn hmem
    have hl := ostack_contents_length w.ostack hok.1
    obtain ⟨m, rfl⟩ : ∃ m, n = m + 1 := ⟨n - 1, by omega⟩
    obtain ⟨a, e, nd, w', hpop, hsnoc, ha, hnd, hcont, hdep, hev, hel, hctx, hok'⟩ :=
      pop_spec w hok i hd
    obtain ⟨ht, hee⟩ := stack_views_after_pop w w' a e nd hsnoc ha hnd hcont hel
    obtain ⟨a2, e2, nd2, h2, hpeek, ha2, _⟩ := stack_ok_top w hok i hd
    have hsame : a2 = a := by
      have h1 := hsnoc
      rw [h2] at h1
      simpa using h1
    subst hsame
    rw [ha] at ha2
    simp only [Option.some.injEq] at ha2
    subst ha2
    have hpk : peek_tagid w = Except.ok e.tagid := peek_tagid_top w a2 e hpeek ha
    have hlen' : w.ostack.contents.dropLast.length = i := by
      simp
      omega
    obtain ⟨D, hD⟩ : ∃ D, w.ostack.contents.dropLast = D := ⟨_, rfl⟩
    rw [hD] at hsnoc hlen' hcont
    unfold pop_elem_loop
    simp only [hpeek, hpk]
    by_cases htop : e.tagid = t
    · simp only [htop, if_true, hpop]
      have hbt : (e.tagid != t) = false := by simp [htop]
      refine ⟨a2, w', rfl, hok', hel, ?_, ?_, ?_, ?_, ?_⟩
      · rw [ht, hsnoc]
        simp [List.takeWhile_cons, hbt]
      · simp [tagid_of, elem_of, ha, htop]
      · rw [ht]
        simp [List.takeWhile_cons, hbt]
      · rw [ht, hcont, hsnoc]
        simp [List.takeWhile_cons, hbt]
      · rw [hev, ht, hee]
        simp [List.takeWhile_cons, hbt]
    · have hbt : (e.tagid != t) = true := by simp [htop]
      have hmem' : t ∈ stack_tagids w' := by
        rw [ht] at hmem
        simp only [List.mem_cons] at hmem
        rcases hmem with h | h
        · exact absurd h.symm htop
        · exact h
      obtain ⟨b, w1, hloop, hok1, hel1, hpos, htag, ht1, hc1, hev1⟩ :=
        ih w' m hok' hdep (by omega) hmem'
      simp only [htop, if_false, hpop, hloop]
      have hpend : pending_end_event w' = [] := by simp [pending_end_event, hctx]
      refine ⟨b, w1, rfl, hok1, hel1.trans hel, ?_, ?_, ?_, ?_, ?_⟩
      · rw [ht, hsnoc]
        rw [hcont] at hpos
        simpa [List.takeWhile_cons, hbt] using hpos
      · rw [← htag, tagid_of_congr w w' hel]
      · rw [ht1, ht]
        simp [List.takeWhile_cons, hbt]
      · rw [hc1, ht, hcont, hsnoc]
        simp only [List.takeWhile_cons, hbt, if_true, List.length_cons, List.length_append,
          List.length_nil, hlen']
        have hk : i + (0 + 1) -
            ((List.takeWhile (fun y => y != t) (stack_tagids w')).length + 1 + 1) =
            i - ((List.takeWhile (fun y => y != t) (stack_tagids w')).length + 1) := by omega
        rw [hk, List.take_append_of_le_length (by omega)]
      · rw [hev1, hev, ht, hee, hpend]
        simp [List.takeWhile_cons, hbt]

/-- C33: `pop_elem`. For every world whose stack is well formed and holds
elements, one of them with tag id `t`, the call returns, and with `k` the number
of elements above the topmost element with tag id `t`: the element returned is
that one (the entry number `k` of the stack counted from the top, whose tag id
is `t`, while the `k` entries above it have another tag id); the stack loses its
`k + 1` top entries and keeps the entries below them unchanged; the events added
are the `end` of the pending character data, which the first pop flushes, and
then one `end` per popped element, from the top down. -/
theorem pop_elem_pops_through (w : World) (t : Nat) (hok : w.StackOk)
    (hmem : t ∈ stack_tagids w) :
    ∃ a w1, pop_elem w t = Except.ok (some a, w1) ∧
      (∀ y ∈ (stack_tagids w).takeWhile (fun y => y != t), y ≠ t) ∧
      w.ostack.contents.reverse[((stack_tagids w).takeWhile (fun y => y != t)).length]? =
        some (some a) ∧
      tagid_of w (some a) = t ∧
      w1.ostack.contents = w.ostack.contents.take
        (w.ostack.contents.length -
          (((stack_tagids w).takeWhile (fun y => y != t)).length + 1)) ∧
      stack_tagids w1 =
        (stack_tagids w).drop (((stack_tagids w).takeWhile (fun y => y != t)).length + 1) ∧
      w1.events = w.events ++ pending_end_event w ++
        (stack_end_events w).take
          (((stack_tagids w).takeWhile (fun y => y != t)).length + 1) := by
  obtain ⟨a, w1, hloop, _, _, hpos, htag, ht, hc, hev⟩ :=
    pop_elem_loop_spec t w.ostack._ostack_depth w (w.ostack._ostack_depth + 1)
      hok rfl (Nat.le_succ _) hmem
  refine ⟨a, w1, hloop, ?_, hpos, htag, hc, ht, hev⟩
  intro y hy
  simpa using List.mem_takeWhile_imp hy

/-- C33 at a concrete input: `world_example_table`, whose stack holds `html`,
`table` and `p`, popped down to `table`: `p` and `table` are popped, in this
order, the element returned is `table`, and `html` stays. -/
theorem pop_elem_pops_through_witness :
    ∃ w1, pop_elem world_example_table 272 = Except.ok (some 1, w1) ∧
      w1.ostack.contents = [some 0] ∧
      w1.events = [event.begin (node.NODE_ELEM 0), event.begin (node.NODE_ELEM 1),
                   event.begin (node.NODE_ELEM 2), event.end_ (node.NODE_ELEM 2),
                   event.end_ (node.NODE_ELEM 1)] := by
  obtain ⟨a, w1, h1, _, h3, _, h5, _, h7⟩ :=
    pop_elem_pops_through world_example_table 272 world_example_table_stack_ok (by decide)
  have ha : a = 1 := by
    have h : world_example_table.ostack.contents.reverse[
        ((stack_tagids world_example_table).takeWhile (fun y => y != 272)).length]? =
        some (some 1) := by decide
    rw [h] at h3
    simpa using h3.symm
  subst ha
  refine ⟨w1, h1, ?_, ?_⟩
  · rw [h5]
    decide
  · rw [h7]
    decide

/-! ### Termination of the probing loops -/

theorem tagmap_id_loop_all_busy (tags : TagTable) (name : CStr)
    (hbusy : ∀ j : Nat, j < TAGMAP_SZ → tagmap_busy tags name j) (fuel addr : Nat) :
    tagmap_id_loop tags name fuel addr = none := by
  rw [tagmap_id_loop_none_iff]
  intro k _
  exact hbusy _ (Nat.mod_lt _ (by decide))

theorem attr_map_id_loop_all_busy (attr_map : AttrMapTable) (s : CStr)
    (hbusy : ∀ j : Nat, j < ATTRMAP_SZ → attr_map_busy attr_map s j) (fuel addr : Nat)
    (haddr : addr < ATTRMAP_SZ) :
    attr_map_id_loop attr_map s fuel addr = none := by
  rw [attr_map_id_loop_none_iff _ _ _ _ haddr]
  intro k _
  exact hbusy _ (Nat.mod_lt _ (by decide))

theorem tagmap_id_loop_ends (tags : TagTable) (name : CStr)
    (hempty : ∃ j : Nat, j < TAGMAP_SZ ∧ (tags j).name = none) (addr : Nat) :
    ∃ i : Nat, tagmap_id_loop tags name TAGMAP_SZ addr = some i := by
  cases h : tagmap_id_loop tags name TAGMAP_SZ addr with
  | some i => exact ⟨i, rfl⟩
  | none =>
    exfalso
    rw [tagmap_id_loop_none_iff] at h
    obtain ⟨j, hj, hn⟩ := hempty
    obtain ⟨k, hk, hkj⟩ := probe_offset addr j hj
    obtain ⟨m, hm, _⟩ := h k hk
    have : (addr + k) % TAGMAP_SZ = j := hkj
    rw [this, hn] at hm
    cases hm

theorem attr_map_id_loop_ends (attr_map : AttrMapTable) (s : CStr)
    (hempty : ∃ j : Nat, j < ATTRMAP_SZ ∧ (attr_map j).name = none) (addr : Nat)
    (haddr : addr < ATTRMAP_SZ) :
    ∃ i : Nat, attr_map_id_loop attr_map s ATTRMAP_SZ addr = some i := by
  cases h : attr_map_id_loop attr_map s ATTRMAP_SZ addr with
  | some i => exact ⟨i, rfl⟩
  | none =>
    exfalso
    rw [attr_map_id_loop_none_iff _ _ _ _ haddr] at h
    obtain ⟨j, hj, hn⟩ := hempty
    obtain ⟨k, hk, hkj⟩ := probe_offset addr j hj
    obtain ⟨m, hm, _⟩ := h k hk
    have : (addr + k) % ATTRMAP_SZ = j := hkj
    rw [this, hn] at hm
    cases hm

/-- C36: termination of the lookups. In a table with an empty slot among its
1024 slots, the probing loop of `tagmap_id` and the one of `attr_map_id` end
within 1024 tests of their condition, for every name, so both functions return
a value, and a larger bound gives the same value. In a table where every one of
the 1024 slots holds a name other than the one looked up, neither loop ends
within any number of tests, and neither function returns. -/
theorem lookup_terminates_iff_free_slot (name : CStr) :
    (∀ tags : TagTable, (∃ j : Nat, j < TAGMAP_SZ ∧ (tags j).name = none) →
      (∃ i : Nat, tagmap_id_loop tags name TAGMAP_SZ (hash_addr name) = some i) ∧
      (∃ r : Nat, tagmap_id tags name = some r ∧
        ∀ fuel : Nat, TAGMAP_SZ ≤ fuel → tagmap_id_fuel fuel tags name = some r)) ∧
    (∀ attr_map : AttrMapTable, (∃ j : Nat, j < ATTRMAP_SZ ∧ (attr_map j).name = none) →
      ∃ r : Nat, attr_map_id attr_map name = some r ∧
        ∀ fuel : Nat, ATTRMAP_SZ ≤ fuel → attr_map_id_fuel fuel attr_map name = some r) ∧
    (∀ tags : TagTable, (∀ j : Nat, j < TAGMAP_SZ → tagmap_busy tags name j) →
      ∀ fuel : Nat, tagmap_id_loop tags name fuel (hash_addr name) = none ∧
        tagmap_id_fuel fuel tags name = none) ∧
    (∀ attr_map : AttrMapTable, (∀ j : Nat, j < ATTRMAP_SZ → attr_map_busy attr_map name j) →
      ∀ fuel : Nat, attr_map_id_fuel fuel attr_map name = none) := by
  refine ⟨?_, ?_, ?_, ?_⟩
  · intro tags hempty
    obtain ⟨i, hi⟩ := tagmap_id_loop_ends tags name hempty (hash_addr name)
    refine ⟨⟨i, hi⟩, ?_⟩
    have hr : ∃ r, tagmap_id tags name = some r := by
      unfold tagmap_id tagmap_id_fuel
      simp only [hi]
      split_ifs <;> exact ⟨_, rfl⟩
    obtain ⟨r, hr⟩ := hr
    exact ⟨r, hr, fun fuel hf => by rw [tagmap_id_fuel_stable tags name fuel hf, hr]⟩
  · intro attr_map hempty
    obtain ⟨i, hi⟩ := attr_map_id_loop_ends attr_map name hempty (hash_addr name % ATTRMAP_SZ)
      (Nat.mod_lt _ (by decide))
    have hr : attr_map_id attr_map name = some i := hi
    exact ⟨i, hr, fun fuel hf => by rw [attr_map_id_fuel_stable attr_map name fuel hf, hr]⟩
  · intro tags hbusy fuel
    have h := tagmap_id_loop_all_busy tags name hbusy fuel (hash_addr name)
    refine ⟨h, ?_⟩
    obtain ⟨m, hm, _⟩ := hbusy (hash_addr name % TAGMAP_SZ) (Nat.mod_lt _ (by decide))
    unfold tagmap_id_fuel
    simp [hm, h]
  · intro attr_map hbusy fuel
    exact attr_map_id_loop_all_busy attr_map name hbusy fuel _ (Nat.mod_lt _ (by decide))

/-- C36 at concrete inputs: in `tags_example` and `attr_map_example`, which
have empty slots, the lookups of `p` and of `onclick` return; in `tags_full`
and `attr_map_full`, where every slot holds `a`, the lookups of `b` do not
return within any bound. -/
theorem lookup_terminates_iff_free_slot_witness :
    (∃ r : Nat, tagmap_id tags_example (cstr "p") = some r ∧
      ∀ fuel : Nat, TAGMAP_SZ ≤ fuel → tagmap_id_fuel fuel tags_example (cstr "p") = some r) ∧
    (∃ r : Nat, attr_map_id attr_map_example (cstr "onclick") = some r ∧
      ∀ fuel : Nat, ATTRMAP_SZ ≤ fuel →
        attr_map_id_fuel fuel attr_map_example (cstr "onclick") = some r) ∧
    (∀ fuel : Nat, tagmap_id_loop tags_full (cstr "b") fuel (hash_addr (cstr "b")) = none ∧
      tagmap_id_fuel fuel tags_full (cstr "b") = none) ∧
    (∀ fuel : Nat, attr_map_id_fuel fuel attr_map_full (cstr "b") = none) :=
  ⟨((lookup_terminates_iff_free_slot (cstr "p")).1 tags_example
      ⟨0, by decide, by decide⟩).2,
   (lookup_terminates_iff_free_slot (cstr "onclick")).2.1 attr_map_example
      ⟨0, by decide, by decide⟩,
   (lookup_terminates_iff_free_slot (cstr "b")).2.2.1 tags_full
      (fun _ _ => ⟨cstr "a", rfl, by decide⟩),
   (lookup_terminates_iff_free_slot (cstr "b")).2.2.2 attr_map_full
      (fun _ _ => ⟨cstr "a", rfl, by decide⟩)⟩

/-! ### The hash of a name -/

theorem hash_step_ascii (addr c : Nat) (ha : addr < 2 ^ 20) (hc : c < 128) :
    hash_step addr c = ((addr + c) * 104729) % 2 ^ 20 ∧ (addr + c) * 104729 < 2 ^ 64 := by
  have h1 : char_to_size c = c := by simp [char_to_size, hc]
  have hb : (addr + c) * 104729 < 2 ^ 64 := by
    have : addr + c < 2 ^ 21 := by
      have : (2 : Nat) ^ 21 = 2 ^ 20 + 2 ^ 20 := by norm_num
      have : (128 : Nat) ≤ 2 ^ 20 := by norm_num
      omega
    calc (addr + c) * 104729 < 2 ^ 21 * 104729 := Nat.mul_lt_mul_of_pos_right this (by norm_num)
      _ < 2 ^ 64 := by norm_num
  have hs : addr + c < 2 ^ 64 := by
    have : (addr + c) * 1 ≤ (addr + c) * 104729 := Nat.mul_le_mul_left _ (by norm_num)
    omega
  refine ⟨?_, hb⟩
  unfold hash_step
  rw [h1, Nat.mod_eq_of_lt hs, Nat.mod_eq_of_lt hb]
  norm_num

theorem hash_step_lt (addr c : Nat) : hash_step addr c < 2 ^ 20 := by
  unfold hash_step
  exact Nat.mod_lt _ (by norm_num)

theorem hash_foldl_lt (name : CStr) (a : Nat) (ha : a < 2 ^ 20) :
    name.foldl hash_step a < 2 ^ 20 := by
  induction name generalizing a with
  | nil => simpa using ha
  | cons c cs ih => exact ih _ (hash_step_lt a c)

theorem hash_addr_lt (name : CStr) : hash_addr name < 2 ^ 20 :=
  hash_foldl_lt name 0 (by norm_num)

theorem hash_foldl_ascii (name : CStr) (hn : ∀ b ∈ name, 1 ≤ b ∧ b ≤ 127) (a : Nat)
    (ha : a < 2 ^ 20) :
    name.foldl hash_step a = name.foldl (fun h b => ((h + b) * 104729) % 2 ^ 20) a := by
  induction name generalizing a with
  | nil => rfl
  | cons c cs ih =>
    have hc : c < 128 := by
      have := (hn c (List.mem_cons_self _ _)).2
      omega
    simp only [List.foldl_cons]
    rw [(hash_step_ascii a c ha hc).1]
    exact ih (fun b hb => hn b (List.mem_cons_of_mem _ hb)) _ (Nat.mod_lt _ (by norm_num))

/-- C37: the hash of an ASCII name. For every name whose bytes are all in
1..127: the value of `addr` after the hash loop, computed in 64-bit arithmetic,
is the hash as the specification words it (`hash_spec`); at every round of the
loop the value before the round is below `2 ^ 20`, and the sum and the product
of the round are below `2 ^ 64`, so nothing wraps around; and the first slot
both `tagmap_id` and `attr_map_id` test is `hash_spec name % 1024`: when a table
holds the name in that slot, both return the slot, and when the slot is empty
`attr_map_id` returns the slot and `tagmap_id` returns the sentinel. -/
theorem hash_exact_for_ascii (name : CStr) (hn : ∀ b ∈ name, 1 ≤ b ∧ b ≤ 127) :
    hash_addr name = hash_spec name ∧
    (∀ (p rest : CStr) (b : Nat), name = p ++ b :: rest →
      hash_addr p < 2 ^ 20 ∧ hash_addr p + char_to_size b < 2 ^ 64 ∧
      (hash_addr p + char_to_size b) * 104729 < 2 ^ 64 ∧
      hash_addr (p ++ [b]) = ((hash_addr p + b) * 104729) % 2 ^ 20) ∧
    (∀ tags : TagTable, (tags (hash_spec name % 1024)).name = some name →
      tagmap_id tags name = some (hash_spec name % 1024)) ∧
    (∀ tags : TagTable, (tags (hash_spec name % 1024)).name = none →
      tagmap_id tags name = some TAG_CUSTOM_TAG) ∧
    (∀ attr_map : AttrMapTable,
      (attr_map (hash_spec name % 1024)).name = some name ∨
        (attr_map (hash_spec name % 1024)).name = none →
      attr_map_id attr_map name = some (hash_spec name % 1024)) := by
  have h0 : hash_addr name = hash_spec name := hash_foldl_ascii name hn 0 (by norm_num)
  refine ⟨h0, ?_, ?_, ?_, ?_⟩
  · intro p rest b hsplit
    have hb : b < 128 := by
      have := (hn b (by rw [hsplit]; simp)).2
      omega
    have hp := hash_addr_lt p
    obtain ⟨h1, h2⟩ := hash_step_ascii (hash_addr p) b hp hb
    have hcs : char_to_size b = b := by simp [char_to_size, hb]
    refine ⟨hp, ?_, ?_, ?_⟩
    · rw [hcs]
      have : (hash_addr p + b) * 1 ≤ (hash_addr p + b) * 104729 :=
        Nat.mul_le_mul_left _ (by norm_num)
      omega
    · rw [hcs]
      exact h2
    · rw [← h1]
      simp [hash_addr, List.foldl_append]
  · intro tags hslot
    rw [← h0] at hslot ⊢
    have hs : (tags (hash_addr name % TAGMAP_SZ)).name = some name := hslot
    unfold tagmap_id tagmap_id_fuel
    simp only [hs]
    have hl : tagmap_id_loop tags name (1023 + 1) (hash_addr name) =
        some (hash_addr name % TAGMAP_SZ) := by
      unfold tagmap_id_loop
      simp [hs, strcmp_eq]
    have hl2 : tagmap_id_loop tags name TAGMAP_SZ (hash_addr name) =
        some (hash_addr name % TAGMAP_SZ) := hl
    simp only [hl2, hs]
    rfl
  · intro tags hslot
    rw [← h0] at hslot
    have hs : (tags (hash_addr name % TAGMAP_SZ)).name = none := hslot
    unfold tagmap_id tagmap_id_fuel
    simp [hs]
  · intro attr_map hslot
    rw [← h0] at hslot ⊢
    have : ATTRMAP_SZ = 1023 + 1 := rfl
    unfold attr_map_id attr_map_id_fuel
    rw [this]
    unfold attr_map_id_loop
    rcases hslot with hs | hs
    · have hs2 : (attr_map (hash_addr name % (1023 + 1))).name = some name := hs
      simp [hs2, strcmp_eq]
    · have hs2 : (attr_map (hash_addr name % (1023 + 1))).name = none := hs
      simp [hs2]

/-- C37 at a concrete input: the name `onclick`, which `attr_map_example`
holds in the slot of its hash. -/
theorem hash_exact_for_ascii_witness :
    hash_addr (cstr "onclick") = hash_spec (cstr "onclick") ∧
    attr_map_id attr_map_example (cstr "onclick") = some (hash_spec (cstr "onclick") % 1024) ∧
    tagmap_id tags_example (cstr "p") = some (hash_spec (cstr "p") % 1024) :=
  ⟨(hash_exact_for_ascii (cstr "onclick") (by decide)).1,
   (hash_exact_for_ascii (cstr "onclick") (by decide)).2.2.2.2 attr_map_example
     (Or.inl (by decide)),
   (hash_exact_for_ascii (cstr "p") (by decide)).2.2.1 tags_example (by decide)⟩

/-! ### Attribute lists: what `attr_set` leaves alone -/

theorem attr_get_getElem (l : List attr) (n : CStr) (i : Nat) (a : attr)
    (h : attr_get l n = some (i, a)) : l[i]? = some a := by
  induction l generalizing i with
  | nil => simp [attr_get] at h
  | cons b rest ih =>
    rw [attr_get_cons] at h
    by_cases hm : attr_matches b n = true
    · simp only [hm, if_true, Option.some.injEq, Prod.mk.injEq] at h
      obtain ⟨rfl, rfl⟩ := h
      simp
    · simp only [hm, Bool.false_eq_true, if_false] at h
      cases hr : attr_get rest n with
      | none => simp [hr] at h
      | some r =>
        simp only [hr, Option.map_some', Option.some.injEq, Prod.mk.injEq] at h
        obtain ⟨rfl, rfl⟩ := h
        simpa using ih r.1 hr

theorem attr_get_set_other (l : List attr) (i : Nat) (new : attr) (m : CStr)
    (hold : ∀ a, l[i]? = some a → attr_matches a m = false)
    (hnew : attr_matches new m = false) :
    attr_get (l.set i new) m = attr_get l m := by
  induction l generalizing i with
  | nil => rfl
  | cons b rest ih =>
    cases i with
    | zero =>
      have hb : attr_matches b m = false := hold b (by simp)
      simp only [List.set_cons_zero]
      rw [attr_get_cons, attr_get_cons, hb, hnew]
      rfl
    | succ j =>
      simp only [List.set_cons_succ]
      rw [attr_get_cons, attr_get_cons, ih j (fun a ha => hold a (by simpa using ha))]

theorem attr_matches_other (a : attr) (n m : CStr) (ha : attr_matches a n = true)
    (hdiff : strcasecmp_eq n m = false) : attr_matches a m = false := by
  unfold attr_matches at ha ⊢
  cases hx : a.name with
  | none => rfl
  | some x =>
    rw [hx] at ha
    simp only at ha ⊢
    cases hxm : strcasecmp_eq x m with
    | false => rfl
    | true =>
      have := strcasecmp_eq_trans n x m (strcasecmp_eq_symm x n ha) hxm
      rw [this] at hdiff
      cases hdiff

/-- C38: what `attr_set` leaves alone. For every list, every non-empty name
`n`, every value and every name `m` that differs from `n` ignoring case,
`attr_set` passes its assertion, and the node `attr_get` finds for `m` in the
new list has the same name and value as the one it finds in the old list
(`NULL` in both when there is none), so `attr_has` gives the same too. When `n`
was not in the list, the new list is the old one with exactly one node, for `n`,
linked in front: the node found for `m` is one place further from the head.
When `n` was in the list, the list keeps its length and `attr_get` finds the
node for `m` at the same place. -/
theorem attr_set_frame (head : List attr) (n m : CStr) (v : Option CStr) (hn : n ≠ [])
    (hdiff : strcasecmp_eq n m = false) :
    ∃ head1 : List attr, attr_set head (some n) v = some head1 ∧
      (attr_get head1 m).map (fun r => r.2) = (attr_get head m).map (fun r => r.2) ∧
      attr_has head1 m = attr_has head m ∧
      (attr_get head n = none →
        head1 = { name := some n, value := v } :: head ∧
        head1.length = head.length + 1 ∧
        attr_get head1 m = (attr_get head m).map (fun r => (r.1 + 1, r.2))) ∧
      (∀ (i : Nat) (a : attr), attr_get head n = some (i, a) →
        head1.length = head.length ∧ attr_get head1 m = attr_get head m) := by
  obtain ⟨c, cs, rfl⟩ : ∃ c cs, n = c :: cs := by
    cases n with
    | nil => exact absurd rfl hn
    | cons c cs => exact ⟨c, cs, rfl⟩
  have hnew : attr_matches { name := some (c :: cs), value := v } m = false := by
    simpa [attr_matches] using hdiff
  rw [attr_set_eq]
  cases hf : attr_get head (c :: cs) with
  | none =>
    have hg : attr_get ({ name := some (c :: cs), value := v } :: head) m =
        (attr_get head m).map (fun r => (r.1 + 1, r.2)) := by
      rw [attr_get_cons, hnew]
      rfl
    refine ⟨_, rfl, ?_, ?_, fun _ => ⟨rfl, rfl, hg⟩, ?_⟩
    · rw [hg]
      cases attr_get head m <;> rfl
    · unfold attr_has
      rw [hg]
      cases attr_get head m <;> rfl
    · intro i a h
      cases h
  | some r =>
    have hel := attr_get_getElem head (c :: cs) r.1 r.2 hf
    have hma := attr_get_matches head (c :: cs) r.1 r.2 hf
    have hg : attr_get (head.set r.1 { name := some (c :: cs), value := v }) m =
        attr_get head m := by
      apply attr_get_set_other _ _ _ _ _ hnew
      intro a ha
      rw [hel] at ha
      simp only [Option.some.injEq] at ha
      subst ha
      exact attr_matches_other _ _ _ hma hdiff
    refine ⟨_, rfl, ?_, ?_, ?_, ?_⟩
    · simp only [hg]
    · unfold attr_has
      simp only [hg]
    · intro h
      cases h
    · intro i a _
      exact ⟨by simp, hg⟩

/-- C38 at a concrete input: the list holds `src`; setting `href` leaves what
`attr_get` finds for `SRC` as it was and links one node in front. -/
theorem attr_set_frame_witness :
    ∃ head1 : List attr,
      attr_set [{ name := some (cstr "src"), value := some (cstr "a.png") }]
        (some (cstr "href")) (some (cstr "foo")) = some head1 ∧
      (attr_get head1 (cstr "SRC")).map (fun r => r.2) =
        some { name := some (cstr "src"), value := some (cstr "a.png") } ∧
      head1.length = 2 := by
  obtain ⟨head1, h1, h2, _, h4, _⟩ :=
    attr_set_frame [{ name := some (cstr "src"), value := some (cstr "a.png") }]
      (cstr "href") (cstr "SRC") (some (cstr "foo")) (by decide) (by decide)
  refine ⟨head1, h1, ?_, ?_⟩
  · rw [h2]
    decide
  · exact (h4 (by decide)).2.1

/-! ### What the helpers of the tokenizer leave alone -/

theorem enter_state_frame (ctx c : tokenizer) (s : STATE) (h : enter_state ctx s = Except.ok c) :
    c.state = s ∧ c.buf = ctx.buf ∧ c.return_state = ctx.return_state ∧
    (s = STATE.STATE_MARKUP_DECLARATION_OPEN → c.buf_len = 0 ∧ c.match_ = none) ∧
    (c.token.type = ctx.token.type ∨ c.token.type = TOKEN_TYPE.TOKEN_COMMENT) := by
  unfold enter_state at h
  cases s <;> simp only [] at h
  all_goals first
    | (simp only [Except.ok.injEq] at h; subst h; simp [token_of_type])
    | skip
  split at h
  · unfold token_set_tag_attr at h
    split at h
    · split at h
      · simp [Except.map] at h
      · simp only [Except.map, Except.ok.injEq] at h
        subst h
        simp
    · simp [Except.map] at h
  · simp only [Except.ok.injEq] at h
    subst h
    simp

theorem except_map_ok {α β : Type} (m : Except Fault α) (f : α → β) (b : β)
    (h : m.map f = Except.ok b) : ∃ a, m = Except.ok a ∧ b = f a := by
  cases m with
  | error e => simp [Except.map] at h
  | ok a =>
    simp only [Except.map, Except.ok.injEq] at h
    exact ⟨a, rfl, h.symm⟩

theorem except_bind_ok_iff {α β : Type} (m : Except Fault α) (f : α → Except Fault β) (b : β) :
    m.bind f = Except.ok b ↔ ∃ a, m = Except.ok a ∧ f a = Except.ok b := by
  cases m with
  | error e => simp [Except.bind]
  | ok a => simp [Except.bind]

theorem ret_null_ok (m : Except Fault tokenizer) (r : Option token) (c : tokenizer) :
    ret_null m = Except.ok (r, c) ↔ r = none ∧ m = Except.ok c := by
  cases m with
  | error e => simp [ret_null, Except.map]
  | ok a =>
    simp only [ret_null, Except.map, Except.ok.injEq, Prod.mk.injEq]
    constructor
    · rintro ⟨h1, h2⟩
      exact ⟨h1.symm, h2⟩
    · rintro ⟨h1, h2⟩
      exact ⟨h1.symm, h2⟩

theorem ret_token_ok (m : Except Fault tokenizer) (r : Option token) (c : tokenizer) :
    ret_token m = Except.ok (r, c) ↔ r = some c.token ∧ m = Except.ok c := by
  cases m with
  | error e => simp [ret_token, Except.map]
  | ok a =>
    simp only [ret_token, Except.map, Except.ok.injEq, Prod.mk.injEq]
    constructor
    · rintro ⟨h1, h2⟩
      subst h2
      exact ⟨h1.symm, rfl⟩
    · rintro ⟨h1, h2⟩
      subst h2
      exact ⟨h1.symm, rfl⟩

theorem enter_state_emit_frame (ctx c : tokenizer) (s : STATE)
    (h : enter_state_emit ctx s = Except.ok c) :
    c.state = s ∧ c.buf = ctx.buf ∧ c.return_state = ctx.return_state ∧
    (s = STATE.STATE_MARKUP_DECLARATION_OPEN → c.buf_len = 0 ∧ c.match_ = none) ∧
    (c.token.type = ctx.token.type ∨ c.token.type = TOKEN_TYPE.TOKEN_COMMENT) := by
  obtain ⟨x, hx, rfl⟩ := except_map_ok _ _ _ h
  exact enter_state_frame ctx x s hx

theorem enter_state_reconsume_frame (ctx c : tokenizer) (s : STATE) (b : Nat)
    (h : enter_state_reconsume ctx s b = Except.ok c) :
    c.state = s ∧ c.buf = ctx.buf ∧ c.return_state = ctx.return_state ∧
    (s = STATE.STATE_MARKUP_DECLARATION_OPEN → c.buf_len = 0 ∧ c.match_ = none) ∧
    (c.token.type = ctx.token.type ∨ c.token.type = TOKEN_TYPE.TOKEN_COMMENT) := by
  obtain ⟨x, hx, rfl⟩ := except_map_ok _ _ _ h
  exact enter_state_frame ctx x s hx

theorem set_tag_name_frame (tags : TagTable) (ctx c : tokenizer)
    (h : set_tag_name tags ctx = Except.ok c) :
    c.state = ctx.state ∧ c.buf = ctx.buf ∧ c.return_state = ctx.return_state ∧
    c.buf_len = ctx.buf_len ∧ c.match_ = ctx.match_ ∧ c.token.type = ctx.token.type := by
  obtain ⟨t, ht, rfl⟩ := except_map_ok _ _ _ h
  refine ⟨rfl, rfl, rfl, rfl, rfl, ?_⟩
  unfold token_set_tag_name at ht
  split at ht
  · cases ht
  · split at ht
    · cases ht
    · dsimp only at ht
      split at ht
      · simp only [Except.ok.injEq] at ht
        subst ht
        rfl
      · split at ht
        · cases ht
        · simp only [Except.ok.injEq] at ht
          subst ht
          rfl

theorem set_pending_attr_frame (ctx c : tokenizer) (h : set_pending_attr ctx = Except.ok c) :
    c.state = ctx.state ∧ c.buf = ctx.buf ∧ c.return_state = ctx.return_state ∧
    c.buf_len = ctx.buf_len ∧ c.match_ = ctx.match_ ∧ c.token.type = ctx.token.type := by
  obtain ⟨t, ht, rfl⟩ := except_map_ok _ _ _ h
  refine ⟨rfl, rfl, rfl, rfl, rfl, ?_⟩
  unfold token_set_tag_attr at ht
  split at ht
  · split at ht
    · cases ht
    · simp only [Except.ok.injEq] at ht
      subst ht
      rfl
  · cases ht

theorem push_chars_frame (p : CStr) (ctx : tokenizer) :
    (push_chars ctx p).state = ctx.state ∧ (push_chars ctx p).buf = ctx.buf ∧
    (push_chars ctx p).return_state = ctx.return_state ∧
    (push_chars ctx p).buf_len = ctx.buf_len ∧ (push_chars ctx p).match_ = ctx.match_ ∧
    ((push_chars ctx p).token.type = ctx.token.type ∨
      (push_chars ctx p).token.type = TOKEN_TYPE.TOKEN_CHAR) := by
  induction p generalizing ctx with
  | nil => simp [push_chars]
  | cons b bs ih =>
    have h := ih (push_char ctx b)
    simp only [push_chars, List.foldl_cons] at h ⊢
    obtain ⟨h1, h2, h3, h4, h5, h6⟩ := h
    refine ⟨h1, h2, h3, h4, h5, ?_⟩
    rcases h6 with h6 | h6
    · right
      rw [h6]
      rfl
    · exact Or.inr h6

/-! ### No DOCTYPE token is returned -/

theorem enter_state_keeps (ctx c : tokenizer) (s : STATE) (h : enter_state ctx s = Except.ok c)
    (hn : ctx.token.type ≠ TOKEN_TYPE.TOKEN_DOCTYPE) :
    c.token.type ≠ TOKEN_TYPE.TOKEN_DOCTYPE := by
  obtain ⟨_, _, _, _, h5⟩ := enter_state_frame ctx c s h
  rcases h5 with h5 | h5 <;> rw [h5]
  · exact hn
  · decide

theorem enter_state_emit_keeps (ctx c : tokenizer) (s : STATE)
    (h : enter_state_emit ctx s = Except.ok c)
    (hn : ctx.token.type ≠ TOKEN_TYPE.TOKEN_DOCTYPE) :
    c.token.type ≠ TOKEN_TYPE.TOKEN_DOCTYPE := by
  obtain ⟨_, _, _, _, h5⟩ := enter_state_emit_frame ctx c s h
  rcases h5 with h5 | h5 <;> rw [h5]
  · exact hn
  · decide

theorem enter_state_reconsume_keeps (ctx c : tokenizer) (s : STATE) (b : Nat)
    (h : enter_state_reconsume ctx s b = Except.ok c)
    (hn : ctx.token.type ≠ TOKEN_TYPE.TOKEN_DOCTYPE) :
    c.token.type ≠ TOKEN_TYPE.TOKEN_DOCTYPE := by
  obtain ⟨_, _, _, _, h5⟩ := enter_state_reconsume_frame ctx c s b h
  rcases h5 with h5 | h5 <;> rw [h5]
  · exact hn
  · decide

theorem set_tag_name_keeps (tags : TagTable) (ctx c : tokenizer)
    (h : set_tag_name tags ctx = Except.ok c)
    (hn : ctx.token.type ≠ TOKEN_TYPE.TOKEN_DOCTYPE) :
    c.token.type ≠ TOKEN_TYPE.TOKEN_DOCTYPE := by
  rw [(set_tag_name_frame tags ctx c h).2.2.2.2.2]
  exact hn

theorem set_pending_attr_keeps (ctx c : tokenizer) (h : set_pending_attr ctx = Except.ok c)
    (hn : ctx.token.type ≠ TOKEN_TYPE.TOKEN_DOCTYPE) :
    c.token.type ≠ TOKEN_TYPE.TOKEN_DOCTYPE := by
  rw [(set_pending_attr_frame ctx c h).2.2.2.2.2]
  exact hn

theorem push_chars_keeps (p : CStr) (ctx : tokenizer)
    (hn : ctx.token.type ≠ TOKEN_TYPE.TOKEN_DOCTYPE) :
    (push_chars ctx p).token.type ≠ TOKEN_TYPE.TOKEN_DOCTYPE := by
  rcases (push_chars_frame p ctx).2.2.2.2.2 with h | h <;> rw [h]
  · exact hn
  · decide

theorem push_char_type (ctx : tokenizer) (b : Nat) :
    (push_char ctx b).token.type ≠ TOKEN_TYPE.TOKEN_DOCTYPE := by
  simp [push_char]

theorem doctype_safe_of_type (c : tokenizer) (r : Option token)
    (hn : c.token.type ≠ TOKEN_TYPE.TOKEN_DOCTYPE) :
    doctype_safe c ∧ (r.isSome → c.token.type ≠ TOKEN_TYPE.TOKEN_DOCTYPE) :=
  ⟨fun h => absurd h hn, fun _ => hn⟩

set_option maxHeartbeats 1600000 in
theorem tokenize_switch_doctype_safe (tags : TagTable) (ctx ctx1 : tokenizer) (c : Nat)
    (r : Option token) (h : tokenize_switch tags ctx c = Except.ok (r, ctx1))
    (hs : doctype_safe ctx) :
    doctype_safe ctx1 ∧ (r.isSome → ctx1.token.type ≠ TOKEN_TYPE.TOKEN_DOCTYPE) := by
  unfold tokenize_switch at h
  cases hst : ctx.state <;> simp only [hst] at h
  all_goals (repeat' split at h)
  all_goals first
    | (simp [ret_null, ret_token, enter_state, enter_state_return, enter_state_emit,
        enter_state_emit_char, enter_state_emit_doctype, enter_state_reconsume, enter_state_err,
        push_char, Except.map, token_of_type] at h
       obtain ⟨rfl, rfl⟩ := h
       simp [doctype_safe, hst, token_of_type] at hs ⊢
       first | done | exact hs)
    | exact Except.noConfusion h
    | skip
  all_goals first
    | (have hnd : ctx.token.type ≠ TOKEN_TYPE.TOKEN_DOCTYPE := by
         intro ht
         have := hs ht
         simp [hst] at this
       simp only [ret_null_ok, ret_token_ok, except_bind_ok_iff] at h
       obtain ⟨_, hm⟩ := h
       first
         | (obtain ⟨x, h1, h2⟩ := hm
            exact doctype_safe_of_type _ _ (by
              solve_by_elim [enter_state_keeps, enter_state_emit_keeps,
                enter_state_reconsume_keeps, set_tag_name_keeps, set_pending_attr_keeps,
                push_chars_keeps, push_char_type]))
         | exact doctype_safe_of_type _ _ (by
              solve_by_elim [enter_state_keeps, enter_state_emit_keeps,
                enter_state_reconsume_keeps, set_tag_name_keeps, set_pending_attr_keeps,
                push_chars_keeps, push_char_type]))
    | skip
  all_goals
    (simp only [ret_null_ok] at h
     obtain ⟨rfl, hm⟩ := h
     obtain ⟨f1, _, f3, _, f5⟩ := enter_state_frame _ _ _ hm
     refine ⟨?_, by simp⟩
     intro ht
     have hold : ctx.token.type = TOKEN_TYPE.TOKEN_DOCTYPE := by
       rcases f5 with f5 | f5
       · rw [← f5]
         exact ht
       · rw [f5] at ht
         cases ht
     have hret := hs hold
     simp [hst] at hret
     left
     rw [f1, hret])

theorem tokenize_switch_token (tags : TagTable) (ctx ctx1 : tokenizer) (c : Nat) (t : token)
    (h : tokenize_switch tags ctx c = Except.ok (some t, ctx1)) : t = ctx1.token := by
  unfold tokenize_switch at h
  cases hst : ctx.state <;> simp only [hst] at h
  all_goals (repeat' split at h)
  all_goals first
    | (simp only [ret_null_ok, ret_token_ok] at h
       first
         | exact (Option.some.inj h.1)
         | (exfalso; exact Option.noConfusion h.1))
    | exact Except.noConfusion h

theorem tokenize_cases (tags : TagTable) (ctx0 ctx1 : tokenizer) (r : Option token)
    (h : tokenize tags ctx0 = Except.ok (r, ctx1)) :
    (r = none ∧ ctx1 = { ctx0 with fp := ctx1.fp, line := ctx1.line }) ∨
    ∃ (ctx : tokenizer) (c : Nat), ctx = { ctx0 with fp := ctx.fp, line := ctx.line } ∧
      tokenize_switch tags ctx c = Except.ok (r, ctx1) := by
  unfold tokenize at h
  cases hfp : ctx0.fp with
  | nil =>
    rw [hfp] at h
    simp only [Except.ok.injEq, Prod.mk.injEq] at h
    obtain ⟨rfl, rfl⟩ := h
    exact Or.inl ⟨rfl, rfl⟩
  | cons c rest =>
    rw [hfp] at h
    simp only at h
    by_cases h255 : c = 255
    · simp only [h255, if_true, Except.ok.injEq, Prod.mk.injEq] at h
      obtain ⟨rfl, rfl⟩ := h
      exact Or.inl ⟨rfl, rfl⟩
    · simp only [h255, if_false] at h
      repeat' split at h
      all_goals first
        | (simp only [Except.ok.injEq, Prod.mk.injEq] at h
           obtain ⟨rfl, rfl⟩ := h
           exact Or.inl ⟨rfl, rfl⟩)
        | exact Or.inr ⟨_, c, rfl, h⟩

theorem tokenize_token (tags : TagTable) (ctx ctx1 : tokenizer) (t : token)
    (h : tokenize tags ctx = Except.ok (some t, ctx1)) : t = ctx1.token := by
  rcases tokenize_cases tags ctx ctx1 _ h with ⟨h1, _⟩ | ⟨x, c, _, h2⟩
  · cases h1
  · exact tokenize_switch_token _ _ _ _ _ h2

theorem tokenize_doctype_safe (tags : TagTable) (ctx ctx1 : tokenizer) (r : Option token)
    (h : tokenize tags ctx = Except.ok (r, ctx1)) (hs : doctype_safe ctx) :
    doctype_safe ctx1 ∧ ∀ t, r = some t → t.type ≠ TOKEN_TYPE.TOKEN_DOCTYPE := by
  rcases tokenize_cases tags ctx ctx1 _ h with ⟨h1, h2⟩ | ⟨x, c, hx, h2⟩
  · subst h1
    refine ⟨?_, by simp⟩
    rw [h2]
    exact hs
  · have hsx : doctype_safe x := by
      rw [hx]
      exact hs
    obtain ⟨k1, k2⟩ := tokenize_switch_doctype_safe _ _ _ _ _ h2 hsx
    refine ⟨k1, ?_⟩
    intro t ht
    subst ht
    rw [tokenize_switch_token _ _ _ _ _ h2]
    exact k2 rfl

/-! ### The DOCTYPE declaration -/

theorem tokenize_n_one (tags : TagTable) (ctx ctx1 : tokenizer) (r : Option token)
    (h : tokenize tags ctx = Except.ok (r, ctx1)) :
    tokenize_n tags 1 ctx = Except.ok (r.toList, ctx1) := by
  have := tokenize_n_step tags 0 ctx ctx1 ctx1 r [] h rfl
  simpa using this

theorem tokenize_dropped (tags : TagTable) (ctx : tokenizer) (c : Nat) (rest : List Nat)
    (hfp : ctx.fp = c :: rest) (hp : passes_prefilter c = false) :
    tokenize tags ctx =
      Except.ok (none, { ctx with fp := rest,
                                  line := if c = 10 then ctx.line + 1 else ctx.line }) := by
  unfold tokenize
  rw [hfp]
  simp only
  by_cases h255 : c = 255
  · have h10 : ¬ c = 10 := by omega
    simp [h255]
  · have hctl : (iscntrl c && (decide (c ≠ 10) && decide (c ≠ 9))) = true := by
      simpa [passes_prefilter, h255] using hp
    have h10 : ¬ c = 10 := by
      intro h
      simp [h] at hctl
    simp only [h255, if_false, hctl, if_true, h10]

theorem tokenize_eq_switch (tags : TagTable) (ctx : tokenizer) (c : Nat) (rest : List Nat)
    (hfp : ctx.fp = c :: rest) (hp : passes_prefilter c = true)
    (hws : ¬ ((ctx.state = STATE.STATE_BEFORE_ATTRIB_NAME ∨
        ctx.state = STATE.STATE_AFTER_ATTRIB_NAME ∨
        ctx.state = STATE.STATE_BEFORE_ATTRIB_VAL) ∧ HTML_ISSPACE c = true)) :
    tokenize tags ctx =
      tokenize_switch tags
        { ctx with fp := rest, line := if c = 10 then ctx.line + 1 else ctx.line } c := by
  unfold tokenize
  rw [hfp]
  simp only
  have h255 : ¬ c = 255 := by
    intro h
    simp [passes_prefilter, h] at hp
  have hctl : ¬ (iscntrl c && (decide (c ≠ 10) && decide (c ≠ 9))) = true := by
    intro h
    simp [passes_prefilter, h255] at hp
    simp at h
    rcases hp with hp | hp | hp <;> simp_all
  simp only [h255, if_false, hctl]
  by_cases h10 : c = 10
  · simp only [h10, if_true] at hws ⊢
    simp only [hws, if_false, Bool.false_eq_true]
  · simp only [h10, if_false] at hws ⊢
    simp only [hws, if_false, Bool.false_eq_true]

theorem doctype_call (tags : TagTable) (ctx : tokenizer) (c : Nat) (rest : List Nat)
    (hs : in_doctype ctx.state) (hfp : ctx.fp = c :: rest) :
    ∃ ctx1, tokenize tags ctx = Except.ok (none, ctx1) ∧
      ((c ≠ 62 ∧ in_doctype ctx1.state ∧ ctx1.fp = rest) ∨
       (ctx.state = STATE.STATE_DOCTYPE ∧ ctx1.state = STATE.STATE_BEFORE_DOCTYPE_NAME ∧
         ctx1.fp = c :: rest) ∨
       (c = 62 ∧ ctx.state ≠ STATE.STATE_DOCTYPE ∧ ctx1.state = STATE.STATE_DATA ∧
         ctx1.fp = rest)) := by
  by_cases hp : passes_prefilter c = true
  · rw [tokenize_eq_switch tags ctx c rest hfp hp (by
      unfold in_doctype at hs
      rcases hs with h | h | h | h | h <;> simp [h])]
    unfold in_doctype at hs
    unfold tokenize_switch
    rcases hs with h | h | h | h | h <;> simp only [h]
    all_goals
      (repeat' split) <;>
      simp [ret_null, enter_state, enter_state_reconsume, enter_state_err,
        enter_state_emit_doctype, Except.map, in_doctype, h, *]
    all_goals
      (intro h62
       simp [h62, HTML_ISSPACE] at *)
  · have hp2 : passes_prefilter c = false := by simpa using hp
    rw [tokenize_dropped tags ctx c rest hfp hp2]
    refine ⟨_, rfl, Or.inl ⟨?_, hs, rfl⟩⟩
    intro h
    simp [h, passes_prefilter, iscntrl] at hp2

theorem doctype_byte (tags : TagTable) (ctx : tokenizer) (c : Nat) (rest : List Nat)
    (hs : in_doctype ctx.state) (hfp : ctx.fp = c :: rest) :
    ∃ K ctx1, tokenize_n tags K ctx = Except.ok ([], ctx1) ∧ ctx1.fp = rest ∧
      ((c ≠ 62 ∧ in_doctype ctx1.state) ∨ (c = 62 ∧ ctx1.state = STATE.STATE_DATA)) := by
  obtain ⟨ctx1, h1, hcase⟩ := doctype_call tags ctx c rest hs hfp
  have r1 := tokenize_n_one tags ctx ctx1 none h1
  rcases hcase with ⟨hc, hin, hf⟩ | ⟨_, hst, hf⟩ | ⟨hc, _, hst, hf⟩
  · exact ⟨1, ctx1, r1, hf, Or.inl ⟨hc, hin⟩⟩
  · have hin1 : in_doctype ctx1.state := Or.inr (Or.inl hst)
    obtain ⟨ctx2, h2, hcase2⟩ := doctype_call tags ctx1 c rest hin1 hf
    have r2 := tokenize_n_add tags 1 1 ctx ctx1 ctx2 [] [] r1 (tokenize_n_one tags ctx1 ctx2 none h2)
    rcases hcase2 with ⟨hc, hin, hf2⟩ | ⟨hd, _, _⟩ | ⟨hc, _, hst2, hf2⟩
    · exact ⟨1 + 1, ctx2, r2, hf2, Or.inl ⟨hc, hin⟩⟩
    · rw [hst] at hd
      cases hd
    · exact ⟨1 + 1, ctx2, r2, hf2, Or.inr ⟨hc, hst2⟩⟩
  · exact ⟨1, ctx1, r1, hf, Or.inr ⟨hc, hst⟩⟩

theorem doctype_body_run (tags : TagTable) (body : List Nat) :
    ∀ (ctx : tokenizer) (rest : List Nat), in_doctype ctx.state → 62 ∉ body →
      ctx.fp = body ++ 62 :: rest →
      ∃ K ctx1, tokenize_n tags K ctx = Except.ok ([], ctx1) ∧
        ctx1.state = STATE.STATE_DATA ∧ ctx1.fp = rest := by
  induction body with
  | nil =>
    intro ctx rest hs _ hfp
    obtain ⟨K, ctx1, hrun, hf, hcase⟩ := doctype_byte tags ctx 62 rest hs (by simpa using hfp)
    rcases hcase with ⟨hc, _⟩ | ⟨_, hst⟩
    · exact absurd rfl hc
    · exact ⟨K, ctx1, hrun, hst, hf⟩
  | cons b bs ih =>
    intro ctx rest hs hnot hfp
    obtain ⟨K, ctx1, hrun, hf, hcase⟩ :=
      doctype_byte tags ctx b (bs ++ 62 :: rest) hs (by simpa using hfp)
    rcases hcase with ⟨_, hin⟩ | ⟨hc, _⟩
    · obtain ⟨K2, ctx2, hrun2, hst2, hf2⟩ :=
        ih ctx1 rest hin (fun h => hnot (List.mem_cons_of_mem _ h)) hf
      exact ⟨K + K2, ctx2, by simpa using tokenize_n_add tags K K2 ctx ctx1 ctx2 [] [] hrun hrun2,
        hst2, hf2⟩
    · exact absurd (by rw [hc]; exact List.mem_cons_self _ _) hnot

theorem doctype_declaration_run (tags : TagTable) (body rest : List Nat) (hnot : 62 ∉ body) :
    ∃ K ctx1,
      tokenize_n tags K
        (tokenizer_init ([60, 33, 68, 79, 67, 84, 89, 80, 69] ++ body ++ 62 :: rest)) =
          Except.ok ([], ctx1) ∧
      ctx1.state = STATE.STATE_DATA ∧ ctx1.fp = rest := by
  obtain ⟨ctx1, h1, hst, hf⟩ :=
    tokenize_mdo_full_run tags [68, 79, 67, 84, 89, 80, 69] (by simp [markup_matches])
      (tokenizer_init ([60, 33, 68, 79, 67, 84, 89, 80, 69] ++ body ++ 62 :: rest))
      (body ++ 62 :: rest) rfl (by simp [tokenizer_init]) (by simp [tokenizer_init])
  have hin : in_doctype ctx1.state := by
    rw [hst]
    exact Or.inl (by simp [markup_target])
  obtain ⟨K2, ctx2, h2, hst2, hf2⟩ := doctype_body_run tags body ctx1 rest hin hnot hf
  exact ⟨_, ctx2, by simpa using tokenize_n_add tags _ K2 _ ctx1 ctx2 [] [] h1 h2, hst2, hf2⟩

theorem doctype_safe_of_ne (ctx : tokenizer) (h : ctx.token.type ≠ TOKEN_TYPE.TOKEN_DOCTYPE) :
    doctype_safe ctx :=
  fun hd => absurd hd h

theorem tokenize_n_doctype_safe (tags : TagTable) :
    ∀ (n : Nat) (ctx ctx1 : tokenizer) (ts : List token), doctype_safe ctx →
      tokenize_n tags n ctx = Except.ok (ts, ctx1) →
      doctype_safe ctx1 ∧ ∀ t ∈ ts, t.type ≠ TOKEN_TYPE.TOKEN_DOCTYPE := by
  intro n
  induction n with
  | zero =>
    intro ctx ctx1 ts hs h
    simp only [tokenize_n, Except.ok.injEq, Prod.mk.injEq] at h
    obtain ⟨rfl, rfl⟩ := h
    exact ⟨hs, by simp⟩
  | succ n ih =>
    intro ctx ctx1 ts hs h
    unfold tokenize_n at h
    cases h1 : tokenize tags ctx with
    | error e => simp [h1] at h
    | ok p =>
      obtain ⟨r, cx⟩ := p
      simp only [h1] at h
      cases h2 : tokenize_n tags n cx with
      | error e => simp [h2] at h
      | ok q =>
        obtain ⟨ts2, cy⟩ := q
        simp only [h2, Except.ok.injEq, Prod.mk.injEq] at h
        obtain ⟨rfl, rfl⟩ := h
        obtain ⟨k1, k2⟩ := tokenize_doctype_safe tags ctx cx r h1 hs
        obtain ⟨k3, k4⟩ := ih cx cy ts2 k1 h2
        refine ⟨k3, ?_⟩
        intro t ht
        simp only [List.mem_append, Option.mem_toList, Option.mem_def] at ht
        rcases ht with ht | ht
        · exact k2 t ht
        · exact k4 t ht

theorem tokenize_all_doctype_safe (tags : TagTable) :
    ∀ (n : Nat) (ctx ctx1 : tokenizer) (ts : List token), doctype_safe ctx →
      tokenize_all tags n ctx = Except.ok (ts, ctx1) →
      ∀ t ∈ ts, t.type ≠ TOKEN_TYPE.TOKEN_DOCTYPE := by
  intro n
  induction n with
  | zero =>
    intro ctx ctx1 ts hs h
    simp [tokenize_all] at h
  | succ n ih =>
    intro ctx ctx1 ts hs h
    unfold tokenize_all at h
    split at h
    · simp only [Except.ok.injEq, Prod.mk.injEq] at h
      obtain ⟨rfl, rfl⟩ := h
      simp
    · cases h1 : tokenize tags ctx with
      | error e => simp [h1] at h
      | ok p =>
        obtain ⟨r, cx⟩ := p
        obtain ⟨k1, k2⟩ := tokenize_doctype_safe tags ctx cx r h1 hs
        cases r with
        | none =>
          simp only [h1] at h
          exact ih cx ctx1 ts k1 h
        | some t0 =>
          simp only [h1] at h
          cases h2 : tokenize_all tags n { cx with token := token_clear cx.token } with
          | error e => simp [h2] at h
          | ok q =>
            obtain ⟨ts2, cy⟩ := q
            simp only [h2, Except.ok.injEq, Prod.mk.injEq] at h
            obtain ⟨rfl, rfl⟩ := h
            have hcl : doctype_safe { cx with token := token_clear cx.token } :=
              doctype_safe_of_ne _ (by simp [token_clear])
            intro t ht
            simp only [List.mem_cons] at ht
            rcases ht with rfl | ht
            · exact k2 t rfl
            · exact ih _ _ _ hcl h2 t ht

/-- C34: the tokenizer returns no DOCTYPE token. For every tag table and every
input, none of the tokens that any number of calls of `tokenize` on a zeroed
tokenizer return has the type DOCTYPE, with or without `token_clear` between
the calls; the same holds from every tokenizer record, in whatever state, whose
member `token` is not a DOCTYPE token (such as a cleared one, which is what
the main loop hands back after a state override). And a declaration
`<!DOCTYPE`, any bytes other than `>`, `>` at the start of the input is read by
calls that all return `NULL`: they return no token at all, consume exactly the
declaration and leave the tokenizer in the state DATA. -/
theorem tokenizer_returns_no_doctype (tags : TagTable) :
    (∀ (input : List Nat) (n : Nat) (ts : List token) (ctx1 : tokenizer),
      tokenize_n tags n (tokenizer_init input) = Except.ok (ts, ctx1) →
      ∀ t ∈ ts, t.type ≠ TOKEN_TYPE.TOKEN_DOCTYPE) ∧
    (∀ (input : List Nat) (n : Nat) (ts : List token) (ctx1 : tokenizer),
      tokenize_all tags n (tokenizer_init input) = Except.ok (ts, ctx1) →
      ∀ t ∈ ts, t.type ≠ TOKEN_TYPE.TOKEN_DOCTYPE) ∧
    (∀ (ctx : tokenizer) (n : Nat) (ts : List token) (ctx1 : tokenizer),
      ctx.token.type ≠ TOKEN_TYPE.TOKEN_DOCTYPE →
      tokenize_n tags n ctx = Except.ok (ts, ctx1) →
      ∀ t ∈ ts, t.type ≠ TOKEN_TYPE.TOKEN_DOCTYPE) ∧
    (∀ body rest : List Nat, 62 ∉ body →
      ∃ (K : Nat) (ctx1 : tokenizer),
        tokenize_n tags K (tokenizer_init (cstr "<!DOCTYPE" ++ body ++ 62 :: rest)) =
          Except.ok ([], ctx1) ∧
        ctx1.state = STATE.STATE_DATA ∧ ctx1.fp = rest) := by
  have hinit : ∀ input : List Nat, doctype_safe (tokenizer_init input) := fun input =>
    doctype_safe_of_ne _ (by simp [tokenizer_init, token_of_type])
  refine ⟨?_, ?_, ?_, ?_⟩
  · intro input n ts ctx1 h
    exact (tokenize_n_doctype_safe tags n _ ctx1 ts (hinit input) h).2
  · intro input n ts ctx1 h
    exact tokenize_all_doctype_safe tags n _ ctx1 ts (hinit input) h
  · intro ctx n ts ctx1 hne h
    exact (tokenize_n_doctype_safe tags n ctx ctx1 ts (doctype_safe_of_ne ctx hne) h).2
  · intro body rest hnot
    have hc : cstr "<!DOCTYPE" = [60, 33, 68, 79, 67, 84, 89, 80, 69] := by decide
    rw [hc]
    exact doctype_declaration_run tags body rest hnot

/-- C34 at a concrete input: the sixteen calls that read `<!DOCTYPE html>x`
return one token, which is not a DOCTYPE token, and the declaration
`<!DOCTYPE html>` alone is read without any token. -/
theorem tokenizer_returns_no_doctype_witness :
    (∃ (ts : List token) (ctx1 : tokenizer),
      tokenize_n tags_example 16 (tokenizer_init (cstr "<!DOCTYPE html>x")) =
        Except.ok (ts, ctx1) ∧
      ts.map (fun t => t.type) = [TOKEN_TYPE.TOKEN_CHAR] ∧
      ∀ t ∈ ts, t.type ≠ TOKEN_TYPE.TOKEN_DOCTYPE) ∧
    (∃ (K : Nat) (ctx1 : tokenizer),
      tokenize_n tags_example K (tokenizer_init (cstr "<!DOCTYPE" ++ cstr " html" ++ 62 :: [])) =
        Except.ok ([], ctx1) ∧
      ctx1.state = STATE.STATE_DATA ∧ ctx1.fp = []) := by
  refine ⟨?_, (tokenizer_returns_no_doctype tags_example).2.2.2 (cstr " html") [] (by decide)⟩
  cases hrun : tokenize_n tags_example 16 (tokenizer_init (cstr "<!DOCTYPE html>x")) with
  | error e =>
    have hf : fault_of (tokenize_n tags_example 16 (tokenizer_init (cstr "<!DOCTYPE html>x"))) =
        none := by decide!
    rw [hrun] at hf
    cases hf
  | ok r =>
    have ht : (tokenize_n tags_example 16 (tokenizer_init (cstr "<!DOCTYPE html>x"))).toOption.map
        (fun r => r.1.map (fun t => t.type)) = some [TOKEN_TYPE.TOKEN_CHAR] := by decide!
    rw [hrun] at ht
    refine ⟨r.1, r.2, rfl, by simpa [Except.toOption] using ht, ?_⟩
    exact (tokenizer_returns_no_doctype tags_example).1 (cstr "<!DOCTYPE html>x") 16 r.1 r.2 hrun

/-! ### The peek buffer of the markup declaration state -/

theorem enter_state_peek (ctx c : tokenizer) (s : STATE) (h : enter_state ctx s = Except.ok c)
    (hb : ctx.buf.length = 16) : peek_ok c := by
  obtain ⟨f1, f2, _, f4, _⟩ := enter_state_frame ctx c s h
  refine ⟨by rw [f2]; exact hb, ?_⟩
  intro hs
  rw [f1] at hs
  obtain ⟨k1, k2⟩ := f4 hs
  exact Or.inl ⟨k2, k1⟩

theorem enter_state_emit_peek (ctx c : tokenizer) (s : STATE)
    (h : enter_state_emit ctx s = Except.ok c) (hb : ctx.buf.length = 16) : peek_ok c := by
  obtain ⟨f1, f2, _, f4, _⟩ := enter_state_emit_frame ctx c s h
  refine ⟨by rw [f2]; exact hb, ?_⟩
  intro hs
  rw [f1] at hs
  obtain ⟨k1, k2⟩ := f4 hs
  exact Or.inl ⟨k2, k1⟩

theorem enter_state_reconsume_peek (ctx c : tokenizer) (s : STATE) (b : Nat)
    (h : enter_state_reconsume ctx s b = Except.ok c) (hb : ctx.buf.length = 16) :
    peek_ok c := by
  obtain ⟨f1, f2, _, f4, _⟩ := enter_state_reconsume_frame ctx c s b h
  refine ⟨by rw [f2]; exact hb, ?_⟩
  intro hs
  rw [f1] at hs
  obtain ⟨k1, k2⟩ := f4 hs
  exact Or.inl ⟨k2, k1⟩

theorem set_tag_name_buf (tags : TagTable) (ctx c : tokenizer)
    (h : set_tag_name tags ctx = Except.ok c) (hb : ctx.buf.length = 16) :
    c.buf.length = 16 := by
  rw [(set_tag_name_frame tags ctx c h).2.1]
  exact hb

theorem set_pending_attr_buf (ctx c : tokenizer) (h : set_pending_attr ctx = Except.ok c)
    (hb : ctx.buf.length = 16) : c.buf.length = 16 := by
  rw [(set_pending_attr_frame ctx c h).2.1]
  exact hb

theorem push_chars_buf (p : CStr) (ctx : tokenizer) (hb : ctx.buf.length = 16) :
    (push_chars ctx p).buf.length = 16 := by
  rw [(push_chars_frame p ctx).2.1]
  exact hb

theorem push_char_buf (ctx : tokenizer) (b : Nat) (hb : ctx.buf.length = 16) :
    (push_char ctx b).buf.length = 16 := hb

set_option maxHeartbeats 1600000 in
theorem tokenize_switch_peek_ok (tags : TagTable) (ctx ctx1 : tokenizer) (c : Nat)
    (r : Option token) (h : tokenize_switch tags ctx c = Except.ok (r, ctx1))
    (hs : peek_ok ctx) : peek_ok ctx1 := by
  have hb : ctx.buf.length = 16 := hs.1
  unfold tokenize_switch at h
  cases hst : ctx.state <;> simp only [hst] at h
  case STATE_MARKUP_DECLARATION_OPEN =>
    rcases hs.2 hst with ⟨hm, hk⟩ | ⟨m, hm, hmem, hk1, hk2⟩
    · simp only [hm] at h
      repeat' split at h
      all_goals
        (simp [ret_null, enter_state, Except.map, token_of_type] at h
         obtain ⟨rfl, rfl⟩ := h
         simp [peek_ok, hb, hk, markup_matches])
    · simp only [hm] at h
      repeat' split at h
      all_goals first
        | exact Except.noConfusion h
        | (simp [ret_null, enter_state, enter_state_err, Except.map, token_of_type] at h
           obtain ⟨rfl, rfl⟩ := h
           simp [peek_ok, hb, hm, hmem])
      rename_i hne
      by_contra hlt
      exact hne (List.getD_eq_default _ _ (by omega))
  all_goals (repeat' split at h)
  all_goals first
    | (simp [ret_null, ret_token, enter_state, enter_state_return, enter_state_emit,
        enter_state_emit_char, enter_state_emit_doctype, enter_state_reconsume, enter_state_err,
        push_char, Except.map, token_of_type] at h
       obtain ⟨rfl, rfl⟩ := h
       simp [peek_ok, hst, hb]
       done)
    | (simp [ret_null, ret_token, enter_state, enter_state_return, enter_state_emit,
        enter_state_emit_char, enter_state_emit_doctype, enter_state_reconsume, enter_state_err,
        push_char, Except.map, token_of_type] at h
       obtain ⟨rfl, rfl⟩ := h
       simp [peek_ok, hst, hb]
       first
         | exact push_chars_buf _ _ hb
         | solve_by_elim [set_pending_attr_buf])
    | exact Except.noConfusion h
    | skip
  all_goals
      (simp only [ret_null_ok, ret_token_ok, except_bind_ok_iff] at h
       obtain ⟨_, hm⟩ := h
       first
         | (obtain ⟨x, h1, h2⟩ := hm
            solve_by_elim [enter_state_peek, enter_state_emit_peek,
                enter_state_reconsume_peek, set_tag_name_buf, set_pending_attr_buf,
                push_chars_buf, push_char_buf])
         | solve_by_elim [enter_state_peek, enter_state_emit_peek,
                enter_state_reconsume_peek, set_tag_name_buf, set_pending_attr_buf,
                push_chars_buf, push_char_buf])

theorem tokenize_peek_ok (tags : TagTable) (ctx ctx1 : tokenizer) (r : Option token)
    (h : tokenize tags ctx = Except.ok (r, ctx1)) (hs : peek_ok ctx) : peek_ok ctx1 := by
  rcases tokenize_cases tags ctx ctx1 _ h with ⟨_, h2⟩ | ⟨x, c, hx, h2⟩
  · rw [h2]
    exact hs
  · have hsx : peek_ok x := by
      rw [hx]
      exact hs
    exact tokenize_switch_peek_ok _ _ _ _ _ h2 hsx

theorem tokenize_n_peek_ok (tags : TagTable) :
    ∀ (n : Nat) (ctx ctx1 : tokenizer) (ts : List token), peek_ok ctx →
      tokenize_n tags n ctx = Except.ok (ts, ctx1) → peek_ok ctx1 := by
  intro n
  induction n with
  | zero =>
    intro ctx ctx1 ts hs h
    simp only [tokenize_n, Except.ok.injEq, Prod.mk.injEq] at h
    obtain ⟨_, rfl⟩ := h
    exact hs
  | succ n ih =>
    intro ctx ctx1 ts hs h
    unfold tokenize_n at h
    cases h1 : tokenize tags ctx with
    | error e => simp [h1] at h
    | ok p =>
      obtain ⟨r, cx⟩ := p
      simp only [h1] at h
      cases h2 : tokenize_n tags n cx with
      | error e => simp [h2] at h
      | ok q =>
        obtain ⟨ts2, cy⟩ := q
        simp only [h2, Except.ok.injEq, Prod.mk.injEq] at h
        obtain ⟨_, rfl⟩ := h
        exact ih cx cy ts2 (tokenize_peek_ok tags ctx cx r h1 hs) h2

theorem tokenize_all_peek_ok (tags : TagTable) :
    ∀ (n : Nat) (ctx ctx1 : tokenizer) (ts : List token), peek_ok ctx →
      tokenize_all tags n ctx = Except.ok (ts, ctx1) → peek_ok ctx1 := by
  intro n
  induction n with
  | zero =>
    intro ctx ctx1 ts hs h
    simp [tokenize_all] at h
  | succ n ih =>
    intro ctx ctx1 ts hs h
    unfold tokenize_all at h
    split at h
    · simp only [Except.ok.injEq, Prod.mk.injEq] at h
      obtain ⟨_, rfl⟩ := h
      exact hs
    · cases h1 : tokenize tags ctx with
      | error e => simp [h1] at h
      | ok p =>
        obtain ⟨r, cx⟩ := p
        have k1 := tokenize_peek_ok tags ctx cx r h1 hs
        cases r with
        | none =>
          simp only [h1] at h
          exact ih cx ctx1 ts k1 h
        | some t0 =>
          simp only [h1] at h
          cases h2 : tokenize_all tags n { cx with token := token_clear cx.token } with
          | error e => simp [h2] at h
          | ok q =>
            obtain ⟨ts2, cy⟩ := q
            simp only [h2, Except.ok.injEq, Prod.mk.injEq] at h
            obtain ⟨_, rfl⟩ := h
            exact ih _ _ _ (show peek_ok { cx with token := token_clear cx.token } from k1) h2

theorem markup_matches_length (m : CStr) (hm : m ∈ markup_matches) : m.length ≤ 7 := by
  simp only [markup_matches, List.mem_cons, List.mem_singleton, List.not_mem_nil, or_false] at hm
  rcases hm with rfl | rfl | rfl <;> decide

theorem peek_ok_init (input : List Nat) : peek_ok (tokenizer_init input) :=
  ⟨by simp [tokenizer_init], fun h => by simp [tokenizer_init] at h⟩

/-- C35: the bound of the peek buffer. For every tag table: `enter_state`
establishes the invariant `peek_ok` from any tokenizer record with a 16-byte
buffer, a zeroed tokenizer has it, and every call of `tokenize` keeps it, so
it holds after any number of calls on any input, with or without `token_clear`
between them. Under the invariant, a call in the state
MARKUP_DECLARATION_OPEN starts with `buf_len` at most 6: the bytes it writes,
at `buf_len` and (the terminating zero) at `buf_len + 1`, are inside the 16
bytes of the buffer, `buf_len` is at most 7 after the increment, and the
prefix selected, if any, is one of the three of `markup_matches`, of at most 7
bytes, and has at least `buf_len + 1` bytes, so the reads at `buf_len - 1` and
`buf_len` after the increment stay within the string and its terminator. -/
theorem peek_buffer_bound (tags : TagTable) :
    (∀ (ctx ctx1 : tokenizer) (s : STATE), ctx.buf.length = 16 →
      enter_state ctx s = Except.ok ctx1 → peek_ok ctx1) ∧
    (∀ (ctx ctx1 : tokenizer) (r : Option token), peek_ok ctx →
      tokenize tags ctx = Except.ok (r, ctx1) → peek_ok ctx1) ∧
    (∀ (input : List Nat) (n : Nat) (ts : List token) (ctx : tokenizer),
      tokenize_n tags n (tokenizer_init input) = Except.ok (ts, ctx) → peek_ok ctx) ∧
    (∀ (input : List Nat) (n : Nat) (ts : List token) (ctx : tokenizer),
      tokenize_all tags n (tokenizer_init input) = Except.ok (ts, ctx) → peek_ok ctx) ∧
    (∀ ctx : tokenizer, peek_ok ctx → ctx.state = STATE.STATE_MARKUP_DECLARATION_OPEN →
      ctx.buf_len + 1 ≤ 7 ∧ ctx.buf_len + 1 < ctx.buf.length ∧
      ∀ m : CStr, ctx.match_ = some m →
        m ∈ markup_matches ∧ m.length ≤ 7 ∧ ctx.buf_len + 1 ≤ m.length) := by
  refine ⟨?_, ?_, ?_, ?_, ?_⟩
  · intro ctx ctx1 s hb h
    exact enter_state_peek ctx ctx1 s h hb
  · intro ctx ctx1 r hs h
    exact tokenize_peek_ok tags ctx ctx1 r h hs
  · intro input n ts ctx h
    exact tokenize_n_peek_ok tags n _ ctx ts (peek_ok_init input) h
  · intro input n ts ctx h
    exact tokenize_all_peek_ok tags n _ ctx ts (peek_ok_init input) h
  · intro ctx hs hst
    obtain ⟨hb, hmdo⟩ := hs
    rcases hmdo hst with ⟨hm, hk⟩ | ⟨m, hm, hmem, hk1, hk2⟩
    · refine ⟨by omega, by omega, ?_⟩
      intro m h
      rw [hm] at h
      cases h
    · have hl := markup_matches_length m hmem
      refine ⟨by omega, by omega, ?_⟩
      intro m2 h
      rw [hm] at h
      simp only [Option.some.injEq] at h
      subst h
      exact ⟨hmem, hl, by omega⟩

/-- C35 at a concrete input: after the seven calls that read `<!DOCTY` the
tokenizer is in MARKUP_DECLARATION_OPEN with five bytes in the buffer, and the
invariant and its bounds hold. -/
theorem peek_buffer_bound_witness :
    ∃ (ts : List token) (ctx : tokenizer),
      tokenize_n tags_example 7 (tokenizer_init (cstr "<!DOCTY")) = Except.ok (ts, ctx) ∧
      (ctx.state, ctx.buf_len, ctx.match_) =
        (STATE.STATE_MARKUP_DECLARATION_OPEN, 5, some (cstr "DOCTYPE")) ∧
      peek_ok ctx ∧ ctx.buf_len + 1 ≤ 7 ∧ ctx.buf_len + 1 < ctx.buf.length := by
  cases hrun : tokenize_n tags_example 7 (tokenizer_init (cstr "<!DOCTY")) with
  | error e =>
    have hf : fault_of (tokenize_n tags_example 7 (tokenizer_init (cstr "<!DOCTY"))) = none := by
      decide!
    rw [hrun] at hf
    cases hf
  | ok r =>
    have ht : (tokenize_n tags_example 7 (tokenizer_init (cstr "<!DOCTY"))).toOption.map
        (fun r => (r.2.state, r.2.buf_len, r.2.match_)) =
        some (STATE.STATE_MARKUP_DECLARATION_OPEN, 5, some (cstr "DOCTYPE")) := by decide!
    rw [hrun] at ht
    have hv : (r.2.state, r.2.buf_len, r.2.match_) =
        (STATE.STATE_MARKUP_DECLARATION_OPEN, 5, some (cstr "DOCTYPE")) := by
      simpa [Except.toOption] using ht
    have hp := (peek_buffer_bound tags_example).2.2.1 (cstr "<!DOCTY") 7 r.1 r.2 hrun
    have hst : r.2.state = STATE.STATE_MARKUP_DECLARATION_OPEN := by
      have := congrArg Prod.fst hv
      simpa using this
    obtain ⟨b1, b2, _⟩ := (peek_buffer_bound tags_example).2.2.2.2 r.2 hp hst
    exact ⟨r.1, r.2, rfl, hv, hp, b1, b2⟩

/-! ### The head element pointer -/

/-- C31: head tracking. The input `<html>` makes one element, `html`, and no
`head`; yet after it `head_elem` is not `NULL`: it points to the `html` element
(address 0), and `reset_imode` called with it on the stack that holds `html`
alone gives AFTER_HEAD. After the input `<p>` the elements made are `html`,
`head`, `body` and `p` (addresses 0 to 3) and `head_elem` points to `p`, the
last one inserted, not to the `head` element at address 1. -/
theorem head_elem_follows_last_insert :
    (parse ids_html tags_html (cstr "<html>")).toOption.map
      (fun r => (r.2.1.ctx.head_elem, r.2.1.elems.map (fun e => e.tagid),
        r.2.1.ostack.contents,
        (reset_imode ids_html r.2.1 r.2.1.ctx.head_elem).toOption)) =
      some (some 0, [ids_html.TAG_HTML], [some 0], some IMODE.IMODE_AFTER_HEAD) ∧
    (parse ids_html tags_html (cstr "<p>")).toOption.map
      (fun r => (r.2.1.ctx.head_elem, r.2.1.elems.map (fun e => e.tagid))) =
      some (some 3, [ids_html.TAG_HTML, ids_html.TAG_HEAD, ids_html.TAG_BODY, ids_html.TAG_P]) := by
  constructor <;> decide!

/-! ### Postconditions of computations -/

theorem sat_ok {α : Type} {P : α → Prop} {a : α} (h : P a) : Sat (Except.ok a) P := by
  intro b hb
  cases hb
  exact h

theorem sat_pure {α : Type} {P : α → Prop} {a : α} (h : P a) :
    Sat (pure a : Except Fault α) P :=
  sat_ok h

theorem sat_error {α : Type} {P : α → Prop} {e : Fault} : Sat (Except.error e : Except Fault α) P := by
  intro b hb
  cases hb

theorem sat_throw {α : Type} {P : α → Prop} {e : Fault} : Sat (throw e : Except Fault α) P :=
  sat_error

theorem sat_bind {α β : Type} {P : β → Prop} {m : Except Fault α} {f : α → Except Fault β}
    (h : ∀ a, m = Except.ok a → Sat (f a) P) : Sat (m >>= f) P := by
  intro b hb
  cases m with
  | error e => cases hb
  | ok a => exact h a rfl b hb

theorem sat_ite {α : Type} {P : α → Prop} {c : Prop} [Decidable c] {a b : Except Fault α}
    (h1 : c → Sat a P) (h2 : ¬ c → Sat b P) : Sat (if c then a else b) P := by
  by_cases hc : c
  · simpa [hc] using h1 hc
  · simpa [hc] using h2 hc

theorem sat_map {α β : Type} {P : β → Prop} {m : Except Fault α} {f : α → β}
    (h : Sat m (fun a => P (f a))) : Sat (m.map f) P := by
  intro b hb
  cases m with
  | error e => cases hb
  | ok a =>
    cases hb
    exact h a rfl

/-! ### The values `dispatch` returns -/

theorem nest_replay_append (evs : List event) (e : event) :
    nest_replay (evs ++ [e]) = nest_step (nest_replay evs) e := by
  simp [nest_replay, List.foldl_append]

theorem begun_elems_append (evs : List event) (e : event) :
    begun_elems (evs ++ [e]) = begun_elems evs ++ begun_elems [e] := by
  simp [begun_elems, List.filterMap_append]

theorem ended_elems_append (evs : List event) (e : event) :
    ended_elems (evs ++ [e]) = ended_elems evs ++ ended_elems [e] := by
  simp [ended_elems, List.filterMap_append]

theorem open_elems_of_replay (evs : List event) :
    ∀ st : List Nat, nest_replay evs = some st → (begun_elems evs).Nodup →
      open_elems evs = st.reverse ∧ ∀ a ∈ ended_elems evs, a ∈ begun_elems evs := by
  induction evs using List.reverseRecOn with
  | nil =>
    intro st h _
    simp only [nest_replay, List.foldl_nil, Option.some.injEq] at h
    subst h
    simp [open_elems, begun_elems, ended_elems]
  | append_singleton evs e ih =>
    intro st h hnd
    rw [nest_replay_append] at h
    rw [begun_elems_append] at hnd
    cases h0 : nest_replay evs with
    | none => simp [h0, nest_step] at h
    | some st0 =>
      rw [h0] at h
      obtain ⟨ih1, ih2⟩ := ih st0 h0 (List.Nodup.of_append_left hnd)
      have hopen_nd : (open_elems evs).Nodup :=
        List.Nodup.filter _ (List.Nodup.of_append_left hnd)
      cases e with
      | begin n =>
        cases n with
        | NODE_ELEM a =>
          simp only [nest_step, Option.some.injEq] at h
          subst h
          have hb : begun_elems [event.begin (node.NODE_ELEM a)] = [a] := rfl
          have he : ended_elems [event.begin (node.NODE_ELEM a)] = [] := rfl
          rw [hb] at hnd
          have hnot : a ∉ begun_elems evs := by
            intro hmem
            have := List.disjoint_of_nodup_append hnd hmem
            simp at this
          have hne : a ∉ ended_elems evs := fun hmem => hnot (ih2 a hmem)
          constructor
          · unfold open_elems
            rw [begun_elems_append, ended_elems_append, hb, he, List.append_nil,
              List.filter_append]
            have : open_elems evs = st0.reverse := ih1
            unfold open_elems at this
            rw [this]
            simp [hne]
          · intro x hx
            rw [ended_elems_append, he, List.append_nil] at hx
            rw [begun_elems_append]
            exact List.mem_append_left _ (ih2 x hx)
        | NODE_CDATA c =>
          simp only [nest_step, Option.some.injEq] at h
          subst h
          have hb : begun_elems [event.begin (node.NODE_CDATA c)] = [] := rfl
          have he : ended_elems [event.begin (node.NODE_CDATA c)] = [] := rfl
          constructor
          · unfold open_elems
            rw [begun_elems_append, ended_elems_append, hb, he, List.append_nil, List.append_nil]
            exact ih1
          · intro x hx
            rw [ended_elems_append, he, List.append_nil] at hx
            rw [begun_elems_append, hb, List.append_nil]
            exact ih2 x hx
      | end_ n =>
        cases n with
        | NODE_ELEM a =>
          have hb : begun_elems [event.end_ (node.NODE_ELEM a)] = [] := rfl
          have he : ended_elems [event.end_ (node.NODE_ELEM a)] = [a] := rfl
          cases st0 with
          | nil => simp [nest_step] at h
          | cons b l =>
            simp only [nest_step] at h
            by_cases hab : a = b
            · subst hab
              simp only [if_true, Option.some.injEq] at h
              subst h
              have hrev : (open_elems evs) = l.reverse ++ [a] := by
                rw [ih1]
                simp
              have hal : a ∉ l := by
                rw [hrev] at hopen_nd
                intro hmem
                have := List.disjoint_of_nodup_append hopen_nd (List.mem_reverse.mpr hmem)
                simp at this
              have hamem : a ∈ begun_elems evs := by
                have : a ∈ open_elems evs := by
                  rw [hrev]
                  simp
                exact (List.mem_filter.mp this).1
              constructor
              · have hsplit : open_elems (evs ++ [event.end_ (node.NODE_ELEM a)]) =
                    (open_elems evs).filter (fun x => !(x == a)) := by
                  unfold open_elems
                  rw [begun_elems_append, ended_elems_append, hb, he, List.append_nil,
                    List.filter_filter]
                  congr 1
                  funext x
                  by_cases hxa : x = a <;> simp [hxa]
                rw [hsplit, hrev, List.filter_append]
                have h1 : l.reverse.filter (fun x => !(x == a)) = l.reverse := by
                  rw [List.filter_eq_self]
                  intro x hx
                  have hxl : x ∈ l := List.mem_reverse.mp hx
                  have : x ≠ a := fun hxa => hal (hxa ▸ hxl)
                  simpa using this
                rw [h1]
                simp
              · intro x hx
                rw [ended_elems_append, he] at hx
                rw [begun_elems_append, hb, List.append_nil]
                rcases List.mem_append.mp hx with hx | hx
                · exact ih2 x hx
                · simp only [List.mem_singleton] at hx
                  rw [hx]
                  exact hamem
            · simp [hab] at h
        | NODE_CDATA c =>
          simp only [nest_step, Option.some.injEq] at h
          subst h
          have hb : begun_elems [event.end_ (node.NODE_CDATA c)] = [] := rfl
          have he : ended_elems [event.end_ (node.NODE_CDATA c)] = [] := rfl
          constructor
          · unfold open_elems
            rw [begun_elems_append, ended_elems_append, hb, he, List.append_nil, List.append_nil]
            exact ih1
          · intro x hx
            rw [ended_elems_append, he, List.append_nil] at hx
            rw [begun_elems_append, hb, List.append_nil]
            exact ih2 x hx

/-! ### The stack and the events: the steps that change them -/

theorem nested_with_ctx (w : World) (c : dispatcher) (h : w.Nested) :
    ({ w with ctx := c } : World).Nested := h

theorem nested_cdata_event (w : World) (c : dispatcher) (e : event)
    (he : (∃ d, e = event.begin (node.NODE_CDATA d)) ∨ (∃ d, e = event.end_ (node.NODE_CDATA d)))
    (h : w.Nested) :
    ({ w with ctx := c, events := w.events ++ [e] } : World).Nested := by
  obtain ⟨hwf, hnode, ⟨st, hrep, hcont⟩, hbound, hnd⟩ := h
  have hb : begun_elems [e] = [] := by
    rcases he with ⟨d, rfl⟩ | ⟨d, rfl⟩ <;> rfl
  have hs : nest_step (some st) e = some st := by
    rcases he with ⟨d, rfl⟩ | ⟨d, rfl⟩ <;> cases st <;> rfl
  refine ⟨hwf, hnode, ⟨st, ?_, hcont⟩, ?_, ?_⟩
  · show nest_replay (w.events ++ [e]) = some st
    rw [nest_replay_append, hrep, hs]
  · show ∀ a ∈ begun_elems (w.events ++ [e]), a < w.elems.length
    rw [begun_elems_append, hb, List.append_nil]
    exact hbound
  · show (begun_elems (w.events ++ [e])).Nodup
    rw [begun_elems_append, hb, List.append_nil]
    exact hnd

theorem nested_flush_begin (w : World) (h : w.Nested) : (flush_cdata_begin w).Nested := by
  unfold flush_cdata_begin
  split
  · exact nested_cdata_event w _ _ (Or.inl ⟨_, rfl⟩) h
  · exact h

theorem nested_flush_end (w : World) (h : w.Nested) : (flush_cdata_end w).Nested := by
  unfold flush_cdata_end
  split
  · exact nested_cdata_event w _ _ (Or.inr ⟨_, rfl⟩) h
  · exact h

theorem nested_begin_elem (w : World) (c : dispatcher) (e : elem)
    (he : e.node = some (node.NODE_ELEM w.elems.length)) (h : w.Nested) :
    ∃ st : List Nat, nest_replay w.events = some st ∧
      w.ostack.contents = st.reverse.map some ∧
      nest_replay (w.events ++ [event.begin (node.NODE_ELEM w.elems.length)]) =
        some (w.elems.length :: st) ∧
      (∀ (a : Nat) (x : elem), (w.elems ++ [e])[a]? = some x →
        x.node = some (node.NODE_ELEM a)) ∧
      (∀ a ∈ begun_elems (w.events ++ [event.begin (node.NODE_ELEM w.elems.length)]),
        a < (w.elems ++ [e]).length) ∧
      (begun_elems (w.events ++ [event.begin (node.NODE_ELEM w.elems.length)])).Nodup := by
  obtain ⟨hwf, hnode, ⟨st, hrep, hcont⟩, hbound, hnd⟩ := h
  have hb : begun_elems [event.begin (node.NODE_ELEM w.elems.length)] = [w.elems.length] := rfl
  refine ⟨st, hrep, hcont, ?_, ?_, ?_, ?_⟩
  · rw [nest_replay_append, hrep]
    cases st <;> rfl
  · intro a x hx
    by_cases ha : a < w.elems.length
    · rw [List.getElem?_append_left ha] at hx
      exact hnode a x hx
    · have hge : w.elems.length ≤ a := by omega
      rw [List.getElem?_append_right hge] at hx
      by_cases h0 : a - w.elems.length = 0
      · have : a = w.elems.length := by omega
        subst this
        simp at hx
        subst hx
        exact he
      · obtain ⟨k, hk⟩ : ∃ k, a - w.elems.length = k + 1 := ⟨a - w.elems.length - 1, by omega⟩
        rw [hk] at hx
        simp at hx
  · intro a ha
    rw [begun_elems_append, hb] at ha
    simp only [List.length_append, List.length_singleton]
    rcases List.mem_append.mp ha with ha | ha
    · have := hbound a ha
      omega
    · simp only [List.mem_singleton] at ha
      omega
  · rw [begun_elems_append, hb]
    refine List.Nodup.append hnd (List.nodup_singleton _) ?_
    intro a ha hb2
    simp only [List.mem_singleton] at hb2
    have := hbound a ha
    omega

theorem nested_insert_push (w : World) (c : dispatcher) (e : elem)
    (he : e.node = some (node.NODE_ELEM w.elems.length)) (h : w.Nested) :
    ({ ctx := c, ostack := ostack_push w.ostack (some w.elems.length),
       elems := w.elems ++ [e],
       events := w.events ++ [event.begin (node.NODE_ELEM w.elems.length)] } : World).Nested := by
  obtain ⟨st, _, hcont, hrep, hnode, hbound, hnd⟩ := nested_begin_elem w c e he h
  refine ⟨ostack_push_wf _ _ h.1, hnode, ⟨w.elems.length :: st, hrep, ?_⟩, hbound, hnd⟩
  show (ostack_push w.ostack (some w.elems.length)).contents = _
  rw [ostack_push_contents _ _ h.1, hcont]
  simp

theorem nested_insert_empty (w : World) (c : dispatcher) (e : elem)
    (he : e.node = some (node.NODE_ELEM w.elems.length)) (h : w.Nested) :
    ({ ctx := c, ostack := w.ostack, elems := w.elems ++ [e],
       events := w.events ++ [event.begin (node.NODE_ELEM w.elems.length)] ++
         [event.end_ (node.NODE_ELEM w.elems.length)] } : World).Nested := by
  obtain ⟨st, _, hcont, hrep, hnode, hbound, hnd⟩ := nested_begin_elem w c e he h
  have hb : begun_elems [event.end_ (node.NODE_ELEM w.elems.length)] = [] := rfl
  refine ⟨h.1, hnode, ⟨st, ?_, hcont⟩, ?_, ?_⟩
  · show nest_replay (_ ++ [_]) = some st
    rw [nest_replay_append, hrep]
    simp [nest_step]
  · show ∀ a ∈ begun_elems (_ ++ [_]), _
    rw [begun_elems_append, hb, List.append_nil]
    exact hbound
  · show (begun_elems (_ ++ [_])).Nodup
    rw [begun_elems_append, hb, List.append_nil]
    exact hnd

theorem nested_close (w : World) (c : dispatcher) (a : Nat)
    (hpeek : ostack_peek w.ostack = some a) (h : w.Nested) :
    ({ ctx := c, ostack := (ostack_pop w.ostack).2, elems := w.elems,
       events := w.events ++ [event.end_ (node.NODE_ELEM a)] } : World).Nested := by
  obtain ⟨hwf, hnode, ⟨st, hrep, hcont⟩, hbound, hnd⟩ := h
  have hb : begun_elems [event.end_ (node.NODE_ELEM a)] = [] := rfl
  rw [ostack_peek_contents _ hwf, hcont] at hpeek
  cases st with
  | nil => simp at hpeek
  | cons b l =>
    have hba : b = a := by
      simp [List.getLast?_append] at hpeek
      exact hpeek
    subst hba
    refine ⟨ostack_pop_wf _ hwf, hnode, ⟨l, ?_, ?_⟩, ?_, ?_⟩
    · show nest_replay (_ ++ [_]) = some l
      rw [nest_replay_append, hrep]
      simp [nest_step]
    · show (ostack_pop w.ostack).2.contents = _
      rw [ostack_pop_contents _ hwf, hcont]
      simp
    · show ∀ x ∈ begun_elems (_ ++ [_]), _
      rw [begun_elems_append, hb, List.append_nil]
      exact hbound
    · show (begun_elems (_ ++ [_])).Nodup
      rw [begun_elems_append, hb, List.append_nil]
      exact hnd

theorem flush_cdata_end_ostack (w : World) : (flush_cdata_end w).ostack = w.ostack := by
  unfold flush_cdata_end
  split <;> rfl

theorem insert_element_ns_nested (tags : TagTable) (w : World) (t : token) (ns : Nat)
    (hn : w.Nested) : Sat (insert_element_ns tags w t ns) (fun r => r.2.1.Nested) := by
  intro r h
  have h1 := nested_flush_begin w hn
  unfold insert_element_ns at h
  split at h
  · dsimp only at h
    split at h
    · cases h
    · split at h
      · cases h
      · split at h
        · simp only [Except.ok.injEq] at h
          subst h
          exact nested_insert_push (flush_cdata_begin w) _ _ rfl h1
        · simp only [Except.ok.injEq] at h
          subst h
          exact nested_insert_empty (flush_cdata_begin w) _ _ rfl h1
  · cases h

theorem close_tag_nested (w : World) (hn : w.Nested) :
    Sat (close_tag w (ostack_peek w.ostack)) World.Nested := by
  intro r h
  have h1 := nested_flush_end w hn
  unfold close_tag at h
  dsimp only at h
  split at h
  · cases h
  · rename_i e he
    split at h
    · cases h
    · rename_i n hnode
      simp only [Except.ok.injEq] at h
      subst h
      unfold elem_at at he
      split at he
      · cases he
      · rename_i a hp
        split at he
        · cases he
        · rename_i e2 hel
          simp only [Except.ok.injEq] at he
          subst he
          have hback := h1.2.1 a e2 hel
          rw [hback] at hnode
          simp only [Option.some.injEq] at hnode
          subst hnode
          have hpeek : ostack_peek (flush_cdata_end w).ostack = some a := by
            rw [flush_cdata_end_ostack]
            exact hp
          exact nested_close (flush_cdata_end w) _ a hpeek h1

/-! ### The stack and the events: the helpers of the dispatcher -/

theorem sat_mono {α : Type} {P Q : α → Prop} {m : Except Fault α} (h : Sat m Q)
    (hpq : ∀ a, Q a → P a) : Sat m P :=
  fun a ha => hpq a (h a ha)

theorem sat_map_of {α β : Type} {P : β → Prop} {m : Except Fault α} {f : α → β}
    (h : ∀ a, m = Except.ok a → P (f a)) : Sat (m.map f) P := by
  intro b hb
  obtain ⟨a, ha, rfl⟩ := except_map_ok _ _ _ hb
  exact h a ha

theorem insert_char_nested {w : World} {t : token} {r : World × token}
    (h : insert_char w t = Except.ok r) (hn : w.Nested) : r.1.Nested := by
  unfold insert_char at h
  split at h
  · split at h
    · cases h
    · simp only [Except.ok.injEq] at h
      subst h
      exact hn
  · cases h

theorem insert_tag_nested {tags : TagTable} {w : World} {t : token} {r : World × token}
    (h : insert_tag tags w t = Except.ok r) (hn : w.Nested) : r.1.Nested := by
  obtain ⟨a, ha, rfl⟩ := except_map_ok _ _ _ h
  exact insert_element_ns_nested tags w t _ hn a ha

theorem insert_foreign_element_nested {tags : TagTable} {w : World} {t : token} {ns : Nat}
    {r : World × token} (h : insert_foreign_element tags w t ns = Except.ok r)
    (hn : w.Nested) : r.1.Nested := by
  obtain ⟨a, ha, rfl⟩ := except_map_ok _ _ _ h
  exact insert_element_ns_nested tags w t _ hn a ha

theorem insert_close_tag_nested {w : World} {t : token} {r : World × token}
    (h : insert_close_tag w t = Except.ok r) (hn : w.Nested) : r.1.Nested := by
  unfold insert_close_tag at h
  split at h
  · obtain ⟨a, ha, rfl⟩ := except_map_ok _ _ _ h
    exact close_tag_nested w hn a ha
  · cases h

theorem pop_nested {w : World} {r : ElemPtr × World} (h : pop w = Except.ok r)
    (hn : w.Nested) : r.2.Nested := by
  obtain ⟨a, ha, rfl⟩ := except_map_ok _ _ _ h
  exact close_tag_nested w hn a ha

theorem insert_tag_name_nested {tags : TagTable} {w : World} {name : CStr} {close : Bool}
    {r : World} (h : insert_tag_name tags w name close = Except.ok r) (hn : w.Nested) :
    r.Nested := by
  unfold insert_tag_name at h
  dsimp only at h
  split at h
  · cases h
  · split at h
    · obtain ⟨a, ha, rfl⟩ := except_map_ok _ _ _ h
      exact insert_close_tag_nested ha hn
    · obtain ⟨a, ha, rfl⟩ := except_map_ok _ _ _ h
      exact insert_tag_nested ha hn

theorem insert_tag_set_mode_nested {tags : TagTable} {w : World} {t : token} {m : IMODE}
    {r : World × token} (h : insert_tag_set_mode tags w t m = Except.ok r) (hn : w.Nested) :
    r.1.Nested := by
  obtain ⟨a, ha, rfl⟩ := except_map_ok _ _ _ h
  have hx := insert_tag_nested ha hn
  exact hx

theorem insert_tag_name_set_mode_nested {tags : TagTable} {w : World} {name : CStr}
    {close : Bool} {m : IMODE} {r : World}
    (h : insert_tag_name_set_mode tags w name close m = Except.ok r) (hn : w.Nested) :
    r.Nested := by
  obtain ⟨a, ha, rfl⟩ := except_map_ok _ _ _ h
  have hx := insert_tag_name_nested ha hn
  exact hx

theorem insert_close_tag_set_mode_nested {w : World} {t : token} {m : IMODE}
    {r : World × token} (h : insert_close_tag_set_mode w t m = Except.ok r) (hn : w.Nested) :
    r.1.Nested := by
  obtain ⟨a, ha, rfl⟩ := except_map_ok _ _ _ h
  have hx := insert_close_tag_nested ha hn
  exact hx

theorem generate_implied_end_tags_loop_nested (ids : TagIds) (x : Int) :
    ∀ (i : Nat) (w r : World), generate_implied_end_tags_loop ids x i w = Except.ok r →
      w.Nested → r.Nested := by
  intro i
  induction i with
  | zero =>
    intro w r h hn
    simp only [generate_implied_end_tags_loop, Except.ok.injEq] at h
    subst h
    exact hn
  | succ i ih =>
    intro w r h hn
    unfold generate_implied_end_tags_loop at h
    split at h
    · cases h
    · split at h
      · simp only [Except.ok.injEq] at h
        subst h
        exact hn
      · split at h
        · split at h
          · cases h
          · rename_i p hp
            exact ih _ _ h (pop_nested hp hn)
        · simp only [Except.ok.injEq] at h
          subst h
          exact hn

theorem generate_implied_end_tags_nested {ids : TagIds} {w : World} {x : Int} {r : World}
    (h : generate_implied_end_tags ids w x = Except.ok r) (hn : w.Nested) : r.Nested :=
  generate_implied_end_tags_loop_nested ids x _ w r h hn

theorem close_p_element_nested {ids : TagIds} {w : World} {r : Bool × World}
    (h : close_p_element ids w = Except.ok r) (hn : w.Nested) : r.2.Nested := by
  unfold close_p_element at h
  split at h
  · cases h
  · rename_i w1 h1
    have hn1 := generate_implied_end_tags_nested h1 hn
    split at h
    · cases h
    · split at h
      · simp only [Except.ok.injEq] at h
        subst h
        exact hn1
      · obtain ⟨a, ha, rfl⟩ := except_map_ok _ _ _ h
        exact pop_nested ha hn1

theorem pop_elem_loop_nested (tagid : Nat) :
    ∀ (n : Nat) (w : World) (r : ElemPtr × World), pop_elem_loop tagid n w = Except.ok r →
      w.Nested → r.2.Nested := by
  intro n
  induction n with
  | zero =>
    intro w r h hn
    simp [pop_elem_loop] at h
  | succ n ih =>
    intro w r h hn
    unfold pop_elem_loop at h
    split at h
    · cases h
    · split at h
      · cases h
      · split at h
        · exact pop_nested h hn
        · split at h
          · cases h
          · rename_i p hp
            exact ih _ _ h (pop_nested hp hn)

theorem pop_elem_nested {w : World} {tagid : Nat} {r : ElemPtr × World}
    (h : pop_elem w tagid = Except.ok r) (hn : w.Nested) : r.2.Nested :=
  pop_elem_loop_nested tagid _ w r h hn

theorem check_p_nested {ids : TagIds} {w : World} {r : Bool × World}
    (h : check_p ids w = Except.ok r) (hn : w.Nested) : r.2.Nested := by
  unfold check_p at h
  split at h
  · cases h
  · simp only [Except.ok.injEq] at h
    subst h
    exact hn
  · split at h
    · cases h
    · rename_i closed w1 h1
      simp only [Except.ok.injEq] at h
      subst h
      have hx := close_p_element_nested h1 hn
      exact hx

theorem clear_to_context_loop_nested (ids : TagIds) (c : context) :
    ∀ (n : Nat) (w r : World), clear_to_context_loop ids c n w = Except.ok r →
      w.Nested → r.Nested := by
  intro n
  induction n with
  | zero =>
    intro w r h hn
    simp [clear_to_context_loop] at h
  | succ n ih =>
    intro w r h hn
    unfold clear_to_context_loop at h
    split at h
    · split at h
      · cases h
      · split at h
        · simp only [Except.ok.injEq] at h
          subst h
          exact hn
        · split at h
          · cases h
          · rename_i p hp
            exact ih _ _ h (pop_nested hp hn)
    · cases h

theorem clear_to_context_nested {ids : TagIds} {w : World} {c : context} {r : World}
    (h : clear_to_context ids w c = Except.ok r) (hn : w.Nested) : r.Nested :=
  clear_to_context_loop_nested ids c _ w r h hn

theorem close_cell_nested {ids : TagIds} {w : World} {r : World}
    (h : close_cell ids w = Except.ok r) (hn : w.Nested) : r.Nested := by
  unfold close_cell at h
  split at h
  · cases h
  · rename_i w1 h1
    have hn1 := generate_implied_end_tags_nested h1 hn
    split at h
    · cases h
    · split at h
      · obtain ⟨a, ha, rfl⟩ := except_map_ok _ _ _ h
        exact pop_elem_nested ha hn1
      · split at h
        · obtain ⟨a, ha, rfl⟩ := except_map_ok _ _ _ h
          exact pop_elem_nested ha hn1
        · simp only [Except.ok.injEq] at h
          subst h
          exact hn1

theorem pop_through_nested (nd : ElemPtr) :
    ∀ (n : Nat) (w r : World), pop_through nd n w = Except.ok r → w.Nested → r.Nested := by
  intro n
  induction n with
  | zero =>
    intro w r h hn
    unfold pop_through at h
    split at h
    · cases h
    · simp only [Except.ok.injEq] at h
      subst h
      exact hn
  | succ n ih =>
    intro w r h hn
    unfold pop_through at h
    split at h
    · split at h
      · obtain ⟨a, ha, rfl⟩ := except_map_ok _ _ _ h
        exact pop_nested ha hn
      · split at h
        · cases h
        · rename_i p hp
          exact ih _ _ h (pop_nested hp hn)
    · simp only [Except.ok.injEq] at h
      subst h
      exact hn

set_option linter.unreachableTactic false
set_option linter.unusedTactic false

theorem sat_bind_w {β : Type} {P : β → Prop} {m : Except Fault World}
    {f : World → Except Fault β} (h1 : Sat m World.Nested)
    (h2 : ∀ a : World, a.Nested → Sat (f a) P) : Sat (m >>= f) P :=
  sat_bind (fun a ha => h2 a (h1 a ha))

theorem sat_bind_wt {β : Type} {P : β → Prop} {m : Except Fault (World × token)}
    {f : World × token → Except Fault β} (h1 : Sat m (fun r => r.1.Nested))
    (h2 : ∀ a : World × token, a.1.Nested → Sat (f a) P) : Sat (m >>= f) P :=
  sat_bind (fun a ha => h2 a (h1 a ha))

theorem sat_bind_bw {β : Type} {P : β → Prop} {m : Except Fault (Bool × World)}
    {f : Bool × World → Except Fault β} (h1 : Sat m (fun r => r.2.Nested))
    (h2 : ∀ a : Bool × World, a.2.Nested → Sat (f a) P) : Sat (m >>= f) P :=
  sat_bind (fun a ha => h2 a (h1 a ha))

theorem sat_bind_pw {β : Type} {P : β → Prop} {m : Except Fault (ElemPtr × World)}
    {f : ElemPtr × World → Except Fault β} (h1 : Sat m (fun r => r.2.Nested))
    (h2 : ∀ a : ElemPtr × World, a.2.Nested → Sat (f a) P) : Sat (m >>= f) P :=
  sat_bind (fun a ha => h2 a (h1 a ha))

theorem sat_bind_d {β : Type} {P : β → Prop} {m : DRes}
    {f : STATE × World × token → Except Fault β} (h1 : Sat m (fun r => r.2.1.Nested))
    (h2 : ∀ a : STATE × World × token, a.2.1.Nested → Sat (f a) P) : Sat (m >>= f) P :=
  sat_bind (fun a ha => h2 a (h1 a ha))

theorem insert_char_sat (w : World) (t : token) (hn : w.Nested) :
    Sat (insert_char w t) (fun r => r.1.Nested) :=
  fun _ h => insert_char_nested h hn

theorem insert_tag_sat (tags : TagTable) (w : World) (t : token) (hn : w.Nested) :
    Sat (insert_tag tags w t) (fun r => r.1.Nested) :=
  fun _ h => insert_tag_nested h hn

theorem insert_foreign_element_sat (tags : TagTable) (w : World) (t : token) (ns : Nat) (hn : w.Nested) :
    Sat (insert_foreign_element tags w t ns) (fun r => r.1.Nested) :=
  fun _ h => insert_foreign_element_nested h hn

theorem insert_close_tag_sat (w : World) (t : token) (hn : w.Nested) :
    Sat (insert_close_tag w t) (fun r => r.1.Nested) :=
  fun _ h => insert_close_tag_nested h hn

theorem pop_sat (w : World) (hn : w.Nested) :
    Sat (pop w) (fun r => r.2.Nested) :=
  fun _ h => pop_nested h hn

theorem insert_tag_name_sat (tags : TagTable) (w : World) (name : CStr) (close : Bool) (hn : w.Nested) :
    Sat (insert_tag_name tags w name close) (World.Nested) :=
  fun _ h => insert_tag_name_nested h hn

theorem insert_tag_set_mode_sat (tags : TagTable) (w : World) (t : token) (m : IMODE) (hn : w.Nested) :
    Sat (insert_tag_set_mode tags w t m) (fun r => r.1.Nested) :=
  fun _ h => insert_tag_set_mode_nested h hn

theorem insert_tag_name_set_mode_sat (tags : TagTable) (w : World) (name : CStr) (close : Bool) (m : IMODE) (hn : w.Nested) :
    Sat (insert_tag_name_set_mode tags w name close m) (World.Nested) :=
  fun _ h => insert_tag_name_set_mode_nested h hn

theorem insert_close_tag_set_mode_sat (w : World) (t : token) (m : IMODE) (hn : w.Nested) :
    Sat (insert_close_tag_set_mode w t m) (fun r => r.1.Nested) :=
  fun _ h => insert_close_tag_set_mode_nested h hn

theorem generate_implied_end_tags_sat (ids : TagIds) (w : World) (x : Int) (hn : w.Nested) :
    Sat (generate_implied_end_tags ids w x) (World.Nested) :=
  fun _ h => generate_implied_end_tags_nested h hn

theorem close_p_element_sat (ids : TagIds) (w : World) (hn : w.Nested) :
    Sat (close_p_element ids w) (fun r => r.2.Nested) :=
  fun _ h => close_p_element_nested h hn

theorem pop_elem_sat (w : World) (tagid : Nat) (hn : w.Nested) :
    Sat (pop_elem w tagid) (fun r => r.2.Nested) :=
  fun _ h => pop_elem_nested h hn

theorem check_p_sat (ids : TagIds) (w : World) (hn : w.Nested) :
    Sat (check_p ids w) (fun r => r.2.Nested) :=
  fun _ h => check_p_nested h hn

theorem clear_to_context_sat (ids : TagIds) (w : World) (c : context) (hn : w.Nested) :
    Sat (clear_to_context ids w c) (World.Nested) :=
  fun _ h => clear_to_context_nested h hn

theorem close_cell_sat (ids : TagIds) (w : World) (hn : w.Nested) :
    Sat (close_cell ids w) (World.Nested) :=
  fun _ h => close_cell_nested h hn

theorem pop_through_sat (nd : ElemPtr) (n : Nat) (w : World) (hn : w.Nested) :
    Sat (pop_through nd n w) World.Nested :=
  fun r h => pop_through_nested nd n w r h hn

theorem li_loop_sat (ids : TagIds) (tags : TagTable) :
    ∀ (n : Nat) (w : World), w.Nested → Sat (li_loop ids tags n w) (fun r => r.2.Nested) := by
  intro n
  induction n with
  | zero =>
    intro w hn
    exact sat_error
  | succ n ih =>
    intro w hn
    unfold li_loop
    simp only []
    repeat' with_reducible first
      | exact sat_pure (by first | assumption | exact nested_with_ctx _ _ (by assumption))
      | exact sat_ok (by first | assumption | exact nested_with_ctx _ _ (by assumption))
      | exact sat_error
      | exact insert_char_sat _ _ (by first | assumption | exact nested_with_ctx _ _ (by assumption))
      | exact insert_tag_sat _ _ _ (by first | assumption | exact nested_with_ctx _ _ (by assumption))
      | exact insert_foreign_element_sat _ _ _ _ (by first | assumption | exact nested_with_ctx _ _ (by assumption))
      | exact insert_close_tag_sat _ _ (by first | assumption | exact nested_with_ctx _ _ (by assumption))
      | exact pop_sat _ (by first | assumption | exact nested_with_ctx _ _ (by assumption))
      | exact insert_tag_name_sat _ _ _ _ (by first | assumption | exact nested_with_ctx _ _ (by assumption))
      | exact insert_tag_set_mode_sat _ _ _ _ (by first | assumption | exact nested_with_ctx _ _ (by assumption))
      | exact insert_tag_name_set_mode_sat _ _ _ _ _ (by first | assumption | exact nested_with_ctx _ _ (by assumption))
      | exact insert_close_tag_set_mode_sat _ _ _ (by first | assumption | exact nested_with_ctx _ _ (by assumption))
      | exact generate_implied_end_tags_sat _ _ _ (by first | assumption | exact nested_with_ctx _ _ (by assumption))
      | exact close_p_element_sat _ _ (by first | assumption | exact nested_with_ctx _ _ (by assumption))
      | exact pop_elem_sat _ _ (by first | assumption | exact nested_with_ctx _ _ (by assumption))
      | exact check_p_sat _ _ (by first | assumption | exact nested_with_ctx _ _ (by assumption))
      | exact clear_to_context_sat _ _ _ (by first | assumption | exact nested_with_ctx _ _ (by assumption))
      | exact close_cell_sat _ _ (by first | assumption | exact nested_with_ctx _ _ (by assumption))
      | exact pop_through_sat _ _ _ (by first | assumption | exact nested_with_ctx _ _ (by assumption))
      | exact ih _ (by first | assumption | exact nested_with_ctx _ _ (by assumption))
      | (apply sat_ite <;> intro _)
      | (refine sat_bind_w ?_ (fun _ _ => ?_))
      | (refine sat_bind_wt ?_ (fun _ _ => ?_))
      | (refine sat_bind_bw ?_ (fun _ _ => ?_))
      | (refine sat_bind_pw ?_ (fun _ _ => ?_))
      | (refine sat_bind_d ?_ (fun _ _ => ?_))
      | (apply sat_bind; intro _ _)
      | apply sat_map

theorem dd_dt_loop_sat (ids : TagIds) (tags : TagTable) (w : World) (hn : w.Nested) :
    ∀ (n sz : Nat), Sat (dd_dt_loop ids tags w n sz) (fun r => r.2.Nested) := by
  intro n
  induction n with
  | zero =>
    intro sz
    exact sat_error
  | succ n ih =>
    intro sz
    unfold dd_dt_loop
    simp only []
    repeat' with_reducible first
      | exact sat_pure (by first | assumption | exact nested_with_ctx _ _ (by assumption))
      | exact sat_ok (by first | assumption | exact nested_with_ctx _ _ (by assumption))
      | exact sat_error
      | exact ih _
      | exact insert_char_sat _ _ (by first | assumption | exact nested_with_ctx _ _ (by assumption))
      | exact insert_tag_sat _ _ _ (by first | assumption | exact nested_with_ctx _ _ (by assumption))
      | exact insert_foreign_element_sat _ _ _ _ (by first | assumption | exact nested_with_ctx _ _ (by assumption))
      | exact insert_close_tag_sat _ _ (by first | assumption | exact nested_with_ctx _ _ (by assumption))
      | exact pop_sat _ (by first | assumption | exact nested_with_ctx _ _ (by assumption))
      | exact insert_tag_name_sat _ _ _ _ (by first | assumption | exact nested_with_ctx _ _ (by assumption))
      | exact insert_tag_set_mode_sat _ _ _ _ (by first | assumption | exact nested_with_ctx _ _ (by assumption))
      | exact insert_tag_name_set_mode_sat _ _ _ _ _ (by first | assumption | exact nested_with_ctx _ _ (by assumption))
      | exact insert_close_tag_set_mode_sat _ _ _ (by first | assumption | exact nested_with_ctx _ _ (by assumption))
      | exact generate_implied_end_tags_sat _ _ _ (by first | assumption | exact nested_with_ctx _ _ (by assumption))
      | exact close_p_element_sat _ _ (by first | assumption | exact nested_with_ctx _ _ (by assumption))
      | exact pop_elem_sat _ _ (by first | assumption | exact nested_with_ctx _ _ (by assumption))
      | exact check_p_sat _ _ (by first | assumption | exact nested_with_ctx _ _ (by assumption))
      | exact clear_to_context_sat _ _ _ (by first | assumption | exact nested_with_ctx _ _ (by assumption))
      | exact close_cell_sat _ _ (by first | assumption | exact nested_with_ctx _ _ (by assumption))
      | exact pop_through_sat _ _ _ (by first | assumption | exact nested_with_ctx _ _ (by assumption))
      | (apply sat_ite <;> intro _)
      | (refine sat_bind_w ?_ (fun _ _ => ?_))
      | (refine sat_bind_wt ?_ (fun _ _ => ?_))
      | (refine sat_bind_bw ?_ (fun _ _ => ?_))
      | (refine sat_bind_pw ?_ (fun _ _ => ?_))
      | (refine sat_bind_d ?_ (fun _ _ => ?_))
      | (apply sat_bind; intro _ _)
      | apply sat_map

theorem any_other_end_tag_loop_sat (ids : TagIds) (tags : TagTable) (t : token) :
    ∀ (n : Nat) (w : World) (nd : ElemPtr), w.Nested →
      Sat (any_other_end_tag_loop ids tags t n w nd) World.Nested := by
  intro n
  induction n with
  | zero =>
    intro w nd hn
    exact sat_error
  | succ n ih =>
    intro w nd hn
    unfold any_other_end_tag_loop
    simp only []
    repeat' with_reducible first
      | exact sat_pure (by first | assumption | exact nested_with_ctx _ _ (by assumption))
      | exact sat_ok (by first | assumption | exact nested_with_ctx _ _ (by assumption))
      | exact sat_error
      | exact insert_char_sat _ _ (by first | assumption | exact nested_with_ctx _ _ (by assumption))
      | exact insert_tag_sat _ _ _ (by first | assumption | exact nested_with_ctx _ _ (by assumption))
      | exact insert_foreign_element_sat _ _ _ _ (by first | assumption | exact nested_with_ctx _ _ (by assumption))
      | exact insert_close_tag_sat _ _ (by first | assumption | exact nested_with_ctx _ _ (by assumption))
      | exact pop_sat _ (by first | assumption | exact nested_with_ctx _ _ (by assumption))
      | exact insert_tag_name_sat _ _ _ _ (by first | assumption | exact nested_with_ctx _ _ (by assumption))
      | exact insert_tag_set_mode_sat _ _ _ _ (by first | assumption | exact nested_with_ctx _ _ (by assumption))
      | exact insert_tag_name_set_mode_sat _ _ _ _ _ (by first | assumption | exact nested_with_ctx _ _ (by assumption))
      | exact insert_close_tag_set_mode_sat _ _ _ (by first | assumption | exact nested_with_ctx _ _ (by assumption))
      | exact generate_implied_end_tags_sat _ _ _ (by first | assumption | exact nested_with_ctx _ _ (by assumption))
      | exact close_p_element_sat _ _ (by first | assumption | exact nested_with_ctx _ _ (by assumption))
      | exact pop_elem_sat _ _ (by first | assumption | exact nested_with_ctx _ _ (by assumption))
      | exact check_p_sat _ _ (by first | assumption | exact nested_with_ctx _ _ (by assumption))
      | exact clear_to_context_sat _ _ _ (by first | assumption | exact nested_with_ctx _ _ (by assumption))
      | exact close_cell_sat _ _ (by first | assumption | exact nested_with_ctx _ _ (by assumption))
      | exact pop_through_sat _ _ _ (by first | assumption | exact nested_with_ctx _ _ (by assumption))
      | exact ih _ _ (by first | assumption | exact nested_with_ctx _ _ (by assumption))
      | (apply sat_ite <;> intro _)
      | (refine sat_bind_w ?_ (fun _ _ => ?_))
      | (refine sat_bind_wt ?_ (fun _ _ => ?_))
      | (refine sat_bind_bw ?_ (fun _ _ => ?_))
      | (refine sat_bind_pw ?_ (fun _ _ => ?_))
      | (refine sat_bind_d ?_ (fun _ _ => ?_))
      | (apply sat_bind; intro _ _)
      | apply sat_map
      | split

theorem insert_token_set_mode_sat (self : DSelf)
    (hself : ∀ w t m, w.Nested → Sat (self w t m) (fun r => r.2.1.Nested))
    (w : World) (t : token) (m : IMODE) (hn : w.Nested) :
    Sat (insert_token_set_mode self w t m) (fun r => r.1.Nested) :=
  sat_map (hself _ t m hn)

theorem imode_in_select_nested (ids : TagIds) (tags : TagTable) (w : World) (t : token)
    (hn : w.Nested) :
    Sat (imode_in_select ids tags w t) (fun r => r.2.1.Nested) := by
  unfold imode_in_select
  simp only [redispatch]
  repeat' with_reducible first
    | exact sat_pure (by first | assumption | exact nested_with_ctx _ _ (by assumption))
    | exact sat_ok (by first | assumption | exact nested_with_ctx _ _ (by assumption))
    | exact sat_error
    | exact insert_char_sat _ _ (by first | assumption | exact nested_with_ctx _ _ (by assumption))
    | exact insert_tag_sat _ _ _ (by first | assumption | exact nested_with_ctx _ _ (by assumption))
    | exact insert_foreign_element_sat _ _ _ _ (by first | assumption | exact nested_with_ctx _ _ (by assumption))
    | exact insert_close_tag_sat _ _ (by first | assumption | exact nested_with_ctx _ _ (by assumption))
    | exact pop_sat _ (by first | assumption | exact nested_with_ctx _ _ (by assumption))
    | exact insert_tag_name_sat _ _ _ _ (by first | assumption | exact nested_with_ctx _ _ (by assumption))
    | exact insert_tag_set_mode_sat _ _ _ _ (by first | assumption | exact nested_with_ctx _ _ (by assumption))
    | exact insert_tag_name_set_mode_sat _ _ _ _ _ (by first | assumption | exact nested_with_ctx _ _ (by assumption))
    | exact insert_close_tag_set_mode_sat _ _ _ (by first | assumption | exact nested_with_ctx _ _ (by assumption))
    | exact generate_implied_end_tags_sat _ _ _ (by first | assumption | exact nested_with_ctx _ _ (by assumption))
    | exact close_p_element_sat _ _ (by first | assumption | exact nested_with_ctx _ _ (by assumption))
    | exact pop_elem_sat _ _ (by first | assumption | exact nested_with_ctx _ _ (by assumption))
    | exact check_p_sat _ _ (by first | assumption | exact nested_with_ctx _ _ (by assumption))
    | exact clear_to_context_sat _ _ _ (by first | assumption | exact nested_with_ctx _ _ (by assumption))
    | exact close_cell_sat _ _ (by first | assumption | exact nested_with_ctx _ _ (by assumption))
    | exact pop_through_sat _ _ _ (by first | assumption | exact nested_with_ctx _ _ (by assumption))
    | (apply sat_ite <;> intro _)
    | (refine sat_bind_w ?_ (fun _ _ => ?_))
    | (refine sat_bind_wt ?_ (fun _ _ => ?_))
    | (refine sat_bind_bw ?_ (fun _ _ => ?_))
    | (refine sat_bind_pw ?_ (fun _ _ => ?_))
    | (refine sat_bind_d ?_ (fun _ _ => ?_))
    | (apply sat_bind; intro _ _)
    | apply sat_map

set_option maxHeartbeats 8000000 in
theorem imode_in_body_nested (ids : TagIds) (tags : TagTable) (self : DSelf)
    (hself : ∀ w t m, w.Nested → Sat (self w t m) (fun r => r.2.1.Nested)) (w : World) (t : token)
    (hn : w.Nested) :
    Sat (imode_in_body ids tags self w t) (fun r => r.2.1.Nested) := by
  unfold imode_in_body
  simp only [redispatch]
  repeat' with_reducible first
    | (apply sat_ite <;> intro _)
    | (refine sat_bind_w ?_ (fun _ _ => ?_))
    | (refine sat_bind_wt ?_ (fun _ _ => ?_))
    | (refine sat_bind_bw ?_ (fun _ _ => ?_))
    | (refine sat_bind_pw ?_ (fun _ _ => ?_))
    | (refine sat_bind_d ?_ (fun _ _ => ?_))
    | (apply sat_bind; intro _ _)
    | exact sat_error
    | exact sat_pure (by first | assumption | exact nested_with_ctx _ _ (by assumption))
    | exact sat_ok (by first | assumption | exact nested_with_ctx _ _ (by assumption))
    | exact dd_dt_loop_sat _ _ _ (by assumption) _ _
    | exact insert_char_sat _ _ (by first | assumption | exact nested_with_ctx _ _ (by assumption))
    | exact insert_tag_sat _ _ _ (by first | assumption | exact nested_with_ctx _ _ (by assumption))
    | exact insert_foreign_element_sat _ _ _ _ (by first | assumption | exact nested_with_ctx _ _ (by assumption))
    | exact insert_close_tag_sat _ _ (by first | assumption | exact nested_with_ctx _ _ (by assumption))
    | exact pop_sat _ (by first | assumption | exact nested_with_ctx _ _ (by assumption))
    | exact insert_tag_name_sat _ _ _ _ (by first | assumption | exact nested_with_ctx _ _ (by assumption))
    | exact insert_tag_set_mode_sat _ _ _ _ (by first | assumption | exact nested_with_ctx _ _ (by assumption))
    | exact insert_tag_name_set_mode_sat _ _ _ _ _ (by first | assumption | exact nested_with_ctx _ _ (by assumption))
    | exact insert_close_tag_set_mode_sat _ _ _ (by first | assumption | exact nested_with_ctx _ _ (by assumption))
    | exact generate_implied_end_tags_sat _ _ _ (by first | assumption | exact nested_with_ctx _ _ (by assumption))
    | exact close_p_element_sat _ _ (by first | assumption | exact nested_with_ctx _ _ (by assumption))
    | exact pop_elem_sat _ _ (by first | assumption | exact nested_with_ctx _ _ (by assumption))
    | exact check_p_sat _ _ (by first | assumption | exact nested_with_ctx _ _ (by assumption))
    | exact clear_to_context_sat _ _ _ (by first | assumption | exact nested_with_ctx _ _ (by assumption))
    | exact close_cell_sat _ _ (by first | assumption | exact nested_with_ctx _ _ (by assumption))
    | exact pop_through_sat _ _ _ (by first | assumption | exact nested_with_ctx _ _ (by assumption))
    | exact li_loop_sat _ _ _ _ (by first | assumption | exact nested_with_ctx _ _ (by assumption))
    | exact any_other_end_tag_loop_sat _ _ _ _ _ _ (by first | assumption | exact nested_with_ctx _ _ (by assumption))
    | exact hself _ _ _ (by first | assumption | exact nested_with_ctx _ _ (by assumption))
    | exact insert_token_set_mode_sat self hself _ _ _ (by first | assumption | exact nested_with_ctx _ _ (by assumption))
    | apply sat_map

theorem imode_in_head_nested (ids : TagIds) (tags : TagTable) (self : DSelf)
    (hself : ∀ w t m, w.Nested → Sat (self w t m) (fun r => r.2.1.Nested)) (w : World) (t : token)
    (hn : w.Nested) :
    Sat (imode_in_head ids tags self w t) (fun r => r.2.1.Nested) := by
  unfold imode_in_head
  simp only [redispatch]
  repeat' with_reducible first
    | (apply sat_ite <;> intro _)
    | (refine sat_bind_w ?_ (fun _ _ => ?_))
    | (refine sat_bind_wt ?_ (fun _ _ => ?_))
    | (refine sat_bind_bw ?_ (fun _ _ => ?_))
    | (refine sat_bind_pw ?_ (fun _ _ => ?_))
    | (refine sat_bind_d ?_ (fun _ _ => ?_))
    | (apply sat_bind; intro _ _)
    | exact sat_error
    | exact sat_pure (by first | assumption | exact nested_with_ctx _ _ (by assumption))
    | exact sat_ok (by first | assumption | exact nested_with_ctx _ _ (by assumption))
    | exact insert_char_sat _ _ (by first | assumption | exact nested_with_ctx _ _ (by assumption))
    | exact insert_tag_sat _ _ _ (by first | assumption | exact nested_with_ctx _ _ (by assumption))
    | exact insert_foreign_element_sat _ _ _ _ (by first | assumption | exact nested_with_ctx _ _ (by assumption))
    | exact insert_close_tag_sat _ _ (by first | assumption | exact nested_with_ctx _ _ (by assumption))
    | exact pop_sat _ (by first | assumption | exact nested_with_ctx _ _ (by assumption))
    | exact insert_tag_name_sat _ _ _ _ (by first | assumption | exact nested_with_ctx _ _ (by assumption))
    | exact insert_tag_set_mode_sat _ _ _ _ (by first | assumption | exact nested_with_ctx _ _ (by assumption))
    | exact insert_tag_name_set_mode_sat _ _ _ _ _ (by first | assumption | exact nested_with_ctx _ _ (by assumption))
    | exact insert_close_tag_set_mode_sat _ _ _ (by first | assumption | exact nested_with_ctx _ _ (by assumption))
    | exact generate_implied_end_tags_sat _ _ _ (by first | assumption | exact nested_with_ctx _ _ (by assumption))
    | exact close_p_element_sat _ _ (by first | assumption | exact nested_with_ctx _ _ (by assumption))
    | exact pop_elem_sat _ _ (by first | assumption | exact nested_with_ctx _ _ (by assumption))
    | exact check_p_sat _ _ (by first | assumption | exact nested_with_ctx _ _ (by assumption))
    | exact clear_to_context_sat _ _ _ (by first | assumption | exact nested_with_ctx _ _ (by assumption))
    | exact close_cell_sat _ _ (by first | assumption | exact nested_with_ctx _ _ (by assumption))
    | exact pop_through_sat _ _ _ (by first | assumption | exact nested_with_ctx _ _ (by assumption))
    | exact hself _ _ _ (by first | assumption | exact nested_with_ctx _ _ (by assumption))
    | exact insert_token_set_mode_sat self hself _ _ _ (by first | assumption | exact nested_with_ctx _ _ (by assumption))
    | apply sat_map

theorem imode_in_table_nested (ids : TagIds) (tags : TagTable) (self : DSelf)
    (hself : ∀ w t m, w.Nested → Sat (self w t m) (fun r => r.2.1.Nested)) (w : World) (t : token)
    (hn : w.Nested) :
    Sat (imode_in_table ids tags self w t) (fun r => r.2.1.Nested) := by
  unfold imode_in_table
  simp only [redispatch]
  repeat' with_reducible first
    | (apply sat_ite <;> intro _)
    | (refine sat_bind_w ?_ (fun _ _ => ?_))
    | (refine sat_bind_wt ?_ (fun _ _ => ?_))
    | (refine sat_bind_bw ?_ (fun _ _ => ?_))
    | (refine sat_bind_pw ?_ (fun _ _ => ?_))
    | (refine sat_bind_d ?_ (fun _ _ => ?_))
    | (apply sat_bind; intro _ _)
    | exact sat_error
    | exact sat_pure (by first | assumption | exact nested_with_ctx _ _ (by assumption))
    | exact sat_ok (by first | assumption | exact nested_with_ctx _ _ (by assumption))
    | exact insert_char_sat _ _ (by first | assumption | exact nested_with_ctx _ _ (by assumption))
    | exact insert_tag_sat _ _ _ (by first | assumption | exact nested_with_ctx _ _ (by assumption))
    | exact insert_foreign_element_sat _ _ _ _ (by first | assumption | exact nested_with_ctx _ _ (by assumption))
    | exact insert_close_tag_sat _ _ (by first | assumption | exact nested_with_ctx _ _ (by assumption))
    | exact pop_sat _ (by first | assumption | exact nested_with_ctx _ _ (by assumption))
    | exact insert_tag_name_sat _ _ _ _ (by first | assumption | exact nested_with_ctx _ _ (by assumption))
    | exact insert_tag_set_mode_sat _ _ _ _ (by first | assumption | exact nested_with_ctx _ _ (by assumption))
    | exact insert_tag_name_set_mode_sat _ _ _ _ _ (by first | assumption | exact nested_with_ctx _ _ (by assumption))
    | exact insert_close_tag_set_mode_sat _ _ _ (by first | assumption | exact nested_with_ctx _ _ (by assumption))
    | exact generate_implied_end_tags_sat _ _ _ (by first | assumption | exact nested_with_ctx _ _ (by assumption))
    | exact close_p_element_sat _ _ (by first | assumption | exact nested_with_ctx _ _ (by assumption))
    | exact pop_elem_sat _ _ (by first | assumption | exact nested_with_ctx _ _ (by assumption))
    | exact check_p_sat _ _ (by first | assumption | exact nested_with_ctx _ _ (by assumption))
    | exact clear_to_context_sat _ _ _ (by first | assumption | exact nested_with_ctx _ _ (by assumption))
    | exact close_cell_sat _ _ (by first | assumption | exact nested_with_ctx _ _ (by assumption))
    | exact pop_through_sat _ _ _ (by first | assumption | exact nested_with_ctx _ _ (by assumption))
    | exact hself _ _ _ (by first | assumption | exact nested_with_ctx _ _ (by assumption))
    | exact insert_token_set_mode_sat self hself _ _ _ (by first | assumption | exact nested_with_ctx _ _ (by assumption))
    | apply sat_map

theorem imode_in_table_body_nested (ids : TagIds) (tags : TagTable) (self : DSelf)
    (hself : ∀ w t m, w.Nested → Sat (self w t m) (fun r => r.2.1.Nested)) (w : World) (t : token)
    (hn : w.Nested) :
    Sat (imode_in_table_body ids tags self w t) (fun r => r.2.1.Nested) := by
  unfold imode_in_table_body
  simp only [redispatch]
  repeat' with_reducible first
    | (apply sat_ite <;> intro _)
    | (refine sat_bind_w ?_ (fun _ _ => ?_))
    | (refine sat_bind_wt ?_ (fun _ _ => ?_))
    | (refine sat_bind_bw ?_ (fun _ _ => ?_))
    | (refine sat_bind_pw ?_ (fun _ _ => ?_))
    | (refine sat_bind_d ?_ (fun _ _ => ?_))
    | (apply sat_bind; intro _ _)
    | exact sat_error
    | exact sat_pure (by first | assumption | exact nested_with_ctx _ _ (by assumption))
    | exact sat_ok (by first | assumption | exact nested_with_ctx _ _ (by assumption))
    | exact insert_char_sat _ _ (by first | assumption | exact nested_with_ctx _ _ (by assumption))
    | exact insert_tag_sat _ _ _ (by first | assumption | exact nested_with_ctx _ _ (by assumption))
    | exact insert_foreign_element_sat _ _ _ _ (by first | assumption | exact nested_with_ctx _ _ (by assumption))
    | exact insert_close_tag_sat _ _ (by first | assumption | exact nested_with_ctx _ _ (by assumption))
    | exact pop_sat _ (by first | assumption | exact nested_with_ctx _ _ (by assumption))
    | exact insert_tag_name_sat _ _ _ _ (by first | assumption | exact nested_with_ctx _ _ (by assumption))
    | exact insert_tag_set_mode_sat _ _ _ _ (by first | assumption | exact nested_with_ctx _ _ (by assumption))
    | exact insert_tag_name_set_mode_sat _ _ _ _ _ (by first | assumption | exact nested_with_ctx _ _ (by assumption))
    | exact insert_close_tag_set_mode_sat _ _ _ (by first | assumption | exact nested_with_ctx _ _ (by assumption))
    | exact generate_implied_end_tags_sat _ _ _ (by first | assumption | exact nested_with_ctx _ _ (by assumption))
    | exact close_p_element_sat _ _ (by first | assumption | exact nested_with_ctx _ _ (by assumption))
    | exact pop_elem_sat _ _ (by first | assumption | exact nested_with_ctx _ _ (by assumption))
    | exact check_p_sat _ _ (by first | assumption | exact nested_with_ctx _ _ (by assumption))
    | exact clear_to_context_sat _ _ _ (by first | assumption | exact nested_with_ctx _ _ (by assumption))
    | exact close_cell_sat _ _ (by first | assumption | exact nested_with_ctx _ _ (by assumption))
    | exact pop_through_sat _ _ _ (by first | assumption | exact nested_with_ctx _ _ (by assumption))
    | exact hself _ _ _ (by first | assumption | exact nested_with_ctx _ _ (by assumption))
    | exact insert_token_set_mode_sat self hself _ _ _ (by first | assumption | exact nested_with_ctx _ _ (by assumption))
    | apply sat_map

theorem imode_in_row_nested (ids : TagIds) (tags : TagTable) (self : DSelf)
    (hself : ∀ w t m, w.Nested → Sat (self w t m) (fun r => r.2.1.Nested)) (w : World) (t : token)
    (hn : w.Nested) :
    Sat (imode_in_row ids tags self w t) (fun r => r.2.1.Nested) := by
  unfold imode_in_row
  simp only [redispatch]
  repeat' with_reducible first
    | (apply sat_ite <;> intro _)
    | (refine sat_bind_w ?_ (fun _ _ => ?_))
    | (refine sat_bind_wt ?_ (fun _ _ => ?_))
    | (refine sat_bind_bw ?_ (fun _ _ => ?_))
    | (refine sat_bind_pw ?_ (fun _ _ => ?_))
    | (refine sat_bind_d ?_ (fun _ _ => ?_))
    | (apply sat_bind; intro _ _)
    | exact sat_error
    | exact sat_pure (by first | assumption | exact nested_with_ctx _ _ (by assumption))
    | exact sat_ok (by first | assumption | exact nested_with_ctx _ _ (by assumption))
    | exact insert_char_sat _ _ (by first | assumption | exact nested_with_ctx _ _ (by assumption))
    | exact insert_tag_sat _ _ _ (by first | assumption | exact nested_with_ctx _ _ (by assumption))
    | exact insert_foreign_element_sat _ _ _ _ (by first | assumption | exact nested_with_ctx _ _ (by assumption))
    | exact insert_close_tag_sat _ _ (by first | assumption | exact nested_with_ctx _ _ (by assumption))
    | exact pop_sat _ (by first | assumption | exact nested_with_ctx _ _ (by assumption))
    | exact insert_tag_name_sat _ _ _ _ (by first | assumption | exact nested_with_ctx _ _ (by assumption))
    | exact insert_tag_set_mode_sat _ _ _ _ (by first | assumption | exact nested_with_ctx _ _ (by assumption))
    | exact insert_tag_name_set_mode_sat _ _ _ _ _ (by first | assumption | exact nested_with_ctx _ _ (by assumption))
    | exact insert_close_tag_set_mode_sat _ _ _ (by first | assumption | exact nested_with_ctx _ _ (by assumption))
    | exact generate_implied_end_tags_sat _ _ _ (by first | assumption | exact nested_with_ctx _ _ (by assumption))
    | exact close_p_element_sat _ _ (by first | assumption | exact nested_with_ctx _ _ (by assumption))
    | exact pop_elem_sat _ _ (by first | assumption | exact nested_with_ctx _ _ (by assumption))
    | exact check_p_sat _ _ (by first | assumption | exact nested_with_ctx _ _ (by assumption))
    | exact clear_to_context_sat _ _ _ (by first | assumption | exact nested_with_ctx _ _ (by assumption))
    | exact close_cell_sat _ _ (by first | assumption | exact nested_with_ctx _ _ (by assumption))
    | exact pop_through_sat _ _ _ (by first | assumption | exact nested_with_ctx _ _ (by assumption))
    | exact hself _ _ _ (by first | assumption | exact nested_with_ctx _ _ (by assumption))
    | exact insert_token_set_mode_sat self hself _ _ _ (by first | assumption | exact nested_with_ctx _ _ (by assumption))
    | apply sat_map

theorem imode_in_cell_nested (ids : TagIds) (tags : TagTable) (self : DSelf)
    (hself : ∀ w t m, w.Nested → Sat (self w t m) (fun r => r.2.1.Nested)) (w : World) (t : token)
    (hn : w.Nested) :
    Sat (imode_in_cell ids self w t) (fun r => r.2.1.Nested) := by
  unfold imode_in_cell
  simp only [redispatch]
  repeat' with_reducible first
    | (apply sat_ite <;> intro _)
    | (refine sat_bind_w ?_ (fun _ _ => ?_))
    | (refine sat_bind_wt ?_ (fun _ _ => ?_))
    | (refine sat_bind_bw ?_ (fun _ _ => ?_))
    | (refine sat_bind_pw ?_ (fun _ _ => ?_))
    | (refine sat_bind_d ?_ (fun _ _ => ?_))
    | (apply sat_bind; intro _ _)
    | exact sat_error
    | exact sat_pure (by first | assumption | exact nested_with_ctx _ _ (by assumption))
    | exact sat_ok (by first | assumption | exact nested_with_ctx _ _ (by assumption))
    | exact insert_char_sat _ _ (by first | assumption | exact nested_with_ctx _ _ (by assumption))
    | exact insert_tag_sat _ _ _ (by first | assumption | exact nested_with_ctx _ _ (by assumption))
    | exact insert_foreign_element_sat _ _ _ _ (by first | assumption | exact nested_with_ctx _ _ (by assumption))
    | exact insert_close_tag_sat _ _ (by first | assumption | exact nested_with_ctx _ _ (by assumption))
    | exact pop_sat _ (by first | assumption | exact nested_with_ctx _ _ (by assumption))
    | exact insert_tag_name_sat _ _ _ _ (by first | assumption | exact nested_with_ctx _ _ (by assumption))
    | exact insert_tag_set_mode_sat _ _ _ _ (by first | assumption | exact nested_with_ctx _ _ (by assumption))
    | exact insert_tag_name_set_mode_sat _ _ _ _ _ (by first | assumption | exact nested_with_ctx _ _ (by assumption))
    | exact insert_close_tag_set_mode_sat _ _ _ (by first | assumption | exact nested_with_ctx _ _ (by assumption))
    | exact generate_implied_end_tags_sat _ _ _ (by first | assumption | exact nested_with_ctx _ _ (by assumption))
    | exact close_p_element_sat _ _ (by first | assumption | exact nested_with_ctx _ _ (by assumption))
    | exact pop_elem_sat _ _ (by first | assumption | exact nested_with_ctx _ _ (by assumption))
    | exact check_p_sat _ _ (by first | assumption | exact nested_with_ctx _ _ (by assumption))
    | exact clear_to_context_sat _ _ _ (by first | assumption | exact nested_with_ctx _ _ (by assumption))
    | exact close_cell_sat _ _ (by first | assumption | exact nested_with_ctx _ _ (by assumption))
    | exact pop_through_sat _ _ _ (by first | assumption | exact nested_with_ctx _ _ (by assumption))
    | exact hself _ _ _ (by first | assumption | exact nested_with_ctx _ _ (by assumption))
    | exact insert_token_set_mode_sat self hself _ _ _ (by first | assumption | exact nested_with_ctx _ _ (by assumption))
    | apply sat_map

set_option maxHeartbeats 8000000 in
theorem insert_token_with_mode_body_nested (ids : TagIds) (tags : TagTable) (self : DSelf)
    (hself : ∀ w t m, w.Nested → Sat (self w t m) (fun r => r.2.1.Nested)) (w : World) (t : token)
    (mode : IMODE) (hn : w.Nested) :
    Sat (insert_token_with_mode_body ids tags self w t mode) (fun r => r.2.1.Nested) := by
  unfold insert_token_with_mode_body
  cases mode <;> simp only [redispatch] <;>
  repeat' with_reducible first
    | (apply sat_ite <;> intro _)
    | (refine sat_bind_w ?_ (fun _ _ => ?_))
    | (refine sat_bind_wt ?_ (fun _ _ => ?_))
    | (refine sat_bind_bw ?_ (fun _ _ => ?_))
    | (refine sat_bind_pw ?_ (fun _ _ => ?_))
    | (refine sat_bind_d ?_ (fun _ _ => ?_))
    | (apply sat_bind; intro _ _)
    | exact sat_error
    | exact sat_pure (by first | assumption | exact nested_with_ctx _ _ (by assumption))
    | exact sat_ok (by first | assumption | exact nested_with_ctx _ _ (by assumption))
    | exact hself _ _ _ (by first | assumption | exact nested_with_ctx _ _ (by assumption))
    | exact insert_token_set_mode_sat self hself _ _ _ (by first | assumption | exact nested_with_ctx _ _ (by assumption))
    | exact imode_in_body_nested ids tags self hself _ _ (by first | assumption | exact nested_with_ctx _ _ (by assumption))
    | exact imode_in_head_nested ids tags self hself _ _ (by first | assumption | exact nested_with_ctx _ _ (by assumption))
    | exact imode_in_select_nested ids tags _ _ (by first | assumption | exact nested_with_ctx _ _ (by assumption))
    | exact imode_in_table_nested ids tags self hself _ _ (by first | assumption | exact nested_with_ctx _ _ (by assumption))
    | exact imode_in_table_body_nested ids tags self hself _ _ (by first | assumption | exact nested_with_ctx _ _ (by assumption))
    | exact imode_in_row_nested ids tags self hself _ _ (by first | assumption | exact nested_with_ctx _ _ (by assumption))
    | exact imode_in_cell_nested ids tags self hself _ _ (by first | assumption | exact nested_with_ctx _ _ (by assumption))
    | exact insert_char_sat _ _ (by first | assumption | exact nested_with_ctx _ _ (by assumption))
    | exact insert_tag_sat _ _ _ (by first | assumption | exact nested_with_ctx _ _ (by assumption))
    | exact insert_foreign_element_sat _ _ _ _ (by first | assumption | exact nested_with_ctx _ _ (by assumption))
    | exact insert_close_tag_sat _ _ (by first | assumption | exact nested_with_ctx _ _ (by assumption))
    | exact pop_sat _ (by first | assumption | exact nested_with_ctx _ _ (by assumption))
    | exact insert_tag_name_sat _ _ _ _ (by first | assumption | exact nested_with_ctx _ _ (by assumption))
    | exact insert_tag_set_mode_sat _ _ _ _ (by first | assumption | exact nested_with_ctx _ _ (by assumption))
    | exact insert_tag_name_set_mode_sat _ _ _ _ _ (by first | assumption | exact nested_with_ctx _ _ (by assumption))
    | exact insert_close_tag_set_mode_sat _ _ _ (by first | assumption | exact nested_with_ctx _ _ (by assumption))
    | exact generate_implied_end_tags_sat _ _ _ (by first | assumption | exact nested_with_ctx _ _ (by assumption))
    | exact close_p_element_sat _ _ (by first | assumption | exact nested_with_ctx _ _ (by assumption))
    | exact pop_elem_sat _ _ (by first | assumption | exact nested_with_ctx _ _ (by assumption))
    | exact check_p_sat _ _ (by first | assumption | exact nested_with_ctx _ _ (by assumption))
    | exact clear_to_context_sat _ _ _ (by first | assumption | exact nested_with_ctx _ _ (by assumption))
    | exact close_cell_sat _ _ (by first | assumption | exact nested_with_ctx _ _ (by assumption))
    | exact pop_through_sat _ _ _ (by first | assumption | exact nested_with_ctx _ _ (by assumption))
    | apply sat_map

theorem insert_token_with_mode_nested (ids : TagIds) (tags : TagTable) :
    ∀ (n : Nat) (w : World) (t : token) (m : IMODE), w.Nested →
      Sat (insert_token_with_mode ids tags n w t m) (fun r => r.2.1.Nested) := by
  intro n
  induction n with
  | zero =>
    intro w t m hn
    exact sat_error
  | succ n ih =>
    intro w t m hn
    exact insert_token_with_mode_body_nested ids tags _ ih w t m hn

theorem world_init_nested : world_init.Nested := by
  refine ⟨⟨rfl, Nat.le_refl _⟩, ?_, ⟨[], rfl, rfl⟩, ?_, ?_⟩
  · intro a e h
    simp [world_init] at h
  · intro a h
    simp [world_init, begun_elems] at h
  · simp [world_init, begun_elems]

theorem dispatch_nested (ids : TagIds) (tags : TagTable) (n : Nat) (w : World) (t : token)
    (hn : w.Nested) : Sat (dispatch ids tags n w t) (fun r => r.2.1.Nested) :=
  insert_token_with_mode_nested ids tags n w t _ hn

theorem dispatch_seq_nested (ids : TagIds) (tags : TagTable) (depth : Nat) :
    ∀ (ts : List token) (w r : World), w.Nested →
      dispatch_seq ids tags depth w ts = Except.ok r → r.Nested := by
  intro ts
  induction ts with
  | nil =>
    intro w r hn h
    simp only [dispatch_seq, Except.ok.injEq] at h
    subst h
    exact hn
  | cons t ts ih =>
    intro w r hn h
    simp only [dispatch_seq] at h
    cases hd : dispatch ids tags depth w t with
    | error e =>
      rw [hd] at h
      exact Except.noConfusion h
    | ok x =>
      rw [hd] at h
      exact ih _ _ (dispatch_nested ids tags depth w t hn x hd) h

theorem nest_foldl_none (evs : List event) : evs.foldl nest_step none = none := by
  induction evs with
  | nil => rfl
  | cons e evs ih =>
    rw [List.foldl_cons]
    have : nest_step none e = none := by
      cases e <;> simp [nest_step]
    rw [this, ih]

theorem nest_replay_end_top (pre post : List event) (a : Nat) (st : List Nat)
    (h : nest_replay (pre ++ event.end_ (node.NODE_ELEM a) :: post) = some st) :
    ∃ l, nest_replay pre = some (a :: l) := by
  unfold nest_replay at h ⊢
  rw [List.foldl_append, List.foldl_cons] at h
  cases hp : pre.foldl nest_step (some []) with
  | none =>
    rw [hp] at h
    simp [nest_step, nest_foldl_none] at h
  | some l =>
    rw [hp] at h
    cases l with
    | nil => simp [nest_step, nest_foldl_none] at h
    | cons b l =>
      by_cases hab : a = b
      · subst hab
        exact ⟨l, rfl⟩
      · simp [nest_step, hab, nest_foldl_none] at h

/-- C32: the nesting invariant of the event stream. For every tag table, every
bound on the depth of the nested calls and every list of tokens: when the
tokens are dispatched one after the other from the initial world and the calls
return, the elements on the stack, bottom first, are the elements for which
`begin` has been called and `end` has not, in the order of the calls of
`begin`; the begin and end events of elements are properly nested; and every
`end` of an element in the events is for the last element of that list as it
was before the call, the most recently begun element still open. The same
holds after every token, a beginning of the list being a list of tokens. -/
theorem events_properly_nested (ids : TagIds) (tags : TagTable) (depth : Nat)
    (ts : List token) (w : World)
    (h : dispatch_seq ids tags depth world_init ts = Except.ok w) :
    w.ostack.contents = (open_elems w.events).map some ∧
    properly_nested w.events ∧
    ∀ (pre post : List event) (a : Nat),
      w.events = pre ++ event.end_ (node.NODE_ELEM a) :: post →
      (open_elems pre).getLast? = some a := by
  obtain ⟨_, _, ⟨st, hst, hc⟩, _, hnd⟩ :=
    dispatch_seq_nested ids tags depth ts _ _ world_init_nested h
  obtain ⟨ho, _⟩ := open_elems_of_replay _ st hst hnd
  refine ⟨by rw [hc, ho], by simp [properly_nested, hst], ?_⟩
  intro pre post a he
  rw [he] at hst hnd
  obtain ⟨l, hl⟩ := nest_replay_end_top pre post a st hst
  have hnd2 : (begun_elems pre).Nodup := by
    have hb : begun_elems (pre ++ event.end_ (node.NODE_ELEM a) :: post) =
        begun_elems pre ++ begun_elems (event.end_ (node.NODE_ELEM a) :: post) := by
      simp [begun_elems, List.filterMap_append]
    rw [hb] at hnd
    exact hnd.of_append_left
  rw [(open_elems_of_replay pre _ hl hnd2).1]
  simp

/-- C32, on a run: the start tags `p`, `br` and `p` dispatched from the initial
world with the modelled table. The calls return; the elements 0 (`html`), 2
(`body`) and 5 (the second `p`) are on the stack, and they are the elements
begun and not ended. -/
theorem events_properly_nested_witness :
    ∃ w : World,
      dispatch_seq ids_html tags_html 16 world_init
        [start_tag_token ids_html.TAG_P, start_tag_token ids_html.TAG_BR,
          start_tag_token ids_html.TAG_P] = Except.ok w ∧
      w.ostack.contents = [some 0, some 2, some 5] ∧
      (w.ostack.contents = (open_elems w.events).map some ∧
        properly_nested w.events ∧
        ∀ (pre post : List event) (a : Nat),
          w.events = pre ++ event.end_ (node.NODE_ELEM a) :: post →
          (open_elems pre).getLast? = some a) := by
  cases hrun : dispatch_seq ids_html tags_html 16 world_init
      [start_tag_token ids_html.TAG_P, start_tag_token ids_html.TAG_BR,
        start_tag_token ids_html.TAG_P] with
  | error e =>
    have hf : fault_of (dispatch_seq ids_html tags_html 16 world_init
        [start_tag_token ids_html.TAG_P, start_tag_token ids_html.TAG_BR,
          start_tag_token ids_html.TAG_P]) = none := by decide!
    rw [hrun] at hf
    cases hf
  | ok w =>
    have hs : (dispatch_seq ids_html tags_html 16 world_init
        [start_tag_token ids_html.TAG_P, start_tag_token ids_html.TAG_BR,
          start_tag_token ids_html.TAG_P]).toOption.map (fun w => w.ostack.contents) =
        some [some 0, some 2, some 5] := by decide!
    rw [hrun] at hs
    have hs2 : w.ostack.contents = [some 0, some 2, some 5] := by
      simpa [Except.toOption] using hs
    exact ⟨w, rfl, hs2, events_properly_nested ids_html tags_html 16 _ w hrun⟩

end PureHtml
